import Mathlib

/-!
Smilei numerical kernels: Faraday solver (Lehe stencil) and AM interpolator.

A shallow embedding of `src/ElectroMagnSolver/MF_Solver3D_Lehe.cpp`,
`src/Interpolator/InterpolatorAM2Order.cpp`, the constructors of
`src/Profiles/Profile.cpp` and parts of `SpeciesFactory::createVector`
(`src/Species/SpeciesFactory.h`).

* `double` is an arbitrary commutative ring / (ordered) field `R`; rounding is
  not modelled.
* `unsigned int` is `Nat` with explicit reduction modulo `2 ^ 32`.
* `int` sums wrap around at `2 ^ 31` (`wrapInt`); array indices are integers.
* In-place updates are explicit state passing; `for` loops are `forLoop`.
* `<cmath>` functions (`sqrt`, `sin`, `round`, `M_PI`) are parameters.
* A constructor that executes `ERROR` returns the report instead of an object.
* A read beyond the end of a `std::vector` has no result (`none`).
-/

namespace Smilei

/-! ## Machine integers and loops -/

/-- Modulus of the C++ type `unsigned int`. -/
def UINT_MOD : Nat := 2 ^ 32

/-- Subtraction `a - b` of `unsigned int` values (wraps around below zero). -/
def usub (a b : Nat) : Nat :=
  if b ≤ a then (a - b) % UINT_MOD else (a + UINT_MOD - b) % UINT_MOD

/-- Addition `a + b` of `unsigned int` values (wraps around at `2 ^ 32`). -/
def uadd (a b : Nat) : Nat := (a + b) % UINT_MOD

/-- Iterations `i, i+1, ...` of a loop body, `n` of them. -/
def forLoopAux {σ : Type} (body : Nat → σ → σ) : Nat → Nat → σ → σ
  | 0, _, st => st
  | n + 1, i, st => forLoopAux body n (i + 1) (body i st)

/-- The loop `for (unsigned int i = lo; i < hi; i++) body`, as a state transformer. -/
def forLoop {σ : Type} (lo hi : Nat) (body : Nat → σ → σ) (st : σ) : σ :=
  forLoopAux body (hi - lo) lo st

/-! ## Fields on the staggered grid -/

/-- A `Field3D`: grid values read as `(*F)(i,j,k)`. -/
abbrev Field3D (R : Type) := Nat → Nat → Nat → R

/-- The statement `(*F)(i,j,k) += v`. -/
def Field3D.add {R : Type} [Add R] (F : Field3D R) (i j k : Nat) (v : R) : Field3D R :=
  fun a b c => if a = i ∧ b = j ∧ c = k then F a b c + v else F a b c

/-- The six Cartesian field grids held by `ElectroMagn`. -/
@[ext]
structure ElectroMagn (R : Type) where
  Ex_ : Field3D R
  Ey_ : Field3D R
  Ez_ : Field3D R
  Bx_ : Field3D R
  By_ : Field3D R
  Bz_ : Field3D R

/-- The statement `(*Bx3D)(i,j,k) += v`. -/
def ElectroMagn.addBx {R : Type} [Add R] (f : ElectroMagn R) (i j k : Nat) (v : R) :
    ElectroMagn R :=
  { f with Bx_ := f.Bx_.add i j k v }

/-- The statement `(*By3D)(i,j,k) += v`. -/
def ElectroMagn.addBy {R : Type} [Add R] (f : ElectroMagn R) (i j k : Nat) (v : R) :
    ElectroMagn R :=
  { f with By_ := f.By_.add i j k v }

/-- The statement `(*Bz3D)(i,j,k) += v`. -/
def ElectroMagn.addBz {R : Type} [Add R] (f : ElectroMagn R) (i j k : Nat) (v : R) :
    ElectroMagn R :=
  { f with Bz_ := f.Bz_.add i j k v }

/-- The two states hold the same electric field grids. -/
def SameE {R : Type} (f g : ElectroMagn R) : Prop :=
  f.Ex_ = g.Ex_ ∧ f.Ey_ = g.Ey_ ∧ f.Ez_ = g.Ez_

/-! ## `MF_Solver3D_Lehe` -/

/-- The members of `Params` read by the kernels. -/
structure Params (R : Type) where
  cell_length : Nat → R
  timestep : R
  nmodes : Nat

/-- Members inherited from the base class `Solver3D`. Its constructor is declared in
`Solver3D.h`, which is not embedded here: an initialised base object is an input of the
derived constructor. -/
structure Solver3D (R : Type) where
  nx_p : Nat
  ny_p : Nat
  nz_p : Nat
  nx_d : Nat
  ny_d : Nat
  nz_d : Nat
  dt_ov_dx : R
  dt_ov_dy : R
  dt_ov_dz : R

/-- Object state of `MF_Solver3D_Lehe`. -/
structure MF_Solver3D_Lehe (R : Type) extends Solver3D R where
  dx : R
  dy : R
  dz : R
  alpha_x : R
  alpha_y : R
  beta_yx : R
  beta_xy : R
  beta_xz : R
  delta_x : R

/-- Constructor `MF_Solver3D_Lehe::MF_Solver3D_Lehe(Params&)`; `pow(x,2)` is `x ^ 2`. -/
def MF_Solver3D_Lehe.new {R : Type} [Field R] (sin : R → R) (M_PI : R)
    (base : Solver3D R) (params : Params R) : MF_Solver3D_Lehe R :=
  let dx := params.cell_length 0
  let dy := params.cell_length 1
  let dz := params.cell_length 2
  let beta_yx : R := 1 / 8
  let beta_xy : R := (dx / dy) ^ 2 / 8
  let beta_xz : R := (dx / dz) ^ 2 / 8
  let delta_x : R := (1 / 4) * (1 - (sin (M_PI * base.dt_ov_dx / 2) / base.dt_ov_dx) ^ 2)
  let alpha_y : R := 1 - 2 * beta_yx
  let alpha_x : R := 1 - 2 * beta_xy - 2 * beta_xz - 3 * delta_x
  { toSolver3D := base, dx := dx, dy := dy, dz := dz,
    alpha_x := alpha_x, alpha_y := alpha_y, beta_yx := beta_yx,
    beta_xy := beta_xy, beta_xz := beta_xz, delta_x := delta_x }

section Solver

variable {R : Type} [CommRing R]

/-- Right-hand side of the interior `Bx` update (source lines 53-58). -/
def MF_Solver3D_Lehe.stencilBx (s : MF_Solver3D_Lehe R) (f : ElectroMagn R) (i j k : Nat) : R :=
  -s.dt_ov_dy * ( s.alpha_y * ( f.Ez_ i j k - f.Ez_ i (usub j 1) k )
                + s.beta_yx * ( f.Ez_ (uadd i 1) j k - f.Ez_ (uadd i 1) (usub j 1) k
                                + f.Ez_ (usub i 1) j k - f.Ez_ (usub i 1) (usub j 1) k ) )
  + s.dt_ov_dz * ( s.alpha_y * ( f.Ey_ i j k - f.Ey_ i j (usub k 1) )
                 + s.beta_yx * ( f.Ey_ (uadd i 1) j k - f.Ey_ (uadd i 1) j (usub k 1)
                                 + f.Ey_ (usub i 1) j k - f.Ey_ (usub i 1) j (usub k 1) ) )

/-- Right-hand side of the interior `By` update (source lines 67-73). -/
def MF_Solver3D_Lehe.stencilBy (s : MF_Solver3D_Lehe R) (f : ElectroMagn R) (i j k : Nat) : R :=
  s.dt_ov_dx * ( s.alpha_x * ( f.Ez_ i j k - f.Ez_ (usub i 1) j k )
               + s.beta_xy * ( f.Ez_ i (uadd j 1) k - f.Ez_ (usub i 1) (uadd j 1) k
                               + f.Ez_ i (usub j 1) k - f.Ez_ (usub i 1) (usub j 1) k )
               + s.beta_xz * ( f.Ez_ i j (uadd k 1) - f.Ez_ (usub i 1) j (uadd k 1)
                               + f.Ez_ i j (usub k 1) - f.Ez_ (usub i 1) j (usub k 1) )
               + s.delta_x * ( f.Ez_ (uadd i 1) j k - f.Ez_ (usub i 2) j k ) )
  - s.dt_ov_dz * ( s.alpha_y * ( f.Ex_ i j k - f.Ex_ i j (usub k 1) )
                 + s.beta_yx * ( f.Ex_ (uadd i 1) j k - f.Ex_ (uadd i 1) j (usub k 1)
                                 + f.Ex_ (usub i 1) j k - f.Ex_ (usub i 1) j (usub k 1) ) )

/-- Right-hand side of the interior `Bz` update (source lines 83-88). -/
def MF_Solver3D_Lehe.stencilBz (s : MF_Solver3D_Lehe R) (f : ElectroMagn R) (i j k : Nat) : R :=
  s.dt_ov_dy * ( s.alpha_y * ( f.Ex_ i j k - f.Ex_ i (usub j 1) k )
               + s.beta_yx * ( f.Ex_ (uadd i 1) j k - f.Ex_ (uadd i 1) (usub j 1) k
                               + f.Ex_ (usub i 1) j k - f.Ex_ (usub i 1) (usub j 1) k ) )
  - s.dt_ov_dx * ( s.alpha_x * ( f.Ey_ i j k - f.Ey_ (usub i 1) j k )
                 + s.beta_xy * ( f.Ey_ i (uadd j 1) k - f.Ey_ (usub i 1) (uadd j 1) k
                                 + f.Ey_ i (usub j 1) k - f.Ey_ (usub i 1) (usub j 1) k )
                 + s.beta_xz * ( f.Ey_ i j (uadd k 1) - f.Ey_ (usub i 1) j (uadd k 1)
                                 + f.Ey_ i j (usub k 1) - f.Ey_ (usub i 1) j (usub k 1) )
                 + s.delta_x * ( f.Ey_ (uadd i 1) j k - f.Ey_ (usub i 2) j k ) )

/-- Right-hand side of the `Bx` boundary update at the plane `i` (source lines 99, 105). -/
def MF_Solver3D_Lehe.edgeBx (s : MF_Solver3D_Lehe R) (f : ElectroMagn R) (i j k : Nat) : R :=
  -s.dt_ov_dy * ( f.Ez_ i j k - f.Ez_ i (usub j 1) k )
  + s.dt_ov_dz * ( f.Ey_ i j k - f.Ey_ i j (usub k 1) )

/-- Right-hand side of the `By` boundary update at the plane `i`, whose lower neighbour is
the plane `im` (source lines 112-113 with `i = 1`, `im = 0`; lines 119-120 with
`i = nx_d-2`, `im = nx_d-3`). -/
def MF_Solver3D_Lehe.edgeBy (s : MF_Solver3D_Lehe R) (f : ElectroMagn R) (i im j k : Nat) : R :=
  s.dt_ov_dx * ( f.Ez_ i j k - f.Ez_ im j k )
  - s.dt_ov_dz * ( f.Ex_ i j k - f.Ex_ i j (usub k 1) )

/-- Right-hand side of the `Bz` boundary update at the plane `i`, whose lower neighbour is
the plane `im` (source lines 127-128 and 134-135). -/
def MF_Solver3D_Lehe.edgeBz (s : MF_Solver3D_Lehe R) (f : ElectroMagn R) (i im j k : Nat) : R :=
  s.dt_ov_dx * ( f.Ey_ im j k - f.Ey_ i j k )
  + s.dt_ov_dy * ( f.Ex_ i j k - f.Ex_ i (usub j 1) k )

/-- Interior pass over `Bx^(p,d,d)` (source lines 50-61). -/
def MF_Solver3D_Lehe.interiorBx (s : MF_Solver3D_Lehe R) (f : ElectroMagn R) : ElectroMagn R :=
  forLoop 1 (usub s.nx_p 1) (fun i f =>
    forLoop 1 (usub s.ny_d 1) (fun j f =>
      forLoop 1 (usub s.nz_d 1) (fun k f =>
        f.addBx i j k (s.stencilBx f i j k)) f) f) f

/-- Interior pass over `By^(d,p,d)` (source lines 64-76). -/
def MF_Solver3D_Lehe.interiorBy (s : MF_Solver3D_Lehe R) (f : ElectroMagn R) : ElectroMagn R :=
  forLoop 2 (usub s.nx_d 2) (fun i f =>
    forLoop 1 (usub s.ny_p 1) (fun j f =>
      forLoop 1 (usub s.nz_d 1) (fun k f =>
        f.addBy i j k (s.stencilBy f i j k)) f) f) f

/-- Interior pass over `Bz^(d,d,p)` (source lines 80-91). -/
def MF_Solver3D_Lehe.interiorBz (s : MF_Solver3D_Lehe R) (f : ElectroMagn R) : ElectroMagn R :=
  forLoop 2 (usub s.nx_d 2) (fun i f =>
    forLoop 1 (usub s.ny_d 1) (fun j f =>
      forLoop 1 (usub s.nz_p 1) (fun k f =>
        f.addBz i j k (s.stencilBz f i j k)) f) f) f

/-- Boundary pass over `Bx` at the plane `i0` (source lines 97-101 with `i0 = 0`, lines
103-107 with `i0 = nx_p-1`). -/
def MF_Solver3D_Lehe.boundaryBx (s : MF_Solver3D_Lehe R) (i0 : Nat) (f : ElectroMagn R) :
    ElectroMagn R :=
  forLoop 1 (usub s.ny_d 1) (fun j f =>
    forLoop 1 (usub s.nz_d 1) (fun k f =>
      f.addBx i0 j k (s.edgeBx f i0 j k)) f) f

/-- Boundary pass over `By` at the plane `i0` with lower neighbour `im` (source lines
110-115 and 117-122). -/
def MF_Solver3D_Lehe.boundaryBy (s : MF_Solver3D_Lehe R) (i0 im : Nat) (f : ElectroMagn R) :
    ElectroMagn R :=
  forLoop 0 s.ny_p (fun j f =>
    forLoop 2 (usub s.nz_d 2) (fun k f =>
      f.addBy i0 j k (s.edgeBy f i0 im j k)) f) f

/-- Boundary pass over `Bz` at the plane `i0` with lower neighbour `im` (source lines
125-130 and 132-137). -/
def MF_Solver3D_Lehe.boundaryBz (s : MF_Solver3D_Lehe R) (i0 im : Nat) (f : ElectroMagn R) :
    ElectroMagn R :=
  forLoop 2 (usub s.ny_d 2) (fun j f =>
    forLoop 0 s.nz_p (fun k f =>
      f.addBz i0 j k (s.edgeBz f i0 im j k)) f) f

/-- The call `MF_Solver3D_Lehe::operator()(ElectroMagn* fields)`: the nine loop nests in
source order, acting on the field state. -/
def MF_Solver3D_Lehe.apply (s : MF_Solver3D_Lehe R) (f : ElectroMagn R) : ElectroMagn R :=
  let f := s.interiorBx f
  let f := s.interiorBy f
  let f := s.interiorBz f
  let f := s.boundaryBx 0 f
  let f := s.boundaryBx (usub s.nx_p 1) f
  let f := s.boundaryBy 1 0 f
  let f := s.boundaryBy (usub s.nx_d 2) (usub s.nx_d 3) f
  let f := s.boundaryBz 1 0 f
  let f := s.boundaryBz (usub s.nx_d 2) (usub s.nx_d 3) f
  f

/-! ### Reference quantities for the solver -/

/-- The extents are values of the type `unsigned int`. -/
def Solver3D.WF (b : Solver3D R) : Prop :=
  b.nx_p < UINT_MOD ∧ b.ny_p < UINT_MOD ∧ b.nz_p < UINT_MOD ∧
  b.nx_d < UINT_MOD ∧ b.ny_d < UINT_MOD ∧ b.nz_d < UINT_MOD

/-- Index range of the interior `Bx` loop nest. -/
def MF_Solver3D_Lehe.inInteriorBx (s : MF_Solver3D_Lehe R) (a b c : Nat) : Prop :=
  (1 ≤ a ∧ a < usub s.nx_p 1) ∧ (1 ≤ b ∧ b < usub s.ny_d 1) ∧ (1 ≤ c ∧ c < usub s.nz_d 1)

/-- Index range of the interior `By` loop nest. -/
def MF_Solver3D_Lehe.inInteriorBy (s : MF_Solver3D_Lehe R) (a b c : Nat) : Prop :=
  (2 ≤ a ∧ a < usub s.nx_d 2) ∧ (1 ≤ b ∧ b < usub s.ny_p 1) ∧ (1 ≤ c ∧ c < usub s.nz_d 1)

/-- Index range of the interior `Bz` loop nest. -/
def MF_Solver3D_Lehe.inInteriorBz (s : MF_Solver3D_Lehe R) (a b c : Nat) : Prop :=
  (2 ≤ a ∧ a < usub s.nx_d 2) ∧ (1 ≤ b ∧ b < usub s.ny_d 1) ∧ (1 ≤ c ∧ c < usub s.nz_p 1)

/-- Index range of the `Bx` boundary loop nest at the plane `i0`. -/
def MF_Solver3D_Lehe.inBoundaryBx (s : MF_Solver3D_Lehe R) (i0 a b c : Nat) : Prop :=
  a = i0 ∧ (1 ≤ b ∧ b < usub s.ny_d 1) ∧ (1 ≤ c ∧ c < usub s.nz_d 1)

/-- Index range of the `By` boundary loop nest at the plane `i0`. -/
def MF_Solver3D_Lehe.inBoundaryBy (s : MF_Solver3D_Lehe R) (i0 a b c : Nat) : Prop :=
  a = i0 ∧ (0 ≤ b ∧ b < s.ny_p) ∧ (2 ≤ c ∧ c < usub s.nz_d 2)

/-- Index range of the `Bz` boundary loop nest at the plane `i0`. -/
def MF_Solver3D_Lehe.inBoundaryBz (s : MF_Solver3D_Lehe R) (i0 a b c : Nat) : Prop :=
  a = i0 ∧ (2 ≤ b ∧ b < usub s.ny_d 2) ∧ (0 ≤ c ∧ c < s.nz_p)

/-- Sum of the right-hand sides of the three loop nests that write `Bx(a,b,c)`. -/
def MF_Solver3D_Lehe.incBx (s : MF_Solver3D_Lehe R) (f : ElectroMagn R) (a b c : Nat) : R :=
  (if (1 ≤ a ∧ a < usub s.nx_p 1) ∧ (1 ≤ b ∧ b < usub s.ny_d 1) ∧
        (1 ≤ c ∧ c < usub s.nz_d 1) then s.stencilBx f a b c else 0)
  + (if a = 0 ∧ (1 ≤ b ∧ b < usub s.ny_d 1) ∧ (1 ≤ c ∧ c < usub s.nz_d 1) then
        s.edgeBx f 0 b c else 0)
  + (if a = usub s.nx_p 1 ∧ (1 ≤ b ∧ b < usub s.ny_d 1) ∧ (1 ≤ c ∧ c < usub s.nz_d 1) then
        s.edgeBx f (usub s.nx_p 1) b c else 0)

/-- Sum of the right-hand sides of the three loop nests that write `By(a,b,c)`. -/
def MF_Solver3D_Lehe.incBy (s : MF_Solver3D_Lehe R) (f : ElectroMagn R) (a b c : Nat) : R :=
  (if (2 ≤ a ∧ a < usub s.nx_d 2) ∧ (1 ≤ b ∧ b < usub s.ny_p 1) ∧
        (1 ≤ c ∧ c < usub s.nz_d 1) then s.stencilBy f a b c else 0)
  + (if a = 1 ∧ (0 ≤ b ∧ b < s.ny_p) ∧ (2 ≤ c ∧ c < usub s.nz_d 2) then
        s.edgeBy f 1 0 b c else 0)
  + (if a = usub s.nx_d 2 ∧ (0 ≤ b ∧ b < s.ny_p) ∧ (2 ≤ c ∧ c < usub s.nz_d 2) then
        s.edgeBy f (usub s.nx_d 2) (usub s.nx_d 3) b c else 0)

/-- Sum of the right-hand sides of the three loop nests that write `Bz(a,b,c)`. -/
def MF_Solver3D_Lehe.incBz (s : MF_Solver3D_Lehe R) (f : ElectroMagn R) (a b c : Nat) : R :=
  (if (2 ≤ a ∧ a < usub s.nx_d 2) ∧ (1 ≤ b ∧ b < usub s.ny_d 1) ∧
        (1 ≤ c ∧ c < usub s.nz_p 1) then s.stencilBz f a b c else 0)
  + (if a = 1 ∧ (2 ≤ b ∧ b < usub s.ny_d 2) ∧ (0 ≤ c ∧ c < s.nz_p) then
        s.edgeBz f 1 0 b c else 0)
  + (if a = usub s.nx_d 2 ∧ (2 ≤ b ∧ b < usub s.ny_d 2) ∧ (0 ≤ c ∧ c < s.nz_p) then
        s.edgeBz f (usub s.nx_d 2) (usub s.nx_d 3) b c else 0)

/-- The plain 2-point (Yee) curl increment of `Bx` at `(i,j,k)`, as the spec words it:
`-dt_ov_dy*(Ez(i,j,k)-Ez(i,j-1,k)) + dt_ov_dz*(Ey(i,j,k)-Ey(i,j,k-1))`. -/
def yeeBx (dt_ov_dy dt_ov_dz : R) (f : ElectroMagn R) (i j k : Nat) : R :=
  -dt_ov_dy * (f.Ez_ i j k - f.Ez_ i (j - 1) k) + dt_ov_dz * (f.Ey_ i j k - f.Ey_ i j (k - 1))

/-- The plain 2-point (Yee) curl increment of `By` at `(i,j,k)`:
`dt_ov_dx*(Ez(i,j,k)-Ez(i-1,j,k)) - dt_ov_dz*(Ex(i,j,k)-Ex(i,j,k-1))`. -/
def yeeBy (dt_ov_dx dt_ov_dz : R) (f : ElectroMagn R) (i j k : Nat) : R :=
  dt_ov_dx * (f.Ez_ i j k - f.Ez_ (i - 1) j k) - dt_ov_dz * (f.Ex_ i j k - f.Ex_ i j (k - 1))

/-- The plain 2-point (Yee) curl increment of `Bz` at `(i,j,k)`:
`dt_ov_dy*(Ex(i,j,k)-Ex(i,j-1,k)) - dt_ov_dx*(Ey(i,j,k)-Ey(i-1,j,k))`. -/
def yeeBz (dt_ov_dx dt_ov_dy : R) (f : ElectroMagn R) (i j k : Nat) : R :=
  dt_ov_dy * (f.Ex_ i j k - f.Ex_ i (j - 1) k) - dt_ov_dx * (f.Ey_ i j k - f.Ey_ (i - 1) j k)

/-- The point `Bx(a,b,c)` lies in the index range of a loop nest that writes `Bx`. -/
def MF_Solver3D_Lehe.writtenBx (s : MF_Solver3D_Lehe R) (a b c : Nat) : Prop :=
  s.inInteriorBx a b c ∨ s.inBoundaryBx 0 a b c ∨ s.inBoundaryBx (usub s.nx_p 1) a b c

/-- The point `By(a,b,c)` lies in the index range of a loop nest that writes `By`. -/
def MF_Solver3D_Lehe.writtenBy (s : MF_Solver3D_Lehe R) (a b c : Nat) : Prop :=
  s.inInteriorBy a b c ∨ s.inBoundaryBy 1 a b c ∨ s.inBoundaryBy (usub s.nx_d 2) a b c

/-- The point `Bz(a,b,c)` lies in the index range of a loop nest that writes `Bz`. -/
def MF_Solver3D_Lehe.writtenBz (s : MF_Solver3D_Lehe R) (a b c : Nat) : Prop :=
  s.inInteriorBz a b c ∨ s.inBoundaryBz 1 a b c ∨ s.inBoundaryBz (usub s.nx_d 2) a b c

end Solver


/-- Discrete divergence of `B` at the cell `(i,j,k)`:
`(Bx(i,j,k)-Bx(i-1,j,k))/dx + (By(i,j,k)-By(i,j-1,k))/dy + (Bz(i,j,k)-Bz(i,j,k-1))/dz`. -/
def divB {R : Type} [Field R] (dx dy dz : R) (f : ElectroMagn R) (i j k : Nat) : R :=
  (f.Bx_ i j k - f.Bx_ (i - 1) j k) / dx + (f.By_ i j k - f.By_ i (j - 1) k) / dy
    + (f.Bz_ i j k - f.Bz_ i j (k - 1)) / dz

/-- A base object with 8 primal and 9 dual points per axis and `dt/dx = dt/dy = dt/dz = 1/3`. -/
def sampleBase : Solver3D ℚ :=
  { nx_p := 8, ny_p := 8, nz_p := 8, nx_d := 9, ny_d := 9, nz_d := 9,
    dt_ov_dx := 1 / 3, dt_ov_dy := 1 / 3, dt_ov_dz := 1 / 3 }

/-- Unit cells and the time step `1/3`. -/
def sampleParams : Params ℚ :=
  { cell_length := fun _ => 1, timestep := 1 / 3, nmodes := 2 }

/-- A field state with `B = 0`, `Ex = Ez = 0` and `Ey(i,j,k) = i*k*j^2`. -/
def sampleFields : ElectroMagn ℚ :=
  { Ex_ := fun _ _ _ => 0, Ey_ := fun i j k => (i : ℚ) * k * j ^ 2, Ez_ := fun _ _ _ => 0,
    Bx_ := fun _ _ _ => 0, By_ := fun _ _ _ => 0, Bz_ := fun _ _ _ => 0 }

/-- The solver on `sampleBase` with the coefficients of the plain Yee scheme. -/
def yeeSolver : MF_Solver3D_Lehe ℚ :=
  { toSolver3D := sampleBase, dx := 1, dy := 1, dz := 1,
    alpha_x := 1, alpha_y := 1, beta_yx := 0, beta_xy := 0, beta_xz := 0, delta_x := 0 }

/-! ## `InterpolatorAM2Order` -/

/-- The type `std::complex<double>`. -/
@[ext]
structure Cplx (R : Type) where
  re : R
  im : R

section Complex

variable {R : Type}

/-- Conversion `double -> complex<double>`. -/
def Cplx.ofReal [Zero R] (x : R) : Cplx R := ⟨x, 0⟩

instance [Zero R] : Zero (Cplx R) := ⟨⟨0, 0⟩⟩

instance [Add R] : Add (Cplx R) := ⟨fun a b => ⟨a.re + b.re, a.im + b.im⟩⟩

instance [Add R] [Sub R] [Mul R] : Mul (Cplx R) :=
  ⟨fun a b => ⟨a.re * b.re - a.im * b.im, a.re * b.im + a.im * b.re⟩⟩

/-- Product `complex * double`. -/
def Cplx.mulReal [Mul R] (z : Cplx R) (x : R) : Cplx R := ⟨z.re * x, z.im * x⟩

/-- Product `double * complex`. -/
def Cplx.realMul [Mul R] (x : R) (z : Cplx R) : Cplx R := ⟨x * z.re, x * z.im⟩

/-- Difference `double - complex`. -/
def Cplx.realSub [Sub R] [Neg R] (x : R) (z : Cplx R) : Cplx R := ⟨x - z.re, -z.im⟩

/-- Quotient `complex / double`; it has no value for a zero divisor. -/
def Cplx.divReal? [Div R] [Zero R] [DecidableEq R] (z : Cplx R) (x : R) : Option (Cplx R) :=
  if x = 0 then none else some ⟨z.re / x, z.im / x⟩

/-- Powers `z^m` by repeated multiplication on the right. -/
def Cplx.npow [Zero R] [One R] [Add R] [Sub R] [Mul R] (z : Cplx R) : Nat → Cplx R
  | 0 => Cplx.ofReal 1
  | m + 1 => Cplx.npow z m * z

/-- The constant `Icpx` of `dcomplex.h`: the imaginary unit. -/
def Icpx [Zero R] [One R] : Cplx R := ⟨0, 1⟩

end Complex

/-- A `cField2D`: complex grid values read as `(*f)(i,j)`. -/
abbrev cField2D (R : Type) := Int → Int → Cplx R

/-- The per-mode grids of `ElectroMagnAM` read by the interpolator. -/
structure ElectroMagnAM (R : Type) where
  El_ : Nat → cField2D R
  Er_ : Nat → cField2D R
  Et_ : Nat → cField2D R
  Bl_m : Nat → cField2D R
  Br_m : Nat → cField2D R
  Bt_m : Nat → cField2D R
  Jl_ : Nat → cField2D R
  Jr_ : Nat → cField2D R
  Jt_ : Nat → cField2D R
  rho_AM_ : Nat → cField2D R

/-- The part of `Particles` read by the interpolator: `position(idim, ipart)` and `size()`. -/
structure Particles (R : Type) where
  position : Nat → Int → R
  size : Nat

/-- A `double` array in memory, addressed by element offset. -/
abbrev Buffer (R : Type) := Int → R

/-- The statement `*(p) = v`. -/
def Buffer.write {R : Type} (b : Buffer R) (p : Int) (v : R) : Buffer R :=
  fun q => if q = p then v else b q

/-- The statement `*(p) += v`. -/
def Buffer.add {R : Type} [Add R] (b : Buffer R) (p : Int) (v : R) : Buffer R :=
  b.write p (b p + v)

/-- The pointer `&arr[base]`, read as `*(ptr + off)`. -/
def ptr {R : Type} (arr : Nat → R) (base : Nat) : Int → R :=
  fun off => arr ((base : Int) + off).toNat

/-- The interpolation coefficient cache filled by `coeffs(xpn, rpn)`: three weights per
axis and staggering, the stencil indices and the offsets. -/
structure CoeffCache (R : Type) where
  coeffxp_ : Nat → R
  coeffxd_ : Nat → R
  coeffyp_ : Nat → R
  coeffyd_ : Nat → R
  ip_ : Int
  id_ : Int
  jp_ : Int
  jd_ : Int
  deltax : R
  deltar : R

/-- Object state of `InterpolatorAM2Order`. -/
structure InterpolatorAM2Order (R : Type) extends CoeffCache R where
  dl_inv_ : R
  dr_inv_ : R
  dr : R
  nmodes : Nat
  exp_m_theta : Cplx R

/-- The structure `LocalFields`. -/
structure LocalFields (R : Type) where
  x : R
  y : R
  z : R

/-- Signature of the stencil helpers `compute`, `compute_p`, `compute_d`. -/
abbrev ComputeFn (R : Type) := (Int → R) → (Int → R) → cField2D R → Int → Int → Cplx R

section Interp

variable {R : Type} [LinearOrderedField R]

/-- Modelled from the spec: the helper `compute` of `InterpolatorAM2Order.h` (absent from
the sources at hand): "a field's value at the particle is the weighted sum of the field's
... (2D: 9) neighboring grid samples using the coefficient set matching that field's
staggering on each axis". The coefficient pointers address the middle weight, the offsets
run over -1, 0, 1. -/
def compute : ComputeFn R := fun coeffx coeffy f idx idy =>
  (([-1, 0, 1] : List Int).map (fun iloc =>
    (([-1, 0, 1] : List Int).map (fun jloc =>
      Cplx.realMul (coeffx iloc * coeffy jloc) (f (idx + iloc) (idy + jloc)))).sum)).sum

/-- A stencil helper that is a sum of grid samples weighted by real coefficients. -/
def RealWeighted (cmp : ComputeFn R) : Prop :=
  ∃ w : (Int → R) → (Int → R) → Int → Int → Int → Int → R,
    ∀ coeffx coeffy f idx idy, cmp coeffx coeffy f idx idy =
      (([-1, 0, 1] : List Int).map (fun iloc =>
        (([-1, 0, 1] : List Int).map (fun jloc =>
          Cplx.realMul (w coeffx coeffy idx idy iloc jloc)
            (f (idx + iloc) (idy + jloc)))).sum)).sum

/-- Local state of one call of `fields`: the object, the running phase and the two
output arrays. -/
structure FieldsFrame (R : Type) where
  self : InterpolatorAM2Order R
  exp_mm_theta : Cplx R
  E : Buffer R
  B : Buffer R

/-- Radius `r` computed at source line 47 (and 150). -/
def radius (sqrt : R → R) (particles : Particles R) (ipart : Int) : R :=
  sqrt (particles.position 1 ipart * particles.position 1 ipart
        + particles.position 2 ipart * particles.position 2 ipart)

/-- Phase factor of source line 49 (and 152): `(position(1) - Icpx * position(2)) / r`. -/
def phase (sqrt : R → R) (particles : Particles R) (ipart : Int) : Option (Cplx R) :=
  Cplx.divReal?
    (Cplx.realSub (particles.position 1 ipart) (Cplx.mulReal Icpx (particles.position 2 ipart)))
    (radius sqrt particles ipart)

/-- Source lines 46-66 of `fields`: position, phase, coefficients and the mode-0 samples. -/
def fieldsMode0 (sqrt : R → R) (coeffs : R → R → CoeffCache R)
    (self : InterpolatorAM2Order R) (EM : ElectroMagnAM R) (particles : Particles R)
    (ipart nparts : Int) (E : Buffer R) (ELoc : Int) (B : Buffer R) (BLoc : Int) :
    Option (FieldsFrame R) :=
  let xpn := particles.position 0 ipart * self.dl_inv_
  let r := radius sqrt particles ipart
  let rpn := r * self.dr_inv_
  match phase sqrt particles ipart with
  | none => none
  | some e =>
    let exp_mm_theta : Cplx R := Cplx.ofReal 1
    let c := coeffs xpn rpn
    let E := E.write (ELoc + 0 * nparts)
      (compute (ptr c.coeffxd_ 1) (ptr c.coeffyp_ 1) (EM.El_ 0) c.id_ c.jp_).re
    let E := E.write (ELoc + 1 * nparts)
      (compute (ptr c.coeffxp_ 1) (ptr c.coeffyd_ 1) (EM.Er_ 0) c.ip_ c.jd_).re
    let E := E.write (ELoc + 2 * nparts)
      (compute (ptr c.coeffxp_ 1) (ptr c.coeffyp_ 1) (EM.Et_ 0) c.ip_ c.jp_).re
    let B := B.write (BLoc + 0 * nparts)
      (compute (ptr c.coeffxp_ 1) (ptr c.coeffyd_ 1) (EM.Bl_m 0) c.ip_ c.jd_).re
    let B := B.write (BLoc + 1 * nparts)
      (compute (ptr c.coeffxd_ 1) (ptr c.coeffyp_ 1) (EM.Br_m 0) c.id_ c.jp_).re
    let B := B.write (BLoc + 2 * nparts)
      (compute (ptr c.coeffxd_ 1) (ptr c.coeffyd_ 1) (EM.Bt_m 0) c.id_ c.jd_).re
    some { self := { self with toCoeffCache := c, exp_m_theta := e },
           exp_mm_theta := exp_mm_theta, E := E, B := B }

/-- Body of the mode loop of `fields` (source lines 69-83). -/
def fieldsModeStep (EM : ElectroMagnAM R) (nparts ELoc BLoc : Int) (imode : Nat)
    (fr : FieldsFrame R) : FieldsFrame R :=
  let self := fr.self
  let exp_mm_theta := fr.exp_mm_theta * self.exp_m_theta
  let E := fr.E
  let B := fr.B
  let E := E.add (ELoc + 0 * nparts)
    (compute (ptr self.coeffxd_ 1) (ptr self.coeffyp_ 1) (EM.El_ imode) self.id_ self.jp_
      * exp_mm_theta).re
  let E := E.add (ELoc + 1 * nparts)
    (compute (ptr self.coeffxp_ 1) (ptr self.coeffyd_ 1) (EM.Er_ imode) self.ip_ self.jd_
      * exp_mm_theta).re
  let E := E.add (ELoc + 2 * nparts)
    (compute (ptr self.coeffxp_ 1) (ptr self.coeffyp_ 1) (EM.Et_ imode) self.ip_ self.jp_
      * exp_mm_theta).re
  let B := B.add (BLoc + 0 * nparts)
    (compute (ptr self.coeffxp_ 1) (ptr self.coeffyd_ 1) (EM.Bl_m imode) self.ip_ self.jd_
      * exp_mm_theta).re
  let B := B.add (BLoc + 1 * nparts)
    (compute (ptr self.coeffxd_ 1) (ptr self.coeffyp_ 1) (EM.Br_m imode) self.id_ self.jp_
      * exp_mm_theta).re
  let B := B.add (BLoc + 2 * nparts)
    (compute (ptr self.coeffxd_ 1) (ptr self.coeffyd_ 1) (EM.Bt_m imode) self.id_ self.jd_
      * exp_mm_theta).re
  { self := self, exp_mm_theta := exp_mm_theta, E := E, B := B }

/-- Source lines 46-84 of `fields`: the state reached after the mode loop, before the
translation into the Cartesian y,z coordinates. -/
def fieldsAccumulate (sqrt : R → R) (coeffs : R → R → CoeffCache R)
    (self : InterpolatorAM2Order R) (EM : ElectroMagnAM R) (particles : Particles R)
    (ipart nparts : Int) (E : Buffer R) (ELoc : Int) (B : Buffer R) (BLoc : Int) :
    Option (FieldsFrame R) :=
  (fieldsMode0 sqrt coeffs self EM particles ipart nparts E ELoc B BLoc).map
    (fun fr => forLoop 1 fr.self.nmodes (fieldsModeStep EM nparts ELoc BLoc) fr)

/-- The three statements `delta2 = ...; *(p2) = ...; *(p1) = delta2` of source lines
114-116 (and 117-119, 206-211) on the array `b`. -/
def rotatePair (e : Cplx R) (b : Buffer R) (p1 p2 : Int) : Buffer R :=
  let delta2 := e.re * b p1 + e.im * b p2
  let b := b.write p2 (-e.im * b p1 + e.re * b p2)
  let b := b.write p1 delta2
  b

/-- Source lines 113-119 of `fields`. -/
def fieldsRotate (nparts ELoc BLoc : Int) (fr : FieldsFrame R) : FieldsFrame R :=
  let e := fr.self.exp_m_theta
  let E := rotatePair e fr.E (ELoc + 1 * nparts) (ELoc + 2 * nparts)
  let B := rotatePair e fr.B (BLoc + 1 * nparts) (BLoc + 2 * nparts)
  { fr with E := E, B := B }

/-- The call `InterpolatorAM2Order::fields(EMfields, particles, ipart, nparts, ELoc, BLoc)`.
The result is `none` when the division by `r` has a zero divisor. -/
def fields (sqrt : R → R) (coeffs : R → R → CoeffCache R)
    (self : InterpolatorAM2Order R) (EM : ElectroMagnAM R) (particles : Particles R)
    (ipart nparts : Int) (E : Buffer R) (ELoc : Int) (B : Buffer R) (BLoc : Int) :
    Option (FieldsFrame R) :=
  (fieldsAccumulate sqrt coeffs self EM particles ipart nparts E ELoc B BLoc).map
    (fieldsRotate nparts ELoc BLoc)

/-- Local state of one call of `fieldsAndCurrents`: the object, the running phase, the
two field arrays, `*JLoc` and `*RhoLoc`. -/
structure CurrentsFrame (R : Type) where
  self : InterpolatorAM2Order R
  exp_mm_theta : Cplx R
  E : Buffer R
  B : Buffer R
  JLoc : LocalFields R
  RhoLoc : R

/-- Source lines 131-179 of `fieldsAndCurrents`: `ipart = *istart`, `ELoc = &Epart[ipart]`,
`BLoc = &Bpart[ipart]`, `nparts = particles.size()`, and the mode-0 samples. The helpers
`compute_p` and `compute_d` are declared in `InterpolatorAM2Order.h`, which is not embedded
here: they are parameters. -/
def fieldsAndCurrentsMode0 (sqrt : R → R) (coeffs : R → R → CoeffCache R)
    (compute_p compute_d : ComputeFn R)
    (self : InterpolatorAM2Order R) (EM : ElectroMagnAM R) (particles : Particles R)
    (Epart Bpart : Buffer R) (istart : Int) : Option (CurrentsFrame R) :=
  let ipart := istart
  let ELoc := ipart
  let BLoc := ipart
  let xpn := particles.position 0 ipart * self.dl_inv_
  let r := radius sqrt particles ipart
  let rpn := r * self.dr_inv_
  match phase sqrt particles ipart with
  | none => none
  | some e =>
    let exp_mm_theta : Cplx R := Cplx.ofReal 1
    let c := coeffs xpn rpn
    let nparts : Int := particles.size
    let E := Epart.write (ELoc + 0 * nparts)
      (compute_p (ptr c.coeffxd_ 1) (ptr c.coeffyp_ 1) (EM.El_ 0) c.id_ c.jp_).re
    let E := E.write (ELoc + 1 * nparts)
      (compute_d (ptr c.coeffxp_ 1) (ptr c.coeffyd_ 1) (EM.Er_ 0) c.ip_ c.jd_).re
    let E := E.write (ELoc + 2 * nparts)
      (compute_p (ptr c.coeffxp_ 1) (ptr c.coeffyp_ 1) (EM.Et_ 0) c.ip_ c.jp_).re
    let B := Bpart.write (BLoc + 0 * nparts)
      (compute_d (ptr c.coeffxp_ 1) (ptr c.coeffyd_ 1) (EM.Bl_m 0) c.ip_ c.jd_).re
    let B := B.write (BLoc + 1 * nparts)
      (compute_p (ptr c.coeffxd_ 1) (ptr c.coeffyp_ 1) (EM.Br_m 0) c.id_ c.jp_).re
    let B := B.write (BLoc + 2 * nparts)
      (compute_d (ptr c.coeffxd_ 1) (ptr c.coeffyd_ 1) (EM.Bt_m 0) c.id_ c.jd_).re
    let Jx := (compute_p (ptr c.coeffxd_ 1) (ptr c.coeffyp_ 1) (EM.Jl_ 0) c.id_ c.jp_).re
    let Jy := (compute_d (ptr c.coeffxp_ 1) (ptr c.coeffyd_ 1) (EM.Jr_ 0) c.ip_ c.jd_).re
    let Jz := (compute_p (ptr c.coeffxp_ 1) (ptr c.coeffyp_ 1) (EM.Jt_ 0) c.ip_ c.jp_).re
    let Rho :=
      (compute_p (ptr c.coeffxp_ 1) (ptr c.coeffyp_ 1) (EM.rho_AM_ 0) c.ip_ c.jp_).re
    some { self := { self with toCoeffCache := c, exp_m_theta := e }, exp_mm_theta := exp_mm_theta, E := E, B := B,
           JLoc := { x := Jx, y := Jy, z := Jz }, RhoLoc := Rho }

/-- Body of the mode loop of `fieldsAndCurrents` (source lines 182-204). -/
def fieldsAndCurrentsModeStep (compute_p compute_d : ComputeFn R) (EM : ElectroMagnAM R)
    (nparts ELoc BLoc : Int) (imode : Nat) (fr : CurrentsFrame R) : CurrentsFrame R :=
  let self := fr.self
  let exp_mm_theta := fr.exp_mm_theta * self.exp_m_theta
  let E := fr.E
  let B := fr.B
  let E := E.add (ELoc + 0 * nparts)
    (compute_p (ptr self.coeffxd_ 1) (ptr self.coeffyp_ 1) (EM.El_ imode) self.id_ self.jp_
      * exp_mm_theta).re
  let E := E.add (ELoc + 1 * nparts)
    (compute_d (ptr self.coeffxp_ 1) (ptr self.coeffyd_ 1) (EM.Er_ imode) self.ip_ self.jd_
      * exp_mm_theta).re
  let E := E.add (ELoc + 2 * nparts)
    (compute_p (ptr self.coeffxp_ 1) (ptr self.coeffyp_ 1) (EM.Et_ imode) self.ip_ self.jp_
      * exp_mm_theta).re
  let B := B.add (BLoc + 0 * nparts)
    (compute_d (ptr self.coeffxp_ 1) (ptr self.coeffyd_ 1) (EM.Bl_m imode) self.ip_ self.jd_
      * exp_mm_theta).re
  let B := B.add (BLoc + 1 * nparts)
    (compute_p (ptr self.coeffxd_ 1) (ptr self.coeffyp_ 1) (EM.Br_m imode) self.id_ self.jp_
      * exp_mm_theta).re
  let B := B.add (BLoc + 2 * nparts)
    (compute_d (ptr self.coeffxd_ 1) (ptr self.coeffyd_ 1) (EM.Bt_m imode) self.id_ self.jd_
      * exp_mm_theta).re
  let Jx := fr.JLoc.x +
    (compute_p (ptr self.coeffxd_ 1) (ptr self.coeffyp_ 1) (EM.Jl_ imode) self.id_ self.jp_
      * exp_mm_theta).re
  let Jy := fr.JLoc.y +
    (compute_d (ptr self.coeffxp_ 1) (ptr self.coeffyd_ 1) (EM.Jr_ imode) self.ip_ self.jd_
      * exp_mm_theta).re
  let Jz := fr.JLoc.z +
    (compute_p (ptr self.coeffxp_ 1) (ptr self.coeffyp_ 1) (EM.Jt_ imode) self.ip_ self.jp_
      * exp_mm_theta).re
  let Rho := fr.RhoLoc +
    (compute_p (ptr self.coeffxp_ 1) (ptr self.coeffyp_ 1) (EM.rho_AM_ imode) self.ip_ self.jp_
      * exp_mm_theta).re
  { self := self, exp_mm_theta := exp_mm_theta, E := E, B := B,
    JLoc := { x := Jx, y := Jy, z := Jz }, RhoLoc := Rho }

/-- Source lines 131-205 of `fieldsAndCurrents`: the state reached after the mode loop. -/
def fieldsAndCurrentsAccumulate (sqrt : R → R) (coeffs : R → R → CoeffCache R)
    (compute_p compute_d : ComputeFn R)
    (self : InterpolatorAM2Order R) (EM : ElectroMagnAM R) (particles : Particles R)
    (Epart Bpart : Buffer R) (istart : Int) : Option (CurrentsFrame R) :=
  (fieldsAndCurrentsMode0 sqrt coeffs compute_p compute_d self EM particles Epart Bpart
      istart).map
    (fun fr => forLoop 1 fr.self.nmodes
      (fieldsAndCurrentsModeStep compute_p compute_d EM particles.size istart istart) fr)

/-- Source lines 206-214 of `fieldsAndCurrents`. -/
def fieldsAndCurrentsRotate (nparts ELoc BLoc : Int) (fr : CurrentsFrame R) :
    CurrentsFrame R :=
  let e := fr.self.exp_m_theta
  let E := rotatePair e fr.E (ELoc + 1 * nparts) (ELoc + 2 * nparts)
  let B := rotatePair e fr.B (BLoc + 1 * nparts) (BLoc + 2 * nparts)
  let delta2 := e.re * fr.JLoc.y + e.im * fr.JLoc.z
  let Jz := -e.im * fr.JLoc.y + e.re * fr.JLoc.z
  let Jy := delta2
  { fr with E := E, B := B, JLoc := { x := fr.JLoc.x, y := Jy, z := Jz } }

/-- The call `InterpolatorAM2Order::fieldsAndCurrents(EMfields, particles, smpi, istart,
iend, ithread, JLoc, RhoLoc)`, with `Epart`, `Bpart` the arrays
`smpi->dynamics_Epart[ithread]`, `smpi->dynamics_Bpart[ithread]` and `istart` the value
`*istart`. The result is `none` when the division by `r` has a zero divisor. -/
def fieldsAndCurrents (sqrt : R → R) (coeffs : R → R → CoeffCache R)
    (compute_p compute_d : ComputeFn R)
    (self : InterpolatorAM2Order R) (EM : ElectroMagnAM R) (particles : Particles R)
    (Epart Bpart : Buffer R) (istart : Int) : Option (CurrentsFrame R) :=
  (fieldsAndCurrentsAccumulate sqrt coeffs compute_p compute_d self EM particles Epart Bpart
      istart).map
    (fieldsAndCurrentsRotate particles.size istart istart)

/-- Modelled from the spec: the macro `ERROR` of `Tools.h` (absent from the sources at
hand): the unsupported operations "must fail fast (reported, not silently degraded)".
The statement `ERROR(msg)` ends the call with the report `msg`; the first component is
the state of the output array at that point. -/
def ERROR {σ : Type} (msg : String) (st : σ) : σ × Except String Unit :=
  (st, Except.error msg)

/-- The call `InterpolatorAM2Order::oneField(field, particles, istart, iend, FieldLoc)`:
the final content of the array `FieldLoc` and the outcome. -/
def oneField {Fld : Type} (_field : Fld) (_particles : Particles R) (_istart _iend : Int)
    (FieldLoc : Buffer R) : Buffer R × Except String Unit :=
  ERROR "Single field AM2O interpolator not available" FieldLoc

/-- The call `InterpolatorAM2Order::fieldsSelection(EMfields, particles, buffer, offset,
selection)`: the final content of the array `buffer` and the outcome. -/
def fieldsSelection (_EM : ElectroMagnAM R) (_particles : Particles R) (buffer : Buffer R)
    (_offset : Int) (_selection : List Nat) : Buffer R × Except String Unit :=
  ERROR "To Do" buffer

/-! ### Reference quantities for the interpolator -/

/-- Stencil sum of the mode-`m` grid of `El` (source lines 56 and 78). -/
def SEl (c : CoeffCache R) (EM : ElectroMagnAM R) (m : Nat) : Cplx R :=
  compute (ptr c.coeffxd_ 1) (ptr c.coeffyp_ 1) (EM.El_ m) c.id_ c.jp_

/-- Stencil sum of the mode-`m` grid of `Er` (source lines 58 and 79). -/
def SEr (c : CoeffCache R) (EM : ElectroMagnAM R) (m : Nat) : Cplx R :=
  compute (ptr c.coeffxp_ 1) (ptr c.coeffyd_ 1) (EM.Er_ m) c.ip_ c.jd_

/-- Stencil sum of the mode-`m` grid of `Et` (source lines 60 and 80). -/
def SEt (c : CoeffCache R) (EM : ElectroMagnAM R) (m : Nat) : Cplx R :=
  compute (ptr c.coeffxp_ 1) (ptr c.coeffyp_ 1) (EM.Et_ m) c.ip_ c.jp_

/-- Stencil sum of the mode-`m` grid of `Bl` (source lines 62 and 81). -/
def SBl (c : CoeffCache R) (EM : ElectroMagnAM R) (m : Nat) : Cplx R :=
  compute (ptr c.coeffxp_ 1) (ptr c.coeffyd_ 1) (EM.Bl_m m) c.ip_ c.jd_

/-- Stencil sum of the mode-`m` grid of `Br` (source lines 64 and 82). -/
def SBr (c : CoeffCache R) (EM : ElectroMagnAM R) (m : Nat) : Cplx R :=
  compute (ptr c.coeffxd_ 1) (ptr c.coeffyp_ 1) (EM.Br_m m) c.id_ c.jp_

/-- Stencil sum of the mode-`m` grid of `Bt` (source lines 66 and 83). -/
def SBt (c : CoeffCache R) (EM : ElectroMagnAM R) (m : Nat) : Cplx R :=
  compute (ptr c.coeffxd_ 1) (ptr c.coeffyd_ 1) (EM.Bt_m m) c.id_ c.jd_

/-- The closed form of the mode summation, as the spec words it:
`Re(S_0) + sum over m = 1..nmodes-1 of Re(S_m * e^m)`. -/
def modeSum (S : Nat → Cplx R) (e : Cplx R) (nmodes : Nat) : R :=
  (S 0).re + ∑ m in Finset.Ico 1 nmodes, (S m * e.npow m).re

/-- The coefficients written by `coeffs(xpn, rpn)` for the particle `ipart`. -/
def particleCoeffs (sqrt : R → R) (coeffs : R → R → CoeffCache R)
    (self : InterpolatorAM2Order R) (particles : Particles R) (ipart : Int) : CoeffCache R :=
  coeffs (particles.position 0 ipart * self.dl_inv_)
    (radius sqrt particles ipart * self.dr_inv_)

/-- The value `(y - i z)/r` of the phase factor, by components. -/
def phaseValue (sqrt : R → R) (particles : Particles R) (ipart : Int) : Cplx R :=
  ⟨particles.position 1 ipart / radius sqrt particles ipart,
   -particles.position 2 ipart / radius sqrt particles ipart⟩

/-- The pair `(Y, Z)` is the image of the accumulated radial and azimuthal values
`(Rv, Tv)` under the final basis change with phase `e = (y - i z)/r`. -/
def RotatedPair (e : Cplx R) (y z r Rv Tv Y Z : R) : Prop :=
  Y = e.re * Rv + e.im * Tv ∧ Z = -e.im * Rv + e.re * Tv ∧
  Y = (y * Rv - z * Tv) / r ∧ Z = (z * Rv + y * Tv) / r

/-- The object after lines 46-52: phase and coefficient cache of the particle stored. -/
def selfAfterCoeffs (sqrt : R → R) (coeffs : R → R → CoeffCache R)
    (self : InterpolatorAM2Order R) (particles : Particles R) (ipart : Int) :
    InterpolatorAM2Order R :=
  { self with toCoeffCache := particleCoeffs sqrt coeffs self particles ipart,
              exp_m_theta := phaseValue sqrt particles ipart }

/-- The three weights of a coefficient array sum to 1. -/
def SumsToOne (w : Nat → R) : Prop := w 0 + w 1 + w 2 = 1

/-- The three weights sum to 1 on each axis and staggering. -/
def CoeffsSumToOne (c : CoeffCache R) : Prop :=
  SumsToOne c.coeffxp_ ∧ SumsToOne c.coeffxd_ ∧ SumsToOne c.coeffyp_ ∧ SumsToOne c.coeffyd_

/-- Every mode-0 grid of `El, Er, Et, Bl, Br, Bt` holds the real constant `c` at all grid
points and all modes `m >= 1` of these fields are zero. -/
def ConstantMode0 (EM : ElectroMagnAM R) (c : R) : Prop :=
  (∀ i j, EM.El_ 0 i j = Cplx.ofReal c ∧ EM.Er_ 0 i j = Cplx.ofReal c ∧
      EM.Et_ 0 i j = Cplx.ofReal c ∧ EM.Bl_m 0 i j = Cplx.ofReal c ∧
      EM.Br_m 0 i j = Cplx.ofReal c ∧ EM.Bt_m 0 i j = Cplx.ofReal c) ∧
  (∀ m, 1 ≤ m → ∀ i j, EM.El_ m i j = 0 ∧ EM.Er_ m i j = 0 ∧ EM.Et_ m i j = 0 ∧
      EM.Bl_m m i j = 0 ∧ EM.Br_m m i j = 0 ∧ EM.Bt_m m i j = 0)

/-- The two field sets agree on every mode `m >= 1` and on the real parts of mode 0. -/
def SameUpToMode0Imag (EM EM' : ElectroMagnAM R) : Prop :=
  (∀ m, 1 ≤ m → EM'.El_ m = EM.El_ m ∧ EM'.Er_ m = EM.Er_ m ∧ EM'.Et_ m = EM.Et_ m ∧
      EM'.Bl_m m = EM.Bl_m m ∧ EM'.Br_m m = EM.Br_m m ∧ EM'.Bt_m m = EM.Bt_m m ∧
      EM'.Jl_ m = EM.Jl_ m ∧ EM'.Jr_ m = EM.Jr_ m ∧ EM'.Jt_ m = EM.Jt_ m ∧
      EM'.rho_AM_ m = EM.rho_AM_ m) ∧
  (∀ i j, (EM'.El_ 0 i j).re = (EM.El_ 0 i j).re ∧ (EM'.Er_ 0 i j).re = (EM.Er_ 0 i j).re ∧
      (EM'.Et_ 0 i j).re = (EM.Et_ 0 i j).re ∧ (EM'.Bl_m 0 i j).re = (EM.Bl_m 0 i j).re ∧
      (EM'.Br_m 0 i j).re = (EM.Br_m 0 i j).re ∧ (EM'.Bt_m 0 i j).re = (EM.Bt_m 0 i j).re ∧
      (EM'.Jl_ 0 i j).re = (EM.Jl_ 0 i j).re ∧ (EM'.Jr_ 0 i j).re = (EM.Jr_ 0 i j).re ∧
      (EM'.Jt_ 0 i j).re = (EM.Jt_ 0 i j).re ∧
      (EM'.rho_AM_ 0 i j).re = (EM.rho_AM_ 0 i j).re)

end Interp

/-! ### Sample data for the interpolator -/

/-- Square root on the rationals, exact on squares of rationals. -/
def sqrtQ (q : ℚ) : ℚ := (Nat.sqrt q.num.natAbs : ℚ) / (Nat.sqrt q.den : ℚ)

/-- A coefficient cache with the weights `1/8, 3/4, 1/8` on every axis and staggering. -/
def sampleCache : CoeffCache ℚ :=
  { coeffxp_ := fun n => [1 / 8, 3 / 4, 1 / 8].getD n 0,
    coeffxd_ := fun n => [1 / 8, 3 / 4, 1 / 8].getD n 0,
    coeffyp_ := fun n => [1 / 8, 3 / 4, 1 / 8].getD n 0,
    coeffyd_ := fun n => [1 / 8, 3 / 4, 1 / 8].getD n 0,
    ip_ := 2, id_ := 2, jp_ := 2, jd_ := 2, deltax := 0, deltar := 0 }

/-- An interpolator object with unit cells and two modes. -/
def sampleInterp : InterpolatorAM2Order ℚ :=
  { toCoeffCache := sampleCache, dl_inv_ := 1, dr_inv_ := 1, dr := 1, nmodes := 2,
    exp_m_theta := ⟨1, 0⟩ }

/-- Field grids whose mode 0 holds the real constant `c` everywhere and whose other modes
are zero. -/
def constEM (c : ℚ) : ElectroMagnAM ℚ :=
  { El_ := fun m _ _ => if m = 0 then ⟨c, 0⟩ else 0,
    Er_ := fun m _ _ => if m = 0 then ⟨c, 0⟩ else 0,
    Et_ := fun m _ _ => if m = 0 then ⟨c, 0⟩ else 0,
    Bl_m := fun m _ _ => if m = 0 then ⟨c, 0⟩ else 0,
    Br_m := fun m _ _ => if m = 0 then ⟨c, 0⟩ else 0,
    Bt_m := fun m _ _ => if m = 0 then ⟨c, 0⟩ else 0,
    Jl_ := fun m _ _ => if m = 0 then ⟨c, 0⟩ else 0,
    Jr_ := fun m _ _ => if m = 0 then ⟨c, 0⟩ else 0,
    Jt_ := fun m _ _ => if m = 0 then ⟨c, 0⟩ else 0,
    rho_AM_ := fun m _ _ => if m = 0 then ⟨c, 0⟩ else 0 }

/-- Field grids whose mode 0 holds the constant `c + i d` everywhere and whose other modes
are zero. -/
def constEMim (c d : ℚ) : ElectroMagnAM ℚ :=
  { El_ := fun m _ _ => if m = 0 then ⟨c, d⟩ else 0,
    Er_ := fun m _ _ => if m = 0 then ⟨c, d⟩ else 0,
    Et_ := fun m _ _ => if m = 0 then ⟨c, d⟩ else 0,
    Bl_m := fun m _ _ => if m = 0 then ⟨c, d⟩ else 0,
    Br_m := fun m _ _ => if m = 0 then ⟨c, d⟩ else 0,
    Bt_m := fun m _ _ => if m = 0 then ⟨c, d⟩ else 0,
    Jl_ := fun m _ _ => if m = 0 then ⟨c, d⟩ else 0,
    Jr_ := fun m _ _ => if m = 0 then ⟨c, d⟩ else 0,
    Jt_ := fun m _ _ => if m = 0 then ⟨c, d⟩ else 0,
    rho_AM_ := fun m _ _ => if m = 0 then ⟨c, d⟩ else 0 }

/-- One particle at `(0, y, z)`. -/
def oneParticle (y z : ℚ) : Particles ℚ :=
  { position := fun d _ => if d = 1 then y else if d = 2 then z else 0, size := 1 }


/-! ## Grid accesses of `MF_Solver3D_Lehe::operator()` -/

/-- The six `Field3D` grids addressed by the solver. -/
inductive Grid where
  | Ex
  | Ey
  | Ez
  | Bx
  | By
  | Bz
  deriving DecidableEq

/-- One evaluation `(*G)(i,j,k)` of a grid, with the index values the code computes. -/
structure Access where
  grid : Grid
  i : Nat
  j : Nat
  k : Nat
  deriving DecidableEq

/-- Grid points addressed by the interior `Bx` statement (source lines 53-58): the point
written, then the operands in source order. -/
def accessStencilBx (i j k : Nat) : List Access :=
  [ ⟨Grid.Bx, i, j, k⟩,
    ⟨Grid.Ez, i, j, k⟩, ⟨Grid.Ez, i, usub j 1, k⟩,
    ⟨Grid.Ez, uadd i 1, j, k⟩, ⟨Grid.Ez, uadd i 1, usub j 1, k⟩,
    ⟨Grid.Ez, usub i 1, j, k⟩, ⟨Grid.Ez, usub i 1, usub j 1, k⟩,
    ⟨Grid.Ey, i, j, k⟩, ⟨Grid.Ey, i, j, usub k 1⟩,
    ⟨Grid.Ey, uadd i 1, j, k⟩, ⟨Grid.Ey, uadd i 1, j, usub k 1⟩,
    ⟨Grid.Ey, usub i 1, j, k⟩, ⟨Grid.Ey, usub i 1, j, usub k 1⟩ ]

/-- Grid points addressed by the interior `By` statement (source lines 67-73). -/
def accessStencilBy (i j k : Nat) : List Access :=
  [ ⟨Grid.By, i, j, k⟩,
    ⟨Grid.Ez, i, j, k⟩, ⟨Grid.Ez, usub i 1, j, k⟩,
    ⟨Grid.Ez, i, uadd j 1, k⟩, ⟨Grid.Ez, usub i 1, uadd j 1, k⟩,
    ⟨Grid.Ez, i, usub j 1, k⟩, ⟨Grid.Ez, usub i 1, usub j 1, k⟩,
    ⟨Grid.Ez, i, j, uadd k 1⟩, ⟨Grid.Ez, usub i 1, j, uadd k 1⟩,
    ⟨Grid.Ez, i, j, usub k 1⟩, ⟨Grid.Ez, usub i 1, j, usub k 1⟩,
    ⟨Grid.Ez, uadd i 1, j, k⟩, ⟨Grid.Ez, usub i 2, j, k⟩,
    ⟨Grid.Ex, i, j, k⟩, ⟨Grid.Ex, i, j, usub k 1⟩,
    ⟨Grid.Ex, uadd i 1, j, k⟩, ⟨Grid.Ex, uadd i 1, j, usub k 1⟩,
    ⟨Grid.Ex, usub i 1, j, k⟩, ⟨Grid.Ex, usub i 1, j, usub k 1⟩ ]

/-- Grid points addressed by the interior `Bz` statement (source lines 83-88). -/
def accessStencilBz (i j k : Nat) : List Access :=
  [ ⟨Grid.Bz, i, j, k⟩,
    ⟨Grid.Ex, i, j, k⟩, ⟨Grid.Ex, i, usub j 1, k⟩,
    ⟨Grid.Ex, uadd i 1, j, k⟩, ⟨Grid.Ex, uadd i 1, usub j 1, k⟩,
    ⟨Grid.Ex, usub i 1, j, k⟩, ⟨Grid.Ex, usub i 1, usub j 1, k⟩,
    ⟨Grid.Ey, i, j, k⟩, ⟨Grid.Ey, usub i 1, j, k⟩,
    ⟨Grid.Ey, i, uadd j 1, k⟩, ⟨Grid.Ey, usub i 1, uadd j 1, k⟩,
    ⟨Grid.Ey, i, usub j 1, k⟩, ⟨Grid.Ey, usub i 1, usub j 1, k⟩,
    ⟨Grid.Ey, i, j, uadd k 1⟩, ⟨Grid.Ey, usub i 1, j, uadd k 1⟩,
    ⟨Grid.Ey, i, j, usub k 1⟩, ⟨Grid.Ey, usub i 1, j, usub k 1⟩,
    ⟨Grid.Ey, uadd i 1, j, k⟩, ⟨Grid.Ey, usub i 2, j, k⟩ ]

/-- Grid points addressed by the `Bx` boundary statement at the plane `i` (source lines 99
and 105). -/
def accessEdgeBx (i j k : Nat) : List Access :=
  [ ⟨Grid.Bx, i, j, k⟩,
    ⟨Grid.Ez, i, j, k⟩, ⟨Grid.Ez, i, usub j 1, k⟩,
    ⟨Grid.Ey, i, j, k⟩, ⟨Grid.Ey, i, j, usub k 1⟩ ]

/-- Grid points addressed by the `By` boundary statement at the plane `i` with lower
neighbour `im` (source lines 112-113 and 119-120). -/
def accessEdgeBy (i im j k : Nat) : List Access :=
  [ ⟨Grid.By, i, j, k⟩,
    ⟨Grid.Ez, i, j, k⟩, ⟨Grid.Ez, im, j, k⟩,
    ⟨Grid.Ex, i, j, k⟩, ⟨Grid.Ex, i, j, usub k 1⟩ ]

/-- Grid points addressed by the `Bz` boundary statement at the plane `i` with lower
neighbour `im` (source lines 127-128 and 134-135). -/
def accessEdgeBz (i im j k : Nat) : List Access :=
  [ ⟨Grid.Bz, i, j, k⟩,
    ⟨Grid.Ey, im, j, k⟩, ⟨Grid.Ey, i, j, k⟩,
    ⟨Grid.Ex, i, j, k⟩, ⟨Grid.Ex, i, usub j 1, k⟩ ]

section Trace

variable {R : Type}

/-- The grid accesses of one call of `MF_Solver3D_Lehe::operator()`: the nine loop nests of
`MF_Solver3D_Lehe.apply` with each statement replaced by the record of the grid points it
addresses, appended to the log `t`. -/
def Solver3D.trace (s : Solver3D R) (t : List Access) : List Access :=
  let t := forLoop 1 (usub s.nx_p 1) (fun i t =>
    forLoop 1 (usub s.ny_d 1) (fun j t =>
      forLoop 1 (usub s.nz_d 1) (fun k t => t ++ accessStencilBx i j k) t) t) t
  let t := forLoop 2 (usub s.nx_d 2) (fun i t =>
    forLoop 1 (usub s.ny_p 1) (fun j t =>
      forLoop 1 (usub s.nz_d 1) (fun k t => t ++ accessStencilBy i j k) t) t) t
  let t := forLoop 2 (usub s.nx_d 2) (fun i t =>
    forLoop 1 (usub s.ny_d 1) (fun j t =>
      forLoop 1 (usub s.nz_p 1) (fun k t => t ++ accessStencilBz i j k) t) t) t
  let t := forLoop 1 (usub s.ny_d 1) (fun j t =>
    forLoop 1 (usub s.nz_d 1) (fun k t => t ++ accessEdgeBx 0 j k) t) t
  let t := forLoop 1 (usub s.ny_d 1) (fun j t =>
    forLoop 1 (usub s.nz_d 1) (fun k t => t ++ accessEdgeBx (usub s.nx_p 1) j k) t) t
  let t := forLoop 0 s.ny_p (fun j t =>
    forLoop 2 (usub s.nz_d 2) (fun k t => t ++ accessEdgeBy 1 0 j k) t) t
  let t := forLoop 0 s.ny_p (fun j t =>
    forLoop 2 (usub s.nz_d 2) (fun k t =>
      t ++ accessEdgeBy (usub s.nx_d 2) (usub s.nx_d 3) j k) t) t
  let t := forLoop 2 (usub s.ny_d 2) (fun j t =>
    forLoop 0 s.nz_p (fun k t => t ++ accessEdgeBz 1 0 j k) t) t
  let t := forLoop 2 (usub s.ny_d 2) (fun j t =>
    forLoop 0 s.nz_p (fun k t =>
      t ++ accessEdgeBz (usub s.nx_d 2) (usub s.nx_d 3) j k) t) t
  t

/-- The subtractions `a - b` that form the upper bounds of the loops of `operator()`, as
pairs `(a, b)`: `nx_p-1`, `ny_d-1`, `nz_d-1`, `nx_d-2`, `ny_p-1`, `nz_p-1`, `nz_d-2`,
`ny_d-2`. -/
def Solver3D.loopBounds (s : Solver3D R) : List (Nat × Nat) :=
  [ (s.nx_p, 1), (s.ny_d, 1), (s.nz_d, 1), (s.nx_d, 2), (s.ny_p, 1), (s.nz_p, 1),
    (s.nz_d, 2), (s.ny_d, 2) ]

/-- The `unsigned int` subtraction `a - b` wraps around: its value is not the difference of
the two numbers. -/
def WrapsAround (p : Nat × Nat) : Prop := (usub p.1 p.2 : Int) ≠ (p.1 : Int) - (p.2 : Int)

/-- Declared extent of each grid under the staggering of the claim: `Ex` is sized
`(nx_d,ny_p,nz_p)`, `Ey` `(nx_p,ny_d,nz_p)`, `Ez` `(nx_p,ny_p,nz_d)`, `Bx` `(nx_p,ny_d,nz_d)`,
`By` `(nx_d,ny_p,nz_d)`, `Bz` `(nx_d,ny_d,nz_p)`. -/
def Solver3D.extent (s : Solver3D R) : Grid → Nat × Nat × Nat
  | Grid.Ex => (s.nx_d, s.ny_p, s.nz_p)
  | Grid.Ey => (s.nx_p, s.ny_d, s.nz_p)
  | Grid.Ez => (s.nx_p, s.ny_p, s.nz_d)
  | Grid.Bx => (s.nx_p, s.ny_d, s.nz_d)
  | Grid.By => (s.nx_d, s.ny_p, s.nz_d)
  | Grid.Bz => (s.nx_d, s.ny_d, s.nz_p)

/-- The access lies within the declared extent of its grid. -/
def Solver3D.InRange (s : Solver3D R) (a : Access) : Prop :=
  a.i < (s.extent a.grid).1 ∧ a.j < (s.extent a.grid).2.1 ∧ a.k < (s.extent a.grid).2.2

/-- The staggering invariant: each dual extent is the primal extent plus one. -/
def Solver3D.Staggered (s : Solver3D R) : Prop :=
  s.nx_d = s.nx_p + 1 ∧ s.ny_d = s.ny_p + 1 ∧ s.nz_d = s.nz_p + 1

/-- The hypotheses on the extents: `unsigned int` values, staggered, with `nx_p >= 2`,
`ny_p >= 1` and `nz_p >= 1`. -/
def Solver3D.Sized (s : Solver3D R) : Prop :=
  s.WF ∧ s.Staggered ∧ 2 ≤ s.nx_p ∧ 1 ≤ s.ny_p ∧ 1 ≤ s.nz_p

end Trace

/-- A field state with `B = 0`, `Ex = Ey = 0` and `Ez(i,j,k) = i^2`, which does not depend
on the y and z indices. -/
def sampleFieldsX : ElectroMagn ℚ :=
  { Ex_ := fun _ _ _ => 0, Ey_ := fun _ _ _ => 0, Ez_ := fun i _ _ => (i : ℚ) ^ 2,
    Bx_ := fun _ _ _ => 0, By_ := fun _ _ _ => 0, Bz_ := fun _ _ _ => 0 }

/-- A field state with `B = 0`, `Ez = 0`, `Ex(i,j,k) = j` and `Ey = 0`. -/
def sampleFieldsY : ElectroMagn ℚ :=
  { Ex_ := fun _ j _ => (j : ℚ), Ey_ := fun _ _ _ => 0, Ez_ := fun _ _ _ => 0,
    Bx_ := fun _ _ _ => 0, By_ := fun _ _ _ => 0, Bz_ := fun _ _ _ => 0 }

/-- The solver built by the constructor on `sampleBase` and `sampleParams`, with the
`<cmath>` values `sin = 0` and `M_PI = 3`. -/
def sampleLehe : MF_Solver3D_Lehe ℚ :=
  MF_Solver3D_Lehe.new (fun _ => 0) 3 sampleBase sampleParams

section Coeffs

variable {R : Type} [LinearOrderedField R]

/-- The three weights of the quadratic (second order, 3 nodes) shape function for the
offset `delta` of the particle from the central node. -/
def quadraticWeights (delta : R) : Nat → R :=
  fun n => [ (1 / 2) * (delta * delta - delta + 1 / 4),
             3 / 4 - delta * delta,
             (1 / 2) * (delta * delta + delta + 1 / 4) ].getD n 0

/-- Modelled from the spec: the helper `coeffs(xpn, rpn)` of `InterpolatorAM2Order.h` (absent
from the sources at hand): "resolve, for both the primal and dual staggering, the supporting
3-point stencil lower index and local quadratic area-weighting coefficients (shape
function)". The central node is the nearest primal node, `round(x)`, and the nearest dual
node, `round(x + 1/2)`, dual nodes being offset by half a cell; the weights are those of the
quadratic shape function at the offset from the central node; the indices are stored
relative to the first node of the patch. `round` is the `<cmath>` function. -/
def coeffs (round : R → Int) (i_domain_begin j_domain_begin : Int) (xpn rpn : R) :
    CoeffCache R :=
  let ip := round xpn
  let id := round (xpn + 1 / 2)
  let jp := round rpn
  let jd := round (rpn + 1 / 2)
  { coeffxp_ := quadraticWeights (xpn - (ip : R)),
    coeffxd_ := quadraticWeights (xpn - (id : R) + 1 / 2),
    coeffyp_ := quadraticWeights (rpn - (jp : R)),
    coeffyd_ := quadraticWeights (rpn - (jd : R) + 1 / 2),
    ip_ := ip - i_domain_begin, id_ := id - i_domain_begin,
    jp_ := jp - j_domain_begin, jd_ := jd - j_domain_begin,
    deltax := xpn - (ip : R), deltar := rpn - (jp : R) }

end Coeffs

/-- Field grids whose `Bl` holds the real constant `c` in mode 0 and zero in the other modes,
all other grids holding the value `(i + m) + i j` at the point `(i,j)` of mode `m`. -/
def uniformBl (c : ℚ) : ElectroMagnAM ℚ :=
  { El_ := fun m i j => ⟨(i : ℚ) + m, j⟩,
    Er_ := fun m i j => ⟨(i : ℚ) + m, j⟩,
    Et_ := fun m i j => ⟨(i : ℚ) + m, j⟩,
    Bl_m := fun m _ _ => if m = 0 then ⟨c, 0⟩ else 0,
    Br_m := fun m i j => ⟨(i : ℚ) + m, j⟩,
    Bt_m := fun m i j => ⟨(i : ℚ) + m, j⟩,
    Jl_ := fun m i j => ⟨(i : ℚ) + m, j⟩,
    Jr_ := fun m i j => ⟨(i : ℚ) + m, j⟩,
    Jt_ := fun m i j => ⟨(i : ℚ) + m, j⟩,
    rho_AM_ := fun m i j => ⟨(i : ℚ) + m, j⟩ }

/-! ## `Profile` -/

/-- What the constructor of `Profile` observes of a Python object through the Python C API
and `PyTools` (`PyTools.h` is not embedded here): a parameter of the constructor. -/
structure PyRuntime (Py : Type) where
  /-- The call `PyObject_HasAttrString(obj, name)`. -/
  PyObject_HasAttrString : Py → String → Bool
  /-- The call `PyObject_GetAttrString(obj, name)`. -/
  PyObject_GetAttrString : Py → String → Py
  /-- The call `PyTools::getAttr(obj, name, s)` on a string `s`: the value stored in `s`, or
  `none` when `s` is left as it was. -/
  getAttr : Py → String → Option String
  /-- The call `PyCallable_Check(obj)`. -/
  PyCallable_Check : Py → Bool
  /-- The call `PyTools::function_nargs(obj)`. -/
  function_nargs : Py → Int
  /-- Outcome of the test call of `obj` on `nvars` numpy arrays of dimension `ndim`: the
  result is a numpy array of numbers with as many elements as the arguments. -/
  numpyCall : Py → Nat → Nat → Bool
  /-- Outcome of the test call of `obj` on `nvars` floats: `none` for a null result, else
  the value of `PyNumber_Check(ret)`. -/
  floatCall : Py → Nat → Option Bool
  /-- The call `PyTools::py2scalar(obj, s)` on a string `s`: the value stored in `s`, or
  `none` when the call returns false. -/
  py2scalar : Py → Option String

/-- The evaluating functions of `Function.h` that the constructors of `Profile` create, each
with the arguments of its constructor call. -/
inductive Function (Py : Type) where
  | Function_Constant1D (py_profile : Py)
  | Function_Constant2D (py_profile : Py)
  | Function_Constant3D (py_profile : Py)
  | Function_Trapezoidal1D (py_profile : Py)
  | Function_Trapezoidal2D (py_profile : Py)
  | Function_Trapezoidal3D (py_profile : Py)
  | Function_Gaussian1D (py_profile : Py)
  | Function_Gaussian2D (py_profile : Py)
  | Function_Gaussian3D (py_profile : Py)
  | Function_Polygonal1D (py_profile : Py)
  | Function_Polygonal2D (py_profile : Py)
  | Function_Polygonal3D (py_profile : Py)
  | Function_Cosine1D (py_profile : Py)
  | Function_Cosine2D (py_profile : Py)
  | Function_Cosine3D (py_profile : Py)
  | Function_Polynomial1D (py_profile : Py)
  | Function_Polynomial2D (py_profile : Py)
  | Function_Polynomial3D (py_profile : Py)
  | Function_TimeConstant (py_profile : Py)
  | Function_TimeTrapezoidal (py_profile : Py)
  | Function_TimeGaussian (py_profile : Py)
  | Function_TimePolygonal (py_profile : Py)
  | Function_TimeCosine (py_profile : Py)
  | Function_TimePolynomial (py_profile : Py)
  | Function_TimeSin2Plateau (py_profile : Py)
  | Function_Python1D (py_profile : Py)
  | Function_Python2D (py_profile : Py)
  | Function_Python3D (py_profile : Py)
  | Function_Python4D (py_profile : Py)
  | Function_File (path dataset_name : String)

/-- Object state of `Profile`; `function_` is `none` while the pointer is not assigned. -/
structure Profile (Py : Type) where
  profileName_ : String
  nvariables_ : Nat
  uses_numpy_ : Bool
  uses_file_ : Bool
  filename_ : String
  function_ : Option (Function Py)

/-- The call `s.find_last_of(c)` on a `std::string`, read as a list of characters: the
index of the last occurrence, `none` for `std::string::npos`. -/
def find_last_of (c : Char) : List Char → Option Nat
  | [] => none
  | x :: xs =>
    match find_last_of c xs with
    | some i => some (i + 1)
    | none => if x = c then some 0 else none

section ProfileCtor

variable {Py : Type}

/-- The block `if( nvariables_ == 1 ) function_ = f1; else if( nvariables_ == 2 )
function_ = f2; else if( nvariables_ == 3 ) function_ = f3; else ERROR( msg )` of source
lines 26-34 (and 38-46, 50-58, 62-70, 74-82, 86-94). -/
def Profile.select3 (f1 f2 f3 : Function Py) (msg : String) (p : Profile Py) :
    Except String (Profile Py) :=
  if p.nvariables_ = 1 then
    pure { p with function_ := some f1 }
  else if p.nvariables_ = 2 then
    pure { p with function_ := some f2 }
  else if p.nvariables_ = 3 then
    pure { p with function_ := some f3 }
  else do
    (ERROR msg p).2
    pure p

/-- The block `if( nvariables_ == 1 ) function_ = f1; else ERROR( msg )` of source lines
98-102 (and 106-110, 114-118, 122-126, 130-134, 138-142, 146-150). -/
def Profile.select1 (f1 : Function Py) (msg : String) (p : Profile Py) :
    Except String (Profile Py) :=
  if p.nvariables_ = 1 then
    pure { p with function_ := some f1 }
  else do
    (ERROR msg p).2
    pure p

/-- Source lines 22-155 of `Profile::Profile`: the profile carries `profileName_` and is
turned into a hard-coded function. -/
def Profile.hardCoded (py_profile : Py) (name : String) (p : Profile Py) :
    Except String (Profile Py) :=
  if p.profileName_ = "constant" then
    Profile.select3 (Function.Function_Constant1D py_profile)
      (Function.Function_Constant2D py_profile) (Function.Function_Constant3D py_profile)
      ("Profile `" ++ name ++ "`: constant() profile defined only in 1D, 2D or 3D") p
  else if p.profileName_ = "trapezoidal" then
    Profile.select3 (Function.Function_Trapezoidal1D py_profile)
      (Function.Function_Trapezoidal2D py_profile) (Function.Function_Trapezoidal3D py_profile)
      ("Profile `" ++ name ++ "`: trapezoidal() profile defined only in 1D, 2D or 3D") p
  else if p.profileName_ = "gaussian" then
    Profile.select3 (Function.Function_Gaussian1D py_profile)
      (Function.Function_Gaussian2D py_profile) (Function.Function_Gaussian3D py_profile)
      ("Profile `" ++ name ++ "`: gaussian() profile defined only in 1D, 2D or 3D") p
  else if p.profileName_ = "polygonal" then
    Profile.select3 (Function.Function_Polygonal1D py_profile)
      (Function.Function_Polygonal2D py_profile) (Function.Function_Polygonal3D py_profile)
      ("Profile `" ++ name ++ "`: polygonal() profile defined only in 1D, 2D or 3D") p
  else if p.profileName_ = "cosine" then
    Profile.select3 (Function.Function_Cosine1D py_profile)
      (Function.Function_Cosine2D py_profile) (Function.Function_Cosine3D py_profile)
      ("Profile `" ++ name ++ "`: cosine() profile defined only in 1D, 2D or 3D") p
  else if p.profileName_ = "polynomial" then
    Profile.select3 (Function.Function_Polynomial1D py_profile)
      (Function.Function_Polynomial2D py_profile) (Function.Function_Polynomial3D py_profile)
      ("Profile `" ++ name ++ "`: polynomial() profile defined only in 1D, 2D or 3D") p
  else if p.profileName_ = "tconstant" then
    Profile.select1 (Function.Function_TimeConstant py_profile)
      ("Profile `" ++ name ++ "`: tconstant() profile is only for time") p
  else if p.profileName_ = "ttrapezoidal" then
    Profile.select1 (Function.Function_TimeTrapezoidal py_profile)
      ("Profile `" ++ name ++ "`: ttrapezoidal() profile is only for time") p
  else if p.profileName_ = "tgaussian" then
    Profile.select1 (Function.Function_TimeGaussian py_profile)
      ("Profile `" ++ name ++ "`: tgaussian() profile is only for time") p
  else if p.profileName_ = "tpolygonal" then
    Profile.select1 (Function.Function_TimePolygonal py_profile)
      ("Profile `" ++ name ++ "`: tpolygonal() profile is only for time") p
  else if p.profileName_ = "tcosine" then
    Profile.select1 (Function.Function_TimeCosine py_profile)
      ("Profile `" ++ name ++ "`: tcosine() profile is only for time") p
  else if p.profileName_ = "tpolynomial" then
    Profile.select1 (Function.Function_TimePolynomial py_profile)
      ("Profile `" ++ name ++ "`: tpolynomial() profile is only for time") p
  else if p.profileName_ = "tsin2plateau" then
    Profile.select1 (Function.Function_TimeSin2Plateau py_profile)
      ("Profile `" ++ name ++ "`: tsin2plateau() profile is only for time") p
  else do
    (ERROR ("Undefined profile " ++ p.profileName_) p).2
    pure p

/-- The statement `if( c ) ERROR( msg );` followed by the statements `rest`. -/
def Profile.check (c : Prop) [Decidable c] (msg : String) (p : Profile Py)
    (rest : Profile Py → Except String (Profile Py)) : Except String (Profile Py) := do
  if c then
    (ERROR msg p).2
  rest p

/-- Source lines 179-183: the object kept in `py_profile`, the attribute `__func__` when
there is one. -/
def PyRuntime.unwrapFunc (rt : PyRuntime Py) (py_profile : Py) : Py :=
  if rt.PyObject_HasAttrString py_profile "__func__" then
    rt.PyObject_GetAttrString py_profile "__func__"
  else py_profile

/-- Source lines 199-251, compiled when `SMILEI_USE_NUMPY` is defined: the test calls on
numpy arrays. The block is reached with `1 <= nvariables <= 4`, for which `ndim` takes the
two values `nvariables-1` and `nvariables`; the loop is left as soon as `uses_numpy_` is
set. `DEBUG` only prints. -/
def Profile.tryNumpy (rt : PyRuntime Py) (SMILEI_USE_NUMPY : Bool) (py_profile : Py)
    (nvariables : Nat) (try_numpy : Bool) (p : Profile Py) : Profile Py :=
  if SMILEI_USE_NUMPY && try_numpy then
    { p with
      uses_numpy_ :=
        List.foldl
          (fun u ndim => if u then u else rt.numpyCall py_profile ndim p.nvariables_)
          p.uses_numpy_ [usub nvariables 1, nvariables] }
  else p

/-- Source lines 254-264: the result `ret` of the test call on floats, `none` for a null
pointer, else the value of `PyNumber_Check( ret )`. -/
def Profile.floatTest (rt : PyRuntime Py) (py_profile : Py) (p : Profile Py) : Option Bool :=
  if p.nvariables_ = 1 ∨ p.nvariables_ = 2 ∨ p.nvariables_ = 3 ∨ p.nvariables_ = 4 then
    rt.floatCall py_profile p.nvariables_
  else none

/-- Source lines 276-284: the evaluating function is assigned according to the number of
variables. -/
def Profile.assignPython (py_profile : Py) (p : Profile Py) : Profile Py :=
  if p.nvariables_ = 1 then
    { p with function_ := some (Function.Function_Python1D py_profile) }
  else if p.nvariables_ = 2 then
    { p with function_ := some (Function.Function_Python2D py_profile) }
  else if p.nvariables_ = 3 then
    { p with function_ := some (Function.Function_Python3D py_profile) }
  else if p.nvariables_ = 4 then
    { p with function_ := some (Function.Function_Python4D py_profile) }
  else p

/-- Source lines 179-284 of `Profile::Profile`: the profile is a Python function.
`WARNING` and `MESSAGE` only print and are left out. -/
def Profile.python (rt : PyRuntime Py) (SMILEI_USE_NUMPY : Bool) (py_profile : Py)
    (nvariables : Nat) (name : String) (try_numpy : Bool) (p : Profile Py) :
    Except String (Profile Py) :=
  let py_profile := rt.unwrapFunc py_profile
  let nargs := rt.function_nargs py_profile
  Profile.check (nargs = -2)
    ("Profile `" ++ name ++ "` does not seem to be callable") p fun p =>
  Profile.check (p.nvariables_ < 1 ∨ p.nvariables_ > 4)
    ("Profile `" ++ name ++ "`: defined with unsupported number of variables ("
      ++ toString p.nvariables_ ++ ")") p fun p =>
  let p := Profile.tryNumpy rt SMILEI_USE_NUMPY py_profile nvariables try_numpy p
  if ¬ p.uses_numpy_ then
    let ret := Profile.floatTest rt py_profile p
    Profile.check (ret = none ∨ ret = some false)
      ("Profile `" ++ name ++ "`: does not seem to return a correct value") p fun p =>
    pure (Profile.assignPython py_profile p)
  else
    pure (Profile.assignPython py_profile p)

/-- Source lines 289-307 of `Profile::Profile`: the profile is a string, the path of a
dataset in a file. The file handle and `params.cell_length` passed to `Function_File` are
not recorded. -/
def Profile.file (name : String) (try_file : Bool) (p : Profile Py) :
    Except String (Profile Py) :=
  Profile.check (¬ try_file)
    ("Profile `" ++ name ++ "`: cannot be from a file") p fun p =>
  let i := find_last_of '/' p.filename_.data
  Profile.check (i = none ∨ i = some (p.filename_.length - 1))
    ("Profile `" ++ name ++ "`: could not find a dataset name in the path") p fun p =>
  let dataset_name := String.mk (p.filename_.data.drop (i.getD 0 + 1))
  let path := String.mk (p.filename_.data.take (i.getD 0))
  pure { p with function_ := some (Function.Function_File path dataset_name),
                uses_file_ := true }

/-- The constructor `Profile::Profile(py_profile, nvariables, name, params, try_numpy,
try_file)`: the object built, or the report of the `ERROR` that ended the construction. -/
def Profile.new (rt : PyRuntime Py) (SMILEI_USE_NUMPY : Bool) (py_profile : Py)
    (nvariables : Nat) (name : String) (try_numpy try_file : Bool) :
    Except String (Profile Py) :=
  let p : Profile Py :=
    { profileName_ := "", nvariables_ := nvariables, uses_numpy_ := false,
      uses_file_ := false, filename_ := "", function_ := none }
  if rt.PyObject_HasAttrString py_profile "profileName_" then
    Profile.hardCoded py_profile name
      { p with profileName_ := (rt.getAttr py_profile "profileName_").getD p.profileName_ }
  else if rt.PyCallable_Check py_profile then
    Profile.python rt SMILEI_USE_NUMPY py_profile nvariables name try_numpy p
  else
    match rt.py2scalar py_profile with
    | some s => Profile.file name try_file { p with filename_ := s }
    | none => do
      (ERROR ("Profile `" ++ name ++ "`: should be a function or a string") p).2
      pure p

/-! ### Reference quantities for `Profile` -/

/-- The names of the predefined spatial profiles. -/
def spatialProfiles : List String :=
  ["constant", "trapezoidal", "gaussian", "polygonal", "cosine", "polynomial"]

/-- The names of the predefined temporal profiles. -/
def temporalProfiles : List String :=
  ["tconstant", "ttrapezoidal", "tgaussian", "tpolygonal", "tcosine", "tpolynomial",
    "tsin2plateau"]

/-- The pair of a profile name and a variable count is one the claim lists: a spatial
profile in 1, 2 or 3 variables, or a temporal profile in 1 variable. -/
def ValidPredefined (profileName : String) (nvariables : Nat) : Prop :=
  (profileName ∈ spatialProfiles ∧ (nvariables = 1 ∨ nvariables = 2 ∨ nvariables = 3)) ∨
  (profileName ∈ temporalProfiles ∧ nvariables = 1)

/-- The entry of a table of pairs `(key, value)` whose key is `k`. -/
def tableEntry {α β : Type} [DecidableEq α] (k : α) : List (α × β) → Option β
  | [] => none
  | (a, b) :: l => if k = a then some b else tableEntry k l

/-- The function variant named by a profile name at a dimension, as a table. -/
def namedVariant (py_profile : Py) (profileName : String) (nvariables : Nat) :
    Option (Function Py) :=
  tableEntry (profileName, nvariables)
    [ (("constant", 1), Function.Function_Constant1D py_profile),
      (("constant", 2), Function.Function_Constant2D py_profile),
      (("constant", 3), Function.Function_Constant3D py_profile),
      (("trapezoidal", 1), Function.Function_Trapezoidal1D py_profile),
      (("trapezoidal", 2), Function.Function_Trapezoidal2D py_profile),
      (("trapezoidal", 3), Function.Function_Trapezoidal3D py_profile),
      (("gaussian", 1), Function.Function_Gaussian1D py_profile),
      (("gaussian", 2), Function.Function_Gaussian2D py_profile),
      (("gaussian", 3), Function.Function_Gaussian3D py_profile),
      (("polygonal", 1), Function.Function_Polygonal1D py_profile),
      (("polygonal", 2), Function.Function_Polygonal2D py_profile),
      (("polygonal", 3), Function.Function_Polygonal3D py_profile),
      (("cosine", 1), Function.Function_Cosine1D py_profile),
      (("cosine", 2), Function.Function_Cosine2D py_profile),
      (("cosine", 3), Function.Function_Cosine3D py_profile),
      (("polynomial", 1), Function.Function_Polynomial1D py_profile),
      (("polynomial", 2), Function.Function_Polynomial2D py_profile),
      (("polynomial", 3), Function.Function_Polynomial3D py_profile),
      (("tconstant", 1), Function.Function_TimeConstant py_profile),
      (("ttrapezoidal", 1), Function.Function_TimeTrapezoidal py_profile),
      (("tgaussian", 1), Function.Function_TimeGaussian py_profile),
      (("tpolygonal", 1), Function.Function_TimePolygonal py_profile),
      (("tcosine", 1), Function.Function_TimeCosine py_profile),
      (("tpolynomial", 1), Function.Function_TimePolynomial py_profile),
      (("tsin2plateau", 1), Function.Function_TimeSin2Plateau py_profile) ]

/-- The variant `Function_Python{n}D` for `n` in 1..4. -/
def pythonVariant (py_profile : Py) (n : Nat) : Option (Function Py) :=
  tableEntry n
    [ (1, Function.Function_Python1D py_profile), (2, Function.Function_Python2D py_profile),
      (3, Function.Function_Python3D py_profile), (4, Function.Function_Python4D py_profile) ]

end ProfileCtor

/-- A Python object of the samples: its `profileName_` attribute, whether it is callable,
its number of arguments, what its test call on floats returns, and its value as a string. -/
structure SamplePy where
  profileName : Option String
  callable : Bool
  nargs : Int
  floatResult : Option Bool
  text : Option String

/-- The observations of the sample objects; they have no attribute `__func__` and do not
accept numpy arrays. -/
def sampleRuntime : PyRuntime SamplePy :=
  { PyObject_HasAttrString := fun o a => a = "profileName_" && o.profileName.isSome,
    PyObject_GetAttrString := fun o _ => o,
    getAttr := fun o a => if a = "profileName_" then o.profileName else none,
    PyCallable_Check := fun o => o.callable,
    function_nargs := fun o => o.nargs,
    numpyCall := fun _ _ _ => false,
    floatCall := fun o _ => o.floatResult,
    py2scalar := fun o => o.text }

/-- The predefined profile `gaussian`. -/
def gaussianPy : SamplePy :=
  { profileName := some "gaussian", callable := false, nargs := -2, floatResult := none,
    text := none }

/-- A Python function of two arguments that returns a number. -/
def lambdaPy : SamplePy :=
  { profileName := none, callable := true, nargs := 2, floatResult := some true,
    text := none }

/-! ## The passes of `operator()` as a list -/

section Passes

variable {R : Type} [CommRing R]

/-- The nine loop nests of `MF_Solver3D_Lehe::operator()`, in source order. -/
def MF_Solver3D_Lehe.passes (s : MF_Solver3D_Lehe R) : List (ElectroMagn R → ElectroMagn R) :=
  [ s.interiorBx, s.interiorBy, s.interiorBz,
    s.boundaryBx 0, s.boundaryBx (usub s.nx_p 1),
    s.boundaryBy 1 0, s.boundaryBy (usub s.nx_d 2) (usub s.nx_d 3),
    s.boundaryBz 1 0, s.boundaryBz (usub s.nx_d 2) (usub s.nx_d 3) ]

/-- The passes of the list `l` executed one after the other on the field state `f`. -/
def runPasses (l : List (ElectroMagn R → ElectroMagn R)) (f : ElectroMagn R) : ElectroMagn R :=
  l.foldl (fun g p => p g) f

/-- The update `B += d(E)`: the three magnetic grids are incremented by quantities computed
from the field state. -/
def incrementB (dBx dBy dBz : ElectroMagn R → Field3D R) (f : ElectroMagn R) :
    ElectroMagn R :=
  { f with
    Bx_ := fun a b c => f.Bx_ a b c + dBx f a b c,
    By_ := fun a b c => f.By_ a b c + dBy f a b c,
    Bz_ := fun a b c => f.Bz_ a b c + dBz f a b c }

/-- The pass `p` increments `B` by quantities that depend on the electric grids only. -/
def IsEIncrement (p : ElectroMagn R → ElectroMagn R) : Prop :=
  ∃ dBx dBy dBz : ElectroMagn R → Field3D R,
    (∀ f g, SameE g f → dBx g = dBx f ∧ dBy g = dBy f ∧ dBz g = dBz f) ∧
    ∀ f, p f = incrementB dBx dBy dBz f

/-- The statements that the iterations `i, i+1, ...` of a loop execute, `n` iterations,
in order; `body i` lists the statements of the iteration `i`. -/
def forStatementsAux {σ : Type} (body : Nat → List (σ → σ)) : Nat → Nat → List (σ → σ)
  | 0, _ => []
  | n + 1, i => body i ++ forStatementsAux body n (i + 1)

/-- The statements that the loop `for (unsigned int i = lo; i < hi; i++) body` executes,
in order. -/
def forStatements {σ : Type} (lo hi : Nat) (body : Nat → List (σ → σ)) : List (σ → σ) :=
  forStatementsAux body (hi - lo) lo

/-- The statements of the interior pass over `Bx` (source lines 50-61), in order. -/
def MF_Solver3D_Lehe.interiorBxStatements (s : MF_Solver3D_Lehe R) :
    List (ElectroMagn R → ElectroMagn R) :=
  forStatements 1 (usub s.nx_p 1) (fun i =>
    forStatements 1 (usub s.ny_d 1) (fun j =>
      forStatements 1 (usub s.nz_d 1) (fun k =>
        [fun f => f.addBx i j k (s.stencilBx f i j k)])))

/-- The statements of the interior pass over `By` (source lines 64-76), in order. -/
def MF_Solver3D_Lehe.interiorByStatements (s : MF_Solver3D_Lehe R) :
    List (ElectroMagn R → ElectroMagn R) :=
  forStatements 2 (usub s.nx_d 2) (fun i =>
    forStatements 1 (usub s.ny_p 1) (fun j =>
      forStatements 1 (usub s.nz_d 1) (fun k =>
        [fun f => f.addBy i j k (s.stencilBy f i j k)])))

/-- The statements of the interior pass over `Bz` (source lines 80-91), in order. -/
def MF_Solver3D_Lehe.interiorBzStatements (s : MF_Solver3D_Lehe R) :
    List (ElectroMagn R → ElectroMagn R) :=
  forStatements 2 (usub s.nx_d 2) (fun i =>
    forStatements 1 (usub s.ny_d 1) (fun j =>
      forStatements 1 (usub s.nz_p 1) (fun k =>
        [fun f => f.addBz i j k (s.stencilBz f i j k)])))

/-- The statements of the boundary pass over `Bx` at the plane `i0`, in order. -/
def MF_Solver3D_Lehe.boundaryBxStatements (s : MF_Solver3D_Lehe R) (i0 : Nat) :
    List (ElectroMagn R → ElectroMagn R) :=
  forStatements 1 (usub s.ny_d 1) (fun j =>
    forStatements 1 (usub s.nz_d 1) (fun k =>
      [fun f => f.addBx i0 j k (s.edgeBx f i0 j k)]))

/-- The statements of the boundary pass over `By` at the plane `i0`, in order. -/
def MF_Solver3D_Lehe.boundaryByStatements (s : MF_Solver3D_Lehe R) (i0 im : Nat) :
    List (ElectroMagn R → ElectroMagn R) :=
  forStatements 0 s.ny_p (fun j =>
    forStatements 2 (usub s.nz_d 2) (fun k =>
      [fun f => f.addBy i0 j k (s.edgeBy f i0 im j k)]))

/-- The statements of the boundary pass over `Bz` at the plane `i0`, in order. -/
def MF_Solver3D_Lehe.boundaryBzStatements (s : MF_Solver3D_Lehe R) (i0 im : Nat) :
    List (ElectroMagn R → ElectroMagn R) :=
  forStatements 2 (usub s.ny_d 2) (fun j =>
    forStatements 0 s.nz_p (fun k =>
      [fun f => f.addBz i0 j k (s.edgeBz f i0 im j k)]))

/-- The assignment statements `(*B)(i,j,k) += ...` that one call of
`MF_Solver3D_Lehe::operator()` executes, one per point of each loop nest, in source
order. -/
def MF_Solver3D_Lehe.statements (s : MF_Solver3D_Lehe R) :
    List (ElectroMagn R → ElectroMagn R) :=
  s.interiorBxStatements ++ s.interiorByStatements ++ s.interiorBzStatements
    ++ s.boundaryBxStatements 0 ++ s.boundaryBxStatements (usub s.nx_p 1)
    ++ s.boundaryByStatements 1 0 ++ s.boundaryByStatements (usub s.nx_d 2) (usub s.nx_d 3)
    ++ s.boundaryBzStatements 1 0 ++ s.boundaryBzStatements (usub s.nx_d 2) (usub s.nx_d 3)

end Passes

/-- The string `a/b.h5/data`, the path of a dataset in a file. -/
def filePy : SamplePy :=
  { profileName := none, callable := false, nargs := -2, floatResult := none,
    text := some "a/b.h5/data" }

/-- The profile that the constructor builds from `gaussianPy` in two variables. -/
def gaussianProfile : Profile SamplePy :=
  { profileName_ := "gaussian", nvariables_ := 2, uses_numpy_ := false, uses_file_ := false,
    filename_ := "", function_ := some (Function.Function_Gaussian2D gaussianPy) }

/-- The profile that the constructor builds from `filePy`. -/
def fileProfile : Profile SamplePy :=
  { profileName_ := "", nvariables_ := 1, uses_numpy_ := false, uses_file_ := true,
    filename_ := "a/b.h5/data", function_ := some (Function.Function_File "a/b.h5" "data") }

/-! ### The cloning constructor of `Profile` -/

/-- The classes of `Function.h` that the constructors of `Profile` create. -/
inductive FunctionKind where
  | Function_Constant1D
  | Function_Constant2D
  | Function_Constant3D
  | Function_Trapezoidal1D
  | Function_Trapezoidal2D
  | Function_Trapezoidal3D
  | Function_Gaussian1D
  | Function_Gaussian2D
  | Function_Gaussian3D
  | Function_Polygonal1D
  | Function_Polygonal2D
  | Function_Polygonal3D
  | Function_Cosine1D
  | Function_Cosine2D
  | Function_Cosine3D
  | Function_Polynomial1D
  | Function_Polynomial2D
  | Function_Polynomial3D
  | Function_TimeConstant
  | Function_TimeTrapezoidal
  | Function_TimeGaussian
  | Function_TimePolygonal
  | Function_TimeCosine
  | Function_TimePolynomial
  | Function_TimeSin2Plateau
  | Function_Python1D
  | Function_Python2D
  | Function_Python3D
  | Function_Python4D
  | Function_File
  deriving DecidableEq

section ProfileClone

variable {Py : Type}

/-- The class of an evaluating function. -/
def Function.kind : Function Py → FunctionKind
  | Function.Function_Constant1D _ => FunctionKind.Function_Constant1D
  | Function.Function_Constant2D _ => FunctionKind.Function_Constant2D
  | Function.Function_Constant3D _ => FunctionKind.Function_Constant3D
  | Function.Function_Trapezoidal1D _ => FunctionKind.Function_Trapezoidal1D
  | Function.Function_Trapezoidal2D _ => FunctionKind.Function_Trapezoidal2D
  | Function.Function_Trapezoidal3D _ => FunctionKind.Function_Trapezoidal3D
  | Function.Function_Gaussian1D _ => FunctionKind.Function_Gaussian1D
  | Function.Function_Gaussian2D _ => FunctionKind.Function_Gaussian2D
  | Function.Function_Gaussian3D _ => FunctionKind.Function_Gaussian3D
  | Function.Function_Polygonal1D _ => FunctionKind.Function_Polygonal1D
  | Function.Function_Polygonal2D _ => FunctionKind.Function_Polygonal2D
  | Function.Function_Polygonal3D _ => FunctionKind.Function_Polygonal3D
  | Function.Function_Cosine1D _ => FunctionKind.Function_Cosine1D
  | Function.Function_Cosine2D _ => FunctionKind.Function_Cosine2D
  | Function.Function_Cosine3D _ => FunctionKind.Function_Cosine3D
  | Function.Function_Polynomial1D _ => FunctionKind.Function_Polynomial1D
  | Function.Function_Polynomial2D _ => FunctionKind.Function_Polynomial2D
  | Function.Function_Polynomial3D _ => FunctionKind.Function_Polynomial3D
  | Function.Function_TimeConstant _ => FunctionKind.Function_TimeConstant
  | Function.Function_TimeTrapezoidal _ => FunctionKind.Function_TimeTrapezoidal
  | Function.Function_TimeGaussian _ => FunctionKind.Function_TimeGaussian
  | Function.Function_TimePolygonal _ => FunctionKind.Function_TimePolygonal
  | Function.Function_TimeCosine _ => FunctionKind.Function_TimeCosine
  | Function.Function_TimePolynomial _ => FunctionKind.Function_TimePolynomial
  | Function.Function_TimeSin2Plateau _ => FunctionKind.Function_TimeSin2Plateau
  | Function.Function_Python1D _ => FunctionKind.Function_Python1D
  | Function.Function_Python2D _ => FunctionKind.Function_Python2D
  | Function.Function_Python3D _ => FunctionKind.Function_Python3D
  | Function.Function_Python4D _ => FunctionKind.Function_Python4D
  | Function.Function_File _ _ => FunctionKind.Function_File

/-- The statement `function_ = new X( static_cast<X *>( p->function_ ) )`. The copy
constructors of `Function.h` are a parameter: `copy k f` is the object that the copy
constructor of class `k` builds from a pointer to `f`. -/
def Profile.copyFunction (copy : FunctionKind → Function Py → Function Py) (k : FunctionKind)
    (p q : Profile Py) : Profile Py :=
  { q with function_ := p.function_.map (copy k) }

/-- The block `if( nvariables_ == 1 ) function_ = new X1( ... ); else if( nvariables_ == 2 )
function_ = new X2( ... ); else if( nvariables_ == 3 ) function_ = new X3( ... );` of source
lines 325-331 (and 333-339, 341-347, 349-355, 357-363, 365-371), each with the function of
`p` as argument; there is no final `else`. -/
def Profile.copy3 (copy : FunctionKind → Function Py → Function Py)
    (k1 k2 k3 : FunctionKind) (p q : Profile Py) : Profile Py :=
  if q.nvariables_ = 1 then
    Profile.copyFunction copy k1 p q
  else if q.nvariables_ = 2 then
    Profile.copyFunction copy k2 p q
  else if q.nvariables_ = 3 then
    Profile.copyFunction copy k3 p q
  else q

/-- The cloning constructor `Profile::Profile( Profile *p )`, source lines 316-400. The four
members `profileName_`, `nvariables_`, `uses_numpy_`, `uses_file_` are assigned from `p`;
`filename_` is not assigned and stays the empty string of its default construction;
`function_` is `none` when no branch assigns it. -/
def Profile.clone (copy : FunctionKind → Function Py → Function Py) (p : Profile Py) :
    Profile Py :=
  let q : Profile Py :=
    { profileName_ := p.profileName_, nvariables_ := p.nvariables_,
      uses_numpy_ := p.uses_numpy_, uses_file_ := p.uses_file_, filename_ := "",
      function_ := none }
  if q.profileName_ ≠ "" then
    if q.profileName_ = "constant" then
      Profile.copy3 copy FunctionKind.Function_Constant1D FunctionKind.Function_Constant2D
        FunctionKind.Function_Constant3D p q
    else if q.profileName_ = "trapezoidal" then
      Profile.copy3 copy FunctionKind.Function_Trapezoidal1D FunctionKind.Function_Trapezoidal2D
        FunctionKind.Function_Trapezoidal3D p q
    else if q.profileName_ = "gaussian" then
      Profile.copy3 copy FunctionKind.Function_Gaussian1D FunctionKind.Function_Gaussian2D
        FunctionKind.Function_Gaussian3D p q
    else if q.profileName_ = "polygonal" then
      Profile.copy3 copy FunctionKind.Function_Polygonal1D FunctionKind.Function_Polygonal2D
        FunctionKind.Function_Polygonal3D p q
    else if q.profileName_ = "cosine" then
      Profile.copy3 copy FunctionKind.Function_Cosine1D FunctionKind.Function_Cosine2D
        FunctionKind.Function_Cosine3D p q
    else if q.profileName_ = "polynomial" then
      Profile.copy3 copy FunctionKind.Function_Polynomial1D FunctionKind.Function_Polynomial2D
        FunctionKind.Function_Polynomial3D p q
    else if q.profileName_ = "tconstant" then
      Profile.copyFunction copy FunctionKind.Function_TimeConstant p q
    else if q.profileName_ = "ttrapezoidal" then
      Profile.copyFunction copy FunctionKind.Function_TimeTrapezoidal p q
    else if q.profileName_ = "tgaussian" then
      Profile.copyFunction copy FunctionKind.Function_TimeGaussian p q
    else if q.profileName_ = "tpolygonal" then
      Profile.copyFunction copy FunctionKind.Function_TimePolygonal p q
    else if q.profileName_ = "tcosine" then
      Profile.copyFunction copy FunctionKind.Function_TimeCosine p q
    else if q.profileName_ = "tpolynomial" then
      Profile.copyFunction copy FunctionKind.Function_TimePolynomial p q
    else if q.profileName_ = "tsin2plateau" then
      Profile.copyFunction copy FunctionKind.Function_TimeSin2Plateau p q
    else q
  else if q.uses_file_ then
    Profile.copyFunction copy FunctionKind.Function_File p q
  else if q.nvariables_ = 1 then
    Profile.copyFunction copy FunctionKind.Function_Python1D p q
  else if q.nvariables_ = 2 then
    Profile.copyFunction copy FunctionKind.Function_Python2D p q
  else if q.nvariables_ = 3 then
    Profile.copyFunction copy FunctionKind.Function_Python3D p q
  else if q.nvariables_ = 4 then
    Profile.copyFunction copy FunctionKind.Function_Python4D p q
  else q

end ProfileClone

/-! ## `SpeciesFactory::createVector` -/

/-- The statement `v[i] = x` on a `std::vector` read as a function of the index. -/
def vecSet {α : Type} (v : Nat → α) (i : Nat) (x : α) : Nat → α :=
  fun r => if r = i then x else v r

/-- The members of `Species` (`Species.h`) that source lines 96-158 and 295-328 of
`SpeciesFactory::createVector` use. The vectors are lists; `Ionize` tells whether the
pointer is set; `electron_species` is the index in `retSpecies` of the species pointed
to, `none` for a null pointer. -/
structure Species (R : Type) where
  species_type : String
  mass : R
  bc_part_type_west : String
  bc_part_type_east : String
  bc_part_type_south : String
  bc_part_type_north : String
  thermT : List R
  thermVelocity : List R
  thermalVelocity : List R
  thermalMomentum : List R
  Ionize : Bool
  electron_species : Option Nat

/-- What the calls `PyTools::extract( name, x, "Species", ispec )` find in the namelist for
one species (`PyTools.h` is not embedded): for each name the value stored in `x`, or `none`
when the call returns false and leaves `x` as it was. A parameter of `createVector`. -/
structure SpeciesNamelist (R : Type) where
  bc_part_type_west : Option String
  bc_part_type_east : Option String
  bc_part_type_south : Option String
  bc_part_type_north : Option String
  thermT : Option (List R)
  thermVelocity : Option (List R)
  charge : Option R

/-- The statement `if( c ) ERROR( msg );` followed by the statements `rest`. -/
def checkThen {σ τ : Type} (c : Prop) [Decidable c] (msg : String) (st : σ)
    (rest : σ → Except String τ) : Except String τ := do
  if c then
    (ERROR msg st).2
  rest st

/-- The call `v.resize( n )` on a `std::vector<double>`: the first `n` entries, with zeros
appended when `v` is shorter. -/
def resize {R : Type} [Zero R] (n : Nat) (v : List R) : List R :=
  (v ++ List.replicate n 0).take n

section SpeciesChecks

variable {R : Type} [LinearOrderedField R]

/-- Source lines 96-106: the particle boundary types are extracted; south and north only
when `params.nDim_particle > 1`. -/
def createVector_bcTypes (nDim_particle : Nat) (nl : SpeciesNamelist R)
    (thisSpecies : Species R) : Except String (Species R) :=
  checkThen (nl.bc_part_type_west = none)
    ("For species '" ++ thisSpecies.species_type ++ "', bc_part_type_west not defined")
    { thisSpecies with
      bc_part_type_west := nl.bc_part_type_west.getD thisSpecies.bc_part_type_west }
    fun s =>
  checkThen (nl.bc_part_type_east = none)
    ("For species '" ++ s.species_type ++ "', bc_part_type_east not defined")
    { s with bc_part_type_east := nl.bc_part_type_east.getD s.bc_part_type_east } fun s =>
  if nDim_particle > 1 then
    checkThen (nl.bc_part_type_south = none)
      ("For species '" ++ s.species_type ++ "', bc_part_type_south not defined")
      { s with bc_part_type_south := nl.bc_part_type_south.getD s.bc_part_type_south }
      fun s =>
    checkThen (nl.bc_part_type_north = none)
      ("For species '" ++ s.species_type ++ "', bc_part_type_north not defined")
      { s with bc_part_type_north := nl.bc_part_type_north.getD s.bc_part_type_north }
      fun s =>
    pure s
  else pure s

/-- Source lines 114-119, the block for the x boundaries: the state is the species with
the local variables `thermTisDefined` and `thermVisDefined`. -/
def createVector_thermalizeX (ispec : Nat) (nl : SpeciesNamelist R)
    (st : Species R × Bool × Bool) : Except String (Species R × Bool × Bool) :=
  if st.1.bc_part_type_west = "thermalize" ∨ st.1.bc_part_type_east = "thermalize" then
    checkThen (¬ nl.thermT.isSome)
      ("thermT needs to be defined for species " ++ toString ispec
        ++ " due to x-BC thermalize")
      ({ st.1 with thermT := nl.thermT.getD st.1.thermT }, nl.thermT.isSome, st.2.2)
      fun st =>
    checkThen (¬ nl.thermVelocity.isSome)
      ("thermVelocity needs to be defined for species " ++ toString ispec
        ++ " due to x-BC thermalize")
      ({ st.1 with thermVelocity := nl.thermVelocity.getD st.1.thermVelocity }, st.2.1,
        nl.thermVelocity.isSome)
      fun st =>
    pure st
  else pure st

/-- Source lines 121-128, the block for the y boundaries. The second test reads
`thermTisDefined`, as the source does. -/
def createVector_thermalizeY (nDim_particle ispec : Nat) (nl : SpeciesNamelist R)
    (st : Species R × Bool × Bool) : Except String (Species R × Bool × Bool) :=
  if nDim_particle = 2 ∧ ¬ st.2.1 ∧ ¬ st.2.2 ∧
      (st.1.bc_part_type_south = "thermalize" ∨ st.1.bc_part_type_north = "thermalize") then
    checkThen (¬ nl.thermT.isSome)
      ("thermT needs to be defined for species " ++ toString ispec
        ++ " due to y-BC thermalize")
      ({ st.1 with thermT := nl.thermT.getD st.1.thermT }, nl.thermT.isSome, st.2.2)
      fun st =>
    checkThen (¬ st.2.1)
      ("thermVelocity needs to be defined for species " ++ toString ispec
        ++ " due to y-BC thermalize")
      ({ st.1 with thermVelocity := nl.thermVelocity.getD st.1.thermVelocity }, st.2.1,
        nl.thermVelocity.isSome)
      fun st =>
    checkThen (st.1.thermVelocity.length ≠ 3)
      ("thermVelocity needs to have all 3 components  defined for species "
        ++ toString ispec)
      st fun st =>
    pure st
  else pure st

/-- Source lines 96-128 of `SpeciesFactory::createVector`: the boundary types and the
checks for thermalizing boundaries. -/
def createVector_boundaries (nDim_particle ispec : Nat) (nl : SpeciesNamelist R)
    (thisSpecies : Species R) : Except String (Species R × Bool × Bool) :=
  match createVector_bcTypes nDim_particle nl thisSpecies with
  | Except.error msg => Except.error msg
  | Except.ok s =>
    match createVector_thermalizeX ispec nl (s, false, false) with
    | Except.error msg => Except.error msg
    | Except.ok st => createVector_thermalizeY nDim_particle ispec nl st

/-- Source lines 130-146: `thermT` of size 1 is spread over the three directions; when
`thermT` is not defined, `thermT` and `thermVelocity` are set to zero. `WARNING` only
prints. -/
def createVector_thermT (thermTisDefined : Bool) (s : Species R) : Species R :=
  if thermTisDefined then
    if s.thermT.length = 1 then
      let s := { s with thermT := resize 3 s.thermT }
      forLoop 1 3 (fun i s => { s with thermT := s.thermT.set i (s.thermT.getD 0 0) }) s
    else s
  else
    let s := { s with thermT := resize 3 s.thermT }
    let s := forLoop 0 3 (fun i s => { s with thermT := s.thermT.set i 0 }) s
    let s := { s with thermVelocity := resize 3 s.thermVelocity }
    forLoop 0 3 (fun i s => { s with thermVelocity := s.thermVelocity.set i 0 }) s

/-- Source lines 154-157, the body of the loop over `i`: the result is `none` when
`thermT[i]` is read beyond the end of the vector; after an `ERROR` nothing is done.
`double` values are read as exact numbers and `sqrt` is a parameter. -/
def createVector_thermalVelocityStep (sqrt : R → R) (i : Nat)
    (st : Option (Except String (Species R))) : Option (Except String (Species R)) :=
  match st with
  | some (Except.ok s) =>
    match s.thermT.get? i with
    | none => none
    | some t =>
      let s := { s with thermalVelocity := s.thermalVelocity.set i (sqrt (2 * t / s.mass)) }
      let s := { s with thermalMomentum :=
                          s.thermalMomentum.set i (s.thermalVelocity.getD i 0) }
      if s.thermalVelocity.getD i 0 > 3 / 10 then
        some (Except.error ("Thermalizing BCs for species " ++ s.species_type
          ++ " require non-relativistic thermT"))
      else some (Except.ok s)
  | other => other

/-- Source lines 150-158: the thermal velocity and momentum of the three directions. -/
def createVector_thermalVelocity (sqrt : R → R) (s : Species R) :
    Option (Except String (Species R)) :=
  let s := { s with thermalVelocity := resize 3 s.thermalVelocity }
  let s := { s with thermalMomentum := resize 3 s.thermalMomentum }
  forLoop 0 3 (createVector_thermalVelocityStep sqrt) (some (Except.ok s))

/-- Source lines 96-158 of `SpeciesFactory::createVector`, the statements on the particle
boundaries of one species. -/
def createVector_thermal (sqrt : R → R) (nDim_particle ispec : Nat)
    (nl : SpeciesNamelist R) (thisSpecies : Species R) :
    Option (Except String (Species R)) :=
  match createVector_boundaries nDim_particle ispec nl thisSpecies with
  | Except.error msg => some (Except.error msg)
  | Except.ok st => createVector_thermalVelocity sqrt (createVector_thermT st.2.1 st.1)

/-- The loop `for (ispec = 0; ispec < size; ispec++) if( P(ispec) ) { if( electron_species )
WARNING(...); else electron_species = retSpecies[ispec]; }` of source lines 299-307 and
309-320: the pointer is the index of the species. -/
def findElectron (P : Nat → Prop) [DecidablePred P] (size : Nat)
    (electron_species : Option Nat) : Option Nat :=
  forLoop 0 size
    (fun ispec es =>
      if P ispec then
        match es with
        | some e => some e
        | none => some ispec
      else es)
    electron_species

/-- Source lines 297-321, the body of the loop over `i` for a species that can be
ionized: the value of `electron_species` after the two searches. `charge ispec` is what
`PyTools::extract( "charge", charge, "Species", ispec )` finds, the local variable being
`0` before the call. -/
def resolveElectron (retSpecies : Nat → Species R) (size : Nat) (charge : Nat → Option R) :
    Option Nat :=
  let electron_species :=
    findElectron (fun ispec => (retSpecies ispec).species_type = "electron") size none
  if electron_species = none then
    findElectron
      (fun ispec => (retSpecies ispec).mass = 1 ∧ (charge ispec).getD 0 = -1) size
      electron_species
  else electron_species

/-- Source lines 296-328 of `SpeciesFactory::createVector`: the electron species of the
species that can be ionized. `retSpecies` is read as a function of the index, with `size`
entries. -/
def createVector_electrons (retSpecies : Nat → Species R) (size : Nat)
    (charge : Nat → Option R) : Except String (Nat → Species R) :=
  forLoop 0 size
    (fun i (st : Except String (Nat → Species R)) =>
      match st with
      | Except.error msg => Except.error msg
      | Except.ok retSpecies =>
        if (retSpecies i).Ionize then
          match resolveElectron retSpecies size charge with
          | some e =>
            Except.ok (vecSet retSpecies i { retSpecies i with electron_species := some e })
          | none =>
            Except.error "Ionization needs a species called \"electron\" to be defined"
        else Except.ok retSpecies)
    (Except.ok retSpecies)

end SpeciesChecks

/-- A species of the samples: mass 1, no boundary type set, empty vectors. -/
def sampleSpecies : Species ℚ :=
  { species_type := "ion", mass := 1, bc_part_type_west := "", bc_part_type_east := "",
    bc_part_type_south := "", bc_part_type_north := "", thermT := [], thermVelocity := [],
    thermalVelocity := [], thermalMomentum := [], Ionize := false,
    electron_species := none }

/-- A namelist for three dimensions: the south boundary thermalizes, `thermT` and
`thermVelocity` are not defined. -/
def namelistSouth : SpeciesNamelist ℚ :=
  { bc_part_type_west := some "refl", bc_part_type_east := some "refl",
    bc_part_type_south := some "thermalize", bc_part_type_north := some "refl",
    thermT := none, thermVelocity := none, charge := none }

/-- A namelist whose west boundary thermalizes, with `thermT` of two components. -/
def namelistShortT : SpeciesNamelist ℚ :=
  { bc_part_type_west := some "thermalize", bc_part_type_east := some "refl",
    bc_part_type_south := none, bc_part_type_north := none,
    thermT := some [1 / 32, 1 / 32], thermVelocity := some [0, 0, 0], charge := none }

/-- A list of two species: an ionizable ion at index 0 and the species `electron` at
index 1. -/
def sampleRetSpecies (k : Nat) : Species ℚ :=
  if k = 0 then { sampleSpecies with Ionize := true }
  else { sampleSpecies with species_type := "electron" }

/-! ## `InterpolatorAM2Order::fieldsWrapper` -/

section Wrapper

variable {R : Type} [LinearOrderedField R]

end Wrapper

/-- A field state whose `Ey = j^2*k` and `Ez = j*k^2` do not depend on `i`, with
`Ex = i*j*k`, `Bx = j` and `By = Bz = 0`. -/
def sampleFieldsT : ElectroMagn ℚ :=
  { Ex_ := fun i j k => (i : ℚ) * j * k, Ey_ := fun _ j k => (j : ℚ) ^ 2 * k,
    Ez_ := fun _ j k => (j : ℚ) * k ^ 2,
    Bx_ := fun _ j _ => (j : ℚ), By_ := fun _ _ _ => 0, Bz_ := fun _ _ _ => 0 }

section LoopLemmas

variable {σ : Type}

theorem forLoopAux_inv (body : Nat → σ → σ) (I : σ → Prop)
    (hI : ∀ i st, I st → I (body i st)) :
    ∀ n i st, I st → I (forLoopAux body n i st) := by
  intro n
  induction n with
  | zero => intro i st h; exact h
  | succ n ih => intro i st h; exact ih (i + 1) (body i st) (hI i st h)

theorem forLoop_inv (lo hi : Nat) (body : Nat → σ → σ) (I : σ → Prop)
    (hI : ∀ i st, I st → I (body i st)) (st : σ) (h : I st) :
    I (forLoop lo hi body st) :=
  forLoopAux_inv body I hI (hi - lo) lo st h

theorem forLoopAux_point {M : Type} [AddCommMonoid M] (body : Nat → σ → σ) (I : σ → Prop)
    (val : σ → M) (a : Nat) (e : M)
    (hI : ∀ i st, I st → I (body i st))
    (hv : ∀ i st, I st → val (body i st) = val st + if a = i then e else 0) :
    ∀ n i st, I st →
      val (forLoopAux body n i st) = val st + if i ≤ a ∧ a < i + n then e else 0 := by
  intro n
  induction n with
  | zero =>
    intro i st _
    have hno : ¬ (i ≤ a ∧ a < i + 0) := by omega
    rw [if_neg hno, add_zero]
    rfl
  | succ n ih =>
    intro i st h
    have h1 := ih (i + 1) (body i st) (hI i st h)
    simp only [forLoopAux]
    rw [h1, hv i st h]
    by_cases hai : a = i
    · have c1 : ¬ (i + 1 ≤ a ∧ a < i + 1 + n) := by omega
      have c2 : i ≤ a ∧ a < i + (n + 1) := by omega
      simp [hai, c1, c2]
    · by_cases hr : i + 1 ≤ a ∧ a < i + 1 + n
      · have c2 : i ≤ a ∧ a < i + (n + 1) := by omega
        simp [hai, hr, c2]
      · have c2 : ¬ (i ≤ a ∧ a < i + (n + 1)) := by omega
        simp [hai, hr, c2]

theorem forLoop_point {M : Type} [AddCommMonoid M] (lo hi : Nat) (body : Nat → σ → σ)
    (I : σ → Prop) (val : σ → M) (a : Nat) (e : M)
    (hI : ∀ i st, I st → I (body i st))
    (hv : ∀ i st, I st → val (body i st) = val st + if a = i then e else 0)
    (st : σ) (h : I st) :
    val (forLoop lo hi body st) = val st + if lo ≤ a ∧ a < hi then e else 0 := by
  unfold forLoop
  rw [forLoopAux_point body I val a e hI hv (hi - lo) lo st h]
  by_cases hr : lo ≤ a ∧ a < hi
  · have c : lo ≤ a ∧ a < lo + (hi - lo) := by omega
    simp [hr, c]
  · have c : ¬ (lo ≤ a ∧ a < lo + (hi - lo)) := by omega
    simp [hr, c]

theorem nest2_point {M : Type} [AddCommMonoid M] (l2 h2 l3 h3 : Nat)
    (upd : Nat → Nat → σ → σ) (I : σ → Prop) (val : σ → M) (b c : Nat) (e : M)
    (hI : ∀ j k st, I st → I (upd j k st))
    (hv : ∀ j k st, I st → val (upd j k st) = val st + if b = j ∧ c = k then e else 0)
    (st : σ) (h : I st) :
    val (forLoop l2 h2 (fun j st => forLoop l3 h3 (fun k st => upd j k st) st) st)
      = val st + if (l2 ≤ b ∧ b < h2) ∧ (l3 ≤ c ∧ c < h3) then e else 0 := by
  have key := forLoop_point l2 h2 (fun j st => forLoop l3 h3 (fun k st => upd j k st) st)
    I val b (if l3 ≤ c ∧ c < h3 then e else 0)
    (fun j st hs => forLoop_inv l3 h3 _ I (fun k st hs => hI j k st hs) st hs)
    (fun j st hs => by
      have := forLoop_point l3 h3 (fun k st => upd j k st) I val c (if b = j then e else 0)
        (fun k st hs => hI j k st hs)
        (fun k st hs => by
          rw [hv j k st hs]
          by_cases hb : b = j <;> by_cases hc : c = k <;> simp [hb, hc])
        st hs
      rw [this]
      by_cases hb : b = j <;> by_cases hc : l3 ≤ c ∧ c < h3 <;> simp [hb, hc])
    st h
  rw [key]
  by_cases hb : l2 ≤ b ∧ b < h2 <;> by_cases hc : l3 ≤ c ∧ c < h3 <;> simp [hb, hc]

theorem nest3_point {M : Type} [AddCommMonoid M] (l1 h1 l2 h2 l3 h3 : Nat)
    (upd : Nat → Nat → Nat → σ → σ) (I : σ → Prop) (val : σ → M) (a b c : Nat) (e : M)
    (hI : ∀ i j k st, I st → I (upd i j k st))
    (hv : ∀ i j k st, I st →
      val (upd i j k st) = val st + if a = i ∧ b = j ∧ c = k then e else 0)
    (st : σ) (h : I st) :
    val (forLoop l1 h1 (fun i st =>
          forLoop l2 h2 (fun j st => forLoop l3 h3 (fun k st => upd i j k st) st) st) st)
      = val st + if (l1 ≤ a ∧ a < h1) ∧ (l2 ≤ b ∧ b < h2) ∧ (l3 ≤ c ∧ c < h3)
          then e else 0 := by
  have key := forLoop_point l1 h1
    (fun i st => forLoop l2 h2 (fun j st => forLoop l3 h3 (fun k st => upd i j k st) st) st)
    I val a (if (l2 ≤ b ∧ b < h2) ∧ (l3 ≤ c ∧ c < h3) then e else 0)
    (fun i st hs => forLoop_inv l2 h2 _ I
      (fun j st hs => forLoop_inv l3 h3 _ I (fun k st hs => hI i j k st hs) st hs) st hs)
    (fun i st hs => by
      have := nest2_point l2 h2 l3 h3 (fun j k st => upd i j k st) I val b c
        (if a = i then e else 0)
        (fun j k st hs => hI i j k st hs)
        (fun j k st hs => by
          rw [hv i j k st hs]
          by_cases ha : a = i <;> by_cases hb : b = j ∧ c = k <;> simp [ha, hb])
        st hs
      rw [this]
      by_cases ha : a = i <;> by_cases hc : (l2 ≤ b ∧ b < h2) ∧ (l3 ≤ c ∧ c < h3) <;>
        simp [ha, hc])
    st h
  rw [key]
  by_cases ha : l1 ≤ a ∧ a < h1 <;> by_cases hc : (l2 ≤ b ∧ b < h2) ∧ (l3 ≤ c ∧ c < h3) <;>
    simp [ha, hc]

end LoopLemmas

/-! ## Closed form of the solver passes -/

section SolverLemmas

variable {R : Type} [CommRing R]

theorem nest2_inv {σ : Type} (l2 h2 l3 h3 : Nat) (upd : Nat → Nat → σ → σ) (I : σ → Prop)
    (hI : ∀ j k st, I st → I (upd j k st)) (st : σ) (h : I st) :
    I (forLoop l2 h2 (fun j st => forLoop l3 h3 (fun k st => upd j k st) st) st) :=
  forLoop_inv l2 h2 _ I
    (fun j st hs => forLoop_inv l3 h3 _ I (fun k st hs => hI j k st hs) st hs) st h

theorem nest3_inv {σ : Type} (l1 h1 l2 h2 l3 h3 : Nat) (upd : Nat → Nat → Nat → σ → σ)
    (I : σ → Prop) (hI : ∀ i j k st, I st → I (upd i j k st)) (st : σ) (h : I st) :
    I (forLoop l1 h1 (fun i st =>
        forLoop l2 h2 (fun j st => forLoop l3 h3 (fun k st => upd i j k st) st) st) st) :=
  forLoop_inv l1 h1 _ I
    (fun i st hs => nest2_inv l2 h2 l3 h3 (fun j k st => upd i j k st) I
      (fun j k st hs => hI i j k st hs) st hs) st h

theorem stencilBx_congr (s : MF_Solver3D_Lehe R) {f g : ElectroMagn R} (h : SameE g f) :
    s.stencilBx g = s.stencilBx f := by
  obtain ⟨h1, h2, h3⟩ := h
  funext i j k
  simp only [MF_Solver3D_Lehe.stencilBx, h1, h2, h3]

theorem stencilBy_congr (s : MF_Solver3D_Lehe R) {f g : ElectroMagn R} (h : SameE g f) :
    s.stencilBy g = s.stencilBy f := by
  obtain ⟨h1, h2, h3⟩ := h
  funext i j k
  simp only [MF_Solver3D_Lehe.stencilBy, h1, h2, h3]

theorem stencilBz_congr (s : MF_Solver3D_Lehe R) {f g : ElectroMagn R} (h : SameE g f) :
    s.stencilBz g = s.stencilBz f := by
  obtain ⟨h1, h2, h3⟩ := h
  funext i j k
  simp only [MF_Solver3D_Lehe.stencilBz, h1, h2, h3]

theorem edgeBx_congr (s : MF_Solver3D_Lehe R) {f g : ElectroMagn R} (h : SameE g f) :
    s.edgeBx g = s.edgeBx f := by
  obtain ⟨h1, h2, h3⟩ := h
  funext i j k
  simp only [MF_Solver3D_Lehe.edgeBx, h1, h2, h3]

theorem edgeBy_congr (s : MF_Solver3D_Lehe R) {f g : ElectroMagn R} (h : SameE g f) :
    s.edgeBy g = s.edgeBy f := by
  obtain ⟨h1, h2, h3⟩ := h
  funext i im j k
  simp only [MF_Solver3D_Lehe.edgeBy, h1, h2, h3]

theorem edgeBz_congr (s : MF_Solver3D_Lehe R) {f g : ElectroMagn R} (h : SameE g f) :
    s.edgeBz g = s.edgeBz f := by
  obtain ⟨h1, h2, h3⟩ := h
  funext i im j k
  simp only [MF_Solver3D_Lehe.edgeBz, h1, h2, h3]

theorem addBx_frame (f : ElectroMagn R) (g : ElectroMagn R) (i j k : Nat) (v : R)
    (h : SameE g f ∧ g.By_ = f.By_ ∧ g.Bz_ = f.Bz_) :
    SameE (g.addBx i j k v) f ∧ (g.addBx i j k v).By_ = f.By_ ∧ (g.addBx i j k v).Bz_ = f.Bz_ :=
  h

theorem addBy_frame (f : ElectroMagn R) (g : ElectroMagn R) (i j k : Nat) (v : R)
    (h : SameE g f ∧ g.Bx_ = f.Bx_ ∧ g.Bz_ = f.Bz_) :
    SameE (g.addBy i j k v) f ∧ (g.addBy i j k v).Bx_ = f.Bx_ ∧ (g.addBy i j k v).Bz_ = f.Bz_ :=
  h

theorem addBz_frame (f : ElectroMagn R) (g : ElectroMagn R) (i j k : Nat) (v : R)
    (h : SameE g f ∧ g.Bx_ = f.Bx_ ∧ g.By_ = f.By_) :
    SameE (g.addBz i j k v) f ∧ (g.addBz i j k v).Bx_ = f.Bx_ ∧ (g.addBz i j k v).By_ = f.By_ :=
  h

theorem add_at3 (F : Field3D R) (i j k a b c : Nat) (v : R) :
    F.add i j k v a b c = F a b c + if a = i ∧ b = j ∧ c = k then v else 0 := by
  unfold Field3D.add
  by_cases h : a = i ∧ b = j ∧ c = k <;> simp [h]

theorem interiorBx_eq (s : MF_Solver3D_Lehe R) (f : ElectroMagn R) :
    s.interiorBx f =
      { f with
        Bx_ := fun a b c => f.Bx_ a b c +
          if (1 ≤ a ∧ a < usub s.nx_p 1) ∧ (1 ≤ b ∧ b < usub s.ny_d 1) ∧
              (1 ≤ c ∧ c < usub s.nz_d 1) then
            s.stencilBx f a b c else 0 } := by
  have hf : SameE f f ∧ f.By_ = f.By_ ∧ f.Bz_ = f.Bz_ := ⟨⟨rfl, rfl, rfl⟩, rfl, rfl⟩
  have inv := nest3_inv 1 (usub s.nx_p 1) 1 (usub s.ny_d 1) 1 (usub s.nz_d 1)
    (fun i j k (g : ElectroMagn R) => g.addBx i j k (s.stencilBx g i j k))
    (fun (g : ElectroMagn R) => SameE g f ∧ g.By_ = f.By_ ∧ g.Bz_ = f.Bz_)
    (fun i j k g hg => addBx_frame f g i j k (s.stencilBx g i j k) hg) f hf
  obtain ⟨⟨e1, e2, e3⟩, e4, e5⟩ := inv
  refine ElectroMagn.ext e1 e2 e3 ?_ e4 e5
  funext a b c
  have key := nest3_point 1 (usub s.nx_p 1) 1 (usub s.ny_d 1) 1 (usub s.nz_d 1)
    (fun i j k (g : ElectroMagn R) => g.addBx i j k (s.stencilBx g i j k))
    (fun (g : ElectroMagn R) => SameE g f ∧ g.By_ = f.By_ ∧ g.Bz_ = f.Bz_)
    (fun (g : ElectroMagn R) => g.Bx_ a b c) a b c (s.stencilBx f a b c)
    (fun i j k g hg => addBx_frame f g i j k (s.stencilBx g i j k) hg)
    (fun i j k g hg => by
      show (g.Bx_.add i j k (s.stencilBx g i j k)) a b c = _
      rw [add_at3, stencilBx_congr s hg.1]
      by_cases h : a = i ∧ b = j ∧ c = k
      · obtain ⟨rfl, rfl, rfl⟩ := h
        simp
      · simp [h])
    f hf
  beta_reduce at key
  unfold MF_Solver3D_Lehe.interiorBx
  exact key.trans rfl

theorem interiorBy_eq (s : MF_Solver3D_Lehe R) (f : ElectroMagn R) :
    s.interiorBy f =
      { f with
        By_ := fun a b c => f.By_ a b c +
          if (2 ≤ a ∧ a < usub s.nx_d 2) ∧ (1 ≤ b ∧ b < usub s.ny_p 1) ∧
              (1 ≤ c ∧ c < usub s.nz_d 1) then
            s.stencilBy f a b c else 0 } := by
  have hf : SameE f f ∧ f.Bx_ = f.Bx_ ∧ f.Bz_ = f.Bz_ := ⟨⟨rfl, rfl, rfl⟩, rfl, rfl⟩
  have inv := nest3_inv 2 (usub s.nx_d 2) 1 (usub s.ny_p 1) 1 (usub s.nz_d 1)
    (fun i j k (g : ElectroMagn R) => g.addBy i j k (s.stencilBy g i j k))
    (fun (g : ElectroMagn R) => SameE g f ∧ g.Bx_ = f.Bx_ ∧ g.Bz_ = f.Bz_)
    (fun i j k g hg => addBy_frame f g i j k (s.stencilBy g i j k) hg) f hf
  obtain ⟨⟨e1, e2, e3⟩, e4, e5⟩ := inv
  refine ElectroMagn.ext e1 e2 e3 e4 ?_ e5
  funext a b c
  have key := nest3_point 2 (usub s.nx_d 2) 1 (usub s.ny_p 1) 1 (usub s.nz_d 1)
    (fun i j k (g : ElectroMagn R) => g.addBy i j k (s.stencilBy g i j k))
    (fun (g : ElectroMagn R) => SameE g f ∧ g.Bx_ = f.Bx_ ∧ g.Bz_ = f.Bz_)
    (fun (g : ElectroMagn R) => g.By_ a b c) a b c (s.stencilBy f a b c)
    (fun i j k g hg => addBy_frame f g i j k (s.stencilBy g i j k) hg)
    (fun i j k g hg => by
      show (g.By_.add i j k (s.stencilBy g i j k)) a b c = _
      rw [add_at3, stencilBy_congr s hg.1]
      by_cases h : a = i ∧ b = j ∧ c = k
      · obtain ⟨rfl, rfl, rfl⟩ := h
        simp
      · simp [h])
    f hf
  beta_reduce at key
  unfold MF_Solver3D_Lehe.interiorBy
  exact key.trans rfl

theorem interiorBz_eq (s : MF_Solver3D_Lehe R) (f : ElectroMagn R) :
    s.interiorBz f =
      { f with
        Bz_ := fun a b c => f.Bz_ a b c +
          if (2 ≤ a ∧ a < usub s.nx_d 2) ∧ (1 ≤ b ∧ b < usub s.ny_d 1) ∧
              (1 ≤ c ∧ c < usub s.nz_p 1) then
            s.stencilBz f a b c else 0 } := by
  have hf : SameE f f ∧ f.Bx_ = f.Bx_ ∧ f.By_ = f.By_ := ⟨⟨rfl, rfl, rfl⟩, rfl, rfl⟩
  have inv := nest3_inv 2 (usub s.nx_d 2) 1 (usub s.ny_d 1) 1 (usub s.nz_p 1)
    (fun i j k (g : ElectroMagn R) => g.addBz i j k (s.stencilBz g i j k))
    (fun (g : ElectroMagn R) => SameE g f ∧ g.Bx_ = f.Bx_ ∧ g.By_ = f.By_)
    (fun i j k g hg => addBz_frame f g i j k (s.stencilBz g i j k) hg) f hf
  obtain ⟨⟨e1, e2, e3⟩, e4, e5⟩ := inv
  refine ElectroMagn.ext e1 e2 e3 e4 e5 ?_
  funext a b c
  have key := nest3_point 2 (usub s.nx_d 2) 1 (usub s.ny_d 1) 1 (usub s.nz_p 1)
    (fun i j k (g : ElectroMagn R) => g.addBz i j k (s.stencilBz g i j k))
    (fun (g : ElectroMagn R) => SameE g f ∧ g.Bx_ = f.Bx_ ∧ g.By_ = f.By_)
    (fun (g : ElectroMagn R) => g.Bz_ a b c) a b c (s.stencilBz f a b c)
    (fun i j k g hg => addBz_frame f g i j k (s.stencilBz g i j k) hg)
    (fun i j k g hg => by
      show (g.Bz_.add i j k (s.stencilBz g i j k)) a b c = _
      rw [add_at3, stencilBz_congr s hg.1]
      by_cases h : a = i ∧ b = j ∧ c = k
      · obtain ⟨rfl, rfl, rfl⟩ := h
        simp
      · simp [h])
    f hf
  beta_reduce at key
  unfold MF_Solver3D_Lehe.interiorBz
  exact key.trans rfl

theorem boundaryBx_eq (s : MF_Solver3D_Lehe R) (i0 : Nat) (f : ElectroMagn R) :
    s.boundaryBx i0 f =
      { f with
        Bx_ := fun a b c => f.Bx_ a b c +
          if a = i0 ∧ (1 ≤ b ∧ b < usub s.ny_d 1) ∧ (1 ≤ c ∧ c < usub s.nz_d 1) then
            s.edgeBx f i0 b c else 0 } := by
  have hf : SameE f f ∧ f.By_ = f.By_ ∧ f.Bz_ = f.Bz_ := ⟨⟨rfl, rfl, rfl⟩, rfl, rfl⟩
  have inv := nest2_inv 1 (usub s.ny_d 1) 1 (usub s.nz_d 1)
    (fun j k (g : ElectroMagn R) => g.addBx i0 j k (s.edgeBx g i0 j k))
    (fun (g : ElectroMagn R) => SameE g f ∧ g.By_ = f.By_ ∧ g.Bz_ = f.Bz_)
    (fun j k g hg => addBx_frame f g i0 j k (s.edgeBx g i0 j k) hg) f hf
  obtain ⟨⟨e1, e2, e3⟩, e4, e5⟩ := inv
  refine ElectroMagn.ext e1 e2 e3 ?_ e4 e5
  funext a b c
  have key := nest2_point 1 (usub s.ny_d 1) 1 (usub s.nz_d 1)
    (fun j k (g : ElectroMagn R) => g.addBx i0 j k (s.edgeBx g i0 j k))
    (fun (g : ElectroMagn R) => SameE g f ∧ g.By_ = f.By_ ∧ g.Bz_ = f.Bz_)
    (fun (g : ElectroMagn R) => g.Bx_ a b c) b c (if a = i0 then s.edgeBx f i0 b c else 0)
    (fun j k g hg => addBx_frame f g i0 j k (s.edgeBx g i0 j k) hg)
    (fun j k g hg => by
      show (g.Bx_.add i0 j k (s.edgeBx g i0 j k)) a b c = _
      rw [add_at3, edgeBx_congr s hg.1]
      by_cases h : b = j ∧ c = k
      · obtain ⟨rfl, rfl⟩ := h
        by_cases ha : a = i0 <;> simp [ha]
      · by_cases ha : a = i0 <;> simp [ha, h])
    f hf
  beta_reduce at key
  unfold MF_Solver3D_Lehe.boundaryBx
  refine key.trans ?_
  show f.Bx_ a b c + _ = f.Bx_ a b c + _
  by_cases ha : a = i0 <;>
    by_cases hb : (1 ≤ b ∧ b < usub s.ny_d 1) ∧ (1 ≤ c ∧ c < usub s.nz_d 1) <;>
    simp [ha, hb]

theorem boundaryBy_eq (s : MF_Solver3D_Lehe R) (i0 im : Nat) (f : ElectroMagn R) :
    s.boundaryBy i0 im f =
      { f with
        By_ := fun a b c => f.By_ a b c +
          if a = i0 ∧ (0 ≤ b ∧ b < s.ny_p) ∧ (2 ≤ c ∧ c < usub s.nz_d 2) then
            s.edgeBy f i0 im b c else 0 } := by
  have hf : SameE f f ∧ f.Bx_ = f.Bx_ ∧ f.Bz_ = f.Bz_ := ⟨⟨rfl, rfl, rfl⟩, rfl, rfl⟩
  have inv := nest2_inv 0 s.ny_p 2 (usub s.nz_d 2)
    (fun j k (g : ElectroMagn R) => g.addBy i0 j k (s.edgeBy g i0 im j k))
    (fun (g : ElectroMagn R) => SameE g f ∧ g.Bx_ = f.Bx_ ∧ g.Bz_ = f.Bz_)
    (fun j k g hg => addBy_frame f g i0 j k (s.edgeBy g i0 im j k) hg) f hf
  obtain ⟨⟨e1, e2, e3⟩, e4, e5⟩ := inv
  refine ElectroMagn.ext e1 e2 e3 e4 ?_ e5
  funext a b c
  have key := nest2_point 0 s.ny_p 2 (usub s.nz_d 2)
    (fun j k (g : ElectroMagn R) => g.addBy i0 j k (s.edgeBy g i0 im j k))
    (fun (g : ElectroMagn R) => SameE g f ∧ g.Bx_ = f.Bx_ ∧ g.Bz_ = f.Bz_)
    (fun (g : ElectroMagn R) => g.By_ a b c) b c (if a = i0 then s.edgeBy f i0 im b c else 0)
    (fun j k g hg => addBy_frame f g i0 j k (s.edgeBy g i0 im j k) hg)
    (fun j k g hg => by
      show (g.By_.add i0 j k (s.edgeBy g i0 im j k)) a b c = _
      rw [add_at3, edgeBy_congr s hg.1]
      by_cases h : b = j ∧ c = k
      · obtain ⟨rfl, rfl⟩ := h
        by_cases ha : a = i0 <;> simp [ha]
      · by_cases ha : a = i0 <;> simp [ha, h])
    f hf
  beta_reduce at key
  unfold MF_Solver3D_Lehe.boundaryBy
  refine key.trans ?_
  show f.By_ a b c + _ = f.By_ a b c + _
  by_cases ha : a = i0 <;>
    by_cases hb : (0 ≤ b ∧ b < s.ny_p) ∧ (2 ≤ c ∧ c < usub s.nz_d 2) <;>
    simp [ha, hb]

theorem boundaryBz_eq (s : MF_Solver3D_Lehe R) (i0 im : Nat) (f : ElectroMagn R) :
    s.boundaryBz i0 im f =
      { f with
        Bz_ := fun a b c => f.Bz_ a b c +
          if a = i0 ∧ (2 ≤ b ∧ b < usub s.ny_d 2) ∧ (0 ≤ c ∧ c < s.nz_p) then
            s.edgeBz f i0 im b c else 0 } := by
  have hf : SameE f f ∧ f.Bx_ = f.Bx_ ∧ f.By_ = f.By_ := ⟨⟨rfl, rfl, rfl⟩, rfl, rfl⟩
  have inv := nest2_inv 2 (usub s.ny_d 2) 0 s.nz_p
    (fun j k (g : ElectroMagn R) => g.addBz i0 j k (s.edgeBz g i0 im j k))
    (fun (g : ElectroMagn R) => SameE g f ∧ g.Bx_ = f.Bx_ ∧ g.By_ = f.By_)
    (fun j k g hg => addBz_frame f g i0 j k (s.edgeBz g i0 im j k) hg) f hf
  obtain ⟨⟨e1, e2, e3⟩, e4, e5⟩ := inv
  refine ElectroMagn.ext e1 e2 e3 e4 e5 ?_
  funext a b c
  have key := nest2_point 2 (usub s.ny_d 2) 0 s.nz_p
    (fun j k (g : ElectroMagn R) => g.addBz i0 j k (s.edgeBz g i0 im j k))
    (fun (g : ElectroMagn R) => SameE g f ∧ g.Bx_ = f.Bx_ ∧ g.By_ = f.By_)
    (fun (g : ElectroMagn R) => g.Bz_ a b c) b c (if a = i0 then s.edgeBz f i0 im b c else 0)
    (fun j k g hg => addBz_frame f g i0 j k (s.edgeBz g i0 im j k) hg)
    (fun j k g hg => by
      show (g.Bz_.add i0 j k (s.edgeBz g i0 im j k)) a b c = _
      rw [add_at3, edgeBz_congr s hg.1]
      by_cases h : b = j ∧ c = k
      · obtain ⟨rfl, rfl⟩ := h
        by_cases ha : a = i0 <;> simp [ha]
      · by_cases ha : a = i0 <;> simp [ha, h])
    f hf
  beta_reduce at key
  unfold MF_Solver3D_Lehe.boundaryBz
  refine key.trans ?_
  show f.Bz_ a b c + _ = f.Bz_ a b c + _
  by_cases ha : a = i0 <;>
    by_cases hb : (2 ≤ b ∧ b < usub s.ny_d 2) ∧ (0 ≤ c ∧ c < s.nz_p) <;>
    simp [ha, hb]

end SolverLemmas

/-! ## Closed form of one solver call -/

section SolverClosedForm

variable {R : Type} [CommRing R]

theorem usub_of_le {a b : Nat} (h : b ≤ a) (ha : a < UINT_MOD) : usub a b = a - b := by
  unfold usub
  rw [if_pos h]
  exact Nat.mod_eq_of_lt (by omega)

theorem usub_lt (a b : Nat) : usub a b < UINT_MOD := by
  unfold usub
  have hpos : 0 < UINT_MOD := by unfold UINT_MOD; norm_num
  split_ifs <;> exact Nat.mod_lt _ hpos

theorem uadd_of_lt {a b : Nat} (h : a + b < UINT_MOD) : uadd a b = a + b := by
  unfold uadd
  exact Nat.mod_eq_of_lt h

theorem apply_E (s : MF_Solver3D_Lehe R) (f : ElectroMagn R) :
    (s.apply f).Ex_ = f.Ex_ ∧ (s.apply f).Ey_ = f.Ey_ ∧ (s.apply f).Ez_ = f.Ez_ := by
  simp only [MF_Solver3D_Lehe.apply, interiorBx_eq, interiorBy_eq, interiorBz_eq,
    boundaryBx_eq, boundaryBy_eq, boundaryBz_eq]
  exact ⟨trivial, trivial, trivial⟩

theorem apply_Bx (s : MF_Solver3D_Lehe R) (f : ElectroMagn R) (a b c : Nat) :
    (s.apply f).Bx_ a b c = f.Bx_ a b c + s.incBx f a b c := by
  simp only [MF_Solver3D_Lehe.apply, interiorBx_eq, interiorBy_eq, interiorBz_eq,
    boundaryBx_eq, boundaryBy_eq, boundaryBz_eq, MF_Solver3D_Lehe.incBx]
  simp only [MF_Solver3D_Lehe.edgeBx, add_assoc]

theorem apply_By (s : MF_Solver3D_Lehe R) (f : ElectroMagn R) (a b c : Nat) :
    (s.apply f).By_ a b c = f.By_ a b c + s.incBy f a b c := by
  simp only [MF_Solver3D_Lehe.apply, interiorBx_eq, interiorBy_eq, interiorBz_eq,
    boundaryBx_eq, boundaryBy_eq, boundaryBz_eq, MF_Solver3D_Lehe.incBy]
  simp only [MF_Solver3D_Lehe.edgeBy, MF_Solver3D_Lehe.stencilBy, add_assoc]

theorem apply_Bz (s : MF_Solver3D_Lehe R) (f : ElectroMagn R) (a b c : Nat) :
    (s.apply f).Bz_ a b c = f.Bz_ a b c + s.incBz f a b c := by
  simp only [MF_Solver3D_Lehe.apply, interiorBx_eq, interiorBy_eq, interiorBz_eq,
    boundaryBx_eq, boundaryBy_eq, boundaryBz_eq, MF_Solver3D_Lehe.incBz]
  simp only [MF_Solver3D_Lehe.edgeBz, MF_Solver3D_Lehe.stencilBz, add_assoc]

end SolverClosedForm

/-! ## Claims on the solver -/

section SolverClaims

variable {R : Type} [CommRing R]

theorem stencilBx_yee (s : MF_Solver3D_Lehe R) (f : ElectroMagn R)
    (hay : s.alpha_y = 1) (hbyx : s.beta_yx = 0) (i j k : Nat)
    (hj : 1 ≤ j ∧ j < UINT_MOD) (hk : 1 ≤ k ∧ k < UINT_MOD) :
    s.stencilBx f i j k = yeeBx s.dt_ov_dy s.dt_ov_dz f i j k := by
  unfold MF_Solver3D_Lehe.stencilBx yeeBx
  rw [hay, hbyx, usub_of_le hj.1 hj.2, usub_of_le hk.1 hk.2]
  ring

theorem stencilBy_yee (s : MF_Solver3D_Lehe R) (f : ElectroMagn R)
    (hax : s.alpha_x = 1) (hay : s.alpha_y = 1) (hbyx : s.beta_yx = 0) (hbxy : s.beta_xy = 0)
    (hbxz : s.beta_xz = 0) (hd : s.delta_x = 0) (i j k : Nat)
    (hi : 1 ≤ i ∧ i < UINT_MOD) (hk : 1 ≤ k ∧ k < UINT_MOD) :
    s.stencilBy f i j k = yeeBy s.dt_ov_dx s.dt_ov_dz f i j k := by
  unfold MF_Solver3D_Lehe.stencilBy yeeBy
  rw [hax, hay, hbyx, hbxy, hbxz, hd, usub_of_le hi.1 hi.2, usub_of_le hk.1 hk.2]
  ring

theorem stencilBz_yee (s : MF_Solver3D_Lehe R) (f : ElectroMagn R)
    (hax : s.alpha_x = 1) (hay : s.alpha_y = 1) (hbyx : s.beta_yx = 0) (hbxy : s.beta_xy = 0)
    (hbxz : s.beta_xz = 0) (hd : s.delta_x = 0) (i j k : Nat)
    (hi : 1 ≤ i ∧ i < UINT_MOD) (hj : 1 ≤ j ∧ j < UINT_MOD) :
    s.stencilBz f i j k = yeeBz s.dt_ov_dx s.dt_ov_dy f i j k := by
  unfold MF_Solver3D_Lehe.stencilBz yeeBz
  rw [hax, hay, hbyx, hbxy, hbxz, hd, usub_of_le hi.1 hi.2, usub_of_le hj.1 hj.2]
  ring

theorem edgeBx_yee (s : MF_Solver3D_Lehe R) (f : ElectroMagn R) (i j k : Nat)
    (hj : 1 ≤ j ∧ j < UINT_MOD) (hk : 1 ≤ k ∧ k < UINT_MOD) :
    s.edgeBx f i j k = yeeBx s.dt_ov_dy s.dt_ov_dz f i j k := by
  unfold MF_Solver3D_Lehe.edgeBx yeeBx
  rw [usub_of_le hj.1 hj.2, usub_of_le hk.1 hk.2]

theorem edgeBy_yee (s : MF_Solver3D_Lehe R) (f : ElectroMagn R) (i j k : Nat)
    (hk : 1 ≤ k ∧ k < UINT_MOD) :
    s.edgeBy f i (i - 1) j k = yeeBy s.dt_ov_dx s.dt_ov_dz f i j k := by
  unfold MF_Solver3D_Lehe.edgeBy yeeBy
  rw [usub_of_le hk.1 hk.2]

theorem edgeBz_yee (s : MF_Solver3D_Lehe R) (f : ElectroMagn R) (i j k : Nat)
    (hj : 1 ≤ j ∧ j < UINT_MOD) :
    s.edgeBz f i (i - 1) j k = yeeBz s.dt_ov_dx s.dt_ov_dy f i j k := by
  unfold MF_Solver3D_Lehe.edgeBz yeeBz
  rw [usub_of_le hj.1 hj.2]
  ring

/-- C1: with `alpha_x = alpha_y = 1` and `beta_yx = beta_xy = beta_xz = delta_x = 0`, one
call of `operator()` adds, at every point of the interior loop nests, exactly the plain
2-point (Yee) curl to `Bx`, `By` and `Bz`. -/
theorem C1_yee_coefficients_give_plain_curl (s : MF_Solver3D_Lehe R) (f : ElectroMagn R)
    (hax : s.alpha_x = 1) (hay : s.alpha_y = 1) (hbyx : s.beta_yx = 0)
    (hbxy : s.beta_xy = 0) (hbxz : s.beta_xz = 0) (hd : s.delta_x = 0) (i j k : Nat) :
    (s.inInteriorBx i j k →
      (s.apply f).Bx_ i j k = f.Bx_ i j k + yeeBx s.dt_ov_dy s.dt_ov_dz f i j k) ∧
    (s.inInteriorBy i j k →
      (s.apply f).By_ i j k = f.By_ i j k + yeeBy s.dt_ov_dx s.dt_ov_dz f i j k) ∧
    (s.inInteriorBz i j k →
      (s.apply f).Bz_ i j k = f.Bz_ i j k + yeeBz s.dt_ov_dx s.dt_ov_dy f i j k) := by
  refine ⟨?_, ?_, ?_⟩
  · intro h
    have h' := h
    obtain ⟨⟨hi1, hi2⟩, ⟨hj1, hj2⟩, ⟨hk1, hk2⟩⟩ := h'
    have bj := usub_lt s.ny_d 1
    have bk := usub_lt s.nz_d 1
    have n0 : ¬ (i = 0 ∧ (1 ≤ j ∧ j < usub s.ny_d 1) ∧ (1 ≤ k ∧ k < usub s.nz_d 1)) := by
      omega
    have n1 : ¬ (i = usub s.nx_p 1 ∧ (1 ≤ j ∧ j < usub s.ny_d 1) ∧
        (1 ≤ k ∧ k < usub s.nz_d 1)) := by omega
    rw [apply_Bx, MF_Solver3D_Lehe.incBx, if_pos ⟨⟨hi1, hi2⟩, ⟨hj1, hj2⟩, ⟨hk1, hk2⟩⟩, if_neg n0, if_neg n1, add_zero, add_zero,
      stencilBx_yee s f hay hbyx i j k ⟨hj1, by omega⟩ ⟨hk1, by omega⟩]
  · intro h
    have h' := h
    obtain ⟨⟨hi1, hi2⟩, ⟨hj1, hj2⟩, ⟨hk1, hk2⟩⟩ := h'
    have bi := usub_lt s.nx_d 2
    have bk := usub_lt s.nz_d 1
    have n0 : ¬ (i = 1 ∧ (0 ≤ j ∧ j < s.ny_p) ∧ (2 ≤ k ∧ k < usub s.nz_d 2)) := by omega
    have n1 : ¬ (i = usub s.nx_d 2 ∧ (0 ≤ j ∧ j < s.ny_p) ∧
        (2 ≤ k ∧ k < usub s.nz_d 2)) := by omega
    rw [apply_By, MF_Solver3D_Lehe.incBy, if_pos ⟨⟨hi1, hi2⟩, ⟨hj1, hj2⟩, ⟨hk1, hk2⟩⟩, if_neg n0, if_neg n1, add_zero, add_zero,
      stencilBy_yee s f hax hay hbyx hbxy hbxz hd i j k ⟨by omega, by omega⟩ ⟨hk1, by omega⟩]
  · intro h
    have h' := h
    obtain ⟨⟨hi1, hi2⟩, ⟨hj1, hj2⟩, ⟨hk1, hk2⟩⟩ := h'
    have bi := usub_lt s.nx_d 2
    have bj := usub_lt s.ny_d 1
    have n0 : ¬ (i = 1 ∧ (2 ≤ j ∧ j < usub s.ny_d 2) ∧ (0 ≤ k ∧ k < s.nz_p)) := by omega
    have n1 : ¬ (i = usub s.nx_d 2 ∧ (2 ≤ j ∧ j < usub s.ny_d 2) ∧
        (0 ≤ k ∧ k < s.nz_p)) := by omega
    rw [apply_Bz, MF_Solver3D_Lehe.incBz, if_pos ⟨⟨hi1, hi2⟩, ⟨hj1, hj2⟩, ⟨hk1, hk2⟩⟩, if_neg n0, if_neg n1, add_zero, add_zero,
      stencilBz_yee s f hax hay hbyx hbxy hbxz hd i j k ⟨by omega, by omega⟩ ⟨hj1, by omega⟩]

end SolverClaims

section SolverClaims2

variable {R : Type} [CommRing R]

theorem apply_Bx_edge (s : MF_Solver3D_Lehe R) (f : ElectroMagn R)
    (hwf : s.toSolver3D.WF) (hnx : 2 ≤ s.nx_p) (j k : Nat)
    (hj : 1 ≤ j ∧ j + 1 < s.ny_d) (hk : 1 ≤ k ∧ k + 1 < s.nz_d) :
    (s.apply f).Bx_ 0 j k = f.Bx_ 0 j k + yeeBx s.dt_ov_dy s.dt_ov_dz f 0 j k ∧
    (s.apply f).Bx_ (s.nx_p - 1) j k
      = f.Bx_ (s.nx_p - 1) j k + yeeBx s.dt_ov_dy s.dt_ov_dz f (s.nx_p - 1) j k := by
  obtain ⟨wx, -, -, -, wy, wz⟩ := hwf
  have ex : usub s.nx_p 1 = s.nx_p - 1 := usub_of_le (by omega) wx
  have ey : usub s.ny_d 1 = s.ny_d - 1 := usub_of_le (by omega) wy
  have ez : usub s.nz_d 1 = s.nz_d - 1 := usub_of_le (by omega) wz
  have hjk : (1 ≤ j ∧ j < s.ny_d - 1) ∧ (1 ≤ k ∧ k < s.nz_d - 1) := by omega
  constructor
  · have c0 : ¬ ((1 ≤ 0 ∧ 0 < s.nx_p - 1) ∧ (1 ≤ j ∧ j < s.ny_d - 1) ∧
        (1 ≤ k ∧ k < s.nz_d - 1)) := by omega
    have c1 : (0 = 0 ∧ (1 ≤ j ∧ j < s.ny_d - 1) ∧ (1 ≤ k ∧ k < s.nz_d - 1)) := by omega
    have c2 : ¬ (0 = s.nx_p - 1 ∧ (1 ≤ j ∧ j < s.ny_d - 1) ∧ (1 ≤ k ∧ k < s.nz_d - 1)) := by
      omega
    rw [apply_Bx, MF_Solver3D_Lehe.incBx, ex, ey, ez, if_neg c0, if_pos c1, if_neg c2,
      edgeBx_yee s f 0 j k ⟨hj.1, by omega⟩ ⟨hk.1, by omega⟩]
    ring
  · have c0 : ¬ ((1 ≤ s.nx_p - 1 ∧ s.nx_p - 1 < s.nx_p - 1) ∧ (1 ≤ j ∧ j < s.ny_d - 1) ∧
        (1 ≤ k ∧ k < s.nz_d - 1)) := by omega
    have c1 : ¬ (s.nx_p - 1 = 0 ∧ (1 ≤ j ∧ j < s.ny_d - 1) ∧ (1 ≤ k ∧ k < s.nz_d - 1)) := by
      omega
    have c2 : (s.nx_p - 1 = s.nx_p - 1 ∧ (1 ≤ j ∧ j < s.ny_d - 1) ∧
        (1 ≤ k ∧ k < s.nz_d - 1)) := by omega
    rw [apply_Bx, MF_Solver3D_Lehe.incBx, ex, ey, ez, if_neg c0, if_neg c1, if_pos c2,
      edgeBx_yee s f (s.nx_p - 1) j k ⟨hj.1, by omega⟩ ⟨hk.1, by omega⟩]
    ring

/-- C8: for `nx_p >= 2`, `j` in `[1, ny_d-1)` and `k` in `[1, nz_d-1)`, one call of
`operator()` leaves in `Bx(0,j,k)` and `Bx(nx_p-1,j,k)` the old value plus the plain 2-point
curl `-dt_ov_dy*(Ez(i,j,k)-Ez(i,j-1,k)) + dt_ov_dz*(Ey(i,j,k)-Ey(i,j,k-1))`; a solver `t`
with the same extents and time-step ratios but any other `alpha`, `beta`, `delta`
coefficients gives the same two values. -/
theorem C8_edge_fallback_Bx (s t : MF_Solver3D_Lehe R) (f : ElectroMagn R)
    (hwf : s.toSolver3D.WF) (hnx : 2 ≤ s.nx_p) (ht : t.toSolver3D = s.toSolver3D) (j k : Nat)
    (hj : 1 ≤ j ∧ j + 1 < s.ny_d) (hk : 1 ≤ k ∧ k + 1 < s.nz_d) :
    (s.apply f).Bx_ 0 j k
        = f.Bx_ 0 j k - s.dt_ov_dy * (f.Ez_ 0 j k - f.Ez_ 0 (j - 1) k)
            + s.dt_ov_dz * (f.Ey_ 0 j k - f.Ey_ 0 j (k - 1)) ∧
    (s.apply f).Bx_ (s.nx_p - 1) j k
        = f.Bx_ (s.nx_p - 1) j k
            - s.dt_ov_dy * (f.Ez_ (s.nx_p - 1) j k - f.Ez_ (s.nx_p - 1) (j - 1) k)
            + s.dt_ov_dz * (f.Ey_ (s.nx_p - 1) j k - f.Ey_ (s.nx_p - 1) j (k - 1)) ∧
    (t.apply f).Bx_ 0 j k = (s.apply f).Bx_ 0 j k ∧
    (t.apply f).Bx_ (s.nx_p - 1) j k = (s.apply f).Bx_ (s.nx_p - 1) j k := by
  have hs := apply_Bx_edge s f hwf hnx j k hj hk
  have ht' := apply_Bx_edge t f (by rw [ht]; exact hwf) (by rw [ht]; exact hnx) j k
    (by rw [ht]; exact hj) (by rw [ht]; exact hk)
  rw [ht] at ht'
  refine ⟨?_, ?_, ?_, ?_⟩
  · rw [hs.1]; unfold yeeBx; ring
  · rw [hs.2]; unfold yeeBx; ring
  · rw [hs.1, ht'.1]
  · rw [hs.2, ht'.2]

theorem incBx_congr (s : MF_Solver3D_Lehe R) {f g : ElectroMagn R} (h : SameE g f) :
    s.incBx g = s.incBx f := by
  funext a b c
  simp only [MF_Solver3D_Lehe.incBx, stencilBx_congr s h, edgeBx_congr s h]

theorem incBy_congr (s : MF_Solver3D_Lehe R) {f g : ElectroMagn R} (h : SameE g f) :
    s.incBy g = s.incBy f := by
  funext a b c
  simp only [MF_Solver3D_Lehe.incBy, stencilBy_congr s h, edgeBy_congr s h]

theorem incBz_congr (s : MF_Solver3D_Lehe R) {f g : ElectroMagn R} (h : SameE g f) :
    s.incBz g = s.incBz f := by
  funext a b c
  simp only [MF_Solver3D_Lehe.incBz, stencilBz_congr s h, edgeBz_congr s h]

theorem ite_add_ite_zero {M : Type} [AddCommMonoid M] (p : Prop) [Decidable p] (x y : M) :
    (if p then x + y else 0) = (if p then x else 0) + (if p then y else 0) := by
  by_cases h : p <;> simp [h]

theorem ite_mul_zero_right {M : Type} [MulZeroClass M] (p : Prop) [Decidable p] (c x : M) :
    (if p then c * x else 0) = c * (if p then x else 0) := by
  by_cases h : p <;> simp [h]

theorem inc_add (s : MF_Solver3D_Lehe R) (Ex Ey Ez Fx Fy Fz X Y Z : Field3D R) (a b c : Nat) :
    s.incBx ⟨Ex + Fx, Ey + Fy, Ez + Fz, X, Y, Z⟩ a b c
      = s.incBx ⟨Ex, Ey, Ez, X, Y, Z⟩ a b c + s.incBx ⟨Fx, Fy, Fz, X, Y, Z⟩ a b c ∧
    s.incBy ⟨Ex + Fx, Ey + Fy, Ez + Fz, X, Y, Z⟩ a b c
      = s.incBy ⟨Ex, Ey, Ez, X, Y, Z⟩ a b c + s.incBy ⟨Fx, Fy, Fz, X, Y, Z⟩ a b c ∧
    s.incBz ⟨Ex + Fx, Ey + Fy, Ez + Fz, X, Y, Z⟩ a b c
      = s.incBz ⟨Ex, Ey, Ez, X, Y, Z⟩ a b c + s.incBz ⟨Fx, Fy, Fz, X, Y, Z⟩ a b c := by
  refine ⟨?_, ?_, ?_⟩
  · have e1 : ∀ i j k, s.stencilBx ⟨Ex + Fx, Ey + Fy, Ez + Fz, X, Y, Z⟩ i j k
        = s.stencilBx ⟨Ex, Ey, Ez, X, Y, Z⟩ i j k + s.stencilBx ⟨Fx, Fy, Fz, X, Y, Z⟩ i j k := by
      intro i j k
      simp only [MF_Solver3D_Lehe.stencilBx, Pi.add_apply]
      ring
    have e2 : ∀ i j k, s.edgeBx ⟨Ex + Fx, Ey + Fy, Ez + Fz, X, Y, Z⟩ i j k
        = s.edgeBx ⟨Ex, Ey, Ez, X, Y, Z⟩ i j k + s.edgeBx ⟨Fx, Fy, Fz, X, Y, Z⟩ i j k := by
      intro i j k
      simp only [MF_Solver3D_Lehe.edgeBx, Pi.add_apply]
      ring
    simp only [MF_Solver3D_Lehe.incBx, e1, e2, ite_add_ite_zero]
    abel
  · have e1 : ∀ i j k, s.stencilBy ⟨Ex + Fx, Ey + Fy, Ez + Fz, X, Y, Z⟩ i j k
        = s.stencilBy ⟨Ex, Ey, Ez, X, Y, Z⟩ i j k + s.stencilBy ⟨Fx, Fy, Fz, X, Y, Z⟩ i j k := by
      intro i j k
      simp only [MF_Solver3D_Lehe.stencilBy, Pi.add_apply]
      ring
    have e2 : ∀ i im j k, s.edgeBy ⟨Ex + Fx, Ey + Fy, Ez + Fz, X, Y, Z⟩ i im j k
        = s.edgeBy ⟨Ex, Ey, Ez, X, Y, Z⟩ i im j k
          + s.edgeBy ⟨Fx, Fy, Fz, X, Y, Z⟩ i im j k := by
      intro i im j k
      simp only [MF_Solver3D_Lehe.edgeBy, Pi.add_apply]
      ring
    simp only [MF_Solver3D_Lehe.incBy, e1, e2, ite_add_ite_zero]
    abel
  · have e1 : ∀ i j k, s.stencilBz ⟨Ex + Fx, Ey + Fy, Ez + Fz, X, Y, Z⟩ i j k
        = s.stencilBz ⟨Ex, Ey, Ez, X, Y, Z⟩ i j k + s.stencilBz ⟨Fx, Fy, Fz, X, Y, Z⟩ i j k := by
      intro i j k
      simp only [MF_Solver3D_Lehe.stencilBz, Pi.add_apply]
      ring
    have e2 : ∀ i im j k, s.edgeBz ⟨Ex + Fx, Ey + Fy, Ez + Fz, X, Y, Z⟩ i im j k
        = s.edgeBz ⟨Ex, Ey, Ez, X, Y, Z⟩ i im j k
          + s.edgeBz ⟨Fx, Fy, Fz, X, Y, Z⟩ i im j k := by
      intro i im j k
      simp only [MF_Solver3D_Lehe.edgeBz, Pi.add_apply]
      ring
    simp only [MF_Solver3D_Lehe.incBz, e1, e2, ite_add_ite_zero]
    abel

theorem inc_smul (s : MF_Solver3D_Lehe R) (r : R) (Ex Ey Ez X Y Z : Field3D R) (a b c : Nat) :
    s.incBx ⟨fun i j k => r * Ex i j k, fun i j k => r * Ey i j k,
        fun i j k => r * Ez i j k, X, Y, Z⟩ a b c
      = r * s.incBx ⟨Ex, Ey, Ez, X, Y, Z⟩ a b c ∧
    s.incBy ⟨fun i j k => r * Ex i j k, fun i j k => r * Ey i j k,
        fun i j k => r * Ez i j k, X, Y, Z⟩ a b c
      = r * s.incBy ⟨Ex, Ey, Ez, X, Y, Z⟩ a b c ∧
    s.incBz ⟨fun i j k => r * Ex i j k, fun i j k => r * Ey i j k,
        fun i j k => r * Ez i j k, X, Y, Z⟩ a b c
      = r * s.incBz ⟨Ex, Ey, Ez, X, Y, Z⟩ a b c := by
  refine ⟨?_, ?_, ?_⟩
  · have e1 : ∀ i j k, s.stencilBx ⟨fun i j k => r * Ex i j k, fun i j k => r * Ey i j k,
        fun i j k => r * Ez i j k, X, Y, Z⟩ i j k = r * s.stencilBx ⟨Ex, Ey, Ez, X, Y, Z⟩ i j k := by
      intro i j k
      simp only [MF_Solver3D_Lehe.stencilBx]
      ring
    have e2 : ∀ i j k, s.edgeBx ⟨fun i j k => r * Ex i j k, fun i j k => r * Ey i j k,
        fun i j k => r * Ez i j k, X, Y, Z⟩ i j k = r * s.edgeBx ⟨Ex, Ey, Ez, X, Y, Z⟩ i j k := by
      intro i j k
      simp only [MF_Solver3D_Lehe.edgeBx]
      ring
    simp only [MF_Solver3D_Lehe.incBx, e1, e2, ite_mul_zero_right]
    ring
  · have e1 : ∀ i j k, s.stencilBy ⟨fun i j k => r * Ex i j k, fun i j k => r * Ey i j k,
        fun i j k => r * Ez i j k, X, Y, Z⟩ i j k = r * s.stencilBy ⟨Ex, Ey, Ez, X, Y, Z⟩ i j k := by
      intro i j k
      simp only [MF_Solver3D_Lehe.stencilBy]
      ring
    have e2 : ∀ i im j k, s.edgeBy ⟨fun i j k => r * Ex i j k, fun i j k => r * Ey i j k,
        fun i j k => r * Ez i j k, X, Y, Z⟩ i im j k
          = r * s.edgeBy ⟨Ex, Ey, Ez, X, Y, Z⟩ i im j k := by
      intro i im j k
      simp only [MF_Solver3D_Lehe.edgeBy]
      ring
    simp only [MF_Solver3D_Lehe.incBy, e1, e2, ite_mul_zero_right]
    ring
  · have e1 : ∀ i j k, s.stencilBz ⟨fun i j k => r * Ex i j k, fun i j k => r * Ey i j k,
        fun i j k => r * Ez i j k, X, Y, Z⟩ i j k = r * s.stencilBz ⟨Ex, Ey, Ez, X, Y, Z⟩ i j k := by
      intro i j k
      simp only [MF_Solver3D_Lehe.stencilBz]
      ring
    have e2 : ∀ i im j k, s.edgeBz ⟨fun i j k => r * Ex i j k, fun i j k => r * Ey i j k,
        fun i j k => r * Ez i j k, X, Y, Z⟩ i im j k
          = r * s.edgeBz ⟨Ex, Ey, Ez, X, Y, Z⟩ i im j k := by
      intro i im j k
      simp only [MF_Solver3D_Lehe.edgeBz]
      ring
    simp only [MF_Solver3D_Lehe.incBz, e1, e2, ite_mul_zero_right]
    ring

theorem inc_zero (s : MF_Solver3D_Lehe R) (X Y Z : Field3D R) (a b c : Nat) :
    s.incBx ⟨0, 0, 0, X, Y, Z⟩ a b c = 0 ∧ s.incBy ⟨0, 0, 0, X, Y, Z⟩ a b c = 0 ∧
    s.incBz ⟨0, 0, 0, X, Y, Z⟩ a b c = 0 := by
  refine ⟨?_, ?_, ?_⟩
  · simp [MF_Solver3D_Lehe.incBx, MF_Solver3D_Lehe.stencilBx, MF_Solver3D_Lehe.edgeBx]
  · simp [MF_Solver3D_Lehe.incBy, MF_Solver3D_Lehe.stencilBy, MF_Solver3D_Lehe.edgeBy]
  · simp [MF_Solver3D_Lehe.incBz, MF_Solver3D_Lehe.stencilBz, MF_Solver3D_Lehe.edgeBz]

/-- C9: one call of `operator()` leaves `Ex`, `Ey`, `Ez` unchanged; the increment of every
`B` point depends on `E` only (`solve(E,B) - B = solve(E,0)`), is additive and homogeneous
in `E`, and `E = 0` leaves `B` unchanged. -/
theorem C9_reads_E_writes_B (s : MF_Solver3D_Lehe R) (Ex Ey Ez Bx By Bz : Field3D R) :
    ((s.apply ⟨Ex, Ey, Ez, Bx, By, Bz⟩).Ex_ = Ex ∧ (s.apply ⟨Ex, Ey, Ez, Bx, By, Bz⟩).Ey_ = Ey ∧
      (s.apply ⟨Ex, Ey, Ez, Bx, By, Bz⟩).Ez_ = Ez) ∧
    (∀ a b c,
      (s.apply ⟨Ex, Ey, Ez, Bx, By, Bz⟩).Bx_ a b c - Bx a b c
        = (s.apply ⟨Ex, Ey, Ez, 0, 0, 0⟩).Bx_ a b c ∧
      (s.apply ⟨Ex, Ey, Ez, Bx, By, Bz⟩).By_ a b c - By a b c
        = (s.apply ⟨Ex, Ey, Ez, 0, 0, 0⟩).By_ a b c ∧
      (s.apply ⟨Ex, Ey, Ez, Bx, By, Bz⟩).Bz_ a b c - Bz a b c
        = (s.apply ⟨Ex, Ey, Ez, 0, 0, 0⟩).Bz_ a b c) ∧
    (∀ (Fx Fy Fz : Field3D R) a b c,
      (s.apply ⟨Ex + Fx, Ey + Fy, Ez + Fz, 0, 0, 0⟩).Bx_ a b c
        = (s.apply ⟨Ex, Ey, Ez, 0, 0, 0⟩).Bx_ a b c + (s.apply ⟨Fx, Fy, Fz, 0, 0, 0⟩).Bx_ a b c ∧
      (s.apply ⟨Ex + Fx, Ey + Fy, Ez + Fz, 0, 0, 0⟩).By_ a b c
        = (s.apply ⟨Ex, Ey, Ez, 0, 0, 0⟩).By_ a b c + (s.apply ⟨Fx, Fy, Fz, 0, 0, 0⟩).By_ a b c ∧
      (s.apply ⟨Ex + Fx, Ey + Fy, Ez + Fz, 0, 0, 0⟩).Bz_ a b c
        = (s.apply ⟨Ex, Ey, Ez, 0, 0, 0⟩).Bz_ a b c
          + (s.apply ⟨Fx, Fy, Fz, 0, 0, 0⟩).Bz_ a b c) ∧
    (∀ (r : R) a b c,
      (s.apply ⟨fun i j k => r * Ex i j k, fun i j k => r * Ey i j k,
          fun i j k => r * Ez i j k, 0, 0, 0⟩).Bx_ a b c
        = r * (s.apply ⟨Ex, Ey, Ez, 0, 0, 0⟩).Bx_ a b c ∧
      (s.apply ⟨fun i j k => r * Ex i j k, fun i j k => r * Ey i j k,
          fun i j k => r * Ez i j k, 0, 0, 0⟩).By_ a b c
        = r * (s.apply ⟨Ex, Ey, Ez, 0, 0, 0⟩).By_ a b c ∧
      (s.apply ⟨fun i j k => r * Ex i j k, fun i j k => r * Ey i j k,
          fun i j k => r * Ez i j k, 0, 0, 0⟩).Bz_ a b c
        = r * (s.apply ⟨Ex, Ey, Ez, 0, 0, 0⟩).Bz_ a b c) ∧
    ((s.apply ⟨0, 0, 0, Bx, By, Bz⟩).Bx_ = Bx ∧ (s.apply ⟨0, 0, 0, Bx, By, Bz⟩).By_ = By ∧
      (s.apply ⟨0, 0, 0, Bx, By, Bz⟩).Bz_ = Bz) := by
  have hc : SameE (⟨Ex, Ey, Ez, Bx, By, Bz⟩ : ElectroMagn R) ⟨Ex, Ey, Ez, 0, 0, 0⟩ :=
    ⟨rfl, rfl, rfl⟩
  refine ⟨apply_E s _, ?_, ?_, ?_, ?_⟩
  · intro a b c
    simp only [apply_Bx, apply_By, apply_Bz, incBx_congr s hc, incBy_congr s hc,
      incBz_congr s hc, Pi.zero_apply, zero_add, add_sub_cancel_left, and_self]
  · intro Fx Fy Fz a b c
    obtain ⟨h1, h2, h3⟩ := inc_add s Ex Ey Ez Fx Fy Fz 0 0 0 a b c
    simp only [apply_Bx, apply_By, apply_Bz, Pi.zero_apply, zero_add]
    exact ⟨h1, h2, h3⟩
  · intro r a b c
    obtain ⟨h1, h2, h3⟩ := inc_smul s r Ex Ey Ez 0 0 0 a b c
    simp only [apply_Bx, apply_By, apply_Bz, Pi.zero_apply, zero_add]
    exact ⟨h1, h2, h3⟩
  · refine ⟨?_, ?_, ?_⟩
    · funext a b c
      rw [apply_Bx, (inc_zero s Bx By Bz a b c).1, add_zero]
    · funext a b c
      rw [apply_By, (inc_zero s Bx By Bz a b c).2.1, add_zero]
    · funext a b c
      rw [apply_Bz, (inc_zero s Bx By Bz a b c).2.2, add_zero]

end SolverClaims2

section Divergence

theorem sample_usub : usub 9 1 = 8 ∧ usub 8 1 = 7 ∧ usub 9 2 = 7 ∧ usub 9 3 = 6 ∧
    usub 3 1 = 2 ∧ usub 2 1 = 1 ∧ usub 3 2 = 1 ∧ usub 2 2 = 0 ∧ usub 1 1 = 0 ∧
    uadd 3 1 = 4 ∧ uadd 2 1 = 3 := by
  simp [usub, uadd, UINT_MOD]

/-- C2 (counterexample): on an 8x8x8 grid with unit cells, `B = 0` (divergence-free) and
`Ey(i,j,k) = i*k*j^2`, the six `B` values around the cell `(3,3,3)` lie in the interior
loop ranges, and for every value of `sin` and `M_PI` the solver built by the constructor
returns a `B` whose discrete divergence at `(3,3,3)` is not zero. -/
theorem C2_divergence_counterexample :
    (∀ i j k, divB 1 1 1 sampleFields i j k = 0) ∧
    (∀ (sin : ℚ → ℚ) (M_PI : ℚ),
      (MF_Solver3D_Lehe.new sin M_PI sampleBase sampleParams).inInteriorBx 3 3 3 ∧
      (MF_Solver3D_Lehe.new sin M_PI sampleBase sampleParams).inInteriorBx 2 3 3 ∧
      (MF_Solver3D_Lehe.new sin M_PI sampleBase sampleParams).inInteriorBy 3 3 3 ∧
      (MF_Solver3D_Lehe.new sin M_PI sampleBase sampleParams).inInteriorBy 3 2 3 ∧
      (MF_Solver3D_Lehe.new sin M_PI sampleBase sampleParams).inInteriorBz 3 3 3 ∧
      (MF_Solver3D_Lehe.new sin M_PI sampleBase sampleParams).inInteriorBz 3 3 2) ∧
    ¬ ∃ (sin : ℚ → ℚ) (M_PI : ℚ),
      divB 1 1 1 ((MF_Solver3D_Lehe.new sin M_PI sampleBase sampleParams).apply sampleFields)
        3 3 3 = 0 := by
  obtain ⟨u91, u81, u92, u93, u31, u21, u32, u22, u11, a31, a21⟩ := sample_usub
  refine ⟨?_, ?_, ?_⟩
  · intro i j k
    simp [divB, sampleFields]
  · intro sin M_PI
    simp [MF_Solver3D_Lehe.inInteriorBx, MF_Solver3D_Lehe.inInteriorBy,
      MF_Solver3D_Lehe.inInteriorBz, MF_Solver3D_Lehe.new, sampleBase, u91, u81, u92]
  · rintro ⟨sin, M_PI, h⟩
    simp only [divB, apply_Bx, apply_By, apply_Bz, MF_Solver3D_Lehe.incBx,
      MF_Solver3D_Lehe.incBy, MF_Solver3D_Lehe.incBz, MF_Solver3D_Lehe.new, sampleBase,
      sampleParams, u91, u81, u92, u93] at h
    norm_num [MF_Solver3D_Lehe.stencilBx, MF_Solver3D_Lehe.stencilBy,
      MF_Solver3D_Lehe.stencilBz, sampleFields, u31, u21, u32, u22, u11, a31, a21] at h
    ring_nf at h
    norm_num at h

end Divergence

section DivergenceYee

variable {R : Type} [Field R]

theorem written_Bx_yee (s : MF_Solver3D_Lehe R) (f : ElectroMagn R)
    (hay : s.alpha_y = 1) (hbyx : s.beta_yx = 0)
    (hwf : s.toSolver3D.WF) (hnx : 2 ≤ s.nx_p) (a b c : Nat) (hw : s.writtenBx a b c) :
    (s.apply f).Bx_ a b c = f.Bx_ a b c + yeeBx s.dt_ov_dy s.dt_ov_dz f a b c := by
  obtain ⟨wx, -, -, -, -, -⟩ := hwf
  have ex : usub s.nx_p 1 = s.nx_p - 1 := usub_of_le (by omega) wx
  have bj := usub_lt s.ny_d 1
  have bk := usub_lt s.nz_d 1
  unfold MF_Solver3D_Lehe.writtenBx MF_Solver3D_Lehe.inInteriorBx
    MF_Solver3D_Lehe.inBoundaryBx at hw
  rw [ex] at hw
  rw [apply_Bx, MF_Solver3D_Lehe.incBx, ex]
  rcases hw with ⟨⟨h1, h2⟩, ⟨hj1, hj2⟩, ⟨hk1, hk2⟩⟩ | ⟨h1, ⟨hj1, hj2⟩, ⟨hk1, hk2⟩⟩ |
    ⟨h1, ⟨hj1, hj2⟩, ⟨hk1, hk2⟩⟩
  · have c0 : (1 ≤ a ∧ a < s.nx_p - 1) ∧ (1 ≤ b ∧ b < usub s.ny_d 1) ∧
        (1 ≤ c ∧ c < usub s.nz_d 1) := ⟨⟨h1, h2⟩, ⟨hj1, hj2⟩, ⟨hk1, hk2⟩⟩
    have c1 : ¬ (a = 0 ∧ (1 ≤ b ∧ b < usub s.ny_d 1) ∧ (1 ≤ c ∧ c < usub s.nz_d 1)) := by
      omega
    have c2 : ¬ (a = s.nx_p - 1 ∧ (1 ≤ b ∧ b < usub s.ny_d 1) ∧
        (1 ≤ c ∧ c < usub s.nz_d 1)) := by omega
    rw [if_pos c0, if_neg c1, if_neg c2, add_zero, add_zero,
      stencilBx_yee s f hay hbyx a b c ⟨hj1, by omega⟩ ⟨hk1, by omega⟩]
  · have c0 : ¬ ((1 ≤ a ∧ a < s.nx_p - 1) ∧ (1 ≤ b ∧ b < usub s.ny_d 1) ∧
        (1 ≤ c ∧ c < usub s.nz_d 1)) := by omega
    have c1 : (a = 0 ∧ (1 ≤ b ∧ b < usub s.ny_d 1) ∧ (1 ≤ c ∧ c < usub s.nz_d 1)) :=
      ⟨h1, ⟨hj1, hj2⟩, ⟨hk1, hk2⟩⟩
    have c2 : ¬ (a = s.nx_p - 1 ∧ (1 ≤ b ∧ b < usub s.ny_d 1) ∧
        (1 ≤ c ∧ c < usub s.nz_d 1)) := by omega
    rw [if_neg c0, if_pos c1, if_neg c2, add_zero, zero_add,
      edgeBx_yee s f 0 b c ⟨hj1, by omega⟩ ⟨hk1, by omega⟩, h1]
  · have c0 : ¬ ((1 ≤ a ∧ a < s.nx_p - 1) ∧ (1 ≤ b ∧ b < usub s.ny_d 1) ∧
        (1 ≤ c ∧ c < usub s.nz_d 1)) := by omega
    have c1 : ¬ (a = 0 ∧ (1 ≤ b ∧ b < usub s.ny_d 1) ∧ (1 ≤ c ∧ c < usub s.nz_d 1)) := by
      omega
    have c2 : (a = s.nx_p - 1 ∧ (1 ≤ b ∧ b < usub s.ny_d 1) ∧
        (1 ≤ c ∧ c < usub s.nz_d 1)) := ⟨h1, ⟨hj1, hj2⟩, ⟨hk1, hk2⟩⟩
    rw [if_neg c0, if_neg c1, if_pos c2, zero_add, zero_add,
      edgeBx_yee s f (s.nx_p - 1) b c ⟨hj1, by omega⟩ ⟨hk1, by omega⟩, h1]

theorem written_By_yee (s : MF_Solver3D_Lehe R) (f : ElectroMagn R)
    (hax : s.alpha_x = 1) (hay : s.alpha_y = 1) (hbyx : s.beta_yx = 0) (hbxy : s.beta_xy = 0)
    (hbxz : s.beta_xz = 0) (hd : s.delta_x = 0)
    (hwf : s.toSolver3D.WF) (hnx : 4 ≤ s.nx_d) (a b c : Nat) (hw : s.writtenBy a b c) :
    (s.apply f).By_ a b c = f.By_ a b c + yeeBy s.dt_ov_dx s.dt_ov_dz f a b c := by
  obtain ⟨-, -, -, wx, -, -⟩ := hwf
  have ex2 : usub s.nx_d 2 = s.nx_d - 2 := usub_of_le (by omega) wx
  have ex3 : usub s.nx_d 3 = s.nx_d - 2 - 1 := by
    rw [usub_of_le (by omega) wx]; omega
  have bk := usub_lt s.nz_d 1
  have bk2 := usub_lt s.nz_d 2
  have e10 : (0 : Nat) = 1 - 1 := rfl
  unfold MF_Solver3D_Lehe.writtenBy MF_Solver3D_Lehe.inInteriorBy
    MF_Solver3D_Lehe.inBoundaryBy at hw
  rw [ex2] at hw
  rw [apply_By, MF_Solver3D_Lehe.incBy, ex2, ex3]
  rcases hw with ⟨⟨h1, h2⟩, ⟨hj1, hj2⟩, ⟨hk1, hk2⟩⟩ | ⟨h1, ⟨hj1, hj2⟩, ⟨hk1, hk2⟩⟩ |
    ⟨h1, ⟨hj1, hj2⟩, ⟨hk1, hk2⟩⟩
  · have c0 : (2 ≤ a ∧ a < s.nx_d - 2) ∧ (1 ≤ b ∧ b < usub s.ny_p 1) ∧
        (1 ≤ c ∧ c < usub s.nz_d 1) := ⟨⟨h1, h2⟩, ⟨hj1, hj2⟩, ⟨hk1, hk2⟩⟩
    have c1 : ¬ (a = 1 ∧ (0 ≤ b ∧ b < s.ny_p) ∧ (2 ≤ c ∧ c < usub s.nz_d 2)) := by omega
    have c2 : ¬ (a = s.nx_d - 2 ∧ (0 ≤ b ∧ b < s.ny_p) ∧ (2 ≤ c ∧ c < usub s.nz_d 2)) := by
      omega
    rw [if_pos c0, if_neg c1, if_neg c2, add_zero, add_zero,
      stencilBy_yee s f hax hay hbyx hbxy hbxz hd a b c ⟨by omega, by omega⟩
        ⟨hk1, by omega⟩]
  · have c0 : ¬ ((2 ≤ a ∧ a < s.nx_d - 2) ∧ (1 ≤ b ∧ b < usub s.ny_p 1) ∧
        (1 ≤ c ∧ c < usub s.nz_d 1)) := by omega
    have c1 : (a = 1 ∧ (0 ≤ b ∧ b < s.ny_p) ∧ (2 ≤ c ∧ c < usub s.nz_d 2)) :=
      ⟨h1, ⟨hj1, hj2⟩, ⟨hk1, hk2⟩⟩
    have c2 : ¬ (a = s.nx_d - 2 ∧ (0 ≤ b ∧ b < s.ny_p) ∧ (2 ≤ c ∧ c < usub s.nz_d 2)) := by
      omega
    rw [if_neg c0, if_pos c1, if_neg c2, add_zero, zero_add, e10,
      edgeBy_yee s f 1 b c ⟨by omega, by omega⟩, h1]
  · have c0 : ¬ ((2 ≤ a ∧ a < s.nx_d - 2) ∧ (1 ≤ b ∧ b < usub s.ny_p 1) ∧
        (1 ≤ c ∧ c < usub s.nz_d 1)) := by omega
    have c1 : ¬ (a = 1 ∧ (0 ≤ b ∧ b < s.ny_p) ∧ (2 ≤ c ∧ c < usub s.nz_d 2)) := by omega
    have c2 : (a = s.nx_d - 2 ∧ (0 ≤ b ∧ b < s.ny_p) ∧ (2 ≤ c ∧ c < usub s.nz_d 2)) :=
      ⟨h1, ⟨hj1, hj2⟩, ⟨hk1, hk2⟩⟩
    rw [if_neg c0, if_neg c1, if_pos c2, zero_add, zero_add,
      edgeBy_yee s f (s.nx_d - 2) b c ⟨by omega, by omega⟩, h1]

theorem written_Bz_yee (s : MF_Solver3D_Lehe R) (f : ElectroMagn R)
    (hax : s.alpha_x = 1) (hay : s.alpha_y = 1) (hbyx : s.beta_yx = 0) (hbxy : s.beta_xy = 0)
    (hbxz : s.beta_xz = 0) (hd : s.delta_x = 0)
    (hwf : s.toSolver3D.WF) (hnx : 4 ≤ s.nx_d) (a b c : Nat) (hw : s.writtenBz a b c) :
    (s.apply f).Bz_ a b c = f.Bz_ a b c + yeeBz s.dt_ov_dx s.dt_ov_dy f a b c := by
  obtain ⟨-, -, -, wx, -, -⟩ := hwf
  have ex2 : usub s.nx_d 2 = s.nx_d - 2 := usub_of_le (by omega) wx
  have ex3 : usub s.nx_d 3 = s.nx_d - 2 - 1 := by
    rw [usub_of_le (by omega) wx]; omega
  have bj := usub_lt s.ny_d 1
  have bj2 := usub_lt s.ny_d 2
  have e10 : (0 : Nat) = 1 - 1 := rfl
  unfold MF_Solver3D_Lehe.writtenBz MF_Solver3D_Lehe.inInteriorBz
    MF_Solver3D_Lehe.inBoundaryBz at hw
  rw [ex2] at hw
  rw [apply_Bz, MF_Solver3D_Lehe.incBz, ex2, ex3]
  rcases hw with ⟨⟨h1, h2⟩, ⟨hj1, hj2⟩, ⟨hk1, hk2⟩⟩ | ⟨h1, ⟨hj1, hj2⟩, ⟨hk1, hk2⟩⟩ |
    ⟨h1, ⟨hj1, hj2⟩, ⟨hk1, hk2⟩⟩
  · have c0 : (2 ≤ a ∧ a < s.nx_d - 2) ∧ (1 ≤ b ∧ b < usub s.ny_d 1) ∧
        (1 ≤ c ∧ c < usub s.nz_p 1) := ⟨⟨h1, h2⟩, ⟨hj1, hj2⟩, ⟨hk1, hk2⟩⟩
    have c1 : ¬ (a = 1 ∧ (2 ≤ b ∧ b < usub s.ny_d 2) ∧ (0 ≤ c ∧ c < s.nz_p)) := by omega
    have c2 : ¬ (a = s.nx_d - 2 ∧ (2 ≤ b ∧ b < usub s.ny_d 2) ∧ (0 ≤ c ∧ c < s.nz_p)) := by
      omega
    rw [if_pos c0, if_neg c1, if_neg c2, add_zero, add_zero,
      stencilBz_yee s f hax hay hbyx hbxy hbxz hd a b c ⟨by omega, by omega⟩
        ⟨hj1, by omega⟩]
  · have c0 : ¬ ((2 ≤ a ∧ a < s.nx_d - 2) ∧ (1 ≤ b ∧ b < usub s.ny_d 1) ∧
        (1 ≤ c ∧ c < usub s.nz_p 1)) := by omega
    have c1 : (a = 1 ∧ (2 ≤ b ∧ b < usub s.ny_d 2) ∧ (0 ≤ c ∧ c < s.nz_p)) :=
      ⟨h1, ⟨hj1, hj2⟩, ⟨hk1, hk2⟩⟩
    have c2 : ¬ (a = s.nx_d - 2 ∧ (2 ≤ b ∧ b < usub s.ny_d 2) ∧ (0 ≤ c ∧ c < s.nz_p)) := by
      omega
    rw [if_neg c0, if_pos c1, if_neg c2, add_zero, zero_add, e10,
      edgeBz_yee s f 1 b c ⟨by omega, by omega⟩, h1]
  · have c0 : ¬ ((2 ≤ a ∧ a < s.nx_d - 2) ∧ (1 ≤ b ∧ b < usub s.ny_d 1) ∧
        (1 ≤ c ∧ c < usub s.nz_p 1)) := by omega
    have c1 : ¬ (a = 1 ∧ (2 ≤ b ∧ b < usub s.ny_d 2) ∧ (0 ≤ c ∧ c < s.nz_p)) := by omega
    have c2 : (a = s.nx_d - 2 ∧ (2 ≤ b ∧ b < usub s.ny_d 2) ∧ (0 ≤ c ∧ c < s.nz_p)) :=
      ⟨h1, ⟨hj1, hj2⟩, ⟨hk1, hk2⟩⟩
    rw [if_neg c0, if_neg c1, if_pos c2, zero_add, zero_add,
      edgeBz_yee s f (s.nx_d - 2) b c ⟨by omega, by omega⟩, h1]

/-- With the Yee coefficients `alpha_x = alpha_y = 1`,
`beta_yx = beta_xy = beta_xz = delta_x = 0`, time-step ratios `dt/dx`, `dt/dy`, `dt/dz` and
extents `nx_p >= 2`, `nx_d >= 4`, one call of `operator()` keeps the discrete divergence of
`B` at every cell whose six surrounding `B` values lie in the written index ranges. -/
theorem divergence_preserved_yee (s : MF_Solver3D_Lehe R) (f : ElectroMagn R) (dt : R)
    (hax : s.alpha_x = 1) (hay : s.alpha_y = 1) (hbyx : s.beta_yx = 0) (hbxy : s.beta_xy = 0)
    (hbxz : s.beta_xz = 0) (hd : s.delta_x = 0)
    (hwf : s.toSolver3D.WF) (hnxp : 2 ≤ s.nx_p) (hnxd : 4 ≤ s.nx_d)
    (htx : s.dt_ov_dx = dt / s.dx) (hty : s.dt_ov_dy = dt / s.dy)
    (htz : s.dt_ov_dz = dt / s.dz)
    (i j k : Nat)
    (wx1 : s.writtenBx i j k) (wx0 : s.writtenBx (i - 1) j k)
    (wy1 : s.writtenBy i j k) (wy0 : s.writtenBy i (j - 1) k)
    (wz1 : s.writtenBz i j k) (wz0 : s.writtenBz i j (k - 1)) :
    divB s.dx s.dy s.dz (s.apply f) i j k = divB s.dx s.dy s.dz f i j k ∧
    (divB s.dx s.dy s.dz f i j k = 0 → divB s.dx s.dy s.dz (s.apply f) i j k = 0) := by
  have key : divB s.dx s.dy s.dz (s.apply f) i j k = divB s.dx s.dy s.dz f i j k := by
    unfold divB
    rw [written_Bx_yee s f hay hbyx hwf hnxp i j k wx1,
      written_Bx_yee s f hay hbyx hwf hnxp (i - 1) j k wx0,
      written_By_yee s f hax hay hbyx hbxy hbxz hd hwf hnxd i j k wy1,
      written_By_yee s f hax hay hbyx hbxy hbxz hd hwf hnxd i (j - 1) k wy0,
      written_Bz_yee s f hax hay hbyx hbxy hbxz hd hwf hnxd i j k wz1,
      written_Bz_yee s f hax hay hbyx hbxy hbxz hd hwf hnxd i j (k - 1) wz0]
    unfold yeeBx yeeBy yeeBz
    rw [htx, hty, htz]
    simp only [div_eq_mul_inv]
    ring
  exact ⟨key, fun h0 => by rw [key, h0]⟩

end DivergenceYee

section SolverWitnesses

theorem yeeSolver_WF : yeeSolver.toSolver3D.WF := by
  simp [Solver3D.WF, yeeSolver, sampleBase, UINT_MOD]

/-- C1 (witness): the Yee solver on the 8x8x8 sample grid at the interior point `(3,3,3)`. -/
theorem C1_yee_coefficients_witness :
    yeeSolver.inInteriorBx 3 3 3 ∧
    (yeeSolver.apply sampleFields).Bx_ 3 3 3
      = sampleFields.Bx_ 3 3 3
        + yeeBx yeeSolver.dt_ov_dy yeeSolver.dt_ov_dz sampleFields 3 3 3 :=
  have h : yeeSolver.inInteriorBx 3 3 3 := by
    simp [MF_Solver3D_Lehe.inInteriorBx, yeeSolver, sampleBase, sample_usub]
  ⟨h, (C1_yee_coefficients_give_plain_curl yeeSolver sampleFields rfl rfl rfl rfl rfl rfl
    3 3 3).1 h⟩

/-- The Yee solver on the sample grid at the cell `(1,3,3)`, whose six `B` values are
written by the interior `Bx` pass and by the boundary passes. -/
theorem divergence_preserved_yee_sample :
    divB yeeSolver.dx yeeSolver.dy yeeSolver.dz (yeeSolver.apply sampleFields) 1 3 3
      = divB yeeSolver.dx yeeSolver.dy yeeSolver.dz sampleFields 1 3 3 :=
  (divergence_preserved_yee yeeSolver sampleFields (1 / 3) rfl rfl rfl rfl rfl rfl
    yeeSolver_WF (by simp [yeeSolver, sampleBase]) (by simp [yeeSolver, sampleBase])
    (by simp [yeeSolver, sampleBase]) (by simp [yeeSolver, sampleBase])
    (by simp [yeeSolver, sampleBase]) 1 3 3
    (by simp [MF_Solver3D_Lehe.writtenBx, MF_Solver3D_Lehe.inInteriorBx, yeeSolver,
      sampleBase, sample_usub])
    (by simp [MF_Solver3D_Lehe.writtenBx, MF_Solver3D_Lehe.inInteriorBx,
      MF_Solver3D_Lehe.inBoundaryBx, yeeSolver, sampleBase, sample_usub])
    (by simp [MF_Solver3D_Lehe.writtenBy, MF_Solver3D_Lehe.inInteriorBy,
      MF_Solver3D_Lehe.inBoundaryBy, yeeSolver, sampleBase, sample_usub])
    (by simp [MF_Solver3D_Lehe.writtenBy, MF_Solver3D_Lehe.inInteriorBy,
      MF_Solver3D_Lehe.inBoundaryBy, yeeSolver, sampleBase, sample_usub])
    (by simp [MF_Solver3D_Lehe.writtenBz, MF_Solver3D_Lehe.inInteriorBz,
      MF_Solver3D_Lehe.inBoundaryBz, yeeSolver, sampleBase, sample_usub])
    (by simp [MF_Solver3D_Lehe.writtenBz, MF_Solver3D_Lehe.inInteriorBz,
      MF_Solver3D_Lehe.inBoundaryBz, yeeSolver, sampleBase, sample_usub])).1

/-- C8 (witness): the sample grid (`nx_p = 8`) at `j = k = 3`, comparing the Yee solver with
the solver built by the constructor for `sin = 0`. -/
theorem C8_edge_fallback_witness :
    ((MF_Solver3D_Lehe.new (fun _ => 0) 3 sampleBase sampleParams).apply sampleFields).Bx_ 0 3 3
      = (yeeSolver.apply sampleFields).Bx_ 0 3 3 :=
  (C8_edge_fallback_Bx yeeSolver (MF_Solver3D_Lehe.new (fun _ => 0) 3 sampleBase sampleParams)
    sampleFields yeeSolver_WF (by simp [yeeSolver, sampleBase]) rfl 3 3
    (by simp [yeeSolver, sampleBase]) (by simp [yeeSolver, sampleBase])).2.2.1

end SolverWitnesses

/-! ## Lemmas on the interpolator -/

section InterpLemmas

theorem sqrtQ_zero : sqrtQ 0 = 0 := by
  simp [sqrtQ]

theorem sqrtQ_25 : sqrtQ 25 = 5 := by
  have h : Nat.sqrt 25 = 5 := by
    have := Nat.sqrt_eq 5
    simpa using this
  have hn : ((25 : ℚ)).num.natAbs = 25 := by
    have : ((25 : ℚ)).num = 25 := Rat.num_ofNat 25
    rw [this]; rfl
  have hd : ((25 : ℚ)).den = 1 := Rat.den_ofNat 25
  unfold sqrtQ
  rw [hn, hd, h]
  norm_num

end InterpLemmas

section Memory

variable {R : Type}

theorem ptr_one (arr : Nat → R) :
    ptr arr 1 (-1) = arr 0 ∧ ptr arr 1 0 = arr 1 ∧ ptr arr 1 1 = arr 2 :=
  ⟨rfl, rfl, rfl⟩

@[simp]
theorem Buffer.write_same (b : Buffer R) (p : Int) (v : R) : b.write p v p = v := by
  simp [Buffer.write]

theorem Buffer.write_other (b : Buffer R) (p q : Int) (v : R) (h : q ≠ p) :
    b.write p v q = b q := by
  simp [Buffer.write, h]

end Memory

section InterpLemmas2

variable {R : Type} [LinearOrderedField R]

@[simp]
theorem Cplx.add_re (a b : Cplx R) : (a + b).re = a.re + b.re := rfl

@[simp]
theorem Cplx.add_im (a b : Cplx R) : (a + b).im = a.im + b.im := rfl

@[simp]
theorem Cplx.zero_re : (0 : Cplx R).re = 0 := rfl

@[simp]
theorem Cplx.zero_im : (0 : Cplx R).im = 0 := rfl

@[simp]
theorem Cplx.mul_re (a b : Cplx R) : (a * b).re = a.re * b.re - a.im * b.im := rfl

@[simp]
theorem Cplx.mul_im (a b : Cplx R) : (a * b).im = a.re * b.im + a.im * b.re := rfl

@[simp]
theorem Cplx.realMul_re (x : R) (z : Cplx R) : (Cplx.realMul x z).re = x * z.re := rfl

@[simp]
theorem Cplx.realMul_im (x : R) (z : Cplx R) : (Cplx.realMul x z).im = x * z.im := rfl

@[simp]
theorem Cplx.ofReal_re (x : R) : (Cplx.ofReal x).re = x := rfl

@[simp]
theorem Cplx.ofReal_im (x : R) : (Cplx.ofReal x).im = 0 := rfl

theorem Cplx.zero_mul_re (z : Cplx R) : ((0 : Cplx R) * z).re = 0 := by
  simp

theorem compute_re (cx cy : Int → R) (f : cField2D R) (idx idy : Int) :
    (compute cx cy f idx idy).re =
      cx (-1) * cy (-1) * (f (idx + -1) (idy + -1)).re
      + cx (-1) * cy 0 * (f (idx + -1) (idy + 0)).re
      + cx (-1) * cy 1 * (f (idx + -1) (idy + 1)).re
      + cx 0 * cy (-1) * (f (idx + 0) (idy + -1)).re
      + cx 0 * cy 0 * (f (idx + 0) (idy + 0)).re
      + cx 0 * cy 1 * (f (idx + 0) (idy + 1)).re
      + cx 1 * cy (-1) * (f (idx + 1) (idy + -1)).re
      + cx 1 * cy 0 * (f (idx + 1) (idy + 0)).re
      + cx 1 * cy 1 * (f (idx + 1) (idy + 1)).re := by
  simp only [compute, List.map_cons, List.map_nil, List.sum_cons, List.sum_nil, Cplx.add_re,
    Cplx.realMul_re, Cplx.zero_re]
  ring

theorem compute_im (cx cy : Int → R) (f : cField2D R) (idx idy : Int) :
    (compute cx cy f idx idy).im =
      cx (-1) * cy (-1) * (f (idx + -1) (idy + -1)).im
      + cx (-1) * cy 0 * (f (idx + -1) (idy + 0)).im
      + cx (-1) * cy 1 * (f (idx + -1) (idy + 1)).im
      + cx 0 * cy (-1) * (f (idx + 0) (idy + -1)).im
      + cx 0 * cy 0 * (f (idx + 0) (idy + 0)).im
      + cx 0 * cy 1 * (f (idx + 0) (idy + 1)).im
      + cx 1 * cy (-1) * (f (idx + 1) (idy + -1)).im
      + cx 1 * cy 0 * (f (idx + 1) (idy + 0)).im
      + cx 1 * cy 1 * (f (idx + 1) (idy + 1)).im := by
  simp only [compute, List.map_cons, List.map_nil, List.sum_cons, List.sum_nil, Cplx.add_im,
    Cplx.realMul_im, Cplx.zero_im]
  ring

theorem compute_re_congr (cx cy : Int → R) (f g : cField2D R) (idx idy : Int)
    (h : ∀ i j, (g i j).re = (f i j).re) :
    (compute cx cy g idx idy).re = (compute cx cy f idx idy).re := by
  simp only [compute_re, h]

theorem compute_const (cx cy : Int → R) (f : cField2D R) (idx idy : Int) (c : R)
    (h : ∀ i j, f i j = Cplx.ofReal c) :
    compute cx cy f idx idy
      = Cplx.ofReal ((cx (-1) + cx 0 + cx 1) * (cy (-1) + cy 0 + cy 1) * c) := by
  apply Cplx.ext
  · simp only [compute_re, h, Cplx.ofReal_re]
    ring
  · simp only [compute_im, h, Cplx.ofReal_im]
    ring

theorem compute_zero (cx cy : Int → R) (f : cField2D R) (idx idy : Int)
    (h : ∀ i j, f i j = 0) : compute cx cy f idx idy = 0 := by
  apply Cplx.ext
  · simp only [compute_re, h, Cplx.zero_re]
    ring
  · simp only [compute_im, h, Cplx.zero_im]
    ring

theorem compute_realWeighted : RealWeighted (compute : ComputeFn R) :=
  ⟨fun cx cy _ _ iloc jloc => cx iloc * cy jloc, fun _ _ _ _ _ => rfl⟩

theorem realWeighted_re_congr (cmp : ComputeFn R) (hc : RealWeighted cmp) (cx cy : Int → R)
    (f g : cField2D R) (idx idy : Int) (h : ∀ i j, (g i j).re = (f i j).re) :
    (cmp cx cy g idx idy).re = (cmp cx cy f idx idy).re := by
  obtain ⟨w, hw⟩ := hc
  simp only [hw, List.map_cons, List.map_nil, List.sum_cons, List.sum_nil, Cplx.add_re,
    Cplx.realMul_re, Cplx.zero_re, h]

theorem Buffer.add_at (b : Buffer R) (p q : Int) (v : R) :
    b.add p v q = b q + if q = p then v else 0 := by
  unfold Buffer.add Buffer.write
  by_cases h : q = p <;> simp [h]

theorem phase_none_iff (sqrt : R → R) (particles : Particles R) (ipart : Int) :
    phase sqrt particles ipart = none ↔ radius sqrt particles ipart = 0 := by
  unfold phase Cplx.divReal?
  by_cases h : radius sqrt particles ipart = 0 <;> simp [h]

theorem phase_some (sqrt : R → R) (particles : Particles R) (ipart : Int)
    (h : radius sqrt particles ipart ≠ 0) :
    phase sqrt particles ipart = some (phaseValue sqrt particles ipart) := by
  unfold phase Cplx.divReal? phaseValue
  simp [h, Cplx.realSub, Cplx.mulReal, Icpx]

theorem rotatePair_first (e : Cplx R) (b : Buffer R) (p1 p2 : Int) :
    rotatePair e b p1 p2 p1 = e.re * b p1 + e.im * b p2 := by
  simp [rotatePair]

theorem rotatePair_second (e : Cplx R) (b : Buffer R) (p1 p2 : Int) (h : p2 ≠ p1) :
    rotatePair e b p1 p2 p2 = -e.im * b p1 + e.re * b p2 := by
  simp [rotatePair, Buffer.write, h]

theorem rotatePair_other (e : Cplx R) (b : Buffer R) (p1 p2 q : Int) (h1 : q ≠ p1)
    (h2 : q ≠ p2) : rotatePair e b p1 p2 q = b q := by
  simp [rotatePair, Buffer.write, h1, h2]

end InterpLemmas2

section InterpLoop

theorem forLoopAux_acc {σ M : Type} [AddCommMonoid M] (body : Nat → σ → σ)
    (I : Nat → σ → Prop) (val : σ → M) (d : Nat → M)
    (hI : ∀ i st, I i st → I (i + 1) (body i st))
    (hv : ∀ i st, I i st → val (body i st) = val st + d i) :
    ∀ n i st, I i st →
      I (i + n) (forLoopAux body n i st) ∧
      val (forLoopAux body n i st) = val st + ∑ x in Finset.range n, d (i + x) := by
  intro n
  induction n with
  | zero =>
    intro i st h
    exact ⟨h, by simp [forLoopAux]⟩
  | succ n ih =>
    intro i st h
    obtain ⟨h1, h2⟩ := ih (i + 1) (body i st) (hI i st h)
    refine ⟨?_, ?_⟩
    · have e : i + (n + 1) = i + 1 + n := by omega
      rw [e]
      exact h1
    · show val (forLoopAux body n (i + 1) (body i st)) = _
      rw [h2, hv i st h, Finset.sum_range_succ', add_assoc]
      congr 1
      rw [add_comm]
      congr 1
      apply Finset.sum_congr rfl
      intro x _
      congr 1
      omega

theorem forLoop_acc {σ M : Type} [AddCommMonoid M] (lo hi : Nat) (body : Nat → σ → σ)
    (I : Nat → σ → Prop) (val : σ → M) (d : Nat → M)
    (hI : ∀ i st, I i st → I (i + 1) (body i st))
    (hv : ∀ i st, I i st → val (body i st) = val st + d i)
    (st : σ) (h : I lo st) :
    I (lo + (hi - lo)) (forLoop lo hi body st) ∧
    val (forLoop lo hi body st) = val st + ∑ m in Finset.Ico lo hi, d m := by
  obtain ⟨h1, h2⟩ := forLoopAux_acc body I val d hI hv (hi - lo) lo st h
  refine ⟨h1, ?_⟩
  unfold forLoop
  rw [h2, Finset.sum_Ico_eq_sum_range]

theorem forLoop_congr {σ : Type} (lo hi : Nat) (body body' : Nat → σ → σ)
    (h : ∀ i, lo ≤ i → ∀ st, body' i st = body i st) (st : σ) :
    forLoop lo hi body' st = forLoop lo hi body st := by
  unfold forLoop
  generalize hi - lo = n
  induction n generalizing lo st with
  | zero => rfl
  | succ n ih =>
    show forLoopAux body' n (lo + 1) (body' lo st) = forLoopAux body n (lo + 1) (body lo st)
    rw [h lo (le_refl lo) st]
    exact ih (lo + 1) (fun i hi st => h i (by omega) st) (body lo st)

end InterpLoop

section FieldsClosedForm

variable {R : Type} [LinearOrderedField R]

theorem fieldsMode0_eq (sqrt : R → R) (coeffs : R → R → CoeffCache R)
    (self : InterpolatorAM2Order R) (EM : ElectroMagnAM R) (particles : Particles R)
    (ipart nparts : Int) (E : Buffer R) (ELoc : Int) (B : Buffer R) (BLoc : Int)
    (hr : radius sqrt particles ipart ≠ 0) :
    fieldsMode0 sqrt coeffs self EM particles ipart nparts E ELoc B BLoc
      = some
        { self := selfAfterCoeffs sqrt coeffs self particles ipart,
          exp_mm_theta := Cplx.ofReal 1,
          E := ((E.write (ELoc + 0 * nparts)
                    (SEl (particleCoeffs sqrt coeffs self particles ipart) EM 0).re).write
                  (ELoc + 1 * nparts)
                    (SEr (particleCoeffs sqrt coeffs self particles ipart) EM 0).re).write
                (ELoc + 2 * nparts)
                  (SEt (particleCoeffs sqrt coeffs self particles ipart) EM 0).re,
          B := ((B.write (BLoc + 0 * nparts)
                    (SBl (particleCoeffs sqrt coeffs self particles ipart) EM 0).re).write
                  (BLoc + 1 * nparts)
                    (SBr (particleCoeffs sqrt coeffs self particles ipart) EM 0).re).write
                (BLoc + 2 * nparts)
                  (SBt (particleCoeffs sqrt coeffs self particles ipart) EM 0).re } := by
  unfold fieldsMode0
  rw [phase_some sqrt particles ipart hr]
  rfl

theorem fieldsMode0_none (sqrt : R → R) (coeffs : R → R → CoeffCache R)
    (self : InterpolatorAM2Order R) (EM : ElectroMagnAM R) (particles : Particles R)
    (ipart nparts : Int) (E : Buffer R) (ELoc : Int) (B : Buffer R) (BLoc : Int)
    (hr : radius sqrt particles ipart = 0) :
    fieldsMode0 sqrt coeffs self EM particles ipart nparts E ELoc B BLoc = none := by
  unfold fieldsMode0
  rw [(phase_none_iff sqrt particles ipart).2 hr]

theorem fieldsModeStep_E (EM : ElectroMagnAM R) (nparts ELoc BLoc : Int) (m : Nat)
    (fr : FieldsFrame R) (q : Int) :
    (fieldsModeStep EM nparts ELoc BLoc m fr).E q = fr.E q +
      ((if q = ELoc + 0 * nparts then
          (SEl fr.self.toCoeffCache EM m * (fr.exp_mm_theta * fr.self.exp_m_theta)).re else 0)
       + (if q = ELoc + 1 * nparts then
          (SEr fr.self.toCoeffCache EM m * (fr.exp_mm_theta * fr.self.exp_m_theta)).re else 0)
       + (if q = ELoc + 2 * nparts then
          (SEt fr.self.toCoeffCache EM m * (fr.exp_mm_theta * fr.self.exp_m_theta)).re
          else 0)) := by
  simp only [fieldsModeStep, Buffer.add_at, SEl, SEr, SEt]
  ring

theorem fieldsModeStep_B (EM : ElectroMagnAM R) (nparts ELoc BLoc : Int) (m : Nat)
    (fr : FieldsFrame R) (q : Int) :
    (fieldsModeStep EM nparts ELoc BLoc m fr).B q = fr.B q +
      ((if q = BLoc + 0 * nparts then
          (SBl fr.self.toCoeffCache EM m * (fr.exp_mm_theta * fr.self.exp_m_theta)).re else 0)
       + (if q = BLoc + 1 * nparts then
          (SBr fr.self.toCoeffCache EM m * (fr.exp_mm_theta * fr.self.exp_m_theta)).re else 0)
       + (if q = BLoc + 2 * nparts then
          (SBt fr.self.toCoeffCache EM m * (fr.exp_mm_theta * fr.self.exp_m_theta)).re
          else 0)) := by
  simp only [fieldsModeStep, Buffer.add_at, SBl, SBr, SBt]
  ring

theorem npow_pred_mul (e : Cplx R) (i : Nat) (h : 1 ≤ i) :
    e.npow (i - 1) * e = e.npow i := by
  obtain ⟨k, rfl⟩ : ∃ k, i = k + 1 := ⟨i - 1, by omega⟩
  rfl

theorem fieldsLoop_spec (EM : ElectroMagnAM R) (nparts ELoc BLoc : Int)
    (fr0 : FieldsFrame R) (h1 : fr0.exp_mm_theta = Cplx.ofReal 1) (n : Nat) :
    (forLoop 1 n (fieldsModeStep EM nparts ELoc BLoc) fr0).self = fr0.self ∧
    (forLoop 1 n (fieldsModeStep EM nparts ELoc BLoc) fr0).exp_mm_theta
      = fr0.self.exp_m_theta.npow (n - 1) ∧
    (∀ q, (forLoop 1 n (fieldsModeStep EM nparts ELoc BLoc) fr0).E q = fr0.E q +
      ∑ m in Finset.Ico 1 n,
        ((if q = ELoc + 0 * nparts then
            (SEl fr0.self.toCoeffCache EM m * fr0.self.exp_m_theta.npow m).re else 0)
         + (if q = ELoc + 1 * nparts then
            (SEr fr0.self.toCoeffCache EM m * fr0.self.exp_m_theta.npow m).re else 0)
         + (if q = ELoc + 2 * nparts then
            (SEt fr0.self.toCoeffCache EM m * fr0.self.exp_m_theta.npow m).re else 0))) ∧
    (∀ q, (forLoop 1 n (fieldsModeStep EM nparts ELoc BLoc) fr0).B q = fr0.B q +
      ∑ m in Finset.Ico 1 n,
        ((if q = BLoc + 0 * nparts then
            (SBl fr0.self.toCoeffCache EM m * fr0.self.exp_m_theta.npow m).re else 0)
         + (if q = BLoc + 1 * nparts then
            (SBr fr0.self.toCoeffCache EM m * fr0.self.exp_m_theta.npow m).re else 0)
         + (if q = BLoc + 2 * nparts then
            (SBt fr0.self.toCoeffCache EM m * fr0.self.exp_m_theta.npow m).re else 0))) := by
  have hI : ∀ i (st : FieldsFrame R),
      (1 ≤ i ∧ st.self = fr0.self ∧ st.exp_mm_theta = fr0.self.exp_m_theta.npow (i - 1)) →
      (1 ≤ i + 1 ∧ (fieldsModeStep EM nparts ELoc BLoc i st).self = fr0.self ∧
        (fieldsModeStep EM nparts ELoc BLoc i st).exp_mm_theta
          = fr0.self.exp_m_theta.npow (i + 1 - 1)) := by
    rintro i st ⟨hi, hs, he⟩
    refine ⟨by omega, hs, ?_⟩
    show st.exp_mm_theta * st.self.exp_m_theta = _
    rw [he, hs, npow_pred_mul _ i hi]
    rfl
  have h0 : (1 : Nat) ≤ 1 ∧ fr0.self = fr0.self ∧
      fr0.exp_mm_theta = fr0.self.exp_m_theta.npow (1 - 1) := ⟨le_refl 1, rfl, h1⟩
  have hmain := forLoop_acc 1 n (fieldsModeStep EM nparts ELoc BLoc)
    (fun i (st : FieldsFrame R) =>
      1 ≤ i ∧ st.self = fr0.self ∧ st.exp_mm_theta = fr0.self.exp_m_theta.npow (i - 1))
    (fun (_ : FieldsFrame R) => (0 : R)) (fun _ => 0) hI (fun _ _ _ => by simp) fr0 h0
  obtain ⟨⟨-, hs, he⟩, -⟩ := hmain
  refine ⟨hs, ?_, ?_, ?_⟩
  · rw [he]
    congr 1
    omega
  · intro q
    exact (forLoop_acc 1 n (fieldsModeStep EM nparts ELoc BLoc)
      (fun i (st : FieldsFrame R) =>
        1 ≤ i ∧ st.self = fr0.self ∧ st.exp_mm_theta = fr0.self.exp_m_theta.npow (i - 1))
      (fun (st : FieldsFrame R) => st.E q) _ hI
      (fun i st hst => by
        obtain ⟨hi, hs, he⟩ := hst
        beta_reduce
        rw [fieldsModeStep_E, he, hs, npow_pred_mul _ i hi]) fr0 h0).2
  · intro q
    exact (forLoop_acc 1 n (fieldsModeStep EM nparts ELoc BLoc)
      (fun i (st : FieldsFrame R) =>
        1 ≤ i ∧ st.self = fr0.self ∧ st.exp_mm_theta = fr0.self.exp_m_theta.npow (i - 1))
      (fun (st : FieldsFrame R) => st.B q) _ hI
      (fun i st hst => by
        obtain ⟨hi, hs, he⟩ := hst
        beta_reduce
        rw [fieldsModeStep_B, he, hs, npow_pred_mul _ i hi]) fr0 h0).2

end FieldsClosedForm

section FieldsSlots

variable {R : Type} [LinearOrderedField R]

theorem slots_distinct (L n : Int) (hn : n ≠ 0) :
    L + 0 * n ≠ L + 1 * n ∧ L + 0 * n ≠ L + 2 * n ∧ L + 1 * n ≠ L + 2 * n ∧
    L + 1 * n ≠ L + 0 * n ∧ L + 2 * n ≠ L + 0 * n ∧ L + 2 * n ≠ L + 1 * n := by
  omega

theorem slot_sum (p0 p1 p2 : Int) (d01 : p0 ≠ p1) (d02 : p0 ≠ p2) (d12 : p1 ≠ p2)
    (E : Buffer R) (v0 v1 v2 : R) (X Y Z : Nat → R) (n : Nat) :
    (((E.write p0 v0).write p1 v1).write p2 v2 p0 +
      ∑ m in Finset.Ico 1 n, ((if p0 = p0 then X m else 0) + (if p0 = p1 then Y m else 0)
        + (if p0 = p2 then Z m else 0)) = v0 + ∑ m in Finset.Ico 1 n, X m) ∧
    (((E.write p0 v0).write p1 v1).write p2 v2 p1 +
      ∑ m in Finset.Ico 1 n, ((if p1 = p0 then X m else 0) + (if p1 = p1 then Y m else 0)
        + (if p1 = p2 then Z m else 0)) = v1 + ∑ m in Finset.Ico 1 n, Y m) ∧
    (((E.write p0 v0).write p1 v1).write p2 v2 p2 +
      ∑ m in Finset.Ico 1 n, ((if p2 = p0 then X m else 0) + (if p2 = p1 then Y m else 0)
        + (if p2 = p2 then Z m else 0)) = v2 + ∑ m in Finset.Ico 1 n, Z m) ∧
    (∀ q, q ≠ p0 → q ≠ p1 → q ≠ p2 →
      ((E.write p0 v0).write p1 v1).write p2 v2 q +
        ∑ m in Finset.Ico 1 n, ((if q = p0 then X m else 0) + (if q = p1 then Y m else 0)
          + (if q = p2 then Z m else 0)) = E q) := by
  refine ⟨?_, ?_, ?_, ?_⟩
  · simp [Buffer.write, d01, d02]
  · simp [Buffer.write, d01.symm, d12]
  · simp [Buffer.write, d02.symm, d12.symm]
  · intro q h0 h1 h2
    simp [Buffer.write, h0, h1, h2]

theorem fieldsAccumulate_slots (sqrt : R → R) (coeffs : R → R → CoeffCache R)
    (self : InterpolatorAM2Order R) (EM : ElectroMagnAM R) (particles : Particles R)
    (ipart nparts : Int) (E : Buffer R) (ELoc : Int) (B : Buffer R) (BLoc : Int)
    (hr : radius sqrt particles ipart ≠ 0) (hn : nparts ≠ 0) :
    ∃ fr, fieldsAccumulate sqrt coeffs self EM particles ipart nparts E ELoc B BLoc = some fr ∧
      fr.self = selfAfterCoeffs sqrt coeffs self particles ipart ∧
      fr.exp_mm_theta = (phaseValue sqrt particles ipart).npow (self.nmodes - 1) ∧
      fr.E (ELoc + 0 * nparts)
        = modeSum (SEl (particleCoeffs sqrt coeffs self particles ipart) EM)
            (phaseValue sqrt particles ipart) self.nmodes ∧
      fr.E (ELoc + 1 * nparts)
        = modeSum (SEr (particleCoeffs sqrt coeffs self particles ipart) EM)
            (phaseValue sqrt particles ipart) self.nmodes ∧
      fr.E (ELoc + 2 * nparts)
        = modeSum (SEt (particleCoeffs sqrt coeffs self particles ipart) EM)
            (phaseValue sqrt particles ipart) self.nmodes ∧
      fr.B (BLoc + 0 * nparts)
        = modeSum (SBl (particleCoeffs sqrt coeffs self particles ipart) EM)
            (phaseValue sqrt particles ipart) self.nmodes ∧
      fr.B (BLoc + 1 * nparts)
        = modeSum (SBr (particleCoeffs sqrt coeffs self particles ipart) EM)
            (phaseValue sqrt particles ipart) self.nmodes ∧
      fr.B (BLoc + 2 * nparts)
        = modeSum (SBt (particleCoeffs sqrt coeffs self particles ipart) EM)
            (phaseValue sqrt particles ipart) self.nmodes ∧
      (∀ q, q ≠ ELoc + 0 * nparts → q ≠ ELoc + 1 * nparts → q ≠ ELoc + 2 * nparts →
        fr.E q = E q) ∧
      (∀ q, q ≠ BLoc + 0 * nparts → q ≠ BLoc + 1 * nparts → q ≠ BLoc + 2 * nparts →
        fr.B q = B q) := by
  obtain ⟨e01, e02, e12, e10, e20, e21⟩ := slots_distinct ELoc nparts hn
  obtain ⟨b01, b02, b12, b10, b20, b21⟩ := slots_distinct BLoc nparts hn
  unfold fieldsAccumulate
  rw [fieldsMode0_eq sqrt coeffs self EM particles ipart nparts E ELoc B BLoc hr]
  simp only [Option.map_some']
  refine ⟨_, rfl, ?_⟩
  obtain ⟨hs, he, hE, hB⟩ := fieldsLoop_spec EM nparts ELoc BLoc
    { self := selfAfterCoeffs sqrt coeffs self particles ipart,
      exp_mm_theta := Cplx.ofReal 1,
      E := ((E.write (ELoc + 0 * nparts)
                (SEl (particleCoeffs sqrt coeffs self particles ipart) EM 0).re).write
              (ELoc + 1 * nparts)
                (SEr (particleCoeffs sqrt coeffs self particles ipart) EM 0).re).write
            (ELoc + 2 * nparts)
              (SEt (particleCoeffs sqrt coeffs self particles ipart) EM 0).re,
      B := ((B.write (BLoc + 0 * nparts)
                (SBl (particleCoeffs sqrt coeffs self particles ipart) EM 0).re).write
              (BLoc + 1 * nparts)
                (SBr (particleCoeffs sqrt coeffs self particles ipart) EM 0).re).write
            (BLoc + 2 * nparts)
              (SBt (particleCoeffs sqrt coeffs self particles ipart) EM 0).re } rfl
    self.nmodes
  obtain ⟨sE0, sE1, sE2, sEq⟩ := slot_sum (ELoc + 0 * nparts) (ELoc + 1 * nparts)
    (ELoc + 2 * nparts) e01 e02 e12 E
    (SEl (particleCoeffs sqrt coeffs self particles ipart) EM 0).re
    (SEr (particleCoeffs sqrt coeffs self particles ipart) EM 0).re
    (SEt (particleCoeffs sqrt coeffs self particles ipart) EM 0).re
    (fun m => (SEl (particleCoeffs sqrt coeffs self particles ipart) EM m
      * (phaseValue sqrt particles ipart).npow m).re)
    (fun m => (SEr (particleCoeffs sqrt coeffs self particles ipart) EM m
      * (phaseValue sqrt particles ipart).npow m).re)
    (fun m => (SEt (particleCoeffs sqrt coeffs self particles ipart) EM m
      * (phaseValue sqrt particles ipart).npow m).re) self.nmodes
  obtain ⟨sB0, sB1, sB2, sBq⟩ := slot_sum (BLoc + 0 * nparts) (BLoc + 1 * nparts)
    (BLoc + 2 * nparts) b01 b02 b12 B
    (SBl (particleCoeffs sqrt coeffs self particles ipart) EM 0).re
    (SBr (particleCoeffs sqrt coeffs self particles ipart) EM 0).re
    (SBt (particleCoeffs sqrt coeffs self particles ipart) EM 0).re
    (fun m => (SBl (particleCoeffs sqrt coeffs self particles ipart) EM m
      * (phaseValue sqrt particles ipart).npow m).re)
    (fun m => (SBr (particleCoeffs sqrt coeffs self particles ipart) EM m
      * (phaseValue sqrt particles ipart).npow m).re)
    (fun m => (SBt (particleCoeffs sqrt coeffs self particles ipart) EM m
      * (phaseValue sqrt particles ipart).npow m).re) self.nmodes
  refine ⟨hs, he, ?_, ?_, ?_, ?_, ?_, ?_, ?_, ?_⟩
  · exact (hE _).trans sE0
  · exact (hE _).trans sE1
  · exact (hE _).trans sE2
  · exact (hB _).trans sB0
  · exact (hB _).trans sB1
  · exact (hB _).trans sB2
  · intro q h0 h1 h2
    exact (hE q).trans (sEq q h0 h1 h2)
  · intro q h0 h1 h2
    exact (hB q).trans (sBq q h0 h1 h2)

end FieldsSlots

section FieldsResult

variable {R : Type} [LinearOrderedField R]

theorem fields_slots (sqrt : R → R) (coeffs : R → R → CoeffCache R)
    (self : InterpolatorAM2Order R) (EM : ElectroMagnAM R) (particles : Particles R)
    (ipart nparts : Int) (E : Buffer R) (ELoc : Int) (B : Buffer R) (BLoc : Int)
    (hr : radius sqrt particles ipart ≠ 0) (hn : nparts ≠ 0) :
    ∃ fr, fields sqrt coeffs self EM particles ipart nparts E ELoc B BLoc = some fr ∧
      fr.self = selfAfterCoeffs sqrt coeffs self particles ipart ∧
      fr.E (ELoc + 0 * nparts)
        = modeSum (SEl (particleCoeffs sqrt coeffs self particles ipart) EM)
            (phaseValue sqrt particles ipart) self.nmodes ∧
      fr.E (ELoc + 1 * nparts)
        = (phaseValue sqrt particles ipart).re *
            modeSum (SEr (particleCoeffs sqrt coeffs self particles ipart) EM)
              (phaseValue sqrt particles ipart) self.nmodes
          + (phaseValue sqrt particles ipart).im *
            modeSum (SEt (particleCoeffs sqrt coeffs self particles ipart) EM)
              (phaseValue sqrt particles ipart) self.nmodes ∧
      fr.E (ELoc + 2 * nparts)
        = -(phaseValue sqrt particles ipart).im *
            modeSum (SEr (particleCoeffs sqrt coeffs self particles ipart) EM)
              (phaseValue sqrt particles ipart) self.nmodes
          + (phaseValue sqrt particles ipart).re *
            modeSum (SEt (particleCoeffs sqrt coeffs self particles ipart) EM)
              (phaseValue sqrt particles ipart) self.nmodes ∧
      fr.B (BLoc + 0 * nparts)
        = modeSum (SBl (particleCoeffs sqrt coeffs self particles ipart) EM)
            (phaseValue sqrt particles ipart) self.nmodes ∧
      fr.B (BLoc + 1 * nparts)
        = (phaseValue sqrt particles ipart).re *
            modeSum (SBr (particleCoeffs sqrt coeffs self particles ipart) EM)
              (phaseValue sqrt particles ipart) self.nmodes
          + (phaseValue sqrt particles ipart).im *
            modeSum (SBt (particleCoeffs sqrt coeffs self particles ipart) EM)
              (phaseValue sqrt particles ipart) self.nmodes ∧
      fr.B (BLoc + 2 * nparts)
        = -(phaseValue sqrt particles ipart).im *
            modeSum (SBr (particleCoeffs sqrt coeffs self particles ipart) EM)
              (phaseValue sqrt particles ipart) self.nmodes
          + (phaseValue sqrt particles ipart).re *
            modeSum (SBt (particleCoeffs sqrt coeffs self particles ipart) EM)
              (phaseValue sqrt particles ipart) self.nmodes := by
  obtain ⟨e01, e02, e12, e10, e20, e21⟩ := slots_distinct ELoc nparts hn
  obtain ⟨b01, b02, b12, b10, b20, b21⟩ := slots_distinct BLoc nparts hn
  obtain ⟨fr, hfr, hs, -, hE0, hE1, hE2, hB0, hB1, hB2, -, -⟩ :=
    fieldsAccumulate_slots sqrt coeffs self EM particles ipart nparts E ELoc B BLoc hr hn
  have he : fr.self.exp_m_theta = phaseValue sqrt particles ipart := by rw [hs]; rfl
  refine ⟨fieldsRotate nparts ELoc BLoc fr, ?_, hs, ?_, ?_, ?_, ?_, ?_, ?_⟩
  · unfold fields
    rw [hfr]
    rfl
  · show rotatePair fr.self.exp_m_theta fr.E _ _ _ = _
    rw [rotatePair_other _ _ _ _ _ e01 e02, hE0]
  · show rotatePair fr.self.exp_m_theta fr.E _ _ _ = _
    rw [rotatePair_first, hE1, hE2, he]
  · show rotatePair fr.self.exp_m_theta fr.E _ _ _ = _
    rw [rotatePair_second _ _ _ _ e21, hE1, hE2, he]
  · show rotatePair fr.self.exp_m_theta fr.B _ _ _ = _
    rw [rotatePair_other _ _ _ _ _ b01 b02, hB0]
  · show rotatePair fr.self.exp_m_theta fr.B _ _ _ = _
    rw [rotatePair_first, hB1, hB2, he]
  · show rotatePair fr.self.exp_m_theta fr.B _ _ _ = _
    rw [rotatePair_second _ _ _ _ b21, hB1, hB2, he]

theorem modeSum_const (S : Nat → Cplx R) (e : Cplx R) (n : Nat) (c : R)
    (h0 : S 0 = Cplx.ofReal c) (hm : ∀ m, 1 ≤ m → S m = 0) : modeSum S e n = c := by
  unfold modeSum
  rw [h0, Finset.sum_eq_zero]
  · simp
  · intro m hmem
    rw [hm m (Finset.mem_Ico.1 hmem).1]
    simp

theorem compute_const_one (wx wy : Nat → R) (f : cField2D R) (idx idy : Int) (c : R)
    (hx : SumsToOne wx) (hy : SumsToOne wy) (h : ∀ i j, f i j = Cplx.ofReal c) :
    compute (ptr wx 1) (ptr wy 1) f idx idy = Cplx.ofReal c := by
  rw [compute_const _ _ f idx idy c h]
  obtain ⟨x0, x1, x2⟩ := ptr_one wx
  obtain ⟨y0, y1, y2⟩ := ptr_one wy
  unfold SumsToOne at hx hy
  rw [x0, x1, x2, y0, y1, y2, hx, hy]
  simp

theorem modeSums_const (c : CoeffCache R) (EM : ElectroMagnAM R) (e : Cplx R) (n : Nat)
    (v : R) (hc : CoeffsSumToOne c) (hEM : ConstantMode0 EM v) :
    modeSum (SEl c EM) e n = v ∧ modeSum (SEr c EM) e n = v ∧ modeSum (SEt c EM) e n = v ∧
    modeSum (SBl c EM) e n = v ∧ modeSum (SBr c EM) e n = v ∧ modeSum (SBt c EM) e n = v := by
  obtain ⟨hxp, hxd, hyp, hyd⟩ := hc
  obtain ⟨h0, hm⟩ := hEM
  refine ⟨?_, ?_, ?_, ?_, ?_, ?_⟩
  · exact modeSum_const _ e n v
      (compute_const_one _ _ _ _ _ v hxd hyp (fun i j => (h0 i j).1))
      (fun m h1 => compute_zero _ _ _ _ _ (fun i j => (hm m h1 i j).1))
  · exact modeSum_const _ e n v
      (compute_const_one _ _ _ _ _ v hxp hyd (fun i j => (h0 i j).2.1))
      (fun m h1 => compute_zero _ _ _ _ _ (fun i j => (hm m h1 i j).2.1))
  · exact modeSum_const _ e n v
      (compute_const_one _ _ _ _ _ v hxp hyp (fun i j => (h0 i j).2.2.1))
      (fun m h1 => compute_zero _ _ _ _ _ (fun i j => (hm m h1 i j).2.2.1))
  · exact modeSum_const _ e n v
      (compute_const_one _ _ _ _ _ v hxp hyd (fun i j => (h0 i j).2.2.2.1))
      (fun m h1 => compute_zero _ _ _ _ _ (fun i j => (hm m h1 i j).2.2.2.1))
  · exact modeSum_const _ e n v
      (compute_const_one _ _ _ _ _ v hxd hyp (fun i j => (h0 i j).2.2.2.2.1))
      (fun m h1 => compute_zero _ _ _ _ _ (fun i j => (hm m h1 i j).2.2.2.2.1))
  · exact modeSum_const _ e n v
      (compute_const_one _ _ _ _ _ v hxd hyd (fun i j => (h0 i j).2.2.2.2.2))
      (fun m h1 => compute_zero _ _ _ _ _ (fun i j => (hm m h1 i j).2.2.2.2.2))

theorem fields_const (sqrt : R → R) (coeffs : R → R → CoeffCache R)
    (self : InterpolatorAM2Order R) (EM : ElectroMagnAM R) (particles : Particles R)
    (ipart nparts : Int) (E : Buffer R) (ELoc : Int) (B : Buffer R) (BLoc : Int) (c : R)
    (hr : radius sqrt particles ipart ≠ 0) (hn : nparts ≠ 0)
    (hc : CoeffsSumToOne (particleCoeffs sqrt coeffs self particles ipart))
    (hEM : ConstantMode0 EM c) :
    ∃ fr, fields sqrt coeffs self EM particles ipart nparts E ELoc B BLoc = some fr ∧
      fr.E (ELoc + 0 * nparts) = c ∧
      fr.E (ELoc + 1 * nparts)
        = c * (particles.position 1 ipart - particles.position 2 ipart)
            / radius sqrt particles ipart ∧
      fr.E (ELoc + 2 * nparts)
        = c * (particles.position 2 ipart + particles.position 1 ipart)
            / radius sqrt particles ipart ∧
      fr.B (BLoc + 0 * nparts) = c ∧
      fr.B (BLoc + 1 * nparts)
        = c * (particles.position 1 ipart - particles.position 2 ipart)
            / radius sqrt particles ipart ∧
      fr.B (BLoc + 2 * nparts)
        = c * (particles.position 2 ipart + particles.position 1 ipart)
            / radius sqrt particles ipart := by
  obtain ⟨fr, hfr, -, hE0, hE1, hE2, hB0, hB1, hB2⟩ :=
    fields_slots sqrt coeffs self EM particles ipart nparts E ELoc B BLoc hr hn
  obtain ⟨m1, m2, m3, m4, m5, m6⟩ := modeSums_const
    (particleCoeffs sqrt coeffs self particles ipart) EM (phaseValue sqrt particles ipart)
    self.nmodes c hc hEM
  rw [m1] at hE0
  rw [m2, m3] at hE1 hE2
  rw [m4] at hB0
  rw [m5, m6] at hB1 hB2
  refine ⟨fr, hfr, hE0, ?_, ?_, hB0, ?_, ?_⟩
  · rw [hE1]; simp only [phaseValue]; ring
  · rw [hE2]; simp only [phaseValue]; ring
  · rw [hB1]; simp only [phaseValue]; ring
  · rw [hB2]; simp only [phaseValue]; ring

end FieldsResult

section CurrentsLemmas

variable {R : Type} [LinearOrderedField R]

theorem fieldsAndCurrentsAccumulate_some (sqrt : R → R) (coeffs : R → R → CoeffCache R)
    (compute_p compute_d : ComputeFn R)
    (self : InterpolatorAM2Order R) (EM : ElectroMagnAM R) (particles : Particles R)
    (Epart Bpart : Buffer R) (istart : Int) (hr : radius sqrt particles istart ≠ 0) :
    ∃ gr, fieldsAndCurrentsAccumulate sqrt coeffs compute_p compute_d self EM particles
        Epart Bpart istart = some gr ∧
      gr.self.exp_m_theta = phaseValue sqrt particles istart := by
  unfold fieldsAndCurrentsAccumulate fieldsAndCurrentsMode0
  dsimp only
  rw [phase_some sqrt particles istart hr]
  simp only [Option.map_some']
  refine ⟨_, rfl, ?_⟩
  apply forLoop_inv 1 _ _
    (fun (fr : CurrentsFrame R) => fr.self.exp_m_theta = phaseValue sqrt particles istart)
  · intro i st h
    exact h
  · rfl

theorem fieldsAndCurrents_none_iff (sqrt : R → R) (coeffs : R → R → CoeffCache R)
    (compute_p compute_d : ComputeFn R)
    (self : InterpolatorAM2Order R) (EM : ElectroMagnAM R) (particles : Particles R)
    (Epart Bpart : Buffer R) (istart : Int) :
    fieldsAndCurrents sqrt coeffs compute_p compute_d self EM particles Epart Bpart istart
      = none ↔ radius sqrt particles istart = 0 := by
  constructor
  · intro h
    by_contra hr
    obtain ⟨gr, hgr, -⟩ := fieldsAndCurrentsAccumulate_some sqrt coeffs compute_p compute_d
      self EM particles Epart Bpart istart hr
    unfold fieldsAndCurrents at h
    rw [hgr] at h
    exact absurd h (by simp)
  · intro hr
    unfold fieldsAndCurrents fieldsAndCurrentsAccumulate fieldsAndCurrentsMode0
    dsimp only
    rw [(phase_none_iff sqrt particles istart).2 hr]
    rfl

theorem fields_none_iff (sqrt : R → R) (coeffs : R → R → CoeffCache R)
    (self : InterpolatorAM2Order R) (EM : ElectroMagnAM R) (particles : Particles R)
    (ipart nparts : Int) (E : Buffer R) (ELoc : Int) (B : Buffer R) (BLoc : Int) :
    fields sqrt coeffs self EM particles ipart nparts E ELoc B BLoc = none
      ↔ radius sqrt particles ipart = 0 := by
  constructor
  · intro h
    by_contra hr
    unfold fields fieldsAccumulate at h
    rw [fieldsMode0_eq sqrt coeffs self EM particles ipart nparts E ELoc B BLoc hr] at h
    exact absurd h (by simp)
  · intro hr
    unfold fields fieldsAccumulate
    rw [fieldsMode0_none sqrt coeffs self EM particles ipart nparts E ELoc B BLoc hr]
    rfl

theorem rotatedPair_of (sqrt : R → R) (particles : Particles R) (ipart : Int)
    (e : Cplx R) (he : e = phaseValue sqrt particles ipart) (Rv Tv Y Z : R)
    (hY : Y = e.re * Rv + e.im * Tv) (hZ : Z = -e.im * Rv + e.re * Tv) :
    RotatedPair e (particles.position 1 ipart) (particles.position 2 ipart)
      (radius sqrt particles ipart) Rv Tv Y Z := by
  refine ⟨hY, hZ, ?_, ?_⟩
  · rw [hY, he]; simp only [phaseValue]; ring
  · rw [hZ, he]; simp only [phaseValue]; ring

theorem fieldsModeStep_congr (EM EM' : ElectroMagnAM R) (h : SameUpToMode0Imag EM EM')
    (nparts ELoc BLoc : Int) (i : Nat) (hi : 1 ≤ i) (st : FieldsFrame R) :
    fieldsModeStep EM' nparts ELoc BLoc i st = fieldsModeStep EM nparts ELoc BLoc i st := by
  obtain ⟨h1, h2, h3, h4, h5, h6, -⟩ := h.1 i hi
  simp only [fieldsModeStep, h1, h2, h3, h4, h5, h6]

theorem fieldsAndCurrentsModeStep_congr (compute_p compute_d : ComputeFn R)
    (EM EM' : ElectroMagnAM R) (h : SameUpToMode0Imag EM EM')
    (nparts ELoc BLoc : Int) (i : Nat) (hi : 1 ≤ i) (st : CurrentsFrame R) :
    fieldsAndCurrentsModeStep compute_p compute_d EM' nparts ELoc BLoc i st
      = fieldsAndCurrentsModeStep compute_p compute_d EM nparts ELoc BLoc i st := by
  obtain ⟨h1, h2, h3, h4, h5, h6, h7, h8, h9, h10⟩ := h.1 i hi
  simp only [fieldsAndCurrentsModeStep, h1, h2, h3, h4, h5, h6, h7, h8, h9, h10]

theorem fieldsMode0_congr (sqrt : R → R) (coeffs : R → R → CoeffCache R)
    (self : InterpolatorAM2Order R) (EM EM' : ElectroMagnAM R) (h : SameUpToMode0Imag EM EM')
    (particles : Particles R)
    (ipart nparts : Int) (E : Buffer R) (ELoc : Int) (B : Buffer R) (BLoc : Int) :
    fieldsMode0 sqrt coeffs self EM' particles ipart nparts E ELoc B BLoc
      = fieldsMode0 sqrt coeffs self EM particles ipart nparts E ELoc B BLoc := by
  have h0 := h.2
  unfold fieldsMode0
  cases phase sqrt particles ipart with
  | none => rfl
  | some e =>
    simp only [compute_re_congr _ _ (EM.El_ 0) (EM'.El_ 0) _ _ (fun i j => (h0 i j).1),
      compute_re_congr _ _ (EM.Er_ 0) (EM'.Er_ 0) _ _ (fun i j => (h0 i j).2.1),
      compute_re_congr _ _ (EM.Et_ 0) (EM'.Et_ 0) _ _ (fun i j => (h0 i j).2.2.1),
      compute_re_congr _ _ (EM.Bl_m 0) (EM'.Bl_m 0) _ _ (fun i j => (h0 i j).2.2.2.1),
      compute_re_congr _ _ (EM.Br_m 0) (EM'.Br_m 0) _ _ (fun i j => (h0 i j).2.2.2.2.1),
      compute_re_congr _ _ (EM.Bt_m 0) (EM'.Bt_m 0) _ _ (fun i j => (h0 i j).2.2.2.2.2.1)]

theorem fieldsAndCurrentsMode0_congr (sqrt : R → R) (coeffs : R → R → CoeffCache R)
    (compute_p compute_d : ComputeFn R) (hp : RealWeighted compute_p)
    (hd : RealWeighted compute_d)
    (self : InterpolatorAM2Order R) (EM EM' : ElectroMagnAM R) (h : SameUpToMode0Imag EM EM')
    (particles : Particles R) (Epart Bpart : Buffer R) (istart : Int) :
    fieldsAndCurrentsMode0 sqrt coeffs compute_p compute_d self EM' particles Epart Bpart istart
      = fieldsAndCurrentsMode0 sqrt coeffs compute_p compute_d self EM particles Epart Bpart
          istart := by
  have h0 := h.2
  unfold fieldsAndCurrentsMode0
  dsimp only
  cases phase sqrt particles istart with
  | none => rfl
  | some e =>
    simp only [
      realWeighted_re_congr compute_p hp _ _ (EM.El_ 0) (EM'.El_ 0) _ _
        (fun i j => (h0 i j).1),
      realWeighted_re_congr compute_d hd _ _ (EM.Er_ 0) (EM'.Er_ 0) _ _
        (fun i j => (h0 i j).2.1),
      realWeighted_re_congr compute_p hp _ _ (EM.Et_ 0) (EM'.Et_ 0) _ _
        (fun i j => (h0 i j).2.2.1),
      realWeighted_re_congr compute_d hd _ _ (EM.Bl_m 0) (EM'.Bl_m 0) _ _
        (fun i j => (h0 i j).2.2.2.1),
      realWeighted_re_congr compute_p hp _ _ (EM.Br_m 0) (EM'.Br_m 0) _ _
        (fun i j => (h0 i j).2.2.2.2.1),
      realWeighted_re_congr compute_d hd _ _ (EM.Bt_m 0) (EM'.Bt_m 0) _ _
        (fun i j => (h0 i j).2.2.2.2.2.1),
      realWeighted_re_congr compute_p hp _ _ (EM.Jl_ 0) (EM'.Jl_ 0) _ _
        (fun i j => (h0 i j).2.2.2.2.2.2.1),
      realWeighted_re_congr compute_d hd _ _ (EM.Jr_ 0) (EM'.Jr_ 0) _ _
        (fun i j => (h0 i j).2.2.2.2.2.2.2.1),
      realWeighted_re_congr compute_p hp _ _ (EM.Jt_ 0) (EM'.Jt_ 0) _ _
        (fun i j => (h0 i j).2.2.2.2.2.2.2.2.1),
      realWeighted_re_congr compute_p hp _ _ (EM.rho_AM_ 0) (EM'.rho_AM_ 0) _ _
        (fun i j => (h0 i j).2.2.2.2.2.2.2.2.2)]

end CurrentsLemmas

/-! ## Claims on the interpolator -/

section InterpClaims

variable {R : Type} [LinearOrderedField R]

/-- C3 (amended): for a mode-0 field equal to the real constant `c` everywhere, all modes
`m >= 1` zero, shape coefficients summing to 1 on each axis and a particle with `r > 0`,
`fields` returns exactly `c` in the longitudinal slots `ELoc[0]`, `BLoc[0]`, and the rotated
values `c*(y - z)/r` and `c*(z + y)/r` in the second and third slots of `ELoc` and `BLoc`. -/
theorem C3_constant_field_rotated (sqrt : R → R) (coeffs : R → R → CoeffCache R)
    (self : InterpolatorAM2Order R) (EM : ElectroMagnAM R) (particles : Particles R)
    (ipart nparts : Int) (E : Buffer R) (ELoc : Int) (B : Buffer R) (BLoc : Int) (c : R)
    (hr : 0 < radius sqrt particles ipart) (hn : nparts ≠ 0)
    (hc : CoeffsSumToOne (particleCoeffs sqrt coeffs self particles ipart))
    (hEM : ConstantMode0 EM c) :
    ∃ fr, fields sqrt coeffs self EM particles ipart nparts E ELoc B BLoc = some fr ∧
      fr.E (ELoc + 0 * nparts) = c ∧
      fr.E (ELoc + 1 * nparts)
        = c * (particles.position 1 ipart - particles.position 2 ipart)
            / radius sqrt particles ipart ∧
      fr.E (ELoc + 2 * nparts)
        = c * (particles.position 2 ipart + particles.position 1 ipart)
            / radius sqrt particles ipart ∧
      fr.B (BLoc + 0 * nparts) = c ∧
      fr.B (BLoc + 1 * nparts)
        = c * (particles.position 1 ipart - particles.position 2 ipart)
            / radius sqrt particles ipart ∧
      fr.B (BLoc + 2 * nparts)
        = c * (particles.position 2 ipart + particles.position 1 ipart)
            / radius sqrt particles ipart :=
  fields_const sqrt coeffs self EM particles ipart nparts E ELoc B BLoc c (ne_of_gt hr) hn hc
    hEM

/-- C4: for a particle with `r > 0` (and distinct output slots, `nparts ≠ 0`), the running
factor `exp_mm_theta` after the iteration of mode `m` is `(exp_m_theta)^m` with
`exp_m_theta = (y - i z)/r`, and before the final rotation each of the six slots holds
`Re(S_0) + sum over m = 1..nmodes-1 of Re(S_m * (exp_m_theta)^m)` for the stencil sums
`S_m` of its component. -/
theorem C4_mode_summation_closed_form (sqrt : R → R) (coeffs : R → R → CoeffCache R)
    (self : InterpolatorAM2Order R) (EM : ElectroMagnAM R) (particles : Particles R)
    (ipart nparts : Int) (E : Buffer R) (ELoc : Int) (B : Buffer R) (BLoc : Int)
    (hr : 0 < radius sqrt particles ipart) (hn : nparts ≠ 0) :
    ∃ fr0 fr,
      fieldsMode0 sqrt coeffs self EM particles ipart nparts E ELoc B BLoc = some fr0 ∧
      fieldsAccumulate sqrt coeffs self EM particles ipart nparts E ELoc B BLoc = some fr ∧
      fr.self.exp_m_theta = phaseValue sqrt particles ipart ∧
      (∀ m, (forLoop 1 (m + 1) (fieldsModeStep EM nparts ELoc BLoc) fr0).exp_mm_theta
          = (phaseValue sqrt particles ipart).npow m) ∧
      fr.E (ELoc + 0 * nparts)
        = modeSum (SEl (particleCoeffs sqrt coeffs self particles ipart) EM)
            (phaseValue sqrt particles ipart) self.nmodes ∧
      fr.E (ELoc + 1 * nparts)
        = modeSum (SEr (particleCoeffs sqrt coeffs self particles ipart) EM)
            (phaseValue sqrt particles ipart) self.nmodes ∧
      fr.E (ELoc + 2 * nparts)
        = modeSum (SEt (particleCoeffs sqrt coeffs self particles ipart) EM)
            (phaseValue sqrt particles ipart) self.nmodes ∧
      fr.B (BLoc + 0 * nparts)
        = modeSum (SBl (particleCoeffs sqrt coeffs self particles ipart) EM)
            (phaseValue sqrt particles ipart) self.nmodes ∧
      fr.B (BLoc + 1 * nparts)
        = modeSum (SBr (particleCoeffs sqrt coeffs self particles ipart) EM)
            (phaseValue sqrt particles ipart) self.nmodes ∧
      fr.B (BLoc + 2 * nparts)
        = modeSum (SBt (particleCoeffs sqrt coeffs self particles ipart) EM)
            (phaseValue sqrt particles ipart) self.nmodes := by
  obtain ⟨fr, hfr, hs, -, hE0, hE1, hE2, hB0, hB1, hB2, -, -⟩ :=
    fieldsAccumulate_slots sqrt coeffs self EM particles ipart nparts E ELoc B BLoc
      (ne_of_gt hr) hn
  refine ⟨_, fr,
    fieldsMode0_eq sqrt coeffs self EM particles ipart nparts E ELoc B BLoc (ne_of_gt hr),
    hfr, by rw [hs]; rfl, ?_, hE0, hE1, hE2, hB0, hB1, hB2⟩
  intro m
  exact (fieldsLoop_spec EM nparts ELoc BLoc _ rfl (m + 1)).2.1

/-- C5: with `R`, `T` the accumulated radial and azimuthal values and
`e = exp_m_theta = (y - i z)/r`, the second and third outputs are `Re(e)*R + Im(e)*T` and
`-Im(e)*R + Re(e)*T`, that is `(y*R - z*T)/r` and `(z*R + y*T)/r`; `fields` applies this map
to the `E` pair and the `B` pair, `fieldsAndCurrents` to the `E` pair, the `B` pair and
`(JLoc.y, JLoc.z)`, and the longitudinal components, `JLoc.x` and `RhoLoc` stay as
accumulated. -/
theorem C5_final_basis_change (sqrt : R → R) (coeffs : R → R → CoeffCache R)
    (compute_p compute_d : ComputeFn R)
    (self : InterpolatorAM2Order R) (EM : ElectroMagnAM R) (particles : Particles R)
    (ipart nparts : Int) (E : Buffer R) (ELoc : Int) (B : Buffer R) (BLoc : Int)
    (hr : 0 < radius sqrt particles ipart) (hn : nparts ≠ 0)
    (hsz : (particles.size : Int) ≠ 0) :
    (∃ fr fr',
      fieldsAccumulate sqrt coeffs self EM particles ipart nparts E ELoc B BLoc = some fr ∧
      fields sqrt coeffs self EM particles ipart nparts E ELoc B BLoc = some fr' ∧
      RotatedPair (phaseValue sqrt particles ipart) (particles.position 1 ipart)
        (particles.position 2 ipart) (radius sqrt particles ipart)
        (fr.E (ELoc + 1 * nparts)) (fr.E (ELoc + 2 * nparts))
        (fr'.E (ELoc + 1 * nparts)) (fr'.E (ELoc + 2 * nparts)) ∧
      RotatedPair (phaseValue sqrt particles ipart) (particles.position 1 ipart)
        (particles.position 2 ipart) (radius sqrt particles ipart)
        (fr.B (BLoc + 1 * nparts)) (fr.B (BLoc + 2 * nparts))
        (fr'.B (BLoc + 1 * nparts)) (fr'.B (BLoc + 2 * nparts)) ∧
      fr'.E (ELoc + 0 * nparts) = fr.E (ELoc + 0 * nparts) ∧
      fr'.B (BLoc + 0 * nparts) = fr.B (BLoc + 0 * nparts)) ∧
    (∃ gr gr',
      fieldsAndCurrentsAccumulate sqrt coeffs compute_p compute_d self EM particles E B ipart
        = some gr ∧
      fieldsAndCurrents sqrt coeffs compute_p compute_d self EM particles E B ipart
        = some gr' ∧
      RotatedPair (phaseValue sqrt particles ipart) (particles.position 1 ipart)
        (particles.position 2 ipart) (radius sqrt particles ipart)
        (gr.E (ipart + 1 * particles.size)) (gr.E (ipart + 2 * particles.size))
        (gr'.E (ipart + 1 * particles.size)) (gr'.E (ipart + 2 * particles.size)) ∧
      RotatedPair (phaseValue sqrt particles ipart) (particles.position 1 ipart)
        (particles.position 2 ipart) (radius sqrt particles ipart)
        (gr.B (ipart + 1 * particles.size)) (gr.B (ipart + 2 * particles.size))
        (gr'.B (ipart + 1 * particles.size)) (gr'.B (ipart + 2 * particles.size)) ∧
      RotatedPair (phaseValue sqrt particles ipart) (particles.position 1 ipart)
        (particles.position 2 ipart) (radius sqrt particles ipart)
        gr.JLoc.y gr.JLoc.z gr'.JLoc.y gr'.JLoc.z ∧
      gr'.E (ipart + 0 * particles.size) = gr.E (ipart + 0 * particles.size) ∧
      gr'.B (ipart + 0 * particles.size) = gr.B (ipart + 0 * particles.size) ∧
      gr'.JLoc.x = gr.JLoc.x ∧ gr'.RhoLoc = gr.RhoLoc) := by
  constructor
  · obtain ⟨e01, e02, e12, e10, e20, e21⟩ := slots_distinct ELoc nparts hn
    obtain ⟨b01, b02, b12, b10, b20, b21⟩ := slots_distinct BLoc nparts hn
    obtain ⟨fr, hfr, hs, -⟩ :=
      fieldsAccumulate_slots sqrt coeffs self EM particles ipart nparts E ELoc B BLoc
        (ne_of_gt hr) hn
    have he : fr.self.exp_m_theta = phaseValue sqrt particles ipart := by rw [hs]; rfl
    refine ⟨fr, fieldsRotate nparts ELoc BLoc fr, hfr, ?_, ?_, ?_, ?_, ?_⟩
    · unfold fields
      rw [hfr]
      rfl
    · apply rotatedPair_of sqrt particles ipart _ rfl
      · show rotatePair fr.self.exp_m_theta fr.E _ _ _ = _
        rw [rotatePair_first, he]
      · show rotatePair fr.self.exp_m_theta fr.E _ _ _ = _
        rw [rotatePair_second _ _ _ _ e21, he]
    · apply rotatedPair_of sqrt particles ipart _ rfl
      · show rotatePair fr.self.exp_m_theta fr.B _ _ _ = _
        rw [rotatePair_first, he]
      · show rotatePair fr.self.exp_m_theta fr.B _ _ _ = _
        rw [rotatePair_second _ _ _ _ b21, he]
    · show rotatePair fr.self.exp_m_theta fr.E _ _ _ = _
      rw [rotatePair_other _ _ _ _ _ e01 e02]
    · show rotatePair fr.self.exp_m_theta fr.B _ _ _ = _
      rw [rotatePair_other _ _ _ _ _ b01 b02]
  · obtain ⟨e01, e02, e12, e10, e20, e21⟩ := slots_distinct ipart particles.size hsz
    obtain ⟨gr, hgr, he⟩ := fieldsAndCurrentsAccumulate_some sqrt coeffs compute_p compute_d
      self EM particles E B ipart (ne_of_gt hr)
    refine ⟨gr, fieldsAndCurrentsRotate particles.size ipart ipart gr, hgr, ?_, ?_, ?_, ?_,
      ?_, ?_, rfl, rfl⟩
    · unfold fieldsAndCurrents
      rw [hgr]
      rfl
    · apply rotatedPair_of sqrt particles ipart _ rfl
      · show rotatePair gr.self.exp_m_theta gr.E _ _ _ = _
        rw [rotatePair_first, he]
      · show rotatePair gr.self.exp_m_theta gr.E _ _ _ = _
        rw [rotatePair_second _ _ _ _ e21, he]
    · apply rotatedPair_of sqrt particles ipart _ rfl
      · show rotatePair gr.self.exp_m_theta gr.B _ _ _ = _
        rw [rotatePair_first, he]
      · show rotatePair gr.self.exp_m_theta gr.B _ _ _ = _
        rw [rotatePair_second _ _ _ _ e21, he]
    · apply rotatedPair_of sqrt particles ipart _ rfl
      · show gr.self.exp_m_theta.re * gr.JLoc.y + gr.self.exp_m_theta.im * gr.JLoc.z = _
        rw [he]
      · show -gr.self.exp_m_theta.im * gr.JLoc.y + gr.self.exp_m_theta.re * gr.JLoc.z = _
        rw [he]
    · show rotatePair gr.self.exp_m_theta gr.E _ _ _ = _
      rw [rotatePair_other _ _ _ _ _ e01 e02]
    · show rotatePair gr.self.exp_m_theta gr.B _ _ _ = _
      rw [rotatePair_other _ _ _ _ _ e01 e02]

/-- C7 (amended): `fields` and `fieldsAndCurrents` divide by `r` without a guard: the
division by zero is reached (no value, `none`) exactly when `r = 0`, and is not reached for
any particle with `r ≠ 0`. -/
theorem C7_division_by_r_unguarded (sqrt : R → R) (coeffs : R → R → CoeffCache R)
    (compute_p compute_d : ComputeFn R)
    (self : InterpolatorAM2Order R) (EM : ElectroMagnAM R) (particles : Particles R)
    (ipart nparts : Int) (E : Buffer R) (ELoc : Int) (B : Buffer R) (BLoc : Int) :
    (fields sqrt coeffs self EM particles ipart nparts E ELoc B BLoc = none
      ↔ radius sqrt particles ipart = 0) ∧
    (fieldsAndCurrents sqrt coeffs compute_p compute_d self EM particles E B ipart = none
      ↔ radius sqrt particles ipart = 0) :=
  ⟨fields_none_iff sqrt coeffs self EM particles ipart nparts E ELoc B BLoc,
   fieldsAndCurrents_none_iff sqrt coeffs compute_p compute_d self EM particles E B ipart⟩

/-- C10: two field sets that differ only in the imaginary parts of the mode-0 grids give
the same result of `fields` and, for helpers `compute_p`, `compute_d` that are sums of grid
samples weighted by real coefficients, the same result of `fieldsAndCurrents`. -/
theorem C10_mode0_imaginary_part_unused (sqrt : R → R) (coeffs : R → R → CoeffCache R)
    (compute_p compute_d : ComputeFn R) (hp : RealWeighted compute_p)
    (hd : RealWeighted compute_d)
    (self : InterpolatorAM2Order R) (EM EM' : ElectroMagnAM R)
    (h : SameUpToMode0Imag EM EM') (particles : Particles R)
    (ipart nparts : Int) (E : Buffer R) (ELoc : Int) (B : Buffer R) (BLoc : Int) :
    fields sqrt coeffs self EM' particles ipart nparts E ELoc B BLoc
      = fields sqrt coeffs self EM particles ipart nparts E ELoc B BLoc ∧
    fieldsAndCurrents sqrt coeffs compute_p compute_d self EM' particles E B ipart
      = fieldsAndCurrents sqrt coeffs compute_p compute_d self EM particles E B ipart := by
  constructor
  · unfold fields fieldsAccumulate
    rw [fieldsMode0_congr sqrt coeffs self EM EM' h particles ipart nparts E ELoc B BLoc]
    congr 2
    funext fr
    exact forLoop_congr 1 _ _ _
      (fun i hi st => fieldsModeStep_congr EM EM' h nparts ELoc BLoc i hi st) fr
  · unfold fieldsAndCurrents fieldsAndCurrentsAccumulate
    rw [fieldsAndCurrentsMode0_congr sqrt coeffs compute_p compute_d hp hd self EM EM' h
      particles E B ipart]
    congr 2
    funext fr
    exact forLoop_congr 1 _ _ _
      (fun i hi st => fieldsAndCurrentsModeStep_congr compute_p compute_d EM EM' h _ _ _ i hi
        st) fr

end InterpClaims

section Unsupported

variable {R : Type}

/-- C6: for every input, `oneField` and `fieldsSelection` end with an error report and leave
their output array (`FieldLoc`, `buffer`) as it was. -/
theorem C6_unsupported_operations_fail_fast {Fld : Type} (field : Fld)
    (EM : ElectroMagnAM R) (particles : Particles R) (istart iend offset : Int)
    (FieldLoc buffer : Buffer R) (selection : List Nat) :
    (oneField field particles istart iend FieldLoc).2
        = Except.error "Single field AM2O interpolator not available" ∧
    (oneField field particles istart iend FieldLoc).1 = FieldLoc ∧
    (fieldsSelection EM particles buffer offset selection).2 = Except.error "To Do" ∧
    (fieldsSelection EM particles buffer offset selection).1 = buffer :=
  ⟨rfl, rfl, rfl, rfl⟩

end Unsupported

section InterpWitnesses

theorem radius_3_4 : radius sqrtQ (oneParticle 3 4) 0 = 5 := by
  have h : (3 : ℚ) * 3 + 4 * 4 = 25 := by norm_num
  simp only [radius, oneParticle]
  norm_num
  exact sqrtQ_25

theorem radius_0_0 : radius sqrtQ (oneParticle 0 0) 0 = 0 := by
  simp only [radius, oneParticle]
  norm_num
  exact sqrtQ_zero

theorem sampleCache_sums : CoeffsSumToOne sampleCache := by
  unfold CoeffsSumToOne SumsToOne sampleCache
  norm_num

theorem constEM_constant (c : ℚ) : ConstantMode0 (constEM c) c := by
  refine ⟨fun i j => ⟨rfl, rfl, rfl, rfl, rfl, rfl⟩, fun m hm i j => ?_⟩
  have h0 : m ≠ 0 := by omega
  simp [constEM, h0]

theorem constEM_same (c d : ℚ) : SameUpToMode0Imag (constEM c) (constEMim c d) := by
  refine ⟨fun m hm => ?_, fun i j => ?_⟩
  · have h0 : m ≠ 0 := by omega
    simp [constEM, constEMim, h0]
  · simp [constEM, constEMim]

/-- C3 (counterexample): one particle at `y = 3`, `z = 4` (so `r = 5`), all mode-0 grids
equal to `1`, weights `1/8, 3/4, 1/8`: the hypotheses of the claim hold and the second
slot of `ELoc` receives `-1/5`, not `1`. -/
theorem C3_constant_field_counterexample :
    ConstantMode0 (constEM 1) 1 ∧
    CoeffsSumToOne
      (particleCoeffs sqrtQ (fun _ _ => sampleCache) sampleInterp (oneParticle 3 4) 0) ∧
    0 < radius sqrtQ (oneParticle 3 4) 0 ∧
    ∃ fr, fields sqrtQ (fun _ _ => sampleCache) sampleInterp (constEM 1) (oneParticle 3 4)
        0 1 (fun _ => 0) 0 (fun _ => 0) 0 = some fr ∧
      fr.E (0 + 1 * 1) = -1 / 5 ∧ fr.E (0 + 1 * 1) ≠ 1 := by
  refine ⟨constEM_constant 1, sampleCache_sums, by rw [radius_3_4]; norm_num, ?_⟩
  obtain ⟨fr, hfr, -, h1, -⟩ := fields_const sqrtQ (fun _ _ => sampleCache) sampleInterp
    (constEM 1) (oneParticle 3 4) 0 1 (fun _ => 0) 0 (fun _ => 0) 0 1
    (by rw [radius_3_4]; norm_num) (by norm_num) sampleCache_sums (constEM_constant 1)
  have hv : fr.E (0 + 1 * 1) = -1 / 5 := by
    rw [h1, radius_3_4]
    simp only [oneParticle]
    norm_num
  exact ⟨fr, hfr, hv, by rw [hv]; norm_num⟩

/-- C3 (witness): the sample particle and the constant field `1`. -/
theorem C3_constant_field_witness :
    ∃ fr, fields sqrtQ (fun _ _ => sampleCache) sampleInterp (constEM 1) (oneParticle 3 4)
        0 1 (fun _ => 0) 0 (fun _ => 0) 0 = some fr ∧
      fr.E (0 + 0 * 1) = 1 ∧ fr.B (0 + 0 * 1) = 1 :=
  let ⟨fr, hfr, h0, _, _, h3, _, _⟩ := C3_constant_field_rotated sqrtQ
    (fun _ _ => sampleCache) sampleInterp (constEM 1) (oneParticle 3 4) 0 1 (fun _ => 0) 0
    (fun _ => 0) 0 1 (by rw [radius_3_4]; norm_num) (by norm_num) sampleCache_sums
    (constEM_constant 1)
  ⟨fr, hfr, h0, h3⟩

/-- C4 (witness): the sample particle, two modes. -/
theorem C4_mode_summation_witness :
    ∃ fr, fieldsAccumulate sqrtQ (fun _ _ => sampleCache) sampleInterp (constEM 1)
        (oneParticle 3 4) 0 1 (fun _ => 0) 0 (fun _ => 0) 0 = some fr ∧
      fr.E (0 + 1 * 1)
        = modeSum (SEr (particleCoeffs sqrtQ (fun _ _ => sampleCache) sampleInterp
            (oneParticle 3 4) 0) (constEM 1)) (phaseValue sqrtQ (oneParticle 3 4) 0) 2 :=
  let ⟨_, fr, _, hfr, _, _, _, h1, _⟩ := C4_mode_summation_closed_form sqrtQ
    (fun _ _ => sampleCache) sampleInterp (constEM 1) (oneParticle 3 4) 0 1 (fun _ => 0) 0
    (fun _ => 0) 0 (by rw [radius_3_4]; norm_num) (by norm_num)
  ⟨fr, hfr, h1⟩

/-- C5 (witness): the sample particle; the `E` pair of `fields` is rotated. -/
theorem C5_final_basis_change_witness :
    ∃ fr fr', fieldsAccumulate sqrtQ (fun _ _ => sampleCache) sampleInterp (constEM 1)
        (oneParticle 3 4) 0 1 (fun _ => 0) 0 (fun _ => 0) 0 = some fr ∧
      fields sqrtQ (fun _ _ => sampleCache) sampleInterp (constEM 1)
        (oneParticle 3 4) 0 1 (fun _ => 0) 0 (fun _ => 0) 0 = some fr' ∧
      RotatedPair (phaseValue sqrtQ (oneParticle 3 4) 0) ((oneParticle 3 4).position 1 0)
        ((oneParticle 3 4).position 2 0) (radius sqrtQ (oneParticle 3 4) 0)
        (fr.E (0 + 1 * 1)) (fr.E (0 + 2 * 1)) (fr'.E (0 + 1 * 1)) (fr'.E (0 + 2 * 1)) :=
  let ⟨fr, fr', h1, h2, h3, _⟩ := (C5_final_basis_change sqrtQ (fun _ _ => sampleCache)
    compute compute sampleInterp (constEM 1) (oneParticle 3 4) 0 1 (fun _ => 0) 0
    (fun _ => 0) 0 (by rw [radius_3_4]; norm_num) (by norm_num)
    (by simp [oneParticle])).1
  ⟨fr, fr', h1, h2, h3⟩

/-- C7 (counterexample): a particle on the axis, `position(1) = position(2) = 0`: `r = 0`
and both `fields` and `fieldsAndCurrents` reach the division by zero. -/
theorem C7_on_axis_counterexample :
    (oneParticle 0 0).position 1 0 = 0 ∧ (oneParticle 0 0).position 2 0 = 0 ∧
    radius sqrtQ (oneParticle 0 0) 0 = 0 ∧
    phase sqrtQ (oneParticle 0 0) 0 = none ∧
    fields sqrtQ (fun _ _ => sampleCache) sampleInterp (constEM 1) (oneParticle 0 0)
        0 1 (fun _ => 0) 0 (fun _ => 0) 0 = none ∧
    fieldsAndCurrents sqrtQ (fun _ _ => sampleCache) compute compute sampleInterp (constEM 1)
        (oneParticle 0 0) (fun _ => 0) (fun _ => 0) 0 = none :=
  ⟨rfl, rfl, radius_0_0, (phase_none_iff sqrtQ (oneParticle 0 0) 0).2 radius_0_0,
    (fields_none_iff sqrtQ _ _ _ _ 0 1 _ 0 _ 0).2 radius_0_0,
    (fieldsAndCurrents_none_iff sqrtQ _ compute compute _ _ _ _ _ 0).2 radius_0_0⟩

/-- C10 (witness): mode-0 grids `1` and `1 + 7i` give the same result of `fields`. -/
theorem C10_mode0_imaginary_part_witness :
    fields sqrtQ (fun _ _ => sampleCache) sampleInterp (constEMim 1 7) (oneParticle 3 4)
        0 1 (fun _ => 0) 0 (fun _ => 0) 0
      = fields sqrtQ (fun _ _ => sampleCache) sampleInterp (constEM 1) (oneParticle 3 4)
        0 1 (fun _ => 0) 0 (fun _ => 0) 0 :=
  (C10_mode0_imaginary_part_unused sqrtQ (fun _ _ => sampleCache) compute compute
    compute_realWeighted compute_realWeighted sampleInterp (constEM 1) (constEMim 1 7)
    (constEM_same 1 7) (oneParticle 3 4) 0 1 (fun _ => 0) 0 (fun _ => 0) 0).1

end InterpWitnesses

/-! ## Grid accesses stay in range -/

section TraceLemmas

variable {σ : Type}

theorem forLoopAux_inv_range (body : Nat → σ → σ) (I : σ → Prop) (hi : Nat) :
    ∀ n i st, i + n ≤ hi → (∀ a st, i ≤ a → a < hi → I st → I (body a st)) → I st →
      I (forLoopAux body n i st) := by
  intro n
  induction n with
  | zero => intro i st _ _ h; exact h
  | succ n ih =>
    intro i st hle hI h
    exact ih (i + 1) (body i st) (by omega)
      (fun a st ha hlt hs => hI a st (by omega) hlt hs)
      (hI i st (le_refl i) (by omega) h)

theorem forLoop_inv_range (lo hi : Nat) (body : Nat → σ → σ) (I : σ → Prop) (st : σ)
    (hI : ∀ a st, lo ≤ a → a < hi → I st → I (body a st)) (h : I st) :
    I (forLoop lo hi body st) := by
  unfold forLoop
  by_cases hlh : lo ≤ hi
  · exact forLoopAux_inv_range body I hi (hi - lo) lo st (by omega) hI h
  · have : hi - lo = 0 := by omega
    rw [this]
    exact h

theorem nest2_inv_range (l2 h2 l3 h3 : Nat) (stmt : Nat → Nat → σ → σ) (I : σ → Prop) (st : σ)
    (hI : ∀ j k st, l2 ≤ j → j < h2 → l3 ≤ k → k < h3 → I st → I (stmt j k st)) (h : I st) :
    I (forLoop l2 h2 (fun j t => forLoop l3 h3 (fun k t => stmt j k t) t) st) :=
  forLoop_inv_range l2 h2 _ I st
    (fun j t hj1 hj2 ht => forLoop_inv_range l3 h3 _ I t
      (fun k t hk1 hk2 ht => hI j k t hj1 hj2 hk1 hk2 ht) ht) h

theorem nest3_inv_range (l1 h1 l2 h2 l3 h3 : Nat) (stmt : Nat → Nat → Nat → σ → σ)
    (I : σ → Prop) (st : σ)
    (hI : ∀ i j k st, l1 ≤ i → i < h1 → l2 ≤ j → j < h2 → l3 ≤ k → k < h3 → I st →
      I (stmt i j k st)) (h : I st) :
    I (forLoop l1 h1 (fun i t => forLoop l2 h2 (fun j t =>
        forLoop l3 h3 (fun k t => stmt i j k t) t) t) st) :=
  forLoop_inv_range l1 h1 _ I st
    (fun i t hi1 hi2 ht => nest2_inv_range l2 h2 l3 h3 (stmt i) I t
      (fun j k t hj1 hj2 hk1 hk2 ht => hI i j k t hi1 hi2 hj1 hj2 hk1 hk2 ht) ht) h

end TraceLemmas

section GridRange

variable {R : Type}

theorem mem_append_inv {α : Type} (P : α → Prop) (t l : List α) (ht : ∀ a ∈ t, P a)
    (hl : ∀ a ∈ l, P a) : ∀ a ∈ t ++ l, P a := by
  intro a ha
  rcases List.mem_append.1 ha with h | h
  · exact ht a h
  · exact hl a h

theorem not_wrapsAround (a b : Nat) (h : b ≤ a) (ha : a < UINT_MOD) : ¬ WrapsAround (a, b) := by
  unfold WrapsAround
  rw [not_not]
  show ((usub a b : Nat) : Int) = (a : Int) - (b : Int)
  rw [usub_of_le h ha]
  omega


theorem trace_interiorBx (s : Solver3D R) (hs : s.Sized) (t : List Access)
    (ht : ∀ a ∈ t, s.InRange a) :
    ∀ a ∈ forLoop 1 (usub s.nx_p 1) (fun i t => forLoop 1 (usub s.ny_d 1) (fun j t =>
        forLoop 1 (usub s.nz_d 1) (fun k t => t ++ accessStencilBx i j k) t) t) t, s.InRange a := by
  obtain ⟨⟨w1, w2, w3, w4, w5, w6⟩, ⟨sx, sy, sz⟩, hx, hy, hz⟩ := hs
  have bx1 : usub s.nx_p 1 = s.nx_p - 1 := usub_of_le (by omega) w1
  have dy1 : usub s.ny_d 1 = s.ny_d - 1 := usub_of_le (by omega) w5
  have dz1 : usub s.nz_d 1 = s.nz_d - 1 := usub_of_le (by omega) w6
  rw [bx1, dy1, dz1]
  refine nest3_inv_range _ _ _ _ _ _ _ (fun t => ∀ a ∈ t, s.InRange a) _ ?_ ht
  intro i j k t hi1 hi2 hj1 hj2 hk1 hk2 ht
  refine mem_append_inv _ t _ ht ?_
  have ei : usub i 1 = i - 1 := usub_of_le (by omega) (by omega)
  have ej : usub j 1 = j - 1 := usub_of_le (by omega) (by omega)
  have ek : usub k 1 = k - 1 := usub_of_le (by omega) (by omega)
  have ai : uadd i 1 = i + 1 := uadd_of_lt (by omega)
  simp only [accessStencilBx, List.forall_mem_cons, List.not_mem_nil, IsEmpty.forall_iff,
      implies_true, and_true, Solver3D.InRange, Solver3D.extent, ei, ej, ek, ai]
  omega

theorem trace_interiorBy (s : Solver3D R) (hs : s.Sized) (t : List Access)
    (ht : ∀ a ∈ t, s.InRange a) :
    ∀ a ∈ forLoop 2 (usub s.nx_d 2) (fun i t => forLoop 1 (usub s.ny_p 1) (fun j t =>
        forLoop 1 (usub s.nz_d 1) (fun k t => t ++ accessStencilBy i j k) t) t) t, s.InRange a := by
  obtain ⟨⟨w1, w2, w3, w4, w5, w6⟩, ⟨sx, sy, sz⟩, hx, hy, hz⟩ := hs
  have dx2 : usub s.nx_d 2 = s.nx_d - 2 := usub_of_le (by omega) w4
  have by1 : usub s.ny_p 1 = s.ny_p - 1 := usub_of_le (by omega) w2
  have dz1 : usub s.nz_d 1 = s.nz_d - 1 := usub_of_le (by omega) w6
  rw [dx2, by1, dz1]
  refine nest3_inv_range _ _ _ _ _ _ _ (fun t => ∀ a ∈ t, s.InRange a) _ ?_ ht
  intro i j k t hi1 hi2 hj1 hj2 hk1 hk2 ht
  refine mem_append_inv _ t _ ht ?_
  have ei : usub i 1 = i - 1 := usub_of_le (by omega) (by omega)
  have ei2 : usub i 2 = i - 2 := usub_of_le (by omega) (by omega)
  have ej : usub j 1 = j - 1 := usub_of_le (by omega) (by omega)
  have ek : usub k 1 = k - 1 := usub_of_le (by omega) (by omega)
  have ai : uadd i 1 = i + 1 := uadd_of_lt (by omega)
  have aj : uadd j 1 = j + 1 := uadd_of_lt (by omega)
  have ak : uadd k 1 = k + 1 := uadd_of_lt (by omega)
  simp only [accessStencilBy, List.forall_mem_cons, List.not_mem_nil, IsEmpty.forall_iff,
      implies_true, and_true, Solver3D.InRange, Solver3D.extent, ei, ei2, ej, ek, ai, aj, ak]
  omega

theorem trace_interiorBz (s : Solver3D R) (hs : s.Sized) (t : List Access)
    (ht : ∀ a ∈ t, s.InRange a) :
    ∀ a ∈ forLoop 2 (usub s.nx_d 2) (fun i t => forLoop 1 (usub s.ny_d 1) (fun j t =>
        forLoop 1 (usub s.nz_p 1) (fun k t => t ++ accessStencilBz i j k) t) t) t, s.InRange a := by
  obtain ⟨⟨w1, w2, w3, w4, w5, w6⟩, ⟨sx, sy, sz⟩, hx, hy, hz⟩ := hs
  have dx2 : usub s.nx_d 2 = s.nx_d - 2 := usub_of_le (by omega) w4
  have dy1 : usub s.ny_d 1 = s.ny_d - 1 := usub_of_le (by omega) w5
  have bz1 : usub s.nz_p 1 = s.nz_p - 1 := usub_of_le (by omega) w3
  rw [dx2, dy1, bz1]
  refine nest3_inv_range _ _ _ _ _ _ _ (fun t => ∀ a ∈ t, s.InRange a) _ ?_ ht
  intro i j k t hi1 hi2 hj1 hj2 hk1 hk2 ht
  refine mem_append_inv _ t _ ht ?_
  have ei : usub i 1 = i - 1 := usub_of_le (by omega) (by omega)
  have ei2 : usub i 2 = i - 2 := usub_of_le (by omega) (by omega)
  have ej : usub j 1 = j - 1 := usub_of_le (by omega) (by omega)
  have ek : usub k 1 = k - 1 := usub_of_le (by omega) (by omega)
  have ai : uadd i 1 = i + 1 := uadd_of_lt (by omega)
  have aj : uadd j 1 = j + 1 := uadd_of_lt (by omega)
  have ak : uadd k 1 = k + 1 := uadd_of_lt (by omega)
  simp only [accessStencilBz, List.forall_mem_cons, List.not_mem_nil, IsEmpty.forall_iff,
      implies_true, and_true, Solver3D.InRange, Solver3D.extent, ei, ei2, ej, ek, ai, aj, ak]
  omega

theorem trace_boundaryBx_min (s : Solver3D R) (hs : s.Sized) (t : List Access)
    (ht : ∀ a ∈ t, s.InRange a) :
    ∀ a ∈ forLoop 1 (usub s.ny_d 1) (fun j t =>
        forLoop 1 (usub s.nz_d 1) (fun k t => t ++ accessEdgeBx 0 j k) t) t, s.InRange a := by
  obtain ⟨⟨w1, w2, w3, w4, w5, w6⟩, ⟨sx, sy, sz⟩, hx, hy, hz⟩ := hs
  have dy1 : usub s.ny_d 1 = s.ny_d - 1 := usub_of_le (by omega) w5
  have dz1 : usub s.nz_d 1 = s.nz_d - 1 := usub_of_le (by omega) w6
  rw [dy1, dz1]
  refine nest2_inv_range _ _ _ _ _ (fun t => ∀ a ∈ t, s.InRange a) _ ?_ ht
  intro j k t hj1 hj2 hk1 hk2 ht
  refine mem_append_inv _ t _ ht ?_
  have ej : usub j 1 = j - 1 := usub_of_le (by omega) (by omega)
  have ek : usub k 1 = k - 1 := usub_of_le (by omega) (by omega)
  simp only [accessEdgeBx, List.forall_mem_cons, List.not_mem_nil, IsEmpty.forall_iff,
      implies_true, and_true, Solver3D.InRange, Solver3D.extent, ej, ek]
  omega

theorem trace_boundaryBx_max (s : Solver3D R) (hs : s.Sized) (t : List Access)
    (ht : ∀ a ∈ t, s.InRange a) :
    ∀ a ∈ forLoop 1 (usub s.ny_d 1) (fun j t =>
        forLoop 1 (usub s.nz_d 1) (fun k t =>
          t ++ accessEdgeBx (usub s.nx_p 1) j k) t) t, s.InRange a := by
  obtain ⟨⟨w1, w2, w3, w4, w5, w6⟩, ⟨sx, sy, sz⟩, hx, hy, hz⟩ := hs
  have dy1 : usub s.ny_d 1 = s.ny_d - 1 := usub_of_le (by omega) w5
  have dz1 : usub s.nz_d 1 = s.nz_d - 1 := usub_of_le (by omega) w6
  have bx1 : usub s.nx_p 1 = s.nx_p - 1 := usub_of_le (by omega) w1
  rw [dy1, dz1, bx1]
  refine nest2_inv_range _ _ _ _ _ (fun t => ∀ a ∈ t, s.InRange a) _ ?_ ht
  intro j k t hj1 hj2 hk1 hk2 ht
  refine mem_append_inv _ t _ ht ?_
  have ej : usub j 1 = j - 1 := usub_of_le (by omega) (by omega)
  have ek : usub k 1 = k - 1 := usub_of_le (by omega) (by omega)
  simp only [accessEdgeBx, List.forall_mem_cons, List.not_mem_nil, IsEmpty.forall_iff,
      implies_true, and_true, Solver3D.InRange, Solver3D.extent, ej, ek]
  omega

theorem trace_boundaryBy_min (s : Solver3D R) (hs : s.Sized) (t : List Access)
    (ht : ∀ a ∈ t, s.InRange a) :
    ∀ a ∈ forLoop 0 (s.ny_p) (fun j t =>
        forLoop 2 (usub s.nz_d 2) (fun k t => t ++ accessEdgeBy 1 0 j k) t) t, s.InRange a := by
  obtain ⟨⟨w1, w2, w3, w4, w5, w6⟩, ⟨sx, sy, sz⟩, hx, hy, hz⟩ := hs
  have dz2 : usub s.nz_d 2 = s.nz_d - 2 := usub_of_le (by omega) w6
  rw [dz2]
  refine nest2_inv_range _ _ _ _ _ (fun t => ∀ a ∈ t, s.InRange a) _ ?_ ht
  intro j k t hj1 hj2 hk1 hk2 ht
  refine mem_append_inv _ t _ ht ?_
  have ek : usub k 1 = k - 1 := usub_of_le (by omega) (by omega)
  simp only [accessEdgeBy, List.forall_mem_cons, List.not_mem_nil, IsEmpty.forall_iff,
      implies_true, and_true, Solver3D.InRange, Solver3D.extent, ek]
  omega

theorem trace_boundaryBy_max (s : Solver3D R) (hs : s.Sized) (t : List Access)
    (ht : ∀ a ∈ t, s.InRange a) :
    ∀ a ∈ forLoop 0 (s.ny_p) (fun j t =>
        forLoop 2 (usub s.nz_d 2) (fun k t =>
          t ++ accessEdgeBy (usub s.nx_d 2) (usub s.nx_d 3) j k) t) t, s.InRange a := by
  obtain ⟨⟨w1, w2, w3, w4, w5, w6⟩, ⟨sx, sy, sz⟩, hx, hy, hz⟩ := hs
  have dz2 : usub s.nz_d 2 = s.nz_d - 2 := usub_of_le (by omega) w6
  have dx2 : usub s.nx_d 2 = s.nx_d - 2 := usub_of_le (by omega) w4
  have dx3 : usub s.nx_d 3 = s.nx_d - 3 := usub_of_le (by omega) w4
  rw [dz2, dx2, dx3]
  refine nest2_inv_range _ _ _ _ _ (fun t => ∀ a ∈ t, s.InRange a) _ ?_ ht
  intro j k t hj1 hj2 hk1 hk2 ht
  refine mem_append_inv _ t _ ht ?_
  have ek : usub k 1 = k - 1 := usub_of_le (by omega) (by omega)
  simp only [accessEdgeBy, List.forall_mem_cons, List.not_mem_nil, IsEmpty.forall_iff,
      implies_true, and_true, Solver3D.InRange, Solver3D.extent, ek]
  omega

theorem trace_boundaryBz_min (s : Solver3D R) (hs : s.Sized) (t : List Access)
    (ht : ∀ a ∈ t, s.InRange a) :
    ∀ a ∈ forLoop 2 (usub s.ny_d 2) (fun j t =>
        forLoop 0 (s.nz_p) (fun k t => t ++ accessEdgeBz 1 0 j k) t) t, s.InRange a := by
  obtain ⟨⟨w1, w2, w3, w4, w5, w6⟩, ⟨sx, sy, sz⟩, hx, hy, hz⟩ := hs
  have dy2 : usub s.ny_d 2 = s.ny_d - 2 := usub_of_le (by omega) w5
  rw [dy2]
  refine nest2_inv_range _ _ _ _ _ (fun t => ∀ a ∈ t, s.InRange a) _ ?_ ht
  intro j k t hj1 hj2 hk1 hk2 ht
  refine mem_append_inv _ t _ ht ?_
  have ej : usub j 1 = j - 1 := usub_of_le (by omega) (by omega)
  simp only [accessEdgeBz, List.forall_mem_cons, List.not_mem_nil, IsEmpty.forall_iff,
      implies_true, and_true, Solver3D.InRange, Solver3D.extent, ej]
  omega

theorem trace_boundaryBz_max (s : Solver3D R) (hs : s.Sized) (t : List Access)
    (ht : ∀ a ∈ t, s.InRange a) :
    ∀ a ∈ forLoop 2 (usub s.ny_d 2) (fun j t =>
        forLoop 0 (s.nz_p) (fun k t =>
          t ++ accessEdgeBz (usub s.nx_d 2) (usub s.nx_d 3) j k) t) t, s.InRange a := by
  obtain ⟨⟨w1, w2, w3, w4, w5, w6⟩, ⟨sx, sy, sz⟩, hx, hy, hz⟩ := hs
  have dy2 : usub s.ny_d 2 = s.ny_d - 2 := usub_of_le (by omega) w5
  have dx2 : usub s.nx_d 2 = s.nx_d - 2 := usub_of_le (by omega) w4
  have dx3 : usub s.nx_d 3 = s.nx_d - 3 := usub_of_le (by omega) w4
  rw [dy2, dx2, dx3]
  refine nest2_inv_range _ _ _ _ _ (fun t => ∀ a ∈ t, s.InRange a) _ ?_ ht
  intro j k t hj1 hj2 hk1 hk2 ht
  refine mem_append_inv _ t _ ht ?_
  have ej : usub j 1 = j - 1 := usub_of_le (by omega) (by omega)
  simp only [accessEdgeBz, List.forall_mem_cons, List.not_mem_nil, IsEmpty.forall_iff,
      implies_true, and_true, Solver3D.InRange, Solver3D.extent, ej]
  omega

theorem trace_inRange (s : Solver3D R) (hs : s.Sized) (t : List Access)
    (ht : ∀ a ∈ t, s.InRange a) : ∀ a ∈ s.trace t, s.InRange a :=
  trace_boundaryBz_max s hs _ (trace_boundaryBz_min s hs _ (trace_boundaryBy_max s hs _
    (trace_boundaryBy_min s hs _ (trace_boundaryBx_max s hs _ (trace_boundaryBx_min s hs _
      (trace_interiorBz s hs _ (trace_interiorBy s hs _ (trace_interiorBx s hs t ht))))))))

/-- C13: under the staggering invariant and extents `nx_p >= 2`, `ny_p >= 1`, `nz_p >= 1`,
no subtraction forming a loop bound of `operator()` wraps around, and every grid point the
nine loop nests address (the `B` point written and the `E` points read) lies within the
declared extent of its grid. -/
theorem C13_grid_accesses_in_range (s : Solver3D R) (hwf : s.WF) (hst : s.Staggered)
    (hx : 2 ≤ s.nx_p) (hy : 1 ≤ s.ny_p) (hz : 1 ≤ s.nz_p) :
    (∀ p ∈ s.loopBounds, ¬ WrapsAround p) ∧ ∀ a ∈ s.trace [], s.InRange a := by
  refine ⟨?_, trace_inRange s ⟨hwf, hst, hx, hy, hz⟩ []
    (fun a h => absurd h (List.not_mem_nil a))⟩
  obtain ⟨w1, w2, w3, w4, w5, w6⟩ := hwf
  obtain ⟨sx, sy, sz⟩ := hst
  simp only [Solver3D.loopBounds, List.forall_mem_cons, List.not_mem_nil, IsEmpty.forall_iff,
    implies_true, and_true]
  exact ⟨not_wrapsAround _ _ (by omega) w1, not_wrapsAround _ _ (by omega) w5,
    not_wrapsAround _ _ (by omega) w6, not_wrapsAround _ _ (by omega) w4,
    not_wrapsAround _ _ (by omega) w2, not_wrapsAround _ _ (by omega) w3,
    not_wrapsAround _ _ (by omega) w6, not_wrapsAround _ _ (by omega) w5⟩

end GridRange

section SolverWitnesses2

/-- C13 (witness): the sample grid with 8 primal and 9 dual points per axis. -/
theorem C13_grid_accesses_witness :
    sampleBase.Staggered ∧
    (∀ p ∈ sampleBase.loopBounds, ¬ WrapsAround p) ∧
    ∀ a ∈ sampleBase.trace [], sampleBase.InRange a :=
  ⟨by simp [Solver3D.Staggered, sampleBase],
   C13_grid_accesses_in_range sampleBase
    (by simp [Solver3D.WF, sampleBase, UINT_MOD])
    (by simp [Solver3D.Staggered, sampleBase])
    (by simp [sampleBase]) (by simp [sampleBase]) (by simp [sampleBase])⟩

end SolverWitnesses2

/-! ## The constructor coefficients, the 1D reduction and the near-edge planes -/

section Constructor

variable {R : Type} [LinearOrderedField R]

/-- C12 (amended): for every `Params` and every base object the constructor sets
`beta_yx = 1/8`, `alpha_y = 3/4`, `beta_xy = (dx/dy)^2/8`, `beta_xz = (dx/dz)^2/8`,
`delta_x = (1/4)(1 - (sin(M_PI*dt_ov_dx/2)/dt_ov_dx)^2)` and
`alpha_x = 1 - 2 beta_xy - 2 beta_xz - 3 delta_x`; in particular `beta_yx` is never 0 and
`alpha_y` is never 1, so no `Params` gives the Yee coefficients. -/
theorem C12_constructor_sets_lehe_coefficients (sin : R → R) (M_PI : R) (base : Solver3D R)
    (params : Params R) :
    (MF_Solver3D_Lehe.new sin M_PI base params).toSolver3D = base ∧
    (MF_Solver3D_Lehe.new sin M_PI base params).beta_yx = 1 / 8 ∧
    (MF_Solver3D_Lehe.new sin M_PI base params).alpha_y = 3 / 4 ∧
    (MF_Solver3D_Lehe.new sin M_PI base params).beta_xy
      = (params.cell_length 0 / params.cell_length 1) ^ 2 / 8 ∧
    (MF_Solver3D_Lehe.new sin M_PI base params).beta_xz
      = (params.cell_length 0 / params.cell_length 2) ^ 2 / 8 ∧
    (MF_Solver3D_Lehe.new sin M_PI base params).delta_x
      = (1 / 4) * (1 - (sin (M_PI * base.dt_ov_dx / 2) / base.dt_ov_dx) ^ 2) ∧
    (MF_Solver3D_Lehe.new sin M_PI base params).alpha_x
      = 1 - 2 * (MF_Solver3D_Lehe.new sin M_PI base params).beta_xy
          - 2 * (MF_Solver3D_Lehe.new sin M_PI base params).beta_xz
          - 3 * (MF_Solver3D_Lehe.new sin M_PI base params).delta_x ∧
    (MF_Solver3D_Lehe.new sin M_PI base params).beta_yx ≠ 0 ∧
    (MF_Solver3D_Lehe.new sin M_PI base params).alpha_y ≠ 1 := by
  refine ⟨rfl, rfl, ?_, rfl, rfl, rfl, rfl, ?_, ?_⟩
  · show (1 : R) - 2 * (1 / 8) = 3 / 4
    norm_num
  · show (1 : R) / 8 ≠ 0
    norm_num
  · show (1 : R) - 2 * (1 / 8) ≠ 1
    norm_num

end Constructor

/-- C12 (counterexample): no choice of `sin`, `M_PI`, base object and `Params` makes the
constructor set `alpha_x = alpha_y = 1` and `beta_yx = beta_xy = beta_xz = delta_x = 0`. -/
theorem C12_yee_configuration_counterexample :
    ¬ ∃ (sin : ℚ → ℚ) (M_PI : ℚ) (base : Solver3D ℚ) (params : Params ℚ),
      (MF_Solver3D_Lehe.new sin M_PI base params).alpha_x = 1 ∧
      (MF_Solver3D_Lehe.new sin M_PI base params).alpha_y = 1 ∧
      (MF_Solver3D_Lehe.new sin M_PI base params).beta_yx = 0 ∧
      (MF_Solver3D_Lehe.new sin M_PI base params).beta_xy = 0 ∧
      (MF_Solver3D_Lehe.new sin M_PI base params).beta_xz = 0 ∧
      (MF_Solver3D_Lehe.new sin M_PI base params).delta_x = 0 := by
  rintro ⟨sin, M_PI, base, params, -, -, h, -⟩
  have h8 : (1 : ℚ) / 8 = 0 := h
  norm_num at h8

section Reduction

variable {R : Type} [Field R]

theorem incBy_interior (s : MF_Solver3D_Lehe R) (f : ElectroMagn R) (hwf : s.toSolver3D.WF)
    (i j k : Nat) (hi : 2 ≤ i ∧ i < s.nx_d - 2) (hj : 1 ≤ j ∧ j < s.ny_p - 1)
    (hk : 1 ≤ k ∧ k < s.nz_d - 1) :
    s.incBy f i j k = s.stencilBy f i j k := by
  obtain ⟨-, wy, -, wx, -, wz⟩ := hwf
  have ex : usub s.nx_d 2 = s.nx_d - 2 := usub_of_le (by omega) wx
  have ey : usub s.ny_p 1 = s.ny_p - 1 := usub_of_le (by omega) wy
  have ez : usub s.nz_d 1 = s.nz_d - 1 := usub_of_le (by omega) wz
  have c0 : (2 ≤ i ∧ i < s.nx_d - 2) ∧ (1 ≤ j ∧ j < s.ny_p - 1) ∧ (1 ≤ k ∧ k < s.nz_d - 1) :=
    ⟨hi, hj, hk⟩
  have c1 : ¬ (i = 1 ∧ (0 ≤ j ∧ j < s.ny_p) ∧ (2 ≤ k ∧ k < usub s.nz_d 2)) := by omega
  have c2 : ¬ (i = s.nx_d - 2 ∧ (0 ≤ j ∧ j < s.ny_p) ∧ (2 ≤ k ∧ k < usub s.nz_d 2)) := by
    omega
  rw [MF_Solver3D_Lehe.incBy, ex, ey, ez, if_pos c0, if_neg c1, if_neg c2, add_zero, add_zero]

/-- C19: with the coefficients set by the constructor and an `E` whose `Ex` and `Ez` do not
depend on the y and z indices, `alpha_x + 2 beta_xy + 2 beta_xz = 1 - 3 delta_x`; at every
point of the interior `By` pass (`2 <= i < nx_d-2`, `1 <= j < ny_p-1`, `1 <= k < nz_d-1`) one
call of `operator()` adds
`dt_ov_dx*[(1 - 3 delta_x)(Ez(i)-Ez(i-1)) + delta_x (Ez(i+1)-Ez(i-2))]` to `By(i,j,k)`; and
when `Ez = 0` the call leaves every value of `By` unchanged. -/
theorem C19_lehe_1d_reduction (sin : R → R) (M_PI : R) (base : Solver3D R)
    (params : Params R) (f : ElectroMagn R) (hwf : base.WF)
    (hEx : ∀ i j k, f.Ex_ i j k = f.Ex_ i 0 0) (hEz : ∀ i j k, f.Ez_ i j k = f.Ez_ i 0 0) :
    (MF_Solver3D_Lehe.new sin M_PI base params).alpha_x
        + 2 * (MF_Solver3D_Lehe.new sin M_PI base params).beta_xy
        + 2 * (MF_Solver3D_Lehe.new sin M_PI base params).beta_xz
      = 1 - 3 * (MF_Solver3D_Lehe.new sin M_PI base params).delta_x ∧
    (∀ i j k, 2 ≤ i ∧ i < base.nx_d - 2 → 1 ≤ j ∧ j < base.ny_p - 1 →
      1 ≤ k ∧ k < base.nz_d - 1 →
      ((MF_Solver3D_Lehe.new sin M_PI base params).apply f).By_ i j k
        = f.By_ i j k + base.dt_ov_dx *
            ((1 - 3 * (MF_Solver3D_Lehe.new sin M_PI base params).delta_x)
                * (f.Ez_ i j k - f.Ez_ (i - 1) j k)
              + (MF_Solver3D_Lehe.new sin M_PI base params).delta_x
                * (f.Ez_ (i + 1) j k - f.Ez_ (i - 2) j k))) ∧
    ((∀ i j k, f.Ez_ i j k = 0) →
      ((MF_Solver3D_Lehe.new sin M_PI base params).apply f).By_ = f.By_) := by
  have hax : (MF_Solver3D_Lehe.new sin M_PI base params).alpha_x
        + 2 * (MF_Solver3D_Lehe.new sin M_PI base params).beta_xy
        + 2 * (MF_Solver3D_Lehe.new sin M_PI base params).beta_xz
      = 1 - 3 * (MF_Solver3D_Lehe.new sin M_PI base params).delta_x := by
    simp only [MF_Solver3D_Lehe.new]
    ring
  have hEx2 : ∃ g : Nat → R, ∀ i j k, f.Ex_ i j k = g i := ⟨fun i => f.Ex_ i 0 0, hEx⟩
  have hEz2 : ∃ g : Nat → R, ∀ i j k, f.Ez_ i j k = g i := ⟨fun i => f.Ez_ i 0 0, hEz⟩
  obtain ⟨gx, hgx⟩ := hEx2
  obtain ⟨gz, hgz⟩ := hEz2
  refine ⟨hax, ?_, ?_⟩
  · intro i j k hi hj hk
    have wx : base.nx_d < UINT_MOD := hwf.2.2.2.1
    have e1 : usub i 1 = i - 1 := usub_of_le (by omega) (by omega)
    have e2 : usub i 2 = i - 2 := usub_of_le (by omega) (by omega)
    have a1 : uadd i 1 = i + 1 := uadd_of_lt (by omega)
    rw [apply_By, incBy_interior _ f hwf i j k hi hj hk, MF_Solver3D_Lehe.stencilBy]
    simp only [hgx, hgz, e1, e2, a1]
    have hax2 : (MF_Solver3D_Lehe.new sin M_PI base params).alpha_x
        = 1 - 3 * (MF_Solver3D_Lehe.new sin M_PI base params).delta_x
          - 2 * (MF_Solver3D_Lehe.new sin M_PI base params).beta_xy
          - 2 * (MF_Solver3D_Lehe.new sin M_PI base params).beta_xz := by
      rw [← hax]; ring
    rw [hax2]
    show _ = _ + (MF_Solver3D_Lehe.new sin M_PI base params).dt_ov_dx * _
    ring
  · intro hz
    funext i j k
    have hgz0 : ∀ i, gz i = 0 := fun i => by rw [← hgz i 0 0]; exact hz i 0 0
    rw [apply_By, MF_Solver3D_Lehe.incBy]
    simp only [MF_Solver3D_Lehe.stencilBy, MF_Solver3D_Lehe.edgeBy, hgx, hgz, hgz0, sub_self,
      mul_zero, add_zero, zero_add, ite_self]

end Reduction

section NearEdge

variable {R : Type} [CommRing R]

theorem incBy_near_edge (s : MF_Solver3D_Lehe R) (f : ElectroMagn R) (hwf : s.toSolver3D.WF)
    (hnx : 4 ≤ s.nx_d) (j k : Nat) (hj : j < s.ny_p) (hk : 2 ≤ k ∧ k < s.nz_d - 2) :
    s.incBy f 1 j k = yeeBy s.dt_ov_dx s.dt_ov_dz f 1 j k ∧
    s.incBy f (s.nx_d - 2) j k = yeeBy s.dt_ov_dx s.dt_ov_dz f (s.nx_d - 2) j k := by
  obtain ⟨-, -, -, wx, -, wz⟩ := hwf
  have ex : usub s.nx_d 2 = s.nx_d - 2 := usub_of_le (by omega) wx
  have ex3 : usub s.nx_d 3 = s.nx_d - 2 - 1 := by rw [usub_of_le (by omega) wx]; omega
  have ez : usub s.nz_d 2 = s.nz_d - 2 := usub_of_le (by omega) wz
  have hjk : (0 ≤ j ∧ j < s.ny_p) ∧ (2 ≤ k ∧ k < s.nz_d - 2) := ⟨⟨Nat.zero_le j, hj⟩, hk⟩
  have hk1 : 1 ≤ k ∧ k < UINT_MOD := by omega
  constructor
  · have c0 : ¬ ((2 ≤ 1 ∧ 1 < s.nx_d - 2) ∧ (1 ≤ j ∧ j < usub s.ny_p 1) ∧
        (1 ≤ k ∧ k < usub s.nz_d 1)) := by omega
    have c1 : (1 = 1 ∧ (0 ≤ j ∧ j < s.ny_p) ∧ (2 ≤ k ∧ k < s.nz_d - 2)) := ⟨rfl, hjk⟩
    have c2 : ¬ (1 = s.nx_d - 2 ∧ (0 ≤ j ∧ j < s.ny_p) ∧ (2 ≤ k ∧ k < s.nz_d - 2)) := by
      omega
    rw [MF_Solver3D_Lehe.incBy, ex, ez, if_neg c0, if_pos c1, if_neg c2, zero_add, add_zero]
    exact edgeBy_yee s f 1 j k hk1
  · have c0 : ¬ ((2 ≤ s.nx_d - 2 ∧ s.nx_d - 2 < s.nx_d - 2) ∧ (1 ≤ j ∧ j < usub s.ny_p 1) ∧
        (1 ≤ k ∧ k < usub s.nz_d 1)) := by omega
    have c1 : ¬ (s.nx_d - 2 = 1 ∧ (0 ≤ j ∧ j < s.ny_p) ∧ (2 ≤ k ∧ k < s.nz_d - 2)) := by
      omega
    have c2 : (s.nx_d - 2 = s.nx_d - 2 ∧ (0 ≤ j ∧ j < s.ny_p) ∧ (2 ≤ k ∧ k < s.nz_d - 2)) :=
      ⟨rfl, hjk⟩
    rw [MF_Solver3D_Lehe.incBy, ex, ex3, ez, if_neg c0, if_neg c1, if_pos c2, zero_add,
      zero_add]
    exact edgeBy_yee s f (s.nx_d - 2) j k hk1

theorem incBz_near_edge (s : MF_Solver3D_Lehe R) (f : ElectroMagn R) (hwf : s.toSolver3D.WF)
    (hnx : 4 ≤ s.nx_d) (j k : Nat) (hj : 2 ≤ j ∧ j < s.ny_d - 2) (hk : k < s.nz_p) :
    s.incBz f 1 j k = yeeBz s.dt_ov_dx s.dt_ov_dy f 1 j k ∧
    s.incBz f (s.nx_d - 2) j k = yeeBz s.dt_ov_dx s.dt_ov_dy f (s.nx_d - 2) j k := by
  obtain ⟨-, -, -, wx, wy, -⟩ := hwf
  have ex : usub s.nx_d 2 = s.nx_d - 2 := usub_of_le (by omega) wx
  have ex3 : usub s.nx_d 3 = s.nx_d - 2 - 1 := by rw [usub_of_le (by omega) wx]; omega
  have ey : usub s.ny_d 2 = s.ny_d - 2 := usub_of_le (by omega) wy
  have hjk : (2 ≤ j ∧ j < s.ny_d - 2) ∧ (0 ≤ k ∧ k < s.nz_p) := ⟨hj, ⟨Nat.zero_le k, hk⟩⟩
  have hj1 : 1 ≤ j ∧ j < UINT_MOD := by omega
  constructor
  · have c0 : ¬ ((2 ≤ 1 ∧ 1 < s.nx_d - 2) ∧ (1 ≤ j ∧ j < usub s.ny_d 1) ∧
        (1 ≤ k ∧ k < usub s.nz_p 1)) := by omega
    have c1 : (1 = 1 ∧ (2 ≤ j ∧ j < s.ny_d - 2) ∧ (0 ≤ k ∧ k < s.nz_p)) := ⟨rfl, hjk⟩
    have c2 : ¬ (1 = s.nx_d - 2 ∧ (2 ≤ j ∧ j < s.ny_d - 2) ∧ (0 ≤ k ∧ k < s.nz_p)) := by
      omega
    rw [MF_Solver3D_Lehe.incBz, ex, ey, if_neg c0, if_pos c1, if_neg c2, zero_add, add_zero]
    exact edgeBz_yee s f 1 j k hj1
  · have c0 : ¬ ((2 ≤ s.nx_d - 2 ∧ s.nx_d - 2 < s.nx_d - 2) ∧ (1 ≤ j ∧ j < usub s.ny_d 1) ∧
        (1 ≤ k ∧ k < usub s.nz_p 1)) := by omega
    have c1 : ¬ (s.nx_d - 2 = 1 ∧ (2 ≤ j ∧ j < s.ny_d - 2) ∧ (0 ≤ k ∧ k < s.nz_p)) := by
      omega
    have c2 : (s.nx_d - 2 = s.nx_d - 2 ∧ (2 ≤ j ∧ j < s.ny_d - 2) ∧ (0 ≤ k ∧ k < s.nz_p)) :=
      ⟨rfl, hjk⟩
    rw [MF_Solver3D_Lehe.incBz, ex, ex3, ey, if_neg c0, if_neg c1, if_pos c2, zero_add,
      zero_add]
    exact edgeBz_yee s f (s.nx_d - 2) j k hj1

/-- C20 (amended): for `nx_d >= 4`, one call of `operator()` adds the plain 2-point curl to
the planes `i = 1` and `i = nx_d-2` of `By` for every `j` in `[1, ny_p-1)` and `k` in
`[2, nz_d-2)`, and to the same planes of `Bz` for every `j` in `[2, ny_d-2)` and `k` in
`[1, nz_p-1)`: `By(i,j,k) += dt_ov_dx*(Ez(i,j,k)-Ez(i-1,j,k)) - dt_ov_dz*(Ex(i,j,k)-Ex(i,j,k-1))`
and `Bz(i,j,k) += dt_ov_dy*(Ex(i,j,k)-Ex(i,j-1,k)) - dt_ov_dx*(Ey(i,j,k)-Ey(i-1,j,k))`. -/
theorem C20_near_edge_planes (s : MF_Solver3D_Lehe R) (f : ElectroMagn R)
    (hwf : s.toSolver3D.WF) (hnx : 4 ≤ s.nx_d) :
    (∀ j k, 1 ≤ j ∧ j < s.ny_p - 1 → 2 ≤ k ∧ k < s.nz_d - 2 →
      (s.apply f).By_ 1 j k
        = f.By_ 1 j k + (s.dt_ov_dx * (f.Ez_ 1 j k - f.Ez_ 0 j k)
            - s.dt_ov_dz * (f.Ex_ 1 j k - f.Ex_ 1 j (k - 1))) ∧
      (s.apply f).By_ (s.nx_d - 2) j k
        = f.By_ (s.nx_d - 2) j k
          + (s.dt_ov_dx * (f.Ez_ (s.nx_d - 2) j k - f.Ez_ (s.nx_d - 2 - 1) j k)
            - s.dt_ov_dz * (f.Ex_ (s.nx_d - 2) j k - f.Ex_ (s.nx_d - 2) j (k - 1)))) ∧
    (∀ j k, 2 ≤ j ∧ j < s.ny_d - 2 → 1 ≤ k ∧ k < s.nz_p - 1 →
      (s.apply f).Bz_ 1 j k
        = f.Bz_ 1 j k + (s.dt_ov_dy * (f.Ex_ 1 j k - f.Ex_ 1 (j - 1) k)
            - s.dt_ov_dx * (f.Ey_ 1 j k - f.Ey_ 0 j k)) ∧
      (s.apply f).Bz_ (s.nx_d - 2) j k
        = f.Bz_ (s.nx_d - 2) j k
          + (s.dt_ov_dy * (f.Ex_ (s.nx_d - 2) j k - f.Ex_ (s.nx_d - 2) (j - 1) k)
            - s.dt_ov_dx * (f.Ey_ (s.nx_d - 2) j k - f.Ey_ (s.nx_d - 2 - 1) j k))) := by
  constructor
  · intro j k hj hk
    have h := incBy_near_edge s f hwf hnx j k (by omega) hk
    rw [apply_By, apply_By, h.1, h.2]
    exact ⟨rfl, rfl⟩
  · intro j k hj hk
    have h := incBz_near_edge s f hwf hnx j k hj (by omega)
    rw [apply_Bz, apply_Bz, h.1, h.2]
    exact ⟨rfl, rfl⟩

end NearEdge

theorem sampleLehe_WF : sampleLehe.toSolver3D.WF := by
  simp [Solver3D.WF, sampleLehe, MF_Solver3D_Lehe.new, sampleBase, UINT_MOD]

/-- C20 (counterexample): on the sample grid (`ny_p = 8`, `nz_d = 9`) with `Ez(i,j,k) = i^2`,
the point `By(1,3,1)` has `j = 3` in `[1, ny_p-1)` and `k = 1` in `[1, nz_d-1)` but is left
unchanged by `operator()`, while the plain curl there is `1/3`; with `Ex(i,j,k) = j` the
point `Bz(1,1,3)` is left unchanged as well, while the plain curl there is `1/3`. -/
theorem C20_near_edge_counterexample :
    ((1 ≤ 3 ∧ 3 < sampleLehe.ny_p - 1) ∧ (1 ≤ 1 ∧ 1 < sampleLehe.nz_d - 1)) ∧
    (sampleLehe.apply sampleFieldsX).By_ 1 3 1 = sampleFieldsX.By_ 1 3 1 ∧
    sampleLehe.dt_ov_dx * (sampleFieldsX.Ez_ 1 3 1 - sampleFieldsX.Ez_ 0 3 1)
      - sampleLehe.dt_ov_dz * (sampleFieldsX.Ex_ 1 3 1 - sampleFieldsX.Ex_ 1 3 0) = 1 / 3 ∧
    ((1 ≤ 1 ∧ 1 < sampleLehe.ny_d - 1) ∧ (1 ≤ 3 ∧ 3 < sampleLehe.nz_p - 1)) ∧
    (sampleLehe.apply sampleFieldsY).Bz_ 1 1 3 = sampleFieldsY.Bz_ 1 1 3 ∧
    sampleLehe.dt_ov_dy * (sampleFieldsY.Ex_ 1 1 3 - sampleFieldsY.Ex_ 1 0 3)
      - sampleLehe.dt_ov_dx * (sampleFieldsY.Ey_ 1 1 3 - sampleFieldsY.Ey_ 0 1 3) = 1 / 3 := by
  obtain ⟨u91, u81, u92, u93, u31, u21, u32, u22, u11, a31, a21⟩ := sample_usub
  refine ⟨?_, ?_, ?_, ?_, ?_, ?_⟩
  · simp [sampleLehe, MF_Solver3D_Lehe.new, sampleBase]
  · rw [apply_By]
    simp [MF_Solver3D_Lehe.incBy, sampleLehe, MF_Solver3D_Lehe.new, sampleBase, u91, u81, u92]
  · simp [sampleLehe, MF_Solver3D_Lehe.new, sampleBase, sampleFieldsX]
  · simp [sampleLehe, MF_Solver3D_Lehe.new, sampleBase]
  · rw [apply_Bz]
    simp [MF_Solver3D_Lehe.incBz, sampleLehe, MF_Solver3D_Lehe.new, sampleBase, u91, u81, u92]
  · simp [sampleLehe, MF_Solver3D_Lehe.new, sampleBase, sampleFieldsY]

/-- C20 (witness): the sample grid (`nx_d = 9`) at `j = 3`, `k = 3`. -/
theorem C20_near_edge_witness :
    (sampleLehe.apply sampleFieldsX).By_ 1 3 3
      = sampleFieldsX.By_ 1 3 3
        + (sampleLehe.dt_ov_dx * (sampleFieldsX.Ez_ 1 3 3 - sampleFieldsX.Ez_ 0 3 3)
            - sampleLehe.dt_ov_dz * (sampleFieldsX.Ex_ 1 3 3 - sampleFieldsX.Ex_ 1 3 (3 - 1))) :=
  ((C20_near_edge_planes sampleLehe sampleFieldsX sampleLehe_WF
    (by simp [sampleLehe, MF_Solver3D_Lehe.new, sampleBase])).1 3 3
    (by simp [sampleLehe, MF_Solver3D_Lehe.new, sampleBase])
    (by simp [sampleLehe, MF_Solver3D_Lehe.new, sampleBase])).1

/-- C19 (witness): the constructor on the sample grid with `sin = 0`, and `Ez(i,j,k) = i^2`,
`Ex = 0`, at the interior point `(3,3,3)`. -/
theorem C19_lehe_1d_witness :
    (sampleLehe.apply sampleFieldsX).By_ 3 3 3
      = sampleFieldsX.By_ 3 3 3 + sampleBase.dt_ov_dx *
          ((1 - 3 * sampleLehe.delta_x) * (sampleFieldsX.Ez_ 3 3 3 - sampleFieldsX.Ez_ (3 - 1) 3 3)
            + sampleLehe.delta_x
              * (sampleFieldsX.Ez_ (3 + 1) 3 3 - sampleFieldsX.Ez_ (3 - 2) 3 3)) :=
  (C19_lehe_1d_reduction (fun _ => 0) 3 sampleBase sampleParams sampleFieldsX
    (by simp [Solver3D.WF, sampleBase, UINT_MOD]) (fun _ _ _ => rfl) (fun _ _ _ => rfl)).2.1
    3 3 3 (by simp [sampleBase]) (by simp [sampleBase]) (by simp [sampleBase])

/-! ## Uniform `Bl` and the shape coefficients -/

section UniformBl

variable {R : Type} [LinearOrderedField R]

/-- C11: when the mode-0 grid of `Bl` holds the real constant `c` everywhere, every mode
`m >= 1` of `Bl` is zero, and the primal-x and dual-r coefficients of the particle each sum
to 1, then for every particle with `r > 0` (and distinct output slots, `nparts ≠ 0`) the call
`fields` returns and leaves exactly `c` in `BLoc[0]`, whatever the other grids hold. -/
theorem C11_uniform_Bl_sampled_exactly (sqrt : R → R) (coeffs : R → R → CoeffCache R)
    (self : InterpolatorAM2Order R) (EM : ElectroMagnAM R) (particles : Particles R)
    (ipart nparts : Int) (E : Buffer R) (ELoc : Int) (B : Buffer R) (BLoc : Int) (c : R)
    (hr : 0 < radius sqrt particles ipart) (hn : nparts ≠ 0)
    (hxp : SumsToOne (particleCoeffs sqrt coeffs self particles ipart).coeffxp_)
    (hyd : SumsToOne (particleCoeffs sqrt coeffs self particles ipart).coeffyd_)
    (h0 : ∀ i j, EM.Bl_m 0 i j = Cplx.ofReal c)
    (hm : ∀ m, 1 ≤ m → ∀ i j, EM.Bl_m m i j = 0) :
    ∃ fr, fields sqrt coeffs self EM particles ipart nparts E ELoc B BLoc = some fr ∧
      fr.B BLoc = c := by
  obtain ⟨fr, hfr, -, -, -, -, hB0, -, -⟩ :=
    fields_slots sqrt coeffs self EM particles ipart nparts E ELoc B BLoc (ne_of_gt hr) hn
  refine ⟨fr, hfr, ?_⟩
  rw [zero_mul, add_zero] at hB0
  rw [hB0]
  exact modeSum_const _ _ _ c
    (compute_const_one _ _ _ _ _ c hxp hyd h0)
    (fun m h1 => compute_zero _ _ _ _ _ (hm m h1))

theorem quadraticWeights_sum (delta : R) : SumsToOne (quadraticWeights delta) := by
  unfold SumsToOne quadraticWeights
  simp only [List.getD_cons_zero, List.getD_cons_succ]
  ring

/-- C14: for every normalized position `(xpn, rpn)` (and every rounding function and patch
origin) the three primal-x, the three dual-x, the three primal-r and the three dual-r
coefficients written by `coeffs(xpn, rpn)` each sum to 1. -/
theorem C14_shape_coefficients_sum_to_one (round : R → Int)
    (i_domain_begin j_domain_begin : Int) (xpn rpn : R) :
    (coeffs round i_domain_begin j_domain_begin xpn rpn).coeffxp_ 0
      + (coeffs round i_domain_begin j_domain_begin xpn rpn).coeffxp_ 1
      + (coeffs round i_domain_begin j_domain_begin xpn rpn).coeffxp_ 2 = 1 ∧
    (coeffs round i_domain_begin j_domain_begin xpn rpn).coeffxd_ 0
      + (coeffs round i_domain_begin j_domain_begin xpn rpn).coeffxd_ 1
      + (coeffs round i_domain_begin j_domain_begin xpn rpn).coeffxd_ 2 = 1 ∧
    (coeffs round i_domain_begin j_domain_begin xpn rpn).coeffyp_ 0
      + (coeffs round i_domain_begin j_domain_begin xpn rpn).coeffyp_ 1
      + (coeffs round i_domain_begin j_domain_begin xpn rpn).coeffyp_ 2 = 1 ∧
    (coeffs round i_domain_begin j_domain_begin xpn rpn).coeffyd_ 0
      + (coeffs round i_domain_begin j_domain_begin xpn rpn).coeffyd_ 1
      + (coeffs round i_domain_begin j_domain_begin xpn rpn).coeffyd_ 2 = 1 :=
  ⟨quadraticWeights_sum _, quadraticWeights_sum _, quadraticWeights_sum _,
    quadraticWeights_sum _⟩

end UniformBl

theorem sqrtQ_quarter : sqrtQ (1 / 4) = 1 / 2 := by
  have hn : ((1 : ℚ) / 4).num = 1 := by simp
  have hd : ((1 : ℚ) / 4).den = 4 := by simp
  unfold sqrtQ
  rw [hn, hd]
  norm_num [Nat.sqrt]

theorem radius_half : radius sqrtQ (oneParticle (3 / 10) (2 / 5)) 0 = 1 / 2 := by
  simp only [radius, oneParticle]
  norm_num
  exact sqrtQ_quarter

/-- C11 (witness): one particle at `y = 3/10`, `z = 2/5` (so `r = 1/2`), `Bl = 7` uniform in
mode 0, the other grids not constant: `BLoc[0]` receives 7. -/
theorem C11_uniform_Bl_witness :
    0 < radius sqrtQ (oneParticle (3 / 10) (2 / 5)) 0 ∧
    ∃ fr, fields sqrtQ (fun _ _ => sampleCache) sampleInterp (uniformBl 7)
        (oneParticle (3 / 10) (2 / 5)) 0 1 (fun _ => 0) 0 (fun _ => 0) 0 = some fr ∧
      fr.B 0 = 7 :=
  ⟨by rw [radius_half]; norm_num,
   C11_uniform_Bl_sampled_exactly sqrtQ (fun _ _ => sampleCache) sampleInterp (uniformBl 7)
    (oneParticle (3 / 10) (2 / 5)) 0 1 (fun _ => 0) 0 (fun _ => 0) 0 7
    (by rw [radius_half]; norm_num) (by norm_num) sampleCache_sums.1 sampleCache_sums.2.2.2
    (fun _ _ => rfl) (fun m hm i j => by
      have h0 : m ≠ 0 := by omega
      simp [uniformBl, h0])⟩

/-! ## The constructor of `Profile` -/

section ProfileLemmas

variable {Py : Type}

theorem select3_ok_iff (f1 f2 f3 : Function Py) (msg : String) (p q : Profile Py) :
    Profile.select3 f1 f2 f3 msg p = Except.ok q ↔
      (p.nvariables_ = 1 ∧ q = { p with function_ := some f1 }) ∨
      (p.nvariables_ = 2 ∧ q = { p with function_ := some f2 }) ∨
      (p.nvariables_ = 3 ∧ q = { p with function_ := some f3 }) := by
  unfold Profile.select3
  split_ifs with h1 h2 h3
  · simp [h1, pure, Except.pure, eq_comm]
  · simp [h1, h2, pure, Except.pure, eq_comm]
  · simp [h1, h2, h3, pure, Except.pure, eq_comm]
  · simp [h1, h2, h3, ERROR, bind, Except.bind]

theorem select3_error (f1 f2 f3 : Function Py) (msg : String) (p : Profile Py)
    (h : ¬ (p.nvariables_ = 1 ∨ p.nvariables_ = 2 ∨ p.nvariables_ = 3)) :
    Profile.select3 f1 f2 f3 msg p = Except.error msg := by
  unfold Profile.select3
  rw [not_or, not_or] at h
  rw [if_neg h.1, if_neg h.2.1, if_neg h.2.2]
  rfl

theorem select1_ok_iff (f1 : Function Py) (msg : String) (p q : Profile Py) :
    Profile.select1 f1 msg p = Except.ok q ↔
      (p.nvariables_ = 1 ∧ q = { p with function_ := some f1 }) := by
  unfold Profile.select1
  split_ifs with h1
  · simp [h1, pure, Except.pure, eq_comm]
  · simp [h1, ERROR, bind, Except.bind]

theorem select1_error (f1 : Function Py) (msg : String) (p : Profile Py)
    (h : ¬ p.nvariables_ = 1) :
    Profile.select1 f1 msg p = Except.error msg := by
  unfold Profile.select1
  rw [if_neg h]
  rfl

theorem select3_exists_iff (f1 f2 f3 : Function Py) (msg : String) (p : Profile Py) :
    (∃ q, Profile.select3 f1 f2 f3 msg p = Except.ok q) ↔
      (p.nvariables_ = 1 ∨ p.nvariables_ = 2 ∨ p.nvariables_ = 3) := by
  constructor
  · rintro ⟨q, hq⟩
    rcases (select3_ok_iff _ _ _ _ _ _).1 hq with h | h | h
    · exact Or.inl h.1
    · exact Or.inr (Or.inl h.1)
    · exact Or.inr (Or.inr h.1)
  · rintro (h | h | h)
    · exact ⟨_, (select3_ok_iff _ _ _ _ _ _).2 (Or.inl ⟨h, rfl⟩)⟩
    · exact ⟨_, (select3_ok_iff _ _ _ _ _ _).2 (Or.inr (Or.inl ⟨h, rfl⟩))⟩
    · exact ⟨_, (select3_ok_iff _ _ _ _ _ _).2 (Or.inr (Or.inr ⟨h, rfl⟩))⟩

theorem select1_exists_iff (f1 : Function Py) (msg : String) (p : Profile Py) :
    (∃ q, Profile.select1 f1 msg p = Except.ok q) ↔ p.nvariables_ = 1 := by
  constructor
  · rintro ⟨q, hq⟩
    exact ((select1_ok_iff _ _ _ _).1 hq).1
  · intro h
    exact ⟨_, (select1_ok_iff _ _ _ _).2 ⟨h, rfl⟩⟩

theorem hardCoded_spec (py_profile : Py) (name : String) (p : Profile Py) :
    (∀ q, Profile.hardCoded py_profile name p = Except.ok q →
      q = { p with function_ := namedVariant py_profile p.profileName_ p.nvariables_ } ∧
      namedVariant py_profile p.profileName_ p.nvariables_ ≠ none) ∧
    ((∃ q, Profile.hardCoded py_profile name p = Except.ok q) ↔
      ValidPredefined p.profileName_ p.nvariables_) := by
  unfold Profile.hardCoded
  by_cases h1 : p.profileName_ = "constant"
  · rw [if_pos h1]
    refine ⟨fun q hq => ?_, ?_⟩
    · rcases (select3_ok_iff _ _ _ _ _ _).1 hq with ⟨hv, rfl⟩ | ⟨hv, rfl⟩ | ⟨hv, rfl⟩ <;>
        simp [namedVariant, tableEntry, h1, hv]
    · rw [select3_exists_iff]
      unfold ValidPredefined
      rw [h1]
      simp [spatialProfiles, temporalProfiles]
  rw [if_neg h1]
  by_cases h2 : p.profileName_ = "trapezoidal"
  · rw [if_pos h2]
    refine ⟨fun q hq => ?_, ?_⟩
    · rcases (select3_ok_iff _ _ _ _ _ _).1 hq with ⟨hv, rfl⟩ | ⟨hv, rfl⟩ | ⟨hv, rfl⟩ <;>
        simp [namedVariant, tableEntry, h2, hv]
    · rw [select3_exists_iff]
      unfold ValidPredefined
      rw [h2]
      simp [spatialProfiles, temporalProfiles]
  rw [if_neg h2]
  by_cases h3 : p.profileName_ = "gaussian"
  · rw [if_pos h3]
    refine ⟨fun q hq => ?_, ?_⟩
    · rcases (select3_ok_iff _ _ _ _ _ _).1 hq with ⟨hv, rfl⟩ | ⟨hv, rfl⟩ | ⟨hv, rfl⟩ <;>
        simp [namedVariant, tableEntry, h3, hv]
    · rw [select3_exists_iff]
      unfold ValidPredefined
      rw [h3]
      simp [spatialProfiles, temporalProfiles]
  rw [if_neg h3]
  by_cases h4 : p.profileName_ = "polygonal"
  · rw [if_pos h4]
    refine ⟨fun q hq => ?_, ?_⟩
    · rcases (select3_ok_iff _ _ _ _ _ _).1 hq with ⟨hv, rfl⟩ | ⟨hv, rfl⟩ | ⟨hv, rfl⟩ <;>
        simp [namedVariant, tableEntry, h4, hv]
    · rw [select3_exists_iff]
      unfold ValidPredefined
      rw [h4]
      simp [spatialProfiles, temporalProfiles]
  rw [if_neg h4]
  by_cases h5 : p.profileName_ = "cosine"
  · rw [if_pos h5]
    refine ⟨fun q hq => ?_, ?_⟩
    · rcases (select3_ok_iff _ _ _ _ _ _).1 hq with ⟨hv, rfl⟩ | ⟨hv, rfl⟩ | ⟨hv, rfl⟩ <;>
        simp [namedVariant, tableEntry, h5, hv]
    · rw [select3_exists_iff]
      unfold ValidPredefined
      rw [h5]
      simp [spatialProfiles, temporalProfiles]
  rw [if_neg h5]
  by_cases h6 : p.profileName_ = "polynomial"
  · rw [if_pos h6]
    refine ⟨fun q hq => ?_, ?_⟩
    · rcases (select3_ok_iff _ _ _ _ _ _).1 hq with ⟨hv, rfl⟩ | ⟨hv, rfl⟩ | ⟨hv, rfl⟩ <;>
        simp [namedVariant, tableEntry, h6, hv]
    · rw [select3_exists_iff]
      unfold ValidPredefined
      rw [h6]
      simp [spatialProfiles, temporalProfiles]
  rw [if_neg h6]
  by_cases h7 : p.profileName_ = "tconstant"
  · rw [if_pos h7]
    refine ⟨fun q hq => ?_, ?_⟩
    · rcases (select1_ok_iff _ _ _ _).1 hq with ⟨hv, rfl⟩
      simp [namedVariant, tableEntry, h7, hv]
    · rw [select1_exists_iff]
      unfold ValidPredefined
      rw [h7]
      simp [spatialProfiles, temporalProfiles]
  rw [if_neg h7]
  by_cases h8 : p.profileName_ = "ttrapezoidal"
  · rw [if_pos h8]
    refine ⟨fun q hq => ?_, ?_⟩
    · rcases (select1_ok_iff _ _ _ _).1 hq with ⟨hv, rfl⟩
      simp [namedVariant, tableEntry, h8, hv]
    · rw [select1_exists_iff]
      unfold ValidPredefined
      rw [h8]
      simp [spatialProfiles, temporalProfiles]
  rw [if_neg h8]
  by_cases h9 : p.profileName_ = "tgaussian"
  · rw [if_pos h9]
    refine ⟨fun q hq => ?_, ?_⟩
    · rcases (select1_ok_iff _ _ _ _).1 hq with ⟨hv, rfl⟩
      simp [namedVariant, tableEntry, h9, hv]
    · rw [select1_exists_iff]
      unfold ValidPredefined
      rw [h9]
      simp [spatialProfiles, temporalProfiles]
  rw [if_neg h9]
  by_cases h10 : p.profileName_ = "tpolygonal"
  · rw [if_pos h10]
    refine ⟨fun q hq => ?_, ?_⟩
    · rcases (select1_ok_iff _ _ _ _).1 hq with ⟨hv, rfl⟩
      simp [namedVariant, tableEntry, h10, hv]
    · rw [select1_exists_iff]
      unfold ValidPredefined
      rw [h10]
      simp [spatialProfiles, temporalProfiles]
  rw [if_neg h10]
  by_cases h11 : p.profileName_ = "tcosine"
  · rw [if_pos h11]
    refine ⟨fun q hq => ?_, ?_⟩
    · rcases (select1_ok_iff _ _ _ _).1 hq with ⟨hv, rfl⟩
      simp [namedVariant, tableEntry, h11, hv]
    · rw [select1_exists_iff]
      unfold ValidPredefined
      rw [h11]
      simp [spatialProfiles, temporalProfiles]
  rw [if_neg h11]
  by_cases h12 : p.profileName_ = "tpolynomial"
  · rw [if_pos h12]
    refine ⟨fun q hq => ?_, ?_⟩
    · rcases (select1_ok_iff _ _ _ _).1 hq with ⟨hv, rfl⟩
      simp [namedVariant, tableEntry, h12, hv]
    · rw [select1_exists_iff]
      unfold ValidPredefined
      rw [h12]
      simp [spatialProfiles, temporalProfiles]
  rw [if_neg h12]
  by_cases h13 : p.profileName_ = "tsin2plateau"
  · rw [if_pos h13]
    refine ⟨fun q hq => ?_, ?_⟩
    · rcases (select1_ok_iff _ _ _ _).1 hq with ⟨hv, rfl⟩
      simp [namedVariant, tableEntry, h13, hv]
    · rw [select1_exists_iff]
      unfold ValidPredefined
      rw [h13]
      simp [spatialProfiles, temporalProfiles]
  rw [if_neg h13]
  refine ⟨fun q hq => ?_, ?_⟩
  · exact absurd hq (by simp [ERROR, bind, Except.bind])
  · unfold ValidPredefined
    simp [ERROR, bind, Except.bind, spatialProfiles, temporalProfiles, h1, h2, h3, h4, h5, h6,
      h7, h8, h9, h10, h11, h12, h13]

end ProfileLemmas

section ProfilePython

variable {Py : Type}

theorem check_eq (c : Prop) [Decidable c] (msg : String) (p : Profile Py)
    (rest : Profile Py → Except String (Profile Py)) :
    Profile.check c msg p rest = if c then Except.error msg else rest p := by
  unfold Profile.check
  split_ifs <;> rfl

theorem assignPython_function (py_profile : Py) (p : Profile Py)
    (h : 1 ≤ p.nvariables_ ∧ p.nvariables_ ≤ 4) :
    (Profile.assignPython py_profile p).function_ = pythonVariant py_profile p.nvariables_ ∧
    (Profile.assignPython py_profile p).function_ ≠ none := by
  have h4 : p.nvariables_ = 1 ∨ p.nvariables_ = 2 ∨ p.nvariables_ = 3 ∨ p.nvariables_ = 4 := by
    omega
  unfold Profile.assignPython
  rcases h4 with h | h | h | h <;> simp [h, pythonVariant, tableEntry]

theorem tryNumpy_nvariables (rt : PyRuntime Py) (SMILEI_USE_NUMPY : Bool) (py_profile : Py)
    (nvariables : Nat) (try_numpy : Bool) (p : Profile Py) :
    (Profile.tryNumpy rt SMILEI_USE_NUMPY py_profile nvariables try_numpy p).nvariables_
      = p.nvariables_ := by
  unfold Profile.tryNumpy
  split_ifs <;> rfl

theorem floatTest_eq (rt : PyRuntime Py) (py_profile : Py) (p q : Profile Py)
    (h : 1 ≤ p.nvariables_ ∧ p.nvariables_ ≤ 4) (hq : q.nvariables_ = p.nvariables_) :
    Profile.floatTest rt py_profile q = rt.floatCall py_profile p.nvariables_ := by
  have h4 : p.nvariables_ = 1 ∨ p.nvariables_ = 2 ∨ p.nvariables_ = 3 ∨ p.nvariables_ = 4 := by
    omega
  unfold Profile.floatTest
  rw [hq, if_pos h4]

theorem python_spec (rt : PyRuntime Py) (SMILEI_USE_NUMPY : Bool) (py_profile : Py)
    (nvariables : Nat) (name : String) (try_numpy : Bool) (p : Profile Py) :
    (p.nvariables_ < 1 ∨ p.nvariables_ > 4 →
      ∃ msg, Profile.python rt SMILEI_USE_NUMPY py_profile nvariables name try_numpy p
        = Except.error msg) ∧
    (1 ≤ p.nvariables_ ∧ p.nvariables_ ≤ 4 →
      rt.function_nargs (rt.unwrapFunc py_profile) ≠ -2 →
      rt.floatCall (rt.unwrapFunc py_profile) p.nvariables_ = some true →
      ∃ q, Profile.python rt SMILEI_USE_NUMPY py_profile nvariables name try_numpy p
        = Except.ok q) ∧
    (∀ q, Profile.python rt SMILEI_USE_NUMPY py_profile nvariables name try_numpy p
        = Except.ok q →
      (1 ≤ p.nvariables_ ∧ p.nvariables_ ≤ 4) ∧ q.nvariables_ = p.nvariables_ ∧
      q.function_ = pythonVariant (rt.unwrapFunc py_profile) p.nvariables_ ∧
      q.function_ ≠ none) := by
  unfold Profile.python
  simp only [check_eq]
  refine ⟨?_, ?_, ?_⟩
  · intro h
    by_cases hn : rt.function_nargs (rt.unwrapFunc py_profile) = -2
    · exact ⟨_, by rw [if_pos hn]⟩
    · exact ⟨_, by rw [if_neg hn, if_pos h]⟩
  · intro h hn hf
    have hc : ¬ (p.nvariables_ < 1 ∨ p.nvariables_ > 4) := by omega
    rw [if_neg hn, if_neg hc]
    have hft := floatTest_eq rt (rt.unwrapFunc py_profile) p
      (Profile.tryNumpy rt SMILEI_USE_NUMPY (rt.unwrapFunc py_profile) nvariables try_numpy p)
      h (tryNumpy_nvariables _ _ _ _ _ _)
    by_cases hu : ¬ (Profile.tryNumpy rt SMILEI_USE_NUMPY (rt.unwrapFunc py_profile)
        nvariables try_numpy p).uses_numpy_ = true
    · rw [if_pos hu, hft, hf, if_neg (by simp)]
      exact ⟨_, rfl⟩
    · rw [if_neg hu]
      exact ⟨_, rfl⟩
  · intro q hq
    by_cases hn : rt.function_nargs (rt.unwrapFunc py_profile) = -2
    · rw [if_pos hn] at hq
      exact absurd hq (by simp)
    rw [if_neg hn] at hq
    by_cases hc : p.nvariables_ < 1 ∨ p.nvariables_ > 4
    · rw [if_pos hc] at hq
      exact absurd hq (by simp)
    rw [if_neg hc] at hq
    have h : 1 ≤ p.nvariables_ ∧ p.nvariables_ ≤ 4 := by omega
    have hnv := tryNumpy_nvariables rt SMILEI_USE_NUMPY (rt.unwrapFunc py_profile) nvariables
      try_numpy p
    have hq2 : q = Profile.assignPython (rt.unwrapFunc py_profile)
        (Profile.tryNumpy rt SMILEI_USE_NUMPY (rt.unwrapFunc py_profile) nvariables
          try_numpy p) := by
      by_cases hu : ¬ (Profile.tryNumpy rt SMILEI_USE_NUMPY (rt.unwrapFunc py_profile)
          nvariables try_numpy p).uses_numpy_ = true
      · rw [if_pos hu] at hq
        by_cases hr : Profile.floatTest rt (rt.unwrapFunc py_profile)
              (Profile.tryNumpy rt SMILEI_USE_NUMPY (rt.unwrapFunc py_profile) nvariables
                try_numpy p) = none ∨
            Profile.floatTest rt (rt.unwrapFunc py_profile)
              (Profile.tryNumpy rt SMILEI_USE_NUMPY (rt.unwrapFunc py_profile) nvariables
                try_numpy p) = some false
        · rw [if_pos hr] at hq
          exact absurd hq (by simp)
        · rw [if_neg hr] at hq
          exact (Except.ok.inj hq).symm
      · rw [if_neg hu] at hq
        exact (Except.ok.inj hq).symm
    have ha := assignPython_function (rt.unwrapFunc py_profile)
      (Profile.tryNumpy rt SMILEI_USE_NUMPY (rt.unwrapFunc py_profile) nvariables try_numpy p)
      (by rw [hnv]; exact h)
    rw [hnv] at ha
    refine ⟨h, ?_, by rw [hq2]; exact ha.1, by rw [hq2]; exact ha.2⟩
    rw [hq2]
    unfold Profile.assignPython
    split_ifs <;> exact hnv

end ProfilePython

section ProfileClaims

variable {Py : Type}

theorem ok_or_error {α : Type} (r : Except String α) (h : ¬ ∃ a, r = Except.ok a) :
    ∃ msg, r = Except.error msg := by
  cases r with
  | error e => exact ⟨e, rfl⟩
  | ok a => exact absurd ⟨a, rfl⟩ h

/-- C17: for a profile object carrying the attribute `profileName_` with value `profileName`,
the constructor succeeds iff `profileName` is a spatial profile (constant, trapezoidal,
gaussian, polygonal, cosine, polynomial) and `nvariables` is 1, 2 or 3, or `profileName` is a
temporal profile (tconstant, ttrapezoidal, tgaussian, tpolygonal, tcosine, tpolynomial,
tsin2plateau) and `nvariables` is 1; every other name or count ends the construction with an
error; on success `function_` is assigned the variant named by `profileName` at dimension
`nvariables`. -/
theorem C17_predefined_profile_validation (rt : PyRuntime Py) (SMILEI_USE_NUMPY : Bool)
    (py_profile : Py) (nvariables : Nat) (name : String) (try_numpy try_file : Bool)
    (profileName : String)
    (hattr : rt.PyObject_HasAttrString py_profile "profileName_" = true)
    (hname : rt.getAttr py_profile "profileName_" = some profileName) :
    ((∃ p, Profile.new rt SMILEI_USE_NUMPY py_profile nvariables name try_numpy try_file
        = Except.ok p) ↔
      (profileName ∈ spatialProfiles ∧ (nvariables = 1 ∨ nvariables = 2 ∨ nvariables = 3)) ∨
      (profileName ∈ temporalProfiles ∧ nvariables = 1)) ∧
    (¬ ValidPredefined profileName nvariables →
      ∃ msg, Profile.new rt SMILEI_USE_NUMPY py_profile nvariables name try_numpy try_file
        = Except.error msg) ∧
    (∀ p, Profile.new rt SMILEI_USE_NUMPY py_profile nvariables name try_numpy try_file
        = Except.ok p →
      p.profileName_ = profileName ∧ p.nvariables_ = nvariables ∧
      p.function_ = namedVariant py_profile profileName nvariables ∧
      p.function_ ≠ none) := by
  have e : Profile.new rt SMILEI_USE_NUMPY py_profile nvariables name try_numpy try_file
      = Profile.hardCoded py_profile name
          { profileName_ := profileName, nvariables_ := nvariables, uses_numpy_ := false,
            uses_file_ := false, filename_ := "", function_ := none } := by
    unfold Profile.new
    simp only [hattr, hname, if_true, Option.getD_some]
  obtain ⟨h1, h2⟩ := hardCoded_spec py_profile name
    { profileName_ := profileName, nvariables_ := nvariables, uses_numpy_ := false,
      uses_file_ := false, filename_ := "", function_ := none }
  rw [e]
  refine ⟨h2, fun hv => ok_or_error _ (fun hex => hv (h2.1 hex)), fun p hp => ?_⟩
  obtain ⟨hq, hne⟩ := h1 p hp
  rw [hq]
  exact ⟨rfl, rfl, rfl, hne⟩

/-- C18: for a Python-callable profile without the attribute `profileName_`, the constructor
ends with an error whenever `nvariables < 1` or `nvariables > 4`; for `nvariables = n` in
1..4, when the callable check passes (`function_nargs` is not -2) and the test call on
floats returns a number, it succeeds; and whenever it succeeds `nvariables` is in 1..4 and
`function_` is assigned the variant `Function_Python{n}D`. -/
theorem C18_callable_profile_variable_count (rt : PyRuntime Py) (SMILEI_USE_NUMPY : Bool)
    (py_profile : Py) (nvariables : Nat) (name : String) (try_numpy try_file : Bool)
    (hattr : rt.PyObject_HasAttrString py_profile "profileName_" = false)
    (hcall : rt.PyCallable_Check py_profile = true) :
    (nvariables < 1 ∨ nvariables > 4 →
      ∃ msg, Profile.new rt SMILEI_USE_NUMPY py_profile nvariables name try_numpy try_file
        = Except.error msg) ∧
    (1 ≤ nvariables ∧ nvariables ≤ 4 →
      rt.function_nargs (rt.unwrapFunc py_profile) ≠ -2 →
      rt.floatCall (rt.unwrapFunc py_profile) nvariables = some true →
      ∃ p, Profile.new rt SMILEI_USE_NUMPY py_profile nvariables name try_numpy try_file
          = Except.ok p ∧
        p.function_ = pythonVariant (rt.unwrapFunc py_profile) nvariables) ∧
    (∀ p, Profile.new rt SMILEI_USE_NUMPY py_profile nvariables name try_numpy try_file
        = Except.ok p →
      (1 ≤ nvariables ∧ nvariables ≤ 4) ∧ p.nvariables_ = nvariables ∧
      p.function_ = pythonVariant (rt.unwrapFunc py_profile) nvariables ∧
      p.function_ ≠ none) := by
  have e : Profile.new rt SMILEI_USE_NUMPY py_profile nvariables name try_numpy try_file
      = Profile.python rt SMILEI_USE_NUMPY py_profile nvariables name try_numpy
          { profileName_ := "", nvariables_ := nvariables, uses_numpy_ := false,
            uses_file_ := false, filename_ := "", function_ := none } := by
    unfold Profile.new
    simp only [hattr, hcall, if_true, Bool.false_eq_true, if_false]
  obtain ⟨h1, h2, h3⟩ := python_spec rt SMILEI_USE_NUMPY py_profile nvariables name try_numpy
    { profileName_ := "", nvariables_ := nvariables, uses_numpy_ := false,
      uses_file_ := false, filename_ := "", function_ := none }
  rw [e]
  refine ⟨h1, fun hn ha hf => ?_, h3⟩
  obtain ⟨q, hq⟩ := h2 hn ha hf
  exact ⟨q, hq, (h3 q hq).2.2.1⟩

end ProfileClaims

/-- C17 (witness): the predefined profile `gaussian`, built in 2 variables. -/
theorem C17_predefined_profile_witness :
    ((∃ p, Profile.new sampleRuntime false gaussianPy 2 "n" false false = Except.ok p) ↔
      ("gaussian" ∈ spatialProfiles ∧ ((2 : Nat) = 1 ∨ (2 : Nat) = 2 ∨ (2 : Nat) = 3)) ∨
      ("gaussian" ∈ temporalProfiles ∧ (2 : Nat) = 1)) ∧
    ∃ p, Profile.new sampleRuntime false gaussianPy 2 "n" false false = Except.ok p :=
  have h := C17_predefined_profile_validation sampleRuntime false gaussianPy 2 "n" false false
    "gaussian" rfl rfl
  ⟨h.1, h.1.2 (Or.inl ⟨by simp [spatialProfiles], Or.inr (Or.inl rfl)⟩)⟩

/-- C18 (witness): a Python function of two arguments returning a number, built in 2
variables. -/
theorem C18_callable_profile_witness :
    ∃ p, Profile.new sampleRuntime false lambdaPy 2 "n" false false = Except.ok p ∧
      p.function_ = pythonVariant (sampleRuntime.unwrapFunc lambdaPy) 2 :=
  (C18_callable_profile_variable_count sampleRuntime false lambdaPy 2 "n" false false
    rfl rfl).2.1 (by decide) (by decide) rfl

/-! ## Disjoint passes and untouched layers -/

section PassOrder

variable {R : Type} [CommRing R]

theorem incrementB_sameE (dBx dBy dBz : ElectroMagn R → Field3D R) (f : ElectroMagn R) :
    SameE (incrementB dBx dBy dBz f) f :=
  ⟨rfl, rfl, rfl⟩

theorem isEIncrement_comm (p q : ElectroMagn R → ElectroMagn R) (hp : IsEIncrement p)
    (hq : IsEIncrement q) (f : ElectroMagn R) : p (q f) = q (p f) := by
  obtain ⟨px, py, pz, hpE, hpf⟩ := hp
  obtain ⟨qx, qy, qz, hqE, hqf⟩ := hq
  rw [hqf f, hpf f, hpf, hqf]
  obtain ⟨p1, p2, p3⟩ := hpE f _ (incrementB_sameE qx qy qz f)
  obtain ⟨q1, q2, q3⟩ := hqE f _ (incrementB_sameE px py pz f)
  apply ElectroMagn.ext
  · rfl
  · rfl
  · rfl
  · funext a b c
    show (incrementB qx qy qz f).Bx_ a b c + px (incrementB qx qy qz f) a b c
      = (incrementB px py pz f).Bx_ a b c + qx (incrementB px py pz f) a b c
    rw [p1, q1]
    show f.Bx_ a b c + qx f a b c + px f a b c = f.Bx_ a b c + px f a b c + qx f a b c
    ring
  · funext a b c
    show (incrementB qx qy qz f).By_ a b c + py (incrementB qx qy qz f) a b c
      = (incrementB px py pz f).By_ a b c + qy (incrementB px py pz f) a b c
    rw [p2, q2]
    show f.By_ a b c + qy f a b c + py f a b c = f.By_ a b c + py f a b c + qy f a b c
    ring
  · funext a b c
    show (incrementB qx qy qz f).Bz_ a b c + pz (incrementB qx qy qz f) a b c
      = (incrementB px py pz f).Bz_ a b c + qz (incrementB px py pz f) a b c
    rw [p3, q3]
    show f.Bz_ a b c + qz f a b c + pz f a b c = f.Bz_ a b c + pz f a b c + qz f a b c
    ring

theorem interiorBx_isEIncrement (s : MF_Solver3D_Lehe R) : IsEIncrement s.interiorBx := by
  refine ⟨fun f a b c => if (1 ≤ a ∧ a < usub s.nx_p 1) ∧ (1 ≤ b ∧ b < usub s.ny_d 1) ∧
      (1 ≤ c ∧ c < usub s.nz_d 1) then s.stencilBx f a b c else 0,
    fun _ _ _ _ => 0, fun _ _ _ _ => 0, fun f g h => ?_, fun f => ?_⟩
  · refine ⟨?_, rfl, rfl⟩
    funext a b c
    simp only [stencilBx_congr s h]
  · rw [interiorBx_eq]
    simp [incrementB]

theorem interiorBy_isEIncrement (s : MF_Solver3D_Lehe R) : IsEIncrement s.interiorBy := by
  refine ⟨fun _ _ _ _ => 0,
    fun f a b c => if (2 ≤ a ∧ a < usub s.nx_d 2) ∧ (1 ≤ b ∧ b < usub s.ny_p 1) ∧
      (1 ≤ c ∧ c < usub s.nz_d 1) then s.stencilBy f a b c else 0,
    fun _ _ _ _ => 0, fun f g h => ?_, fun f => ?_⟩
  · refine ⟨rfl, ?_, rfl⟩
    funext a b c
    simp only [stencilBy_congr s h]
  · rw [interiorBy_eq]
    simp [incrementB]

theorem interiorBz_isEIncrement (s : MF_Solver3D_Lehe R) : IsEIncrement s.interiorBz := by
  refine ⟨fun _ _ _ _ => 0, fun _ _ _ _ => 0,
    fun f a b c => if (2 ≤ a ∧ a < usub s.nx_d 2) ∧ (1 ≤ b ∧ b < usub s.ny_d 1) ∧
      (1 ≤ c ∧ c < usub s.nz_p 1) then s.stencilBz f a b c else 0,
    fun f g h => ?_, fun f => ?_⟩
  · refine ⟨rfl, rfl, ?_⟩
    funext a b c
    simp only [stencilBz_congr s h]
  · rw [interiorBz_eq]
    simp [incrementB]

theorem boundaryBx_isEIncrement (s : MF_Solver3D_Lehe R) (i0 : Nat) :
    IsEIncrement (s.boundaryBx i0) := by
  refine ⟨fun f a b c => if a = i0 ∧ (1 ≤ b ∧ b < usub s.ny_d 1) ∧
      (1 ≤ c ∧ c < usub s.nz_d 1) then s.edgeBx f i0 b c else 0,
    fun _ _ _ _ => 0, fun _ _ _ _ => 0, fun f g h => ?_, fun f => ?_⟩
  · refine ⟨?_, rfl, rfl⟩
    funext a b c
    simp only [edgeBx_congr s h]
  · rw [boundaryBx_eq]
    simp [incrementB]

theorem boundaryBy_isEIncrement (s : MF_Solver3D_Lehe R) (i0 im : Nat) :
    IsEIncrement (s.boundaryBy i0 im) := by
  refine ⟨fun _ _ _ _ => 0,
    fun f a b c => if a = i0 ∧ (0 ≤ b ∧ b < s.ny_p) ∧ (2 ≤ c ∧ c < usub s.nz_d 2) then
      s.edgeBy f i0 im b c else 0,
    fun _ _ _ _ => 0, fun f g h => ?_, fun f => ?_⟩
  · refine ⟨rfl, ?_, rfl⟩
    funext a b c
    simp only [edgeBy_congr s h]
  · rw [boundaryBy_eq]
    simp [incrementB]

theorem boundaryBz_isEIncrement (s : MF_Solver3D_Lehe R) (i0 im : Nat) :
    IsEIncrement (s.boundaryBz i0 im) := by
  refine ⟨fun _ _ _ _ => 0, fun _ _ _ _ => 0,
    fun f a b c => if a = i0 ∧ (2 ≤ b ∧ b < usub s.ny_d 2) ∧ (0 ≤ c ∧ c < s.nz_p) then
      s.edgeBz f i0 im b c else 0,
    fun f g h => ?_, fun f => ?_⟩
  · refine ⟨rfl, rfl, ?_⟩
    funext a b c
    simp only [edgeBz_congr s h]
  · rw [boundaryBz_eq]
    simp [incrementB]

theorem passes_isEIncrement (s : MF_Solver3D_Lehe R) :
    ∀ p ∈ s.passes, IsEIncrement p := by
  intro p hp
  simp only [MF_Solver3D_Lehe.passes, List.mem_cons, List.mem_singleton, List.not_mem_nil,
    or_false] at hp
  rcases hp with rfl | rfl | rfl | rfl | rfl | rfl | rfl | rfl | rfl
  · exact interiorBx_isEIncrement s
  · exact interiorBy_isEIncrement s
  · exact interiorBz_isEIncrement s
  · exact boundaryBx_isEIncrement s _
  · exact boundaryBx_isEIncrement s _
  · exact boundaryBy_isEIncrement s _ _
  · exact boundaryBy_isEIncrement s _ _
  · exact boundaryBz_isEIncrement s _ _
  · exact boundaryBz_isEIncrement s _ _

theorem runPasses_perm (s : MF_Solver3D_Lehe R) (l : List (ElectroMagn R → ElectroMagn R))
    (hl : l.Perm s.passes) (f : ElectroMagn R) : runPasses l f = s.apply f := by
  have h : runPasses l f = runPasses s.passes f := by
    unfold runPasses
    refine (List.Perm.foldl_eq' hl.symm ?_ f).symm
    intro x hx y hy z
    exact isEIncrement_comm y x (passes_isEIncrement s y hy) (passes_isEIncrement s x hx) z
  rw [h]
  rfl

end PassOrder

theorem mem_forStatementsAux {σ : Type} (body : Nat → List (σ → σ)) (p : σ → σ) :
    ∀ n i, p ∈ forStatementsAux body n i → ∃ a, p ∈ body a := by
  intro n
  induction n with
  | zero => intro i h; exact absurd h (List.not_mem_nil p)
  | succ n ih =>
    intro i h
    rcases List.mem_append.1 h with h1 | h1
    · exact ⟨i, h1⟩
    · exact ih (i + 1) h1

theorem mem_forStatements {σ : Type} (lo hi : Nat) (body : Nat → List (σ → σ)) (p : σ → σ)
    (h : p ∈ forStatements lo hi body) : ∃ a, p ∈ body a :=
  mem_forStatementsAux body p (hi - lo) lo h

section StatementOrder

variable {R : Type} [CommRing R]

theorem runPasses_append (l1 l2 : List (ElectroMagn R → ElectroMagn R)) (f : ElectroMagn R) :
    runPasses (l1 ++ l2) f = runPasses l2 (runPasses l1 f) := by
  unfold runPasses
  rw [List.foldl_append]

theorem runPasses_forStatementsAux (body : Nat → List (ElectroMagn R → ElectroMagn R)) :
    ∀ n i f, runPasses (forStatementsAux body n i) f
      = forLoopAux (fun i f => runPasses (body i) f) n i f := by
  intro n
  induction n with
  | zero => intro i f; rfl
  | succ n ih =>
    intro i f
    show runPasses (body i ++ forStatementsAux body n (i + 1)) f = _
    rw [runPasses_append, ih]
    rfl

theorem runPasses_forStatements (lo hi : Nat)
    (body : Nat → List (ElectroMagn R → ElectroMagn R)) (f : ElectroMagn R) :
    runPasses (forStatements lo hi body) f
      = forLoop lo hi (fun i f => runPasses (body i) f) f :=
  runPasses_forStatementsAux body (hi - lo) lo f

theorem runPasses_single (p : ElectroMagn R → ElectroMagn R) (f : ElectroMagn R) :
    runPasses [p] f = p f := rfl

theorem addBx_isEIncrement (i j k : Nat) (v : ElectroMagn R → R)
    (hv : ∀ f g, SameE g f → v g = v f) :
    IsEIncrement (fun f : ElectroMagn R => f.addBx i j k (v f)) := by
  refine ⟨fun f a b c => if a = i ∧ b = j ∧ c = k then v f else 0,
    fun _ _ _ _ => 0, fun _ _ _ _ => 0, fun f g h => ?_, fun f => ?_⟩
  · refine ⟨?_, rfl, rfl⟩
    funext a b c
    show (if a = i ∧ b = j ∧ c = k then v g else 0)
      = if a = i ∧ b = j ∧ c = k then v f else 0
    rw [hv f g h]
  · apply ElectroMagn.ext
    · rfl
    · rfl
    · rfl
    · funext a b c
      show (if a = i ∧ b = j ∧ c = k then f.Bx_ a b c + v f else f.Bx_ a b c)
        = f.Bx_ a b c + if a = i ∧ b = j ∧ c = k then v f else 0
      by_cases h : a = i ∧ b = j ∧ c = k
      · rw [if_pos h, if_pos h]
      · rw [if_neg h, if_neg h, add_zero]
    · funext a b c
      show f.By_ a b c = f.By_ a b c + 0
      rw [add_zero]
    · funext a b c
      show f.Bz_ a b c = f.Bz_ a b c + 0
      rw [add_zero]

theorem addBy_isEIncrement (i j k : Nat) (v : ElectroMagn R → R)
    (hv : ∀ f g, SameE g f → v g = v f) :
    IsEIncrement (fun f : ElectroMagn R => f.addBy i j k (v f)) := by
  refine ⟨fun _ _ _ _ => 0, fun f a b c => if a = i ∧ b = j ∧ c = k then v f else 0,
    fun _ _ _ _ => 0, fun f g h => ?_, fun f => ?_⟩
  · refine ⟨rfl, ?_, rfl⟩
    funext a b c
    show (if a = i ∧ b = j ∧ c = k then v g else 0)
      = if a = i ∧ b = j ∧ c = k then v f else 0
    rw [hv f g h]
  · apply ElectroMagn.ext
    · rfl
    · rfl
    · rfl
    · funext a b c
      show f.Bx_ a b c = f.Bx_ a b c + 0
      rw [add_zero]
    · funext a b c
      show (if a = i ∧ b = j ∧ c = k then f.By_ a b c + v f else f.By_ a b c)
        = f.By_ a b c + if a = i ∧ b = j ∧ c = k then v f else 0
      by_cases h : a = i ∧ b = j ∧ c = k
      · rw [if_pos h, if_pos h]
      · rw [if_neg h, if_neg h, add_zero]
    · funext a b c
      show f.Bz_ a b c = f.Bz_ a b c + 0
      rw [add_zero]

theorem addBz_isEIncrement (i j k : Nat) (v : ElectroMagn R → R)
    (hv : ∀ f g, SameE g f → v g = v f) :
    IsEIncrement (fun f : ElectroMagn R => f.addBz i j k (v f)) := by
  refine ⟨fun _ _ _ _ => 0, fun _ _ _ _ => 0,
    fun f a b c => if a = i ∧ b = j ∧ c = k then v f else 0, fun f g h => ?_, fun f => ?_⟩
  · refine ⟨rfl, rfl, ?_⟩
    funext a b c
    show (if a = i ∧ b = j ∧ c = k then v g else 0)
      = if a = i ∧ b = j ∧ c = k then v f else 0
    rw [hv f g h]
  · apply ElectroMagn.ext
    · rfl
    · rfl
    · rfl
    · funext a b c
      show f.Bx_ a b c = f.Bx_ a b c + 0
      rw [add_zero]
    · funext a b c
      show f.By_ a b c = f.By_ a b c + 0
      rw [add_zero]
    · funext a b c
      show (if a = i ∧ b = j ∧ c = k then f.Bz_ a b c + v f else f.Bz_ a b c)
        = f.Bz_ a b c + if a = i ∧ b = j ∧ c = k then v f else 0
      by_cases h : a = i ∧ b = j ∧ c = k
      · rw [if_pos h, if_pos h]
      · rw [if_neg h, if_neg h, add_zero]

theorem statements_isEIncrement (s : MF_Solver3D_Lehe R) :
    ∀ p ∈ s.statements, IsEIncrement p := by
  intro p hp
  simp only [MF_Solver3D_Lehe.statements, List.mem_append] at hp
  rcases hp with (((((((h | h) | h) | h) | h) | h) | h) | h) | h
  · obtain ⟨i, h1⟩ := mem_forStatements _ _ _ p h
    obtain ⟨j, h2⟩ := mem_forStatements _ _ _ p h1
    obtain ⟨k, h3⟩ := mem_forStatements _ _ _ p h2
    rw [List.mem_singleton.1 h3]
    exact addBx_isEIncrement i j k _ (fun f g hg => by rw [stencilBx_congr s hg])
  · obtain ⟨i, h1⟩ := mem_forStatements _ _ _ p h
    obtain ⟨j, h2⟩ := mem_forStatements _ _ _ p h1
    obtain ⟨k, h3⟩ := mem_forStatements _ _ _ p h2
    rw [List.mem_singleton.1 h3]
    exact addBy_isEIncrement i j k _ (fun f g hg => by rw [stencilBy_congr s hg])
  · obtain ⟨i, h1⟩ := mem_forStatements _ _ _ p h
    obtain ⟨j, h2⟩ := mem_forStatements _ _ _ p h1
    obtain ⟨k, h3⟩ := mem_forStatements _ _ _ p h2
    rw [List.mem_singleton.1 h3]
    exact addBz_isEIncrement i j k _ (fun f g hg => by rw [stencilBz_congr s hg])
  · obtain ⟨j, h2⟩ := mem_forStatements _ _ _ p h
    obtain ⟨k, h3⟩ := mem_forStatements _ _ _ p h2
    rw [List.mem_singleton.1 h3]
    exact addBx_isEIncrement _ j k _ (fun f g hg => by rw [edgeBx_congr s hg])
  · obtain ⟨j, h2⟩ := mem_forStatements _ _ _ p h
    obtain ⟨k, h3⟩ := mem_forStatements _ _ _ p h2
    rw [List.mem_singleton.1 h3]
    exact addBx_isEIncrement _ j k _ (fun f g hg => by rw [edgeBx_congr s hg])
  · obtain ⟨j, h2⟩ := mem_forStatements _ _ _ p h
    obtain ⟨k, h3⟩ := mem_forStatements _ _ _ p h2
    rw [List.mem_singleton.1 h3]
    exact addBy_isEIncrement _ j k _ (fun f g hg => by rw [edgeBy_congr s hg])
  · obtain ⟨j, h2⟩ := mem_forStatements _ _ _ p h
    obtain ⟨k, h3⟩ := mem_forStatements _ _ _ p h2
    rw [List.mem_singleton.1 h3]
    exact addBy_isEIncrement _ j k _ (fun f g hg => by rw [edgeBy_congr s hg])
  · obtain ⟨j, h2⟩ := mem_forStatements _ _ _ p h
    obtain ⟨k, h3⟩ := mem_forStatements _ _ _ p h2
    rw [List.mem_singleton.1 h3]
    exact addBz_isEIncrement _ j k _ (fun f g hg => by rw [edgeBz_congr s hg])
  · obtain ⟨j, h2⟩ := mem_forStatements _ _ _ p h
    obtain ⟨k, h3⟩ := mem_forStatements _ _ _ p h2
    rw [List.mem_singleton.1 h3]
    exact addBz_isEIncrement _ j k _ (fun f g hg => by rw [edgeBz_congr s hg])

theorem runPasses_statements (s : MF_Solver3D_Lehe R) (f : ElectroMagn R) :
    runPasses s.statements f = s.apply f := by
  simp only [MF_Solver3D_Lehe.statements, runPasses_append,
    MF_Solver3D_Lehe.interiorBxStatements, MF_Solver3D_Lehe.interiorByStatements,
    MF_Solver3D_Lehe.interiorBzStatements, MF_Solver3D_Lehe.boundaryBxStatements,
    MF_Solver3D_Lehe.boundaryByStatements, MF_Solver3D_Lehe.boundaryBzStatements,
    runPasses_forStatements, runPasses_single]
  rfl

theorem runPasses_perm_statements (s : MF_Solver3D_Lehe R)
    (l : List (ElectroMagn R → ElectroMagn R)) (hl : l.Perm s.statements)
    (f : ElectroMagn R) : runPasses l f = s.apply f := by
  have h : runPasses l f = runPasses s.statements f := by
    unfold runPasses
    refine (List.Perm.foldl_eq' hl.symm ?_ f).symm
    intro x hx y hy z
    exact isEIncrement_comm y x (statements_isEIncrement s y hy)
      (statements_isEIncrement s x hx) z
  rw [h, runPasses_statements]

end StatementOrder

section Disjoint

variable {R : Type} [CommRing R]

/-- C21: for `nx_p >= 3` and `nx_d = nx_p+1` the index sets written by the interior pass,
the xmin boundary pass and the xmax boundary pass are pairwise disjoint for each of `Bx`,
`By` and `Bz`, so each point is incremented at most once; executing the nine passes in any
order, or the assignment statements of all their points in any order, gives the same field
state as `operator()`. -/
theorem C21_passes_write_disjoint_points (s : MF_Solver3D_Lehe R)
    (hwf : s.toSolver3D.WF) (hnx : 3 ≤ s.nx_p) (hst : s.nx_d = s.nx_p + 1) :
    (∀ a b c,
      ¬ (s.inInteriorBx a b c ∧ s.inBoundaryBx 0 a b c) ∧
      ¬ (s.inInteriorBx a b c ∧ s.inBoundaryBx (usub s.nx_p 1) a b c) ∧
      ¬ (s.inBoundaryBx 0 a b c ∧ s.inBoundaryBx (usub s.nx_p 1) a b c)) ∧
    (∀ a b c,
      ¬ (s.inInteriorBy a b c ∧ s.inBoundaryBy 1 a b c) ∧
      ¬ (s.inInteriorBy a b c ∧ s.inBoundaryBy (usub s.nx_d 2) a b c) ∧
      ¬ (s.inBoundaryBy 1 a b c ∧ s.inBoundaryBy (usub s.nx_d 2) a b c)) ∧
    (∀ a b c,
      ¬ (s.inInteriorBz a b c ∧ s.inBoundaryBz 1 a b c) ∧
      ¬ (s.inInteriorBz a b c ∧ s.inBoundaryBz (usub s.nx_d 2) a b c) ∧
      ¬ (s.inBoundaryBz 1 a b c ∧ s.inBoundaryBz (usub s.nx_d 2) a b c)) ∧
    (∀ l : List (ElectroMagn R → ElectroMagn R), l.Perm s.passes →
      ∀ f, runPasses l f = s.apply f) ∧
    (∀ l : List (ElectroMagn R → ElectroMagn R), l.Perm s.statements →
      ∀ f, runPasses l f = s.apply f) := by
  obtain ⟨wx, -, -, wd, -, -⟩ := hwf
  have ex : usub s.nx_p 1 = s.nx_p - 1 := usub_of_le (by omega) wx
  have ed : usub s.nx_d 2 = s.nx_d - 2 := usub_of_le (by omega) wd
  refine ⟨fun a b c => ?_, fun a b c => ?_, fun a b c => ?_,
    fun l hl f => runPasses_perm s l hl f,
    fun l hl f => runPasses_perm_statements s l hl f⟩
  · simp only [MF_Solver3D_Lehe.inInteriorBx, MF_Solver3D_Lehe.inBoundaryBx, ex]
    omega
  · simp only [MF_Solver3D_Lehe.inInteriorBy, MF_Solver3D_Lehe.inBoundaryBy, ed]
    omega
  · simp only [MF_Solver3D_Lehe.inInteriorBz, MF_Solver3D_Lehe.inBoundaryBz, ed]
    omega

theorem apply_Bx_of_not_written (s : MF_Solver3D_Lehe R) (f : ElectroMagn R) (a b c : Nat)
    (h : ¬ s.writtenBx a b c) : (s.apply f).Bx_ a b c = f.Bx_ a b c := by
  simp only [MF_Solver3D_Lehe.writtenBx, MF_Solver3D_Lehe.inInteriorBx,
    MF_Solver3D_Lehe.inBoundaryBx, not_or] at h
  rw [apply_Bx, MF_Solver3D_Lehe.incBx, if_neg h.1, if_neg h.2.1, if_neg h.2.2]
  simp

theorem apply_By_of_not_written (s : MF_Solver3D_Lehe R) (f : ElectroMagn R) (a b c : Nat)
    (h : ¬ s.writtenBy a b c) : (s.apply f).By_ a b c = f.By_ a b c := by
  simp only [MF_Solver3D_Lehe.writtenBy, MF_Solver3D_Lehe.inInteriorBy,
    MF_Solver3D_Lehe.inBoundaryBy, not_or] at h
  rw [apply_By, MF_Solver3D_Lehe.incBy, if_neg h.1, if_neg h.2.1, if_neg h.2.2]
  simp

theorem apply_Bz_of_not_written (s : MF_Solver3D_Lehe R) (f : ElectroMagn R) (a b c : Nat)
    (h : ¬ s.writtenBz a b c) : (s.apply f).Bz_ a b c = f.Bz_ a b c := by
  simp only [MF_Solver3D_Lehe.writtenBz, MF_Solver3D_Lehe.inInteriorBz,
    MF_Solver3D_Lehe.inBoundaryBz, not_or] at h
  rw [apply_Bz, MF_Solver3D_Lehe.incBz, if_neg h.1, if_neg h.2.1, if_neg h.2.2]
  simp

/-- C30: one call of `operator()` leaves unchanged every `B` value whose index lies in none
of the ranges of the loop nests that write its grid; for staggered extents with
`nx_p >= 2`, `ny_p >= 1`, `nz_p >= 1` these include `By(0,j,k)`, `By(nx_d-1,j,k)`,
`Bz(0,j,k)`, `Bz(nx_d-1,j,k)` for all `j`, `k`, and `Bx(i,j,k)` whenever `j` is 0 or `ny_d-1`
or `k` is 0 or `nz_d-1`. -/
theorem C30_untouched_outer_layers (s : MF_Solver3D_Lehe R) (f : ElectroMagn R)
    (hwf : s.toSolver3D.WF) (hst : s.toSolver3D.Staggered)
    (hx : 2 ≤ s.nx_p) (hy : 1 ≤ s.ny_p) (hz : 1 ≤ s.nz_p) :
    (∀ a b c, ¬ s.writtenBx a b c → (s.apply f).Bx_ a b c = f.Bx_ a b c) ∧
    (∀ a b c, ¬ s.writtenBy a b c → (s.apply f).By_ a b c = f.By_ a b c) ∧
    (∀ a b c, ¬ s.writtenBz a b c → (s.apply f).Bz_ a b c = f.Bz_ a b c) ∧
    (∀ j k, (s.apply f).By_ 0 j k = f.By_ 0 j k ∧
      (s.apply f).By_ (s.nx_d - 1) j k = f.By_ (s.nx_d - 1) j k ∧
      (s.apply f).Bz_ 0 j k = f.Bz_ 0 j k ∧
      (s.apply f).Bz_ (s.nx_d - 1) j k = f.Bz_ (s.nx_d - 1) j k) ∧
    (∀ i j k, (j = 0 ∨ j = s.ny_d - 1 ∨ k = 0 ∨ k = s.nz_d - 1) →
      (s.apply f).Bx_ i j k = f.Bx_ i j k) := by
  obtain ⟨wx, wy, wz, wdx, wdy, wdz⟩ := hwf
  obtain ⟨sx, sy, sz⟩ := hst
  have ed : usub s.nx_d 2 = s.nx_d - 2 := usub_of_le (by omega) wdx
  have ey : usub s.ny_d 1 = s.ny_d - 1 := usub_of_le (by omega) wdy
  have ez : usub s.nz_d 1 = s.nz_d - 1 := usub_of_le (by omega) wdz
  refine ⟨apply_Bx_of_not_written s f, apply_By_of_not_written s f,
    apply_Bz_of_not_written s f, fun j k => ⟨?_, ?_, ?_, ?_⟩, fun i j k h => ?_⟩
  · apply apply_By_of_not_written
    simp only [MF_Solver3D_Lehe.writtenBy, MF_Solver3D_Lehe.inInteriorBy,
      MF_Solver3D_Lehe.inBoundaryBy, ed]
    omega
  · apply apply_By_of_not_written
    simp only [MF_Solver3D_Lehe.writtenBy, MF_Solver3D_Lehe.inInteriorBy,
      MF_Solver3D_Lehe.inBoundaryBy, ed]
    omega
  · apply apply_Bz_of_not_written
    simp only [MF_Solver3D_Lehe.writtenBz, MF_Solver3D_Lehe.inInteriorBz,
      MF_Solver3D_Lehe.inBoundaryBz, ed]
    omega
  · apply apply_Bz_of_not_written
    simp only [MF_Solver3D_Lehe.writtenBz, MF_Solver3D_Lehe.inInteriorBz,
      MF_Solver3D_Lehe.inBoundaryBz, ed]
    omega
  · apply apply_Bx_of_not_written
    simp only [MF_Solver3D_Lehe.writtenBx, MF_Solver3D_Lehe.inInteriorBx,
      MF_Solver3D_Lehe.inBoundaryBx, ey, ez]
    omega

end Disjoint

theorem sampleLehe_staggered : sampleLehe.toSolver3D.Staggered := by
  simp [Solver3D.Staggered, sampleLehe, MF_Solver3D_Lehe.new, sampleBase]

/-- C21 (witness): the sample grid (`nx_p = 8`, `nx_d = 9`): the statements of all points,
executed in reverse order, give the result of `operator()`. -/
theorem C21_passes_disjoint_witness :
    runPasses sampleLehe.statements.reverse sampleFieldsX = sampleLehe.apply sampleFieldsX :=
  (C21_passes_write_disjoint_points sampleLehe sampleLehe_WF
    (by simp [sampleLehe, MF_Solver3D_Lehe.new, sampleBase])
    (by simp [sampleLehe, MF_Solver3D_Lehe.new, sampleBase])).2.2.2.2
    sampleLehe.statements.reverse (List.reverse_perm _) sampleFieldsX

/-- C30 (witness): the sample grid: `By(0,3,3)` and `Bx(3,0,3)` are left unchanged. -/
theorem C30_untouched_outer_layers_witness :
    (sampleLehe.apply sampleFieldsX).By_ 0 3 3 = sampleFieldsX.By_ 0 3 3 ∧
    (sampleLehe.apply sampleFieldsX).Bx_ 3 0 3 = sampleFieldsX.Bx_ 3 0 3 :=
  have h := C30_untouched_outer_layers sampleLehe sampleFieldsX sampleLehe_WF
    sampleLehe_staggered (by simp [sampleLehe, MF_Solver3D_Lehe.new, sampleBase])
    (by simp [sampleLehe, MF_Solver3D_Lehe.new, sampleBase])
    (by simp [sampleLehe, MF_Solver3D_Lehe.new, sampleBase])
  ⟨(h.2.2.2.1 3 3).1, h.2.2.2.2 3 0 3 (Or.inl rfl)⟩

/-! ## The final transform is a rotation -/

section Rotation

variable {R : Type} [LinearOrderedField R]

theorem phaseValue_norm (sqrt : R → R) (particles : Particles R) (ipart : Int)
    (hr : 0 < radius sqrt particles ipart)
    (hsq : radius sqrt particles ipart * radius sqrt particles ipart
      = particles.position 1 ipart * particles.position 1 ipart
        + particles.position 2 ipart * particles.position 2 ipart) :
    (phaseValue sqrt particles ipart).re ^ 2 + (phaseValue sqrt particles ipart).im ^ 2 = 1 := by
  have hne : radius sqrt particles ipart ≠ 0 := ne_of_gt hr
  simp only [phaseValue]
  field_simp
  rw [pow_two, pow_two, pow_two, hsq]

theorem rotatePair_norm (e : Cplx R) (he : e.re ^ 2 + e.im ^ 2 = 1) (b : Buffer R)
    (p1 p2 : Int) (h : p2 ≠ p1) :
    (rotatePair e b p1 p2 p1) ^ 2 + (rotatePair e b p1 p2 p2) ^ 2 = b p1 ^ 2 + b p2 ^ 2 := by
  rw [rotatePair_first, rotatePair_second _ _ _ _ h]
  have key : (e.re * b p1 + e.im * b p2) ^ 2 + (-e.im * b p1 + e.re * b p2) ^ 2
      = (e.re ^ 2 + e.im ^ 2) * (b p1 ^ 2 + b p2 ^ 2) := by ring
  rw [key, he, one_mul]

/-- C22: for a particle with `r > 0`, where `r * r = y*y + z*z`, the phase factor has
modulus 1, the basis change maps every pair `(R, T)` held in two distinct slots to a pair
`(Y, Z)` with `Y^2 + Z^2 = R^2 + T^2`, and so do the `E` pair and the `B` pair written by
`fields` relative to the values accumulated over the modes. -/
theorem C22_final_transform_is_rotation (sqrt : R → R) (coeffs : R → R → CoeffCache R)
    (self : InterpolatorAM2Order R) (EM : ElectroMagnAM R) (particles : Particles R)
    (ipart nparts : Int) (E : Buffer R) (ELoc : Int) (B : Buffer R) (BLoc : Int)
    (hr : 0 < radius sqrt particles ipart) (hn : nparts ≠ 0)
    (hsq : radius sqrt particles ipart * radius sqrt particles ipart
      = particles.position 1 ipart * particles.position 1 ipart
        + particles.position 2 ipart * particles.position 2 ipart) :
    (phaseValue sqrt particles ipart).re ^ 2 + (phaseValue sqrt particles ipart).im ^ 2 = 1 ∧
    (∀ (b : Buffer R) (p1 p2 : Int), p2 ≠ p1 →
      (rotatePair (phaseValue sqrt particles ipart) b p1 p2 p1) ^ 2
        + (rotatePair (phaseValue sqrt particles ipart) b p1 p2 p2) ^ 2
        = b p1 ^ 2 + b p2 ^ 2) ∧
    ∃ fr fr',
      fieldsAccumulate sqrt coeffs self EM particles ipart nparts E ELoc B BLoc = some fr ∧
      fields sqrt coeffs self EM particles ipart nparts E ELoc B BLoc = some fr' ∧
      fr'.E (ELoc + 1 * nparts) ^ 2 + fr'.E (ELoc + 2 * nparts) ^ 2
        = fr.E (ELoc + 1 * nparts) ^ 2 + fr.E (ELoc + 2 * nparts) ^ 2 ∧
      fr'.B (BLoc + 1 * nparts) ^ 2 + fr'.B (BLoc + 2 * nparts) ^ 2
        = fr.B (BLoc + 1 * nparts) ^ 2 + fr.B (BLoc + 2 * nparts) ^ 2 := by
  have hnorm := phaseValue_norm sqrt particles ipart hr hsq
  obtain ⟨e01, e02, e12, e10, e20, e21⟩ := slots_distinct ELoc nparts hn
  obtain ⟨b01, b02, b12, b10, b20, b21⟩ := slots_distinct BLoc nparts hn
  obtain ⟨fr, hfr, hs, -⟩ :=
    fieldsAccumulate_slots sqrt coeffs self EM particles ipart nparts E ELoc B BLoc
      (ne_of_gt hr) hn
  have he : fr.self.exp_m_theta = phaseValue sqrt particles ipart := by rw [hs]; rfl
  refine ⟨hnorm, fun b p1 p2 h => rotatePair_norm _ hnorm b p1 p2 h,
    fr, fieldsRotate nparts ELoc BLoc fr, hfr, ?_, ?_, ?_⟩
  · unfold fields
    rw [hfr]
    rfl
  · show rotatePair fr.self.exp_m_theta fr.E _ _ _ ^ 2
      + rotatePair fr.self.exp_m_theta fr.E _ _ _ ^ 2 = _
    rw [he]
    exact rotatePair_norm _ hnorm fr.E _ _ e21
  · show rotatePair fr.self.exp_m_theta fr.B _ _ _ ^ 2
      + rotatePair fr.self.exp_m_theta fr.B _ _ _ ^ 2 = _
    rw [he]
    exact rotatePair_norm _ hnorm fr.B _ _ b21

end Rotation

/-- C22 (witness): one particle at `y = 3`, `z = 4` (`r = 5`): the phase `(3 - 4i)/5` has
modulus 1. -/
theorem C22_final_transform_witness :
    (phaseValue sqrtQ (oneParticle 3 4) 0).re ^ 2
      + (phaseValue sqrtQ (oneParticle 3 4) 0).im ^ 2 = 1 :=
  (C22_final_transform_is_rotation sqrtQ (fun _ _ => sampleCache) sampleInterp (constEM 1)
    (oneParticle 3 4) 0 1 (fun _ => 0) 0 (fun _ => 0) 0
    (by rw [radius_3_4]; norm_num) (by norm_num)
    (by rw [radius_3_4]; simp only [oneParticle]; norm_num)).1

/-! ## File profiles -/

section FileProfile

variable {Py : Type}

theorem find_last_of_none_iff (c : Char) (l : List Char) :
    find_last_of c l = none ↔ c ∉ l := by
  induction l with
  | nil => simp [find_last_of]
  | cons x xs ih =>
    unfold find_last_of
    cases h : find_last_of c xs with
    | none =>
      have hc : c ∉ xs := ih.1 h
      by_cases hx : x = c
      · simp [hx]
      · have hx2 : ¬ c = x := fun e => hx e.symm
        simp [hx, hx2, hc]
    | some i =>
      have hc : c ∈ xs := by
        by_contra hn
        rw [ih.2 hn] at h
        exact Option.noConfusion h
      simp [hc]

theorem find_last_of_some (c : Char) (l : List Char) :
    ∀ i, find_last_of c l = some i →
      i < l.length ∧ l = l.take i ++ c :: l.drop (i + 1) ∧ c ∉ l.drop (i + 1) := by
  induction l with
  | nil => intro i h; simp [find_last_of] at h
  | cons x xs ih =>
    intro i h
    unfold find_last_of at h
    cases hf : find_last_of c xs with
    | none =>
      rw [hf] at h
      have hc : c ∉ xs := (find_last_of_none_iff c xs).1 hf
      by_cases hx : x = c
      · simp only [hx, if_true, Option.some.injEq] at h
        subst h
        subst hx
        simpa using hc
      · simp [hx] at h
    | some j =>
      rw [hf] at h
      simp only [Option.some.injEq] at h
      subst h
      obtain ⟨h1, h2, h3⟩ := ih j hf
      refine ⟨by simpa using h1, ?_, by simpa using h3⟩
      simp only [List.take_succ_cons, List.drop_succ_cons, List.cons_append, List.cons.injEq,
        true_and]
      exact h2

theorem find_last_of_last_iff (c : Char) (l : List Char) :
    find_last_of c l = some (l.length - 1) ↔ l.getLast? = some c := by
  constructor
  · intro h
    obtain ⟨h1, h2, -⟩ := find_last_of_some c l _ h
    have hd : l.drop (l.length - 1 + 1) = [] := by
      apply List.drop_eq_nil_of_le
      omega
    rw [hd] at h2
    rw [h2]
    simp
  · intro h
    have hc : c ∈ l := List.mem_of_getLast?_eq_some h
    cases hf : find_last_of c l with
    | none => exact absurd hc ((find_last_of_none_iff c l).1 hf)
    | some i =>
      obtain ⟨h1, h2, h3⟩ := find_last_of_some c l i hf
      have hd : l.drop (i + 1) = [] := by
        by_contra hne
        have hlast : l.getLast? = (l.drop (i + 1)).getLast? := by
          conv_lhs => rw [h2]
          rw [List.getLast?_append_of_ne_nil _ (by simp)]
          cases hdr : l.drop (i + 1) with
          | nil => exact absurd hdr hne
          | cons y ys => rw [List.getLast?_cons_cons]
        rw [h] at hlast
        exact h3 (List.mem_of_getLast?_eq_some hlast.symm)
      have hi : l.length ≤ i + 1 := by
        by_contra hlt
        exact absurd hd (by
          intro hnil
          have := List.drop_eq_nil_iff.1 hnil
          omega)
      congr 1
      omega

end FileProfile

section FileProfileClaims

variable {Py : Type}

theorem file_spec (name : String) (try_file : Bool) (p : Profile Py) :
    (try_file = false → ∃ msg, Profile.file name try_file p = Except.error msg) ∧
    (try_file = true →
      ((∃ msg, Profile.file name try_file p = Except.error msg) ↔
        ('/' ∉ p.filename_.data ∨ p.filename_.data.getLast? = some '/')) ∧
      ∀ q, Profile.file name try_file p = Except.ok q →
        ∃ i, find_last_of '/' p.filename_.data = some i ∧
          q = { p with
                function_ := some (Function.Function_File
                  (String.mk (p.filename_.data.take i))
                  (String.mk (p.filename_.data.drop (i + 1)))),
                uses_file_ := true }) := by
  unfold Profile.file
  simp only [check_eq]
  constructor
  · intro h
    exact ⟨_, by rw [if_pos (by simp [h])]⟩
  · intro h
    have ht : ¬ (¬ try_file = true) := by simp [h]
    rw [if_neg ht]
    have hlen : p.filename_.length = p.filename_.data.length := rfl
    have hcond : (find_last_of '/' p.filename_.data = none ∨
          find_last_of '/' p.filename_.data = some (p.filename_.length - 1)) ↔
        ('/' ∉ p.filename_.data ∨ p.filename_.data.getLast? = some '/') := by
      rw [find_last_of_none_iff, hlen, find_last_of_last_iff]
    by_cases hc : find_last_of '/' p.filename_.data = none ∨
        find_last_of '/' p.filename_.data = some (p.filename_.length - 1)
    · rw [if_pos hc]
      refine ⟨⟨fun _ => hcond.1 hc, fun _ => ⟨_, rfl⟩⟩, fun q hq => ?_⟩
      exact absurd hq (by simp)
    · rw [if_neg hc]
      refine ⟨⟨fun ⟨msg, hm⟩ => ?_, fun h2 => absurd (hcond.2 h2) hc⟩, fun q hq => ?_⟩
      · exact absurd hm (by simp [pure, Except.pure])
      · rw [not_or] at hc
        cases hi : find_last_of '/' p.filename_.data with
        | none => exact absurd hi hc.1
        | some i =>
          refine ⟨i, rfl, ?_⟩
          rw [hi] at hq
          exact (Except.ok.inj hq).symm

/-- C28: for a profile that is a string `filename` (no attribute `profileName_`, not
callable), the constructor ends with an error for every string when `try_file` is false; when
`try_file` is true it ends with an error iff `filename` contains no `/` or its last character
is `/`; otherwise `function_` is `Function_File` with `path` the text before the last `/`
and `dataset_name` the text after it, so `path ++ "/" ++ dataset_name = filename`,
`dataset_name` is not empty and contains no `/`. -/
theorem C28_file_profile_path_split (rt : PyRuntime Py) (SMILEI_USE_NUMPY : Bool)
    (py_profile : Py) (nvariables : Nat) (name : String) (try_numpy try_file : Bool)
    (filename : String)
    (hattr : rt.PyObject_HasAttrString py_profile "profileName_" = false)
    (hcall : rt.PyCallable_Check py_profile = false)
    (hstr : rt.py2scalar py_profile = some filename) :
    (try_file = false →
      ∃ msg, Profile.new rt SMILEI_USE_NUMPY py_profile nvariables name try_numpy try_file
        = Except.error msg) ∧
    (try_file = true →
      ((∃ msg, Profile.new rt SMILEI_USE_NUMPY py_profile nvariables name try_numpy try_file
          = Except.error msg) ↔
        ('/' ∉ filename.data ∨ filename.data.getLast? = some '/')) ∧
      ∀ p, Profile.new rt SMILEI_USE_NUMPY py_profile nvariables name try_numpy try_file
          = Except.ok p →
        p.filename_ = filename ∧ p.uses_file_ = true ∧
        ∃ path dataset_name i,
          p.function_ = some (Function.Function_File path dataset_name) ∧
          find_last_of '/' filename.data = some i ∧
          path.data = filename.data.take i ∧
          dataset_name.data = filename.data.drop (i + 1) ∧
          path ++ "/" ++ dataset_name = filename ∧
          dataset_name ≠ "" ∧ '/' ∉ dataset_name.data) := by
  have e : Profile.new rt SMILEI_USE_NUMPY py_profile nvariables name try_numpy try_file
      = Profile.file name try_file
          { profileName_ := "", nvariables_ := nvariables, uses_numpy_ := false,
            uses_file_ := false, filename_ := filename, function_ := none } := by
    unfold Profile.new
    simp only [hattr, hcall, hstr, Bool.false_eq_true, if_false]
  obtain ⟨h1, h2⟩ := file_spec name try_file
    ({ profileName_ := "", nvariables_ := nvariables, uses_numpy_ := false,
       uses_file_ := false, filename_ := filename, function_ := none } : Profile Py)
  rw [e]
  refine ⟨h1, fun ht => ⟨(h2 ht).1, fun p hp => ?_⟩⟩
  obtain ⟨i, hi, hq⟩ := (h2 ht).2 p hp
  obtain ⟨hlt, hsplit, hnot⟩ := find_last_of_some '/' filename.data i hi
  have hnl : ¬ (find_last_of '/' filename.data = some (filename.data.length - 1)) := by
    intro hl
    have herr : ∃ msg, Profile.file name try_file
        ({ profileName_ := "", nvariables_ := nvariables, uses_numpy_ := false,
           uses_file_ := false, filename_ := filename, function_ := none } : Profile Py)
        = Except.error msg :=
      ((h2 ht).1).2 (Or.inr ((find_last_of_last_iff '/' filename.data).1 hl))
    obtain ⟨msg, hm⟩ := herr
    rw [hp] at hm
    exact Except.noConfusion hm
  have hi2 : i ≠ filename.data.length - 1 := by
    intro hEq
    apply hnl
    rw [hi, hEq]
  rw [hq]
  refine ⟨rfl, rfl, _, _, i, rfl, hi, rfl, rfl, ?_, ?_, hnot⟩
  · apply String.ext
    simp only [String.data_append]
    conv_rhs => rw [hsplit]
    simp
  · intro hempty
    have hd : filename.data.drop (i + 1) = [] := by
      have := congrArg String.data hempty
      simpa using this
    have := List.drop_eq_nil_iff.1 hd
    omega

end FileProfileClaims

/-- C28 (witness): the string `a/b.h5/data` with `try_file` true. -/
theorem C28_file_profile_witness :
    ((∃ msg, Profile.new sampleRuntime false filePy 1 "n" false true = Except.error msg) ↔
      ('/' ∉ "a/b.h5/data".data ∨ "a/b.h5/data".data.getLast? = some '/')) :=
  ((C28_file_profile_path_split sampleRuntime false filePy 1 "n" false true "a/b.h5/data"
    rfl rfl rfl).2 rfl).1

section ProfileCloneLemmas

variable {Py : Type}

theorem clone_members (copy : FunctionKind → Function Py → Function Py) (p : Profile Py) :
    (Profile.clone copy p).profileName_ = p.profileName_ ∧
    (Profile.clone copy p).nvariables_ = p.nvariables_ ∧
    (Profile.clone copy p).uses_numpy_ = p.uses_numpy_ ∧
    (Profile.clone copy p).uses_file_ = p.uses_file_ ∧
    (Profile.clone copy p).filename_ = "" := by
  refine ⟨?_, ?_, ?_, ?_, ?_⟩
  · simp only [Profile.clone, Profile.copy3, Profile.copyFunction,
      apply_ite Profile.profileName_, ite_self]
  · simp only [Profile.clone, Profile.copy3, Profile.copyFunction,
      apply_ite Profile.nvariables_, ite_self]
  · simp only [Profile.clone, Profile.copy3, Profile.copyFunction,
      apply_ite Profile.uses_numpy_, ite_self]
  · simp only [Profile.clone, Profile.copy3, Profile.copyFunction,
      apply_ite Profile.uses_file_, ite_self]
  · simp only [Profile.clone, Profile.copy3, Profile.copyFunction,
      apply_ite Profile.filename_, ite_self]

theorem clone_named (copy : FunctionKind → Function Py → Function Py) (py_profile : Py)
    (p : Profile Py)
    (hv : ValidPredefined p.profileName_ p.nvariables_)
    (hf : p.function_ = namedVariant py_profile p.profileName_ p.nvariables_) :
    (Profile.clone copy p).function_ = p.function_.map (fun f => copy f.kind f) := by
  obtain ⟨n, v, u, w, fn, f⟩ := p
  simp only at hv hf
  simp only [ValidPredefined, spatialProfiles, temporalProfiles, List.mem_cons,
    List.mem_singleton, List.not_mem_nil, or_false] at hv
  rcases hv with ⟨hn | hn | hn | hn | hn | hn, hd | hd | hd⟩ |
      ⟨hn | hn | hn | hn | hn | hn | hn, hd⟩ <;>
    subst hn <;> subst hd <;> subst hf <;>
    simp [Profile.clone, Profile.copy3, Profile.copyFunction, Function.kind, namedVariant,
      tableEntry]

theorem clone_python (copy : FunctionKind → Function Py → Function Py) (py_profile : Py)
    (p : Profile Py)
    (hname : p.profileName_ = "") (hfile : p.uses_file_ = false)
    (hv : 1 ≤ p.nvariables_ ∧ p.nvariables_ ≤ 4)
    (hf : p.function_ = pythonVariant py_profile p.nvariables_) :
    (Profile.clone copy p).function_ = p.function_.map (fun f => copy f.kind f) := by
  obtain ⟨n, v, u, w, fn, f⟩ := p
  simp only at hname hfile hv hf
  have h4 : v = 1 ∨ v = 2 ∨ v = 3 ∨ v = 4 := by omega
  subst hname; subst hfile
  rcases h4 with h | h | h | h <;> subst h <;> subst hf <;>
    simp [Profile.clone, Profile.copyFunction, Function.kind, pythonVariant, tableEntry]

theorem clone_file (copy : FunctionKind → Function Py → Function Py) (p : Profile Py)
    (path dataset_name : String)
    (hname : p.profileName_ = "") (hfile : p.uses_file_ = true)
    (hf : p.function_ = some (Function.Function_File path dataset_name)) :
    (Profile.clone copy p).function_ = p.function_.map (fun f => copy f.kind f) := by
  obtain ⟨n, v, u, w, fn, f⟩ := p
  simp only at hname hfile hf
  subst hname; subst hfile; subst hf
  simp [Profile.clone, Profile.copyFunction, Function.kind]

theorem python_frame (rt : PyRuntime Py) (SMILEI_USE_NUMPY : Bool) (py_profile : Py)
    (nvariables : Nat) (name : String) (try_numpy : Bool) (p q : Profile Py)
    (hq : Profile.python rt SMILEI_USE_NUMPY py_profile nvariables name try_numpy p
      = Except.ok q) :
    q.profileName_ = p.profileName_ ∧ q.uses_file_ = p.uses_file_ ∧
    q.filename_ = p.filename_ := by
  unfold Profile.python at hq
  simp only [check_eq] at hq
  by_cases hn : rt.function_nargs (rt.unwrapFunc py_profile) = -2
  · rw [if_pos hn] at hq
    exact absurd hq (by simp)
  rw [if_neg hn] at hq
  by_cases hc : p.nvariables_ < 1 ∨ p.nvariables_ > 4
  · rw [if_pos hc] at hq
    exact absurd hq (by simp)
  rw [if_neg hc] at hq
  have hq2 : q = Profile.assignPython (rt.unwrapFunc py_profile)
      (Profile.tryNumpy rt SMILEI_USE_NUMPY (rt.unwrapFunc py_profile) nvariables
        try_numpy p) := by
    by_cases hu : ¬ (Profile.tryNumpy rt SMILEI_USE_NUMPY (rt.unwrapFunc py_profile)
        nvariables try_numpy p).uses_numpy_ = true
    · rw [if_pos hu] at hq
      by_cases hr : Profile.floatTest rt (rt.unwrapFunc py_profile)
            (Profile.tryNumpy rt SMILEI_USE_NUMPY (rt.unwrapFunc py_profile) nvariables
              try_numpy p) = none ∨
          Profile.floatTest rt (rt.unwrapFunc py_profile)
            (Profile.tryNumpy rt SMILEI_USE_NUMPY (rt.unwrapFunc py_profile) nvariables
              try_numpy p) = some false
      · rw [if_pos hr] at hq
        exact absurd hq (by simp)
      · rw [if_neg hr] at hq
        exact (Except.ok.inj hq).symm
    · rw [if_neg hu] at hq
      exact (Except.ok.inj hq).symm
  rw [hq2]
  unfold Profile.assignPython Profile.tryNumpy
  split_ifs <;> exact ⟨rfl, rfl, rfl⟩

/-- For every profile `p` that the main constructor builds, the cloning constructor yields
a profile with the same `profileName_`, `nvariables_`, `uses_numpy_` and `uses_file_`, and
`function_` is the copy, made by the copy constructor of its own class (same kind and
dimension), of the function that the main constructor selected for `p`. -/
theorem clone_preserves_members (copy : FunctionKind → Function Py → Function Py)
    (rt : PyRuntime Py) (SMILEI_USE_NUMPY : Bool) (py_profile : Py)
    (nvariables : Nat) (name : String) (try_numpy try_file : Bool)
    (p : Profile Py)
    (hp : Profile.new rt SMILEI_USE_NUMPY py_profile nvariables name try_numpy try_file
      = Except.ok p) :
    (Profile.clone copy p).profileName_ = p.profileName_ ∧
    (Profile.clone copy p).nvariables_ = p.nvariables_ ∧
    (Profile.clone copy p).uses_numpy_ = p.uses_numpy_ ∧
    (Profile.clone copy p).uses_file_ = p.uses_file_ ∧
    (Profile.clone copy p).function_ = p.function_.map (fun f => copy f.kind f) ∧
    p.function_ ≠ none := by
  obtain ⟨c1, c2, c3, c4, -⟩ := clone_members copy p
  refine ⟨c1, c2, c3, c4, ?_⟩
  unfold Profile.new at hp
  by_cases hattr : rt.PyObject_HasAttrString py_profile "profileName_" = true
  · rw [if_pos hattr] at hp
    obtain ⟨h1, h2⟩ := hardCoded_spec py_profile name
      ({ profileName_ := (rt.getAttr py_profile "profileName_").getD "",
         nvariables_ := nvariables, uses_numpy_ := false,
         uses_file_ := false, filename_ := "", function_ := none } : Profile Py)
    obtain ⟨hq, hne⟩ := h1 p hp
    have hv := h2.1 ⟨p, hp⟩
    have hfn : p.function_ = namedVariant py_profile p.profileName_ p.nvariables_ := by
      rw [hq]
    have hv2 : ValidPredefined p.profileName_ p.nvariables_ := by
      rw [hq]
      exact hv
    refine ⟨clone_named copy py_profile p hv2 hfn, ?_⟩
    rw [hq]
    exact hne
  · rw [if_neg hattr] at hp
    by_cases hcall : rt.PyCallable_Check py_profile = true
    · rw [if_pos hcall] at hp
      obtain ⟨-, -, h3⟩ := python_spec rt SMILEI_USE_NUMPY py_profile nvariables name
        try_numpy
        ({ profileName_ := "", nvariables_ := nvariables, uses_numpy_ := false,
           uses_file_ := false, filename_ := "", function_ := none } : Profile Py)
      obtain ⟨hv, hnv, hfn, hne⟩ := h3 p hp
      obtain ⟨f1, f2, f3⟩ := python_frame rt SMILEI_USE_NUMPY py_profile nvariables name
        try_numpy _ p hp
      simp only at hv hnv hfn f1 f2 f3
      exact ⟨clone_python copy (rt.unwrapFunc py_profile) p f1 f2 (by rw [hnv]; exact hv)
        (by rw [hnv]; exact hfn), hne⟩
    · rw [if_neg hcall] at hp
      cases hs : rt.py2scalar py_profile with
      | none =>
        rw [hs] at hp
        exact absurd hp (by simp [ERROR, bind, Except.bind])
      | some s =>
        rw [hs] at hp
        simp only at hp
        obtain ⟨h1, h2⟩ := file_spec name try_file
          ({ profileName_ := "", nvariables_ := nvariables, uses_numpy_ := false,
             uses_file_ := false, filename_ := s, function_ := none } : Profile Py)
        have ht : try_file = true := by
          cases try_file with
          | true => rfl
          | false =>
            obtain ⟨msg, hm⟩ := h1 rfl
            rw [hp] at hm
            exact Except.noConfusion hm
        obtain ⟨i, hi, hq⟩ := (h2 ht).2 p hp
        refine ⟨clone_file copy p _ _ (by rw [hq]) (by rw [hq]) (by rw [hq]), ?_⟩
        rw [hq]
        simp

end ProfileCloneLemmas

/-- C29 (evaluation): the main constructor builds from the string `a/b.h5/data` a profile
whose `filename_` is that string; the clone of this profile has the same `profileName_`,
`nvariables_`, `uses_numpy_`, `uses_file_` and a copy of its `Function_File`, but its
`filename_` is the empty string, whatever the copy constructors of the functions do. -/
theorem C29_clone_drops_filename :
    Profile.new sampleRuntime false filePy 1 "n" false true = Except.ok fileProfile ∧
    fileProfile.filename_ = "a/b.h5/data" ∧
    ∀ copy,
      (Profile.clone copy fileProfile).filename_ = "" ∧
      (Profile.clone copy fileProfile).filename_ ≠ fileProfile.filename_ ∧
      (Profile.clone copy fileProfile).profileName_ = fileProfile.profileName_ ∧
      (Profile.clone copy fileProfile).nvariables_ = fileProfile.nvariables_ ∧
      (Profile.clone copy fileProfile).uses_numpy_ = fileProfile.uses_numpy_ ∧
      (Profile.clone copy fileProfile).uses_file_ = fileProfile.uses_file_ ∧
      (Profile.clone copy fileProfile).function_
        = some (copy FunctionKind.Function_File (Function.Function_File "a/b.h5" "data")) := by
  refine ⟨?_, rfl, fun copy => ⟨?_, ?_, ?_, ?_, ?_, ?_, ?_⟩⟩
  · have hl : "a/b.h5/data".length = 11 := rfl
    simp [Profile.new, sampleRuntime, filePy, Profile.file, check_eq, find_last_of,
      fileProfile, hl, pure, Except.pure]
  all_goals simp [Profile.clone, fileProfile, Profile.copyFunction]

/-- The clone of the profile built from the predefined profile `gaussian` in two
variables, with copy constructors that reproduce their argument. -/
theorem clone_preserves_gaussian :
    Profile.new sampleRuntime false gaussianPy 2 "n" false false
      = Except.ok gaussianProfile ∧
    (Profile.clone (fun _ f => f) gaussianProfile).function_
      = gaussianProfile.function_.map (fun f => f) :=
  have h : Profile.new sampleRuntime false gaussianPy 2 "n" false false
      = Except.ok gaussianProfile := by
    simp [Profile.new, sampleRuntime, gaussianPy, Profile.hardCoded, Profile.select3, pure,
      Except.pure, gaussianProfile]
  ⟨h, (clone_preserves_members (fun _ f => f) sampleRuntime false gaussianPy 2 "n" false
    false _ h).2.2.2.2.1⟩

section IdOffsets

theorem forLoopAux_ind {σ : Type} (body : Nat → σ → σ) (I : Nat → σ → Prop) (hi : Nat) :
    ∀ n i st, i + n = hi → (∀ a st, i ≤ a → a < hi → I a st → I (a + 1) (body a st)) →
      I i st → I hi (forLoopAux body n i st) := by
  intro n
  induction n with
  | zero =>
    intro i st hle _ h
    have : i = hi := by omega
    subst this
    exact h
  | succ n ih =>
    intro i st hle hI h
    exact ih (i + 1) (body i st) (by omega)
      (fun a st ha hb => hI a st (by omega) hb) (hI i st (le_refl i) (by omega) h)

theorem forLoop_ind {σ : Type} (lo hi : Nat) (body : Nat → σ → σ) (I : Nat → σ → Prop)
    (st : σ) (hle : lo ≤ hi)
    (hI : ∀ a st, lo ≤ a → a < hi → I a st → I (a + 1) (body a st)) (h : I lo st) :
    I hi (forLoop lo hi body st) :=
  forLoopAux_ind body I hi (hi - lo) lo st (by omega) hI h

end IdOffsets

section SpeciesBoundaries

variable {R : Type}

theorem checkThen_eq {σ τ : Type} (c : Prop) [Decidable c] (msg : String) (st : σ)
    (rest : σ → Except String τ) :
    checkThen c msg st rest = if c then Except.error msg else rest st := by
  unfold checkThen
  split_ifs <;> rfl

theorem bcTypes_ok (nDim_particle : Nat) (nl : SpeciesNamelist R) (s0 s : Species R)
    (h : createVector_bcTypes nDim_particle nl s0 = Except.ok s) :
    nl.bc_part_type_west = some s.bc_part_type_west ∧
    nl.bc_part_type_east = some s.bc_part_type_east ∧
    (nDim_particle > 1 → nl.bc_part_type_south = some s.bc_part_type_south ∧
      nl.bc_part_type_north = some s.bc_part_type_north) ∧
    s.thermT = s0.thermT ∧ s.thermVelocity = s0.thermVelocity := by
  unfold createVector_bcTypes at h
  simp only [checkThen_eq] at h
  cases hw : nl.bc_part_type_west with
  | none => rw [hw] at h; exact absurd h (by simp)
  | some w =>
    cases he : nl.bc_part_type_east with
    | none => rw [hw, he] at h; exact absurd h (by simp)
    | some e =>
      rw [hw, he] at h
      simp only [if_false, Option.getD_some] at h
      by_cases hd : nDim_particle > 1
      · rw [if_pos hd] at h
        cases hs : nl.bc_part_type_south with
        | none => rw [hs] at h; exact absurd h (by simp)
        | some so =>
          cases hn : nl.bc_part_type_north with
          | none => rw [hs, hn] at h; exact absurd h (by simp)
          | some no =>
            rw [hs, hn] at h
            simp only [if_false, Option.getD_some] at h
            have := Except.ok.inj h
            subst this
            exact ⟨rfl, rfl, fun _ => ⟨rfl, rfl⟩, rfl, rfl⟩
      · rw [if_neg hd] at h
        have := Except.ok.inj h
        subst this
        exact ⟨rfl, rfl, fun h1 => absurd h1 hd, rfl, rfl⟩

theorem thermalizeX_error (ispec : Nat) (nl : SpeciesNamelist R)
    (st : Species R × Bool × Bool)
    (hx : st.1.bc_part_type_west = "thermalize" ∨ st.1.bc_part_type_east = "thermalize")
    (hu : nl.thermT = none ∨ nl.thermVelocity = none) :
    ∃ msg, createVector_thermalizeX ispec nl st = Except.error msg := by
  unfold createVector_thermalizeX
  rw [if_pos hx]
  simp only [checkThen_eq]
  cases hT : nl.thermT with
  | none => exact ⟨_, if_pos (by simp)⟩
  | some t =>
    cases hV : nl.thermVelocity with
    | none =>
      rw [if_neg (by simp)]
      exact ⟨_, if_pos (by simp)⟩
    | some v =>
      rw [hT, hV] at hu
      simp at hu

theorem thermalizeX_ok (ispec : Nat) (nl : SpeciesNamelist R)
    (st st2 : Species R × Bool × Bool)
    (h : createVector_thermalizeX ispec nl st = Except.ok st2) :
    st2.1.bc_part_type_west = st.1.bc_part_type_west ∧
    st2.1.bc_part_type_east = st.1.bc_part_type_east ∧
    st2.1.bc_part_type_south = st.1.bc_part_type_south ∧
    st2.1.bc_part_type_north = st.1.bc_part_type_north ∧
    ((st.1.bc_part_type_west = "thermalize" ∨ st.1.bc_part_type_east = "thermalize") →
      st2.2.1 = true ∧ st2.2.2 = true) ∧
    (¬ (st.1.bc_part_type_west = "thermalize" ∨ st.1.bc_part_type_east = "thermalize") →
      st2 = st) := by
  unfold createVector_thermalizeX at h
  by_cases hx : st.1.bc_part_type_west = "thermalize" ∨ st.1.bc_part_type_east = "thermalize"
  · rw [if_pos hx] at h
    simp only [checkThen_eq] at h
    cases hT : nl.thermT with
    | none => rw [hT] at h; exact absurd h (by simp)
    | some t =>
      cases hV : nl.thermVelocity with
      | none => rw [hT, hV] at h; exact absurd h (by simp)
      | some v =>
        rw [hT, hV] at h
        simp only [Option.isSome_some, not_true_eq_false, if_false] at h
        have := Except.ok.inj h
        subst this
        exact ⟨rfl, rfl, rfl, rfl, fun _ => ⟨rfl, rfl⟩, fun h1 => absurd hx h1⟩
  · rw [if_neg hx] at h
    have := Except.ok.inj h
    subst this
    exact ⟨rfl, rfl, rfl, rfl, fun h1 => absurd h1 hx, fun _ => rfl⟩

theorem thermalizeY_spec (ispec : Nat) (nl : SpeciesNamelist R) (s : Species R)
    (hy : s.bc_part_type_south = "thermalize" ∨ s.bc_part_type_north = "thermalize") :
    (nl.thermT = none →
      ∃ msg, createVector_thermalizeY 2 ispec nl (s, false, false) = Except.error msg) ∧
    (∀ st2, createVector_thermalizeY 2 ispec nl (s, false, false) = Except.ok st2 →
      st2.1.thermVelocity.length = 3 ∧
      st2.1.thermVelocity = nl.thermVelocity.getD s.thermVelocity) := by
  unfold createVector_thermalizeY
  have hc : (2 = 2 ∧ ¬ (s, false, false).2.1 = true ∧ ¬ (s, false, false).2.2 = true ∧
      ((s, false, false).1.bc_part_type_south = "thermalize" ∨
        (s, false, false).1.bc_part_type_north = "thermalize")) :=
    ⟨rfl, by simp, by simp, hy⟩
  rw [if_pos hc]
  simp only [checkThen_eq]
  constructor
  · intro hT
    exact ⟨_, if_pos (by simp [hT])⟩
  · intro st2 h
    cases hT : nl.thermT with
    | none => rw [hT] at h; exact absurd h (by simp)
    | some t =>
      rw [hT] at h
      simp only [Option.isSome_some, not_true_eq_false, if_false] at h
      by_cases hl : (nl.thermVelocity.getD s.thermVelocity).length ≠ 3
      · rw [if_pos hl] at h
        exact absurd h (by simp)
      · rw [if_neg hl] at h
        have := Except.ok.inj h
        subst this
        exact ⟨not_not.1 hl, rfl⟩

/-- C25 (amended): if `bc_part_type_west` or `bc_part_type_east` is `thermalize`, the block
ends with an error unless both `thermT` and `thermVelocity` are defined; if
`nDim_particle` is 2 and `bc_part_type_south` or `bc_part_type_north` is `thermalize`, it
ends with an error unless `thermT` is defined, and when it does not end with an error and
neither west nor east thermalizes, `thermVelocity` holds exactly 3 components; if
`nDim_particle` is not 2 and neither west nor east thermalizes, no check is made once the
boundary types are extracted, whatever the south and north types are. -/
theorem C25_thermalize_requires_parameters (nDim_particle ispec : Nat)
    (nl : SpeciesNamelist R) (thisSpecies : Species R) :
    ((nl.bc_part_type_west = some "thermalize" ∨ nl.bc_part_type_east = some "thermalize") →
      (nl.thermT = none ∨ nl.thermVelocity = none) →
      ∃ msg, createVector_boundaries nDim_particle ispec nl thisSpecies
        = Except.error msg) ∧
    (nDim_particle = 2 →
      (nl.bc_part_type_south = some "thermalize" ∨
        nl.bc_part_type_north = some "thermalize") →
      (nl.thermT = none →
        ∃ msg, createVector_boundaries nDim_particle ispec nl thisSpecies
          = Except.error msg) ∧
      (¬ (nl.bc_part_type_west = some "thermalize" ∨
          nl.bc_part_type_east = some "thermalize") →
        ∀ st, createVector_boundaries nDim_particle ispec nl thisSpecies = Except.ok st →
          st.1.thermVelocity.length = 3)) ∧
    (nDim_particle ≠ 2 →
      ¬ (nl.bc_part_type_west = some "thermalize" ∨
          nl.bc_part_type_east = some "thermalize") →
      ∀ s, createVector_bcTypes nDim_particle nl thisSpecies = Except.ok s →
        createVector_boundaries nDim_particle ispec nl thisSpecies
          = Except.ok (s, false, false)) := by
  unfold createVector_boundaries
  cases hb : createVector_bcTypes nDim_particle nl thisSpecies with
  | error e =>
    refine ⟨fun _ _ => ⟨e, rfl⟩, fun _ _ => ⟨fun _ => ⟨e, rfl⟩, fun _ st h => ?_⟩,
      fun _ _ s h => ?_⟩
    · exact absurd h (by simp)
    · exact absurd h (by simp)
  | ok s =>
    obtain ⟨bw, be, bsn, -, -⟩ := bcTypes_ok nDim_particle nl thisSpecies s hb
    simp only
    refine ⟨?_, ?_, fun hd hnx s2 hs2 => ?_⟩
    rotate_left 2
    · have hss : s2 = s := (Except.ok.inj hs2).symm
      subst hss
      have hx : ¬ (s2.bc_part_type_west = "thermalize" ∨
          s2.bc_part_type_east = "thermalize") := by
        rw [bw, be] at hnx
        intro h1
        apply hnx
        rcases h1 with h1 | h1
        · exact Or.inl (by rw [h1])
        · exact Or.inr (by rw [h1])
      have hX : createVector_thermalizeX ispec nl (s2, false, false)
          = Except.ok (s2, false, false) := by
        unfold createVector_thermalizeX
        rw [if_neg hx]
        rfl
      rw [hX]
      simp only
      unfold createVector_thermalizeY
      rw [if_neg (fun h => hd h.1)]
      rfl
    · intro hx hu
      have hx2 : s.bc_part_type_west = "thermalize" ∨ s.bc_part_type_east = "thermalize" := by
        rw [bw, be] at hx
        rcases hx with h | h
        · exact Or.inl (Option.some.inj h)
        · exact Or.inr (Option.some.inj h)
      obtain ⟨msg, hm⟩ := thermalizeX_error ispec nl (s, false, false) hx2 hu
      exact ⟨msg, by rw [hm]⟩
    · intro hd hy
      subst hd
      obtain ⟨bs, bn⟩ := bsn (by decide)
      have hy2 : s.bc_part_type_south = "thermalize" ∨ s.bc_part_type_north = "thermalize" := by
        rw [bs, bn] at hy
        rcases hy with h | h
        · exact Or.inl (Option.some.inj h)
        · exact Or.inr (Option.some.inj h)
      constructor
      · intro hT
        cases hX : createVector_thermalizeX ispec nl (s, false, false) with
        | error e => exact ⟨e, rfl⟩
        | ok st2 =>
          obtain ⟨-, -, e3, e4, hdef, hnot⟩ := thermalizeX_ok ispec nl (s, false, false) st2 hX
          by_cases hx : s.bc_part_type_west = "thermalize" ∨
              s.bc_part_type_east = "thermalize"
          · obtain ⟨msg, hm⟩ := thermalizeX_error ispec nl (s, false, false) hx (Or.inl hT)
            rw [hX] at hm
            exact absurd hm (by simp)
          · rw [hnot hx]
            exact (thermalizeY_spec ispec nl s hy2).1 hT
      · intro hnx st h
        have hx : ¬ (s.bc_part_type_west = "thermalize" ∨
            s.bc_part_type_east = "thermalize") := by
          rw [bw, be] at hnx
          intro h1
          apply hnx
          rcases h1 with h1 | h1
          · exact Or.inl (by rw [h1])
          · exact Or.inr (by rw [h1])
        cases hX : createVector_thermalizeX ispec nl (s, false, false) with
        | error e =>
          rw [hX] at h
          exact absurd h (by simp)
        | ok st2 =>
          rw [hX] at h
          obtain ⟨-, -, -, -, -, hnot⟩ := thermalizeX_ok ispec nl (s, false, false) st2 hX
          rw [hnot hx] at h
          exact ((thermalizeY_spec ispec nl s hy2).2 st h).1

end SpeciesBoundaries

theorem sqrtQ_sixteenth : sqrtQ (2 * (1 / 32) / 1) = 1 / 4 := by
  have e : (2 : ℚ) * (1 / 32) / 1 = 1 / 16 := by norm_num
  have hn : ((1 : ℚ) / 16).num = 1 := by simp
  have hd : ((1 : ℚ) / 16).den = 16 := by simp
  rw [e]
  unfold sqrtQ
  rw [hn, hd]
  norm_num [Nat.sqrt]

section ThermalVelocity

variable {R : Type} [LinearOrderedField R]

theorem resize_length (n : Nat) (v : List R) : (resize n v).length = n := by
  simp [resize]

theorem getD_set_self (l : List R) (i : Nat) (v : R) (hi : i < l.length) :
    (l.set i v).getD i 0 = v := by
  simp [List.getD_eq_getElem?_getD, hi]

theorem thermalVelocityStep_ok (sqrt : R → R) (i : Nat) (s : Species R) (t : R)
    (ht : s.thermT.get? i = some t) (hi : i < s.thermalVelocity.length)
    (hv : sqrt (2 * t / s.mass) ≤ 3 / 10) :
    ∃ s2, createVector_thermalVelocityStep sqrt i (some (Except.ok s)) = some (Except.ok s2) ∧
      s2.thermT = s.thermT ∧ s2.mass = s.mass ∧
      s2.thermalVelocity.length = s.thermalVelocity.length := by
  unfold createVector_thermalVelocityStep
  simp only [ht, getD_set_self _ _ _ hi]
  rw [if_neg (not_lt.2 hv)]
  exact ⟨_, rfl, rfl, rfl, by simp⟩

theorem thermalVelocityStep_none (sqrt : R → R) (i : Nat) (s : Species R)
    (ht : s.thermT.get? i = none) :
    createVector_thermalVelocityStep sqrt i (some (Except.ok s)) = none := by
  unfold createVector_thermalVelocityStep
  simp only [ht]

theorem thermalVelocity_three (sqrt : R → R) (s : Species R) (t0 t1 t2 : R)
    (hT : s.thermT = [t0, t1, t2])
    (h0 : sqrt (2 * t0 / s.mass) ≤ 3 / 10) (h1 : sqrt (2 * t1 / s.mass) ≤ 3 / 10)
    (h2 : sqrt (2 * t2 / s.mass) ≤ 3 / 10) :
    ∃ s2, createVector_thermalVelocity sqrt s = some (Except.ok s2) ∧
      s2.thermT = [t0, t1, t2] := by
  unfold createVector_thermalVelocity
  show ∃ s2, createVector_thermalVelocityStep sqrt 2 (createVector_thermalVelocityStep sqrt 1
    (createVector_thermalVelocityStep sqrt 0 _)) = _ ∧ _
  obtain ⟨s1, e1, a1, b1, c1⟩ := thermalVelocityStep_ok sqrt 0
    { s with thermalVelocity := resize 3 s.thermalVelocity,
             thermalMomentum := resize 3 s.thermalMomentum } t0
    (by simp [hT]) (by simp [resize_length]) h0
  rw [e1]
  simp only at a1 b1 c1
  obtain ⟨s2, e2, a2, b2, c2⟩ := thermalVelocityStep_ok sqrt 1 s1 t1
    (by simp [a1, hT]) (by rw [c1, resize_length]; decide) (by rw [b1]; exact h1)
  rw [e2]
  obtain ⟨s3, e3, a3, -, -⟩ := thermalVelocityStep_ok sqrt 2 s2 t2
    (by simp [a2, a1, hT]) (by rw [c2, c1, resize_length]; decide)
    (by rw [b2, b1]; exact h2)
  rw [e3]
  exact ⟨s3, rfl, by rw [a3, a2, a1, hT]⟩

theorem thermalVelocity_two (sqrt : R → R) (s : Species R) (t0 t1 : R)
    (hT : s.thermT = [t0, t1])
    (h0 : sqrt (2 * t0 / s.mass) ≤ 3 / 10) (h1 : sqrt (2 * t1 / s.mass) ≤ 3 / 10) :
    createVector_thermalVelocity sqrt s = none := by
  unfold createVector_thermalVelocity
  show createVector_thermalVelocityStep sqrt 2 (createVector_thermalVelocityStep sqrt 1
    (createVector_thermalVelocityStep sqrt 0 _)) = _
  obtain ⟨s1, e1, a1, b1, c1⟩ := thermalVelocityStep_ok sqrt 0
    { s with thermalVelocity := resize 3 s.thermalVelocity,
             thermalMomentum := resize 3 s.thermalMomentum } t0
    (by simp [hT]) (by simp [resize_length]) h0
  rw [e1]
  simp only at a1 b1 c1
  obtain ⟨s2, e2, a2, -, -⟩ := thermalVelocityStep_ok sqrt 1 s1 t1
    (by simp [a1, hT]) (by rw [c1, resize_length]; decide) (by rw [b1]; exact h1)
  rw [e2]
  exact thermalVelocityStep_none sqrt 2 s2 (by simp [a2, a1, hT])

theorem thermT_undefined (s : Species R) :
    (createVector_thermT false s).thermT = [0, 0, 0] ∧
    (createVector_thermT false s).thermVelocity = [0, 0, 0] := by
  have h3 : ∀ l : List R, (((resize 3 l).set 0 0).set 1 0).set 2 0 = [0, 0, 0] := by
    intro l
    rcases l with _ | ⟨a, _ | ⟨b, _ | ⟨c, l⟩⟩⟩ <;> simp [resize, List.replicate]
  simp [createVector_thermT, forLoop, forLoopAux, h3]

theorem thermT_defined (s : Species R) (h : s.thermT.length ≠ 1) :
    createVector_thermT true s = s := by
  simp [createVector_thermT, h]

end ThermalVelocity

/-- C25 (counterexample): with `nDim_particle = 3`, the south boundary `thermalize`, west,
east and north `refl`, and neither `thermT` nor `thermVelocity` defined, source lines
96-128 end without an error, and so do lines 130-158, which set `thermT` to zero. -/
theorem C25_three_dimensions_counterexample :
    namelistSouth.bc_part_type_south = some "thermalize" ∧
    namelistSouth.thermT = none ∧ namelistSouth.thermVelocity = none ∧
    (∃ s, createVector_boundaries 3 0 namelistSouth sampleSpecies
      = Except.ok (s, false, false)) ∧
    ∃ s, createVector_thermal sqrtQ 3 0 namelistSouth sampleSpecies = some (Except.ok s) ∧
      s.thermT = [0, 0, 0] := by
  have hb : createVector_boundaries 3 0 namelistSouth sampleSpecies
      = Except.ok ({ sampleSpecies with
          bc_part_type_west := "refl", bc_part_type_east := "refl",
          bc_part_type_south := "thermalize", bc_part_type_north := "refl" },
        false, false) := by
    simp [createVector_boundaries, createVector_bcTypes, createVector_thermalizeX,
      createVector_thermalizeY, checkThen_eq, namelistSouth, sampleSpecies, pure,
      Except.pure]
  refine ⟨rfl, rfl, rfl, ⟨_, hb⟩, ?_⟩
  unfold createVector_thermal
  rw [hb]
  have hz : sqrtQ (2 * 0 / 1) ≤ 3 / 10 := by
    rw [mul_zero, zero_div, sqrtQ_zero]
    norm_num
  exact thermalVelocity_three sqrtQ _ 0 0 0 (thermT_undefined _).1 hz hz hz

/-- C25 (witness): in two dimensions with the south boundary `thermalize` and `thermT` not
defined, the block ends with an error. -/
theorem C25_thermalize_requires_witness :
    ∃ msg, createVector_boundaries 2 0 namelistSouth sampleSpecies = Except.error msg :=
  ((C25_thermalize_requires_parameters 2 0 namelistSouth sampleSpecies).2.1 rfl
    (Or.inl rfl)).1 rfl

/-- C26 (evaluation): with the west boundary `thermalize`, `thermT = (1/32, 1/32)` of two
components and `thermVelocity = (0, 0, 0)`, every check of source lines 96-128 passes,
`thermT` keeps its two components, and the loop of lines 153-158 reads `thermT[2]` beyond
the end of the vector; when `thermT` is not defined, `thermT` and `thermVelocity` are both
set to `(0, 0, 0)`. -/
theorem C26_thermT_two_components_out_of_range :
    (∃ s, createVector_boundaries 1 0 namelistShortT sampleSpecies
        = Except.ok (s, true, true) ∧
      (createVector_thermT true s).thermT = [1 / 32, 1 / 32]) ∧
    createVector_thermal sqrtQ 1 0 namelistShortT sampleSpecies = none ∧
    ∀ s : Species ℚ, (createVector_thermT false s).thermT = [0, 0, 0] ∧
      (createVector_thermT false s).thermVelocity = [0, 0, 0] := by
  have hb : createVector_boundaries 1 0 namelistShortT sampleSpecies
      = Except.ok ({ sampleSpecies with
          bc_part_type_west := "thermalize", bc_part_type_east := "refl",
          thermT := [1 / 32, 1 / 32], thermVelocity := [0, 0, 0] },
        true, true) := by
    simp [createVector_boundaries, createVector_bcTypes, createVector_thermalizeX,
      createVector_thermalizeY, checkThen_eq, namelistShortT, sampleSpecies, pure,
      Except.pure]
  have hs : sqrtQ (2 * (1 / 32) / 1) ≤ 3 / 10 := by
    rw [sqrtQ_sixteenth]
    norm_num
  refine ⟨⟨_, hb, ?_⟩, ?_, fun s => thermT_undefined s⟩
  · rw [thermT_defined _ (by simp)]
  · unfold createVector_thermal
    rw [hb]
    simp only
    rw [thermT_defined _ (by simp)]
    exact thermalVelocity_two sqrtQ _ (1 / 32) (1 / 32) rfl hs hs

section ElectronSpecies

variable {R : Type} [LinearOrderedField R]

theorem findElectron_spec (P : Nat → Prop) [DecidablePred P] (n : Nat) :
    (findElectron P n none = none ↔ ∀ k, k < n → ¬ P k) ∧
    (∀ e, findElectron P n none = some e → e < n ∧ P e ∧ ∀ k, k < e → ¬ P k) := by
  have key := forLoop_ind 0 n
    (fun ispec (es : Option Nat) =>
      if P ispec then
        match es with
        | some e => some e
        | none => some ispec
      else es)
    (fun i es => (es = none ∧ ∀ k, k < i → ¬ P k) ∨
      (∃ e, es = some e ∧ e < i ∧ P e ∧ ∀ k, k < e → ¬ P k))
    none (Nat.zero_le n) ?_ (Or.inl ⟨rfl, fun k hk => absurd hk (Nat.not_lt_zero k)⟩)
  · unfold findElectron
    rcases key with ⟨h1, h2⟩ | ⟨e, h1, h2, h3, h4⟩
    · rw [h1]
      exact ⟨⟨fun _ => h2, fun _ => rfl⟩, fun e he => absurd he (by simp)⟩
    · rw [h1]
      refine ⟨⟨fun h => absurd h (by simp), fun h => absurd h3 (h e h2)⟩, fun e2 he => ?_⟩
      have := Option.some.inj he
      subst this
      exact ⟨h2, h3, h4⟩
  · rintro a es _ ha (⟨h1, h2⟩ | ⟨e, h1, h2, h3, h4⟩)
    · subst h1
      by_cases hp : P a
      · right
        refine ⟨a, by simp [hp], Nat.lt_succ_self a, hp, h2⟩
      · left
        refine ⟨by simp [hp], fun k hk => ?_⟩
        rcases Nat.lt_or_ge k a with h | h
        · exact h2 k h
        · have : k = a := by omega
          rw [this]
          exact hp
    · subst h1
      right
      refine ⟨e, ?_, by omega, h3, h4⟩
      by_cases hp : P a <;> simp [hp]

theorem resolveElectron_congr (rs rs0 : Nat → Species R) (size : Nat) (charge : Nat → Option R)
    (ht : ∀ k, (rs k).species_type = (rs0 k).species_type)
    (hm : ∀ k, (rs k).mass = (rs0 k).mass) :
    resolveElectron rs size charge = resolveElectron rs0 size charge := by
  unfold resolveElectron
  simp only [ht, hm]

theorem resolveElectron_spec (retSpecies : Nat → Species R) (size : Nat)
    (charge : Nat → Option R) :
    (resolveElectron retSpecies size charge = none ↔
      (∀ k, k < size → ¬ (retSpecies k).species_type = "electron") ∧
      (∀ k, k < size → ¬ ((retSpecies k).mass = 1 ∧ (charge k).getD 0 = -1))) ∧
    (∀ e, resolveElectron retSpecies size charge = some e →
      e < size ∧
      (((retSpecies e).species_type = "electron" ∧
          ∀ k, k < e → ¬ (retSpecies k).species_type = "electron") ∨
        ((∀ k, k < size → ¬ (retSpecies k).species_type = "electron") ∧
          ((retSpecies e).mass = 1 ∧ (charge e).getD 0 = -1) ∧
          ∀ k, k < e → ¬ ((retSpecies k).mass = 1 ∧ (charge k).getD 0 = -1)))) := by
  obtain ⟨a1, a2⟩ := findElectron_spec
    (fun ispec => (retSpecies ispec).species_type = "electron") size
  obtain ⟨b1, b2⟩ := findElectron_spec
    (fun ispec => (retSpecies ispec).mass = 1 ∧ (charge ispec).getD 0 = -1) size
  unfold resolveElectron
  simp only
  by_cases h : findElectron (fun ispec => (retSpecies ispec).species_type = "electron") size
      none = none
  · rw [if_pos h, h]
    refine ⟨⟨fun h2 => ⟨a1.1 h, b1.1 h2⟩, fun h2 => b1.2 h2.2⟩, fun e he => ?_⟩
    obtain ⟨c1, c2, c3⟩ := b2 e he
    exact ⟨c1, Or.inr ⟨a1.1 h, c2, c3⟩⟩
  · rw [if_neg h]
    refine ⟨⟨fun h2 => absurd h2 h, fun h2 => absurd (a1.2 h2.1) h⟩, fun e he => ?_⟩
    obtain ⟨c1, c2, c3⟩ := a2 e he
    exact ⟨c1, Or.inl ⟨c2, c3⟩⟩

theorem electrons_found (retSpecies : Nat → Species R) (size : Nat) (charge : Nat → Option R)
    (e : Nat) (he : resolveElectron retSpecies size charge = some e) :
    ∃ rs, createVector_electrons retSpecies size charge = Except.ok rs ∧
      (∀ k, k < size → (retSpecies k).Ionize = true → (rs k).electron_species = some e) ∧
      (∀ k, (retSpecies k).Ionize = false → rs k = retSpecies k) := by
  have key := forLoop_ind 0 size
    (fun i (st : Except String (Nat → Species R)) =>
      match st with
      | Except.error msg => Except.error msg
      | Except.ok retSpecies =>
        if (retSpecies i).Ionize then
          match resolveElectron retSpecies size charge with
          | some e =>
            Except.ok (vecSet retSpecies i { retSpecies i with electron_species := some e })
          | none =>
            Except.error "Ionization needs a species called \"electron\" to be defined"
        else Except.ok retSpecies)
    (fun i st => ∃ rs, st = Except.ok rs ∧
      (∀ k, (rs k).species_type = (retSpecies k).species_type ∧
        (rs k).mass = (retSpecies k).mass ∧ (rs k).Ionize = (retSpecies k).Ionize) ∧
      (∀ k, k < i → (retSpecies k).Ionize = true → (rs k).electron_species = some e) ∧
      (∀ k, (retSpecies k).Ionize = false → rs k = retSpecies k))
    (Except.ok retSpecies) (Nat.zero_le size) ?_
    ⟨retSpecies, rfl, fun k => ⟨rfl, rfl, rfl⟩, fun k hk => absurd hk (Nat.not_lt_zero k),
      fun k _ => rfl⟩
  · obtain ⟨rs, h1, -, h3, h4⟩ := key
    exact ⟨rs, h1, h3, h4⟩
  · rintro a st _ ha ⟨rs, rfl, h2, h3, h4⟩
    simp only
    have hr : resolveElectron rs size charge = some e := by
      rw [resolveElectron_congr rs retSpecies size charge (fun k => (h2 k).1)
        (fun k => (h2 k).2.1)]
      exact he
    by_cases hi : (rs a).Ionize = true
    · rw [if_pos hi, hr]
      refine ⟨_, rfl, fun k => ?_, fun k hk hI => ?_, fun k hI => ?_⟩
      · unfold vecSet
        by_cases hka : k = a
        · rw [if_pos hka, hka]
          exact h2 a
        · rw [if_neg hka]
          exact h2 k
      · unfold vecSet
        by_cases hka : k = a
        · rw [if_pos hka]
        · rw [if_neg hka]
          exact h3 k (by omega) hI
      · unfold vecSet
        by_cases hka : k = a
        · rw [hka, ← (h2 a).2.2, hi] at hI
          exact absurd hI (by simp)
        · rw [if_neg hka]
          exact h4 k hI
    · rw [if_neg hi]
      refine ⟨rs, rfl, h2, fun k hk hI => ?_, h4⟩
      rcases Nat.lt_or_ge k a with h | h
      · exact h3 k h hI
      · have hka : k = a := by omega
        rw [hka, ← (h2 a).2.2] at hI
        exact absurd hI hi

theorem electrons_missing (retSpecies : Nat → Species R) (size : Nat)
    (charge : Nat → Option R)
    (he : resolveElectron retSpecies size charge = none) :
    ((∀ k, k < size → (retSpecies k).Ionize = false) →
      createVector_electrons retSpecies size charge = Except.ok retSpecies) ∧
    ((∃ k, k < size ∧ (retSpecies k).Ionize = true) →
      ∃ msg, createVector_electrons retSpecies size charge = Except.error msg) := by
  have key := forLoop_ind 0 size
    (fun i (st : Except String (Nat → Species R)) =>
      match st with
      | Except.error msg => Except.error msg
      | Except.ok retSpecies =>
        if (retSpecies i).Ionize then
          match resolveElectron retSpecies size charge with
          | some e =>
            Except.ok (vecSet retSpecies i { retSpecies i with electron_species := some e })
          | none =>
            Except.error "Ionization needs a species called \"electron\" to be defined"
        else Except.ok retSpecies)
    (fun i st => ((∀ k, k < i → (retSpecies k).Ionize = false) → st = Except.ok retSpecies) ∧
      ((∃ k, k < i ∧ (retSpecies k).Ionize = true) → ∃ msg, st = Except.error msg))
    (Except.ok retSpecies) (Nat.zero_le size) ?_
    ⟨fun _ => rfl, fun ⟨k, hk, _⟩ => absurd hk (Nat.not_lt_zero k)⟩
  · exact key
  · rintro a st _ ha ⟨h1, h2⟩
    by_cases hall : ∀ k, k < a → (retSpecies k).Ionize = false
    · rw [h1 hall]
      simp only
      by_cases hi : (retSpecies a).Ionize = true
      · rw [if_pos hi, he]
        refine ⟨fun h => ?_, fun _ => ⟨_, rfl⟩⟩
        have := h a (Nat.lt_succ_self a)
        rw [hi] at this
        exact absurd this (by simp)
      · rw [if_neg hi]
        refine ⟨fun _ => rfl, fun ⟨k, hk, hI⟩ => ?_⟩
        rcases Nat.lt_or_ge k a with h | h
        · rw [hall k h] at hI
          exact absurd hI (by simp)
        · have hka : k = a := by omega
          rw [hka] at hI
          exact absurd hI hi
    · have hex : ∃ k, k < a ∧ (retSpecies k).Ionize = true := by
        by_contra hne
        apply hall
        intro k hk
        cases hI : (retSpecies k).Ionize with
        | false => rfl
        | true => exact absurd ⟨k, hk, hI⟩ hne
      obtain ⟨msg, hm⟩ := h2 hex
      rw [hm]
      refine ⟨fun h => ?_, fun _ => ⟨msg, rfl⟩⟩
      obtain ⟨k, hk, hI⟩ := hex
      rw [h k (by omega)] at hI
      exact absurd hI (by simp)

/-- C27: when the second loop of `createVector` ends without an error, every ionizable
species of the list has `electron_species` set, to the lowest-index species whose
`species_type` is `electron`, or, when there is none, to the lowest-index species with
`mass == 1` and `charge == -1`; when some species is ionizable and neither kind of species
exists the loop ends with an error; when no species is ionizable or a species of either
kind exists it ends without error. -/
theorem C27_electron_species_resolution (retSpecies : Nat → Species R) (size : Nat)
    (charge : Nat → Option R) :
    (∀ rs, createVector_electrons retSpecies size charge = Except.ok rs →
      ∀ i, i < size → (retSpecies i).Ionize = true →
        ∃ e, (rs i).electron_species = some e ∧ e < size ∧
          (((retSpecies e).species_type = "electron" ∧
              ∀ k, k < e → ¬ (retSpecies k).species_type = "electron") ∨
            ((∀ k, k < size → ¬ (retSpecies k).species_type = "electron") ∧
              ((retSpecies e).mass = 1 ∧ (charge e).getD 0 = -1) ∧
              ∀ k, k < e → ¬ ((retSpecies k).mass = 1 ∧ (charge k).getD 0 = -1)))) ∧
    ((∃ i, i < size ∧ (retSpecies i).Ionize = true) →
      (∀ k, k < size → ¬ (retSpecies k).species_type = "electron") →
      (∀ k, k < size → ¬ ((retSpecies k).mass = 1 ∧ (charge k).getD 0 = -1)) →
      ∃ msg, createVector_electrons retSpecies size charge = Except.error msg) ∧
    (((∀ i, i < size → (retSpecies i).Ionize = false) ∨
        ∃ k, k < size ∧ ((retSpecies k).species_type = "electron" ∨
          ((retSpecies k).mass = 1 ∧ (charge k).getD 0 = -1))) →
      ∃ rs, createVector_electrons retSpecies size charge = Except.ok rs) := by
  obtain ⟨s1, s2⟩ := resolveElectron_spec retSpecies size charge
  cases he : resolveElectron retSpecies size charge with
  | none =>
    obtain ⟨m1, m2⟩ := electrons_missing retSpecies size charge he
    obtain ⟨n1, n2⟩ := s1.1 he
    refine ⟨fun rs hrs i hi hI => ?_, fun hex _ _ => m2 hex, fun h => ?_⟩
    · obtain ⟨msg, hm⟩ := m2 ⟨i, hi, hI⟩
      rw [hrs] at hm
      exact absurd hm (by simp)
    · rcases h with h | ⟨k, hk, h | h⟩
      · exact ⟨_, m1 h⟩
      · exact absurd h (n1 k hk)
      · exact absurd h (n2 k hk)
  | some e =>
    obtain ⟨rs, f1, f2, -⟩ := electrons_found retSpecies size charge e he
    obtain ⟨e1, e2⟩ := s2 e he
    refine ⟨fun rs2 hrs i hi hI => ?_, fun _ h1 h2 => ?_, fun _ => ⟨rs, f1⟩⟩
    · rw [f1] at hrs
      have := Except.ok.inj hrs
      subst this
      exact ⟨e, f2 i hi hI, e1, e2⟩
    · have := s1.2 ⟨h1, h2⟩
      rw [he] at this
      exact absurd this (by simp)

end ElectronSpecies

section WrapperLemmas

variable {R : Type} [LinearOrderedField R]

end WrapperLemmas

/-- C27 (witness): an ionizable ion followed by the species `electron`: the loop ends
without an error. -/
theorem C27_electron_species_witness :
    ∃ rs, createVector_electrons sampleRetSpecies 2 (fun _ => none) = Except.ok rs :=
  (C27_electron_species_resolution sampleRetSpecies 2 (fun _ => none)).2.2
    (Or.inr ⟨1, by decide, Or.inl (by simp [sampleRetSpecies, sampleSpecies])⟩)

theorem writtenBy_index {R : Type} (s : MF_Solver3D_Lehe R) (a b c : Nat) (hw : s.writtenBy a b c) :
    usub c 1 = c - 1 := by
  simp only [MF_Solver3D_Lehe.writtenBy, MF_Solver3D_Lehe.inInteriorBy,
    MF_Solver3D_Lehe.inBoundaryBy] at hw
  have b1 := usub_lt s.nz_d 1
  have b2 := usub_lt s.nz_d 2
  exact usub_of_le (by omega) (by omega)

theorem writtenBz_index {R : Type} (s : MF_Solver3D_Lehe R) (a b c : Nat) (hw : s.writtenBz a b c) :
    usub b 1 = b - 1 := by
  simp only [MF_Solver3D_Lehe.writtenBz, MF_Solver3D_Lehe.inInteriorBz,
    MF_Solver3D_Lehe.inBoundaryBz] at hw
  have b1 := usub_lt s.ny_d 1
  have b2 := usub_lt s.ny_d 2
  exact usub_of_le (by omega) (by omega)

section DivergenceTransverse

variable {R : Type} [Field R]

theorem incBx_xindep (s : MF_Solver3D_Lehe R) (f : ElectroMagn R)
    (hsum : s.alpha_y + 2 * s.beta_yx = 1)
    (hEy : ∀ a b c, f.Ey_ a b c = f.Ey_ 0 b c) (hEz : ∀ a b c, f.Ez_ a b c = f.Ez_ 0 b c)
    (a b c : Nat) (hw : s.writtenBx a b c) :
    s.incBx f a b c = (if usub s.nx_p 1 = 0 then 2 else 1) * s.edgeBx f 0 b c := by
  have hst : ∀ a, s.stencilBx f a b c = s.edgeBx f 0 b c := by
    intro a
    simp only [MF_Solver3D_Lehe.stencilBx, MF_Solver3D_Lehe.edgeBx, hEz a, hEz (uadd a 1),
      hEz (usub a 1), hEy a, hEy (uadd a 1), hEy (usub a 1)]
    linear_combination (-s.dt_ov_dy * (f.Ez_ 0 b c - f.Ez_ 0 (usub b 1) c)
      + s.dt_ov_dz * (f.Ey_ 0 b c - f.Ey_ 0 b (usub c 1))) * hsum
  have hed : ∀ i0, s.edgeBx f i0 b c = s.edgeBx f 0 b c := by
    intro i0
    simp only [MF_Solver3D_Lehe.edgeBx, hEz i0, hEy i0]
  unfold MF_Solver3D_Lehe.incBx
  rw [hst, hed (usub s.nx_p 1)]
  simp only [MF_Solver3D_Lehe.writtenBx, MF_Solver3D_Lehe.inInteriorBx,
    MF_Solver3D_Lehe.inBoundaryBx] at hw
  generalize usub s.nx_p 1 = u at hw ⊢
  generalize usub s.ny_d 1 = v at hw ⊢
  generalize usub s.nz_d 1 = w at hw ⊢
  split_ifs <;> first | (exfalso; omega) | ring1

theorem incByz_xindep (s : MF_Solver3D_Lehe R) (f : ElectroMagn R)
    (hEy : ∀ a b c, f.Ey_ a b c = f.Ey_ 0 b c) (hEz : ∀ a b c, f.Ez_ a b c = f.Ez_ 0 b c) :
    ∃ G : Nat → Nat → Nat → R,
      (∀ a b c, s.writtenBy a b c →
        s.incBy f a b c = -s.dt_ov_dz * (G a b c - G a b (usub c 1))) ∧
      (∀ a b c, s.writtenBz a b c →
        s.incBz f a b c = s.dt_ov_dy * (G a b c - G a (usub b 1) c)) := by
  have hsy : ∀ a b c, s.stencilBy f a b c
      = -s.dt_ov_dz * ((s.alpha_y * f.Ex_ a b c
            + s.beta_yx * (f.Ex_ (uadd a 1) b c + f.Ex_ (usub a 1) b c))
          - (s.alpha_y * f.Ex_ a b (usub c 1)
            + s.beta_yx * (f.Ex_ (uadd a 1) b (usub c 1) + f.Ex_ (usub a 1) b (usub c 1)))) := by
    intro a b c
    simp only [MF_Solver3D_Lehe.stencilBy, hEz a, hEz (uadd a 1), hEz (usub a 1),
      hEz (usub a 2)]
    ring
  have hsz : ∀ a b c, s.stencilBz f a b c
      = s.dt_ov_dy * ((s.alpha_y * f.Ex_ a b c
            + s.beta_yx * (f.Ex_ (uadd a 1) b c + f.Ex_ (usub a 1) b c))
          - (s.alpha_y * f.Ex_ a (usub b 1) c
            + s.beta_yx * (f.Ex_ (uadd a 1) (usub b 1) c + f.Ex_ (usub a 1) (usub b 1) c))) := by
    intro a b c
    simp only [MF_Solver3D_Lehe.stencilBz, hEy a, hEy (uadd a 1), hEy (usub a 1),
      hEy (usub a 2)]
    ring
  have hey : ∀ i0 im b c, s.edgeBy f i0 im b c
      = -s.dt_ov_dz * (f.Ex_ i0 b c - f.Ex_ i0 b (usub c 1)) := by
    intro i0 im b c
    simp only [MF_Solver3D_Lehe.edgeBy, hEz i0, hEz im]
    ring
  have hez : ∀ i0 im b c, s.edgeBz f i0 im b c
      = s.dt_ov_dy * (f.Ex_ i0 b c - f.Ex_ i0 (usub b 1) c) := by
    intro i0 im b c
    simp only [MF_Solver3D_Lehe.edgeBz, hEy i0, hEy im]
    ring
  refine ⟨fun a b c =>
    if 2 ≤ a ∧ a < usub s.nx_d 2 then
      s.alpha_y * f.Ex_ a b c + s.beta_yx * (f.Ex_ (uadd a 1) b c + f.Ex_ (usub a 1) b c)
    else ((if a = 1 then 1 else 0) + (if a = usub s.nx_d 2 then 1 else 0)) * f.Ex_ a b c,
    fun a b c hw => ?_, fun a b c hw => ?_⟩
  · simp only [MF_Solver3D_Lehe.writtenBy, MF_Solver3D_Lehe.inInteriorBy,
      MF_Solver3D_Lehe.inBoundaryBy] at hw
    unfold MF_Solver3D_Lehe.incBy
    rw [hsy, hey, hey]
    generalize usub s.nx_d 2 = u at hw ⊢
    beta_reduce
    rcases hw with ⟨hi, hb, hc⟩ | ⟨rfl, hb, hc⟩ | ⟨rfl, hb, hc⟩
    · split_ifs <;> first | (exfalso; omega) | ring1
    · by_cases h2 : 1 = u
      · subst h2
        split_ifs <;> first | (exfalso; omega) | ring1
      · split_ifs <;> first | (exfalso; omega) | ring1
    · by_cases h2 : a = 1
      · subst h2
        split_ifs <;> first | (exfalso; omega) | ring1
      · split_ifs <;> first | (exfalso; omega) | ring1
  · simp only [MF_Solver3D_Lehe.writtenBz, MF_Solver3D_Lehe.inInteriorBz,
      MF_Solver3D_Lehe.inBoundaryBz] at hw
    unfold MF_Solver3D_Lehe.incBz
    rw [hsz, hez, hez]
    generalize usub s.nx_d 2 = u at hw ⊢
    beta_reduce
    rcases hw with ⟨hi, hb, hc⟩ | ⟨rfl, hb, hc⟩ | ⟨rfl, hb, hc⟩
    · split_ifs <;> first | (exfalso; omega) | ring1
    · by_cases h2 : 1 = u
      · subst h2
        split_ifs <;> first | (exfalso; omega) | ring1
      · split_ifs <;> first | (exfalso; omega) | ring1
    · by_cases h2 : a = 1
      · subst h2
        split_ifs <;> first | (exfalso; omega) | ring1
      · split_ifs <;> first | (exfalso; omega) | ring1

theorem divergence_preserved_xindep (s : MF_Solver3D_Lehe R) (f : ElectroMagn R) (dt : R)
    (hsum : s.alpha_y + 2 * s.beta_yx = 1)
    (hty : s.dt_ov_dy = dt / s.dy) (htz : s.dt_ov_dz = dt / s.dz)
    (hEy : ∀ a b c, f.Ey_ a b c = f.Ey_ 0 b c) (hEz : ∀ a b c, f.Ez_ a b c = f.Ez_ 0 b c)
    (i j k : Nat)
    (wx1 : s.writtenBx i j k) (wx0 : s.writtenBx (i - 1) j k)
    (wy1 : s.writtenBy i j k) (wy0 : s.writtenBy i (j - 1) k)
    (wz1 : s.writtenBz i j k) (wz0 : s.writtenBz i j (k - 1)) :
    divB s.dx s.dy s.dz (s.apply f) i j k = divB s.dx s.dy s.dz f i j k := by
  obtain ⟨G, gy, gz⟩ := incByz_xindep s f hEy hEz
  have ek := writtenBy_index s i j k wy1
  have ej := writtenBz_index s i j k wz1
  have ek0 := writtenBy_index s i (j - 1) k wy0
  have ej0 := writtenBz_index s i j (k - 1) wz0
  unfold divB
  rw [apply_Bx, apply_Bx, apply_By, apply_By, apply_Bz, apply_Bz,
    incBx_xindep s f hsum hEy hEz i j k wx1, incBx_xindep s f hsum hEy hEz (i - 1) j k wx0,
    gy i j k wy1, gy i (j - 1) k wy0, gz i j k wz1, gz i j (k - 1) wz0, ek, ej, hty, htz]
  simp only [div_eq_mul_inv]
  ring

theorem incBx_yz_indep (s : MF_Solver3D_Lehe R) (g : ElectroMagn R)
    (hEy : ∀ a b c, g.Ey_ a b c = g.Ey_ a b 0) (hEz : ∀ a b c, g.Ez_ a b c = g.Ez_ a 0 c)
    (a b c : Nat) : s.incBx g a b c = 0 := by
  have hz1 : ∀ a, g.Ez_ a (usub b 1) c = g.Ez_ a 0 c := fun a => hEz a (usub b 1) c
  have hy1 : ∀ a, g.Ey_ a b (usub c 1) = g.Ey_ a b 0 := fun a => hEy a b (usub c 1)
  have e1 : ∀ a, s.stencilBx g a b c = 0 := by
    intro a
    simp only [MF_Solver3D_Lehe.stencilBx, hEz _ b c, hz1, hEy _ b c, hy1]
    ring
  have e2 : ∀ a, s.edgeBx g a b c = 0 := by
    intro a
    simp only [MF_Solver3D_Lehe.edgeBx, hEz _ b c, hz1, hEy _ b c, hy1]
    ring
  simp only [MF_Solver3D_Lehe.incBx, e1, e2, ite_self, add_zero]

theorem incBy_y_indep (s : MF_Solver3D_Lehe R) (g : ElectroMagn R)
    (hEx : ∀ a b c, g.Ex_ a b c = 0) (hEz : ∀ a b c, g.Ez_ a b c = g.Ez_ a 0 c)
    (a b b2 c : Nat) (h1 : s.writtenBy a b c) (h2 : s.writtenBy a b2 c) :
    s.incBy g a b c = s.incBy g a b2 c := by
  have e1 : ∀ b, s.stencilBy g a b c = s.stencilBy g a 0 c := by
    intro b
    have hb : ∀ a c, g.Ez_ a b c = g.Ez_ a 0 c := fun a c => hEz a b c
    simp only [MF_Solver3D_Lehe.stencilBy, hEx, hb, hEz _ (uadd b 1) c,
      hEz _ (usub b 1) c, hEz _ (uadd 0 1) c, hEz _ (usub 0 1) c]
  have e2 : ∀ i0 im b, s.edgeBy g i0 im b c = s.edgeBy g i0 im 0 c := by
    intro i0 im b
    simp only [MF_Solver3D_Lehe.edgeBy, hEx, hEz _ b c]
  simp only [MF_Solver3D_Lehe.writtenBy, MF_Solver3D_Lehe.inInteriorBy,
    MF_Solver3D_Lehe.inBoundaryBy] at h1 h2
  unfold MF_Solver3D_Lehe.incBy
  rw [e1 b, e1 b2, e2 _ _ b, e2 _ _ b2, e2 _ _ b, e2 _ _ b2]
  generalize usub s.nx_d 2 = u at h1 h2 ⊢
  generalize usub s.ny_p 1 = v at h1 h2 ⊢
  generalize usub s.nz_d 1 = w at h1 h2 ⊢
  generalize usub s.nz_d 2 = w2 at h1 h2 ⊢
  generalize s.stencilBy g a 0 c = X0
  generalize s.edgeBy g 1 0 0 c = X1
  generalize s.edgeBy g u (usub s.nx_d 3) 0 c = X2
  generalize s.ny_p = n at h1 h2 ⊢
  clear e1 e2 hEx hEz
  rcases h1 with h1 | h1 | h1 <;> rcases h2 with h2 | h2 | h2 <;>
    first
    | (exfalso; omega)
    | (split_ifs <;> first | rfl | (exfalso; omega))

theorem incBz_z_indep (s : MF_Solver3D_Lehe R) (g : ElectroMagn R)
    (hEx : ∀ a b c, g.Ex_ a b c = 0) (hEy : ∀ a b c, g.Ey_ a b c = g.Ey_ a b 0)
    (a b c c2 : Nat) (h1 : s.writtenBz a b c) (h2 : s.writtenBz a b c2) :
    s.incBz g a b c = s.incBz g a b c2 := by
  have e1 : ∀ c, s.stencilBz g a b c = s.stencilBz g a b 0 := by
    intro c
    have hc : ∀ a b, g.Ey_ a b c = g.Ey_ a b 0 := fun a b => hEy a b c
    simp only [MF_Solver3D_Lehe.stencilBz, hEx, hc, hEy _ _ (uadd c 1),
      hEy _ _ (usub c 1), hEy _ _ (uadd 0 1), hEy _ _ (usub 0 1)]
  have e2 : ∀ i0 im c, s.edgeBz g i0 im b c = s.edgeBz g i0 im b 0 := by
    intro i0 im c
    simp only [MF_Solver3D_Lehe.edgeBz, hEx, hEy _ b c]
  simp only [MF_Solver3D_Lehe.writtenBz, MF_Solver3D_Lehe.inInteriorBz,
    MF_Solver3D_Lehe.inBoundaryBz] at h1 h2
  unfold MF_Solver3D_Lehe.incBz
  rw [e1 c, e1 c2, e2 _ _ c, e2 _ _ c2, e2 _ _ c, e2 _ _ c2]
  generalize usub s.nx_d 2 = u at h1 h2 ⊢
  generalize usub s.ny_d 1 = v at h1 h2 ⊢
  generalize usub s.ny_d 2 = v2 at h1 h2 ⊢
  generalize usub s.nz_p 1 = w at h1 h2 ⊢
  generalize s.stencilBz g a b 0 = X0
  generalize s.edgeBz g 1 0 b 0 = X1
  generalize s.edgeBz g u (usub s.nx_d 3) b 0 = X2
  generalize s.nz_p = n at h1 h2 ⊢
  clear e1 e2 hEx hEy
  rcases h1 with h1 | h1 | h1 <;> rcases h2 with h2 | h2 | h2 <;>
    first
    | (exfalso; omega)
    | (split_ifs <;> first | rfl | (exfalso; omega))

theorem divergence_preserved_split (s : MF_Solver3D_Lehe R)
    (Ex Ey1 Ez1 Ey2 Ez2 X Y Z : Field3D R) (dt : R)
    (hsum : s.alpha_y + 2 * s.beta_yx = 1)
    (hty : s.dt_ov_dy = dt / s.dy) (htz : s.dt_ov_dz = dt / s.dz)
    (h1y : ∀ a b c, Ey1 a b c = Ey1 0 b c) (h1z : ∀ a b c, Ez1 a b c = Ez1 0 b c)
    (h2y : ∀ a b c, Ey2 a b c = Ey2 a b 0) (h2z : ∀ a b c, Ez2 a b c = Ez2 a 0 c)
    (i j k : Nat)
    (wx1 : s.writtenBx i j k) (wx0 : s.writtenBx (i - 1) j k)
    (wy1 : s.writtenBy i j k) (wy0 : s.writtenBy i (j - 1) k)
    (wz1 : s.writtenBz i j k) (wz0 : s.writtenBz i j (k - 1)) :
    divB s.dx s.dy s.dz (s.apply ⟨Ex + 0, Ey1 + Ey2, Ez1 + Ez2, X, Y, Z⟩) i j k
      = divB s.dx s.dy s.dz ⟨Ex + 0, Ey1 + Ey2, Ez1 + Ez2, X, Y, Z⟩ i j k := by
  have key := divergence_preserved_xindep s ⟨Ex, Ey1, Ez1, X, Y, Z⟩ dt hsum hty htz h1y h1z
    i j k wx1 wx0 wy1 wy0 wz1 wz0
  have zx := incBx_yz_indep s ⟨0, Ey2, Ez2, X, Y, Z⟩ h2y h2z
  have zy := incBy_y_indep s ⟨0, Ey2, Ez2, X, Y, Z⟩ (fun _ _ _ => rfl) h2z
  have zz := incBz_z_indep s ⟨0, Ey2, Ez2, X, Y, Z⟩ (fun _ _ _ => rfl) h2y
  have a1 := inc_add s Ex Ey1 Ez1 0 Ey2 Ez2 X Y Z i j k
  have a2 := inc_add s Ex Ey1 Ez1 0 Ey2 Ez2 X Y Z (i - 1) j k
  have a3 := inc_add s Ex Ey1 Ez1 0 Ey2 Ez2 X Y Z i (j - 1) k
  have a4 := inc_add s Ex Ey1 Ez1 0 Ey2 Ez2 X Y Z i j (k - 1)
  unfold divB at key ⊢
  rw [apply_Bx, apply_Bx, apply_By, apply_By, apply_Bz, apply_Bz] at key ⊢
  rw [a1.1, a2.1, a1.2.1, a3.2.1, a1.2.2, a4.2.2, zx, zx, zy i j (j - 1) k wy1 wy0,
    zz i j k (k - 1) wz1 wz0]
  simp only [div_eq_mul_inv] at key ⊢
  linear_combination key

/-- C2 (amended): for every `E` field whose `Ey` does not depend on the index `i` or does
not depend on `k`, and whose `Ez` does not depend on `i` or does not depend on `j` (`Ex` is
arbitrary), and every `B` field, one call of `operator()` with the coefficients set by the
constructor and the time-step ratios `dt_ov_dy = dt/dy`, `dt_ov_dz = dt/dz` leaves the
discrete divergence of `B` unchanged at every cell whose six surrounding `B` values lie in
the written index ranges; in particular a zero divergence stays zero there. -/
theorem C2_divergence_preserved_transverse (sin : R → R) (M_PI : R) (base : Solver3D R)
    (params : Params R) (f : ElectroMagn R) (dt : R)
    (hty : base.dt_ov_dy = dt / params.cell_length 1)
    (htz : base.dt_ov_dz = dt / params.cell_length 2)
    (hEy : (∀ a b c, f.Ey_ a b c = f.Ey_ 0 b c) ∨ (∀ a b c, f.Ey_ a b c = f.Ey_ a b 0))
    (hEz : (∀ a b c, f.Ez_ a b c = f.Ez_ 0 b c) ∨ (∀ a b c, f.Ez_ a b c = f.Ez_ a 0 c))
    (i j k : Nat)
    (wx1 : (MF_Solver3D_Lehe.new sin M_PI base params).writtenBx i j k)
    (wx0 : (MF_Solver3D_Lehe.new sin M_PI base params).writtenBx (i - 1) j k)
    (wy1 : (MF_Solver3D_Lehe.new sin M_PI base params).writtenBy i j k)
    (wy0 : (MF_Solver3D_Lehe.new sin M_PI base params).writtenBy i (j - 1) k)
    (wz1 : (MF_Solver3D_Lehe.new sin M_PI base params).writtenBz i j k)
    (wz0 : (MF_Solver3D_Lehe.new sin M_PI base params).writtenBz i j (k - 1)) :
    divB (params.cell_length 0) (params.cell_length 1) (params.cell_length 2)
        ((MF_Solver3D_Lehe.new sin M_PI base params).apply f) i j k
      = divB (params.cell_length 0) (params.cell_length 1) (params.cell_length 2) f i j k ∧
    (divB (params.cell_length 0) (params.cell_length 1) (params.cell_length 2) f i j k = 0 →
      divB (params.cell_length 0) (params.cell_length 1) (params.cell_length 2)
        ((MF_Solver3D_Lehe.new sin M_PI base params).apply f) i j k = 0) := by
  have hsum : (MF_Solver3D_Lehe.new sin M_PI base params).alpha_y
      + 2 * (MF_Solver3D_Lehe.new sin M_PI base params).beta_yx = 1 := by
    simp only [MF_Solver3D_Lehe.new]
    ring
  have hz0 : ∀ a b c : Nat, (0 : Field3D R) a b c = (0 : Field3D R) 0 b c := fun _ _ _ => rfl
  have hz1 : ∀ a b c : Nat, (0 : Field3D R) a b c = (0 : Field3D R) a b 0 := fun _ _ _ => rfl
  have hz2 : ∀ a b c : Nat, (0 : Field3D R) a b c = (0 : Field3D R) a 0 c := fun _ _ _ => rfl
  have key : divB (params.cell_length 0) (params.cell_length 1) (params.cell_length 2)
        ((MF_Solver3D_Lehe.new sin M_PI base params).apply f) i j k
      = divB (params.cell_length 0) (params.cell_length 1) (params.cell_length 2) f i j k := by
    obtain ⟨Ex, Ey, Ez, X, Y, Z⟩ := f
    simp only at hEy hEz
    rcases hEy with hy | hy <;> rcases hEz with hz | hz
    · have e : (⟨Ex, Ey, Ez, X, Y, Z⟩ : ElectroMagn R)
          = ⟨Ex + 0, Ey + 0, Ez + 0, X, Y, Z⟩ := by simp
      rw [e]
      exact divergence_preserved_split (MF_Solver3D_Lehe.new sin M_PI base params)
        Ex Ey Ez 0 0 X Y Z dt hsum hty htz hy hz hz1 hz2 i j k wx1 wx0 wy1 wy0 wz1 wz0
    · have e : (⟨Ex, Ey, Ez, X, Y, Z⟩ : ElectroMagn R)
          = ⟨Ex + 0, Ey + 0, 0 + Ez, X, Y, Z⟩ := by simp
      rw [e]
      exact divergence_preserved_split (MF_Solver3D_Lehe.new sin M_PI base params)
        Ex Ey 0 0 Ez X Y Z dt hsum hty htz hy hz0 hz1 hz i j k wx1 wx0 wy1 wy0 wz1 wz0
    · have e : (⟨Ex, Ey, Ez, X, Y, Z⟩ : ElectroMagn R)
          = ⟨Ex + 0, 0 + Ey, Ez + 0, X, Y, Z⟩ := by simp
      rw [e]
      exact divergence_preserved_split (MF_Solver3D_Lehe.new sin M_PI base params)
        Ex 0 Ez Ey 0 X Y Z dt hsum hty htz hz0 hz hy hz2 i j k wx1 wx0 wy1 wy0 wz1 wz0
    · have e : (⟨Ex, Ey, Ez, X, Y, Z⟩ : ElectroMagn R)
          = ⟨Ex + 0, 0 + Ey, 0 + Ez, X, Y, Z⟩ := by simp
      rw [e]
      exact divergence_preserved_split (MF_Solver3D_Lehe.new sin M_PI base params)
        Ex 0 0 Ey Ez X Y Z dt hsum hty htz hz0 hz0 hy hz i j k wx1 wx0 wy1 wy0 wz1 wz0
  exact ⟨key, fun h0 => by rw [← h0]; exact key⟩

end DivergenceTransverse

/-- C2 (witness): the solver built by the constructor on the sample grid, `Ex = i*j*k`,
`Ey = j^2*k`, `Ez = j*k^2`, at the cell `(1,3,3)`, whose six `B` values are written by the
interior `Bx` pass and by the boundary passes. -/
theorem C2_divergence_preserved_transverse_witness :
    divB (sampleParams.cell_length 0) (sampleParams.cell_length 1)
        (sampleParams.cell_length 2) (sampleLehe.apply sampleFieldsT) 1 3 3
      = divB (sampleParams.cell_length 0) (sampleParams.cell_length 1)
        (sampleParams.cell_length 2) sampleFieldsT 1 3 3 :=
  (C2_divergence_preserved_transverse (fun _ => 0) 3 sampleBase sampleParams sampleFieldsT
    (1 / 3) (by simp [sampleBase, sampleParams]) (by simp [sampleBase, sampleParams])
    (Or.inl (fun _ _ _ => rfl)) (Or.inl (fun _ _ _ => rfl)) 1 3 3
    (by simp [MF_Solver3D_Lehe.writtenBx, MF_Solver3D_Lehe.inInteriorBx,
      MF_Solver3D_Lehe.new, sampleBase, sample_usub])
    (by simp [MF_Solver3D_Lehe.writtenBx, MF_Solver3D_Lehe.inInteriorBx,
      MF_Solver3D_Lehe.inBoundaryBx, MF_Solver3D_Lehe.new, sampleBase, sample_usub])
    (by simp [MF_Solver3D_Lehe.writtenBy, MF_Solver3D_Lehe.inInteriorBy,
      MF_Solver3D_Lehe.inBoundaryBy, MF_Solver3D_Lehe.new, sampleBase, sample_usub])
    (by simp [MF_Solver3D_Lehe.writtenBy, MF_Solver3D_Lehe.inInteriorBy,
      MF_Solver3D_Lehe.inBoundaryBy, MF_Solver3D_Lehe.new, sampleBase, sample_usub])
    (by simp [MF_Solver3D_Lehe.writtenBz, MF_Solver3D_Lehe.inInteriorBz,
      MF_Solver3D_Lehe.inBoundaryBz, MF_Solver3D_Lehe.new, sampleBase, sample_usub])
    (by simp [MF_Solver3D_Lehe.writtenBz, MF_Solver3D_Lehe.inInteriorBz,
      MF_Solver3D_Lehe.inBoundaryBz, MF_Solver3D_Lehe.new, sampleBase, sample_usub])).1

end Smilei
